import Mathlib

/-!
# EVEL library: event model, builder API and JSON encoder

A shallow embedding of the event builders and JSON encoders of the EVEL
library (evel_event.c, evel_fault.c, evel_scaling_measurement.c,
evel_reporting_measurement.c, evel.h).

Conventions of the embedding.

* A C string pointer is an `Option String` (`none` is NULL).  Memory
  allocation is assumed to succeed, so `strdup` of a string is that string.
* An enum is its underlying unsigned integer (`Nat`), so that the values the
  `default:` branches and the range assertions guard against exist.
* A `double` is a rational number: the code only stores doubles, compares
  them with `0.0` and prints them, and every finite double is a rational.
* A failed `assert` aborts the process: the function returns `none`.
* `int` arithmetic on the sequence counter wraps modulo `2^32`.
* Logging calls (`EVEL_DEBUG`, `EVEL_ERROR`, `EVEL_ENTER`, `EVEL_EXIT`) have no
  effect on events or buffers and are left out.
* The free functions are modelled by the lists they leave in the structure;
  their loops carry fuel, and the lemmas show that the fuel given is enough.
* Calls of evel_init_header made by several threads are modelled by the
  interleavings of the statements that use the counter.
* The event handler (queue, worker thread, lifecycle) has no code among the
  sources, only declarations; its definitions are marked
  `Modelled from the spec:`.
-/

namespace Evel

/-! ## Machine integers -/

/-- A C `double`, see the conventions above. -/
abbrev double := Rat

/-- Two's complement wrap of an integer into the range of a 32-bit `int`. -/
def int32_wrap (x : Int) : Int := (x + 2147483648) % 4294967296 - 2147483648

/-- Conversion of an `int` to the 64-bit `size_t` parameter of `snprintf`. -/
def size_t_of_int (x : Int) : Nat := (x % 18446744073709551616).toNat

/-- Conversion of a `long` to `unsigned long long`. -/
def ull_of_long (x : Int) : Nat := (x % 18446744073709551616).toNat

/-! ## Constants and enums of evel.h -/

def EVEL_API_VERSION : Int := 1

def EVEL_MAX_STRING_LEN : Nat := 4096

def EVEL_MAX_JSON_BODY : Nat := 16000

abbrev EVEL_EVENT_DOMAINS := Nat

def EVEL_DOMAIN_INTERNAL : EVEL_EVENT_DOMAINS := 0
def EVEL_DOMAIN_HEARTBEAT : EVEL_EVENT_DOMAINS := 1
def EVEL_DOMAIN_FAULT : EVEL_EVENT_DOMAINS := 2
def EVEL_DOMAIN_MEASUREMENT : EVEL_EVENT_DOMAINS := 3
def EVEL_DOMAIN_REPORT : EVEL_EVENT_DOMAINS := 4
def EVEL_MAX_DOMAINS : EVEL_EVENT_DOMAINS := 5

abbrev EVEL_EVENT_PRIORITIES := Nat

def EVEL_PRIORITY_HIGH : EVEL_EVENT_PRIORITIES := 0
def EVEL_PRIORITY_MEDIUM : EVEL_EVENT_PRIORITIES := 1
def EVEL_PRIORITY_NORMAL : EVEL_EVENT_PRIORITIES := 2
def EVEL_PRIORITY_LOW : EVEL_EVENT_PRIORITIES := 3
def EVEL_MAX_PRIORITIES : EVEL_EVENT_PRIORITIES := 4

abbrev EVEL_FAULT_SEVERITIES := Nat

def EVEL_SEVERITY_CRITICAL : EVEL_FAULT_SEVERITIES := 0
def EVEL_SEVERITY_MAJOR : EVEL_FAULT_SEVERITIES := 1
def EVEL_SEVERITY_MINOR : EVEL_FAULT_SEVERITIES := 2
def EVEL_SEVERITY_WARNING : EVEL_FAULT_SEVERITIES := 3
def EVEL_SEVERITY_NORMAL : EVEL_FAULT_SEVERITIES := 4
def EVEL_MAX_SEVERITIES : EVEL_FAULT_SEVERITIES := 5

abbrev EVEL_SOURCE_TYPES := Nat

def EVEL_SOURCE_OTHER : EVEL_SOURCE_TYPES := 0
def EVEL_SOURCE_ROUTER : EVEL_SOURCE_TYPES := 1
def EVEL_SOURCE_SWITCH : EVEL_SOURCE_TYPES := 2
def EVEL_SOURCE_HOST : EVEL_SOURCE_TYPES := 3
def EVEL_SOURCE_CARD : EVEL_SOURCE_TYPES := 4
def EVEL_SOURCE_PORT : EVEL_SOURCE_TYPES := 5
def EVEL_SOURCE_SLOT_THRESHOLD : EVEL_SOURCE_TYPES := 6
def EVEL_SOURCE_PORT_THRESHOLD : EVEL_SOURCE_TYPES := 7
def EVEL_SOURCE_VIRTUAL_MACHINE : EVEL_SOURCE_TYPES := 8
def EVEL_MAX_SOURCE_TYPES : EVEL_SOURCE_TYPES := 9

abbrev EVEL_VF_STATUSES := Nat

def EVEL_VF_STATUS_ACTIVE : EVEL_VF_STATUSES := 0
def EVEL_VF_STATUS_IDLE : EVEL_VF_STATUSES := 1
def EVEL_VF_STATUS_PREP_TERMINATE : EVEL_VF_STATUSES := 2
def EVEL_VF_STATUS_READY_TERMINATE : EVEL_VF_STATUSES := 3
def EVEL_VF_STATUS_REQ_TERMINATE : EVEL_VF_STATUSES := 4
def EVEL_MAX_VF_STATUSES : EVEL_VF_STATUSES := 5

/-! ## Doubly linked lists -/

/-- Modelled from the spec: double_list.h and double_list.c are not among the
sources; only the calls to them are.  A list is modelled by the sequence of
its items from the head to the tail, and each operation by what its name and
its use in the callers say. -/
abbrev DLIST (α : Type) := List α

/-- Modelled from the spec: a pointer to a list item (double_list.h is absent)
is the part of the list that starts at this item; NULL is the empty list. -/
abbrev DLIST_ITEM (α : Type) := List α

/-- Modelled from the spec: the absent dlist_initialize leaves an empty list. -/
def dlist_initialize {α : Type} : DLIST α := []

/-- Modelled from the spec: the absent dlist_push_first makes the item the new
head of the list. -/
def dlist_push_first {α : Type} (list : DLIST α) (item : α) : DLIST α := item :: list

/-- Modelled from the spec: the absent dlist_get_first returns the head item
of the list, NULL when the list is empty. -/
def dlist_get_first {α : Type} (list : DLIST α) : DLIST_ITEM α := list

/-- Modelled from the spec: the absent dlist_get_next returns the item after
the given one, NULL after the tail. -/
def dlist_get_next {α : Type} (item : DLIST_ITEM α) : DLIST_ITEM α := item.tail

/-- Modelled from the spec: the absent dlist_pop_last removes the tail item and
returns it together with the remaining list, NULL when the list is empty. -/
def dlist_pop_last {α : Type} (list : DLIST α) : Option α × DLIST α :=
  match list.getLast? with
  | none => (none, list)
  | some x => (some x, list.dropLast)

/-! ## Event structures of evel.h -/

structure EVENT_HEADER where
  event_domain : EVEL_EVENT_DOMAINS
  event_id : Option String
  event_type : Option String
  functional_role : Option String
  last_epoch_microsec : Nat
  priority : EVEL_EVENT_PRIORITIES
  reporting_entity_id : Option String
  reporting_entity_name : Option String
  sequence : Int
  source_id : Option String
  source_name : Option String
  start_epoch_microsec : Nat
deriving DecidableEq

structure FAULT_ADDL_INFO where
  name : Option String
  value : Option String
deriving DecidableEq

structure EVENT_FAULT where
  header : EVENT_HEADER
  additional_info : DLIST FAULT_ADDL_INFO
  alarm_condition : Option String
  alarm_interface_a : Option String
  event_severity : EVEL_FAULT_SEVERITIES
  event_source_type : EVEL_SOURCE_TYPES
  specific_problem : Option String
  vf_status : EVEL_VF_STATUSES
deriving DecidableEq

structure MEASUREMENT_CPU_USE where
  name : Option String
  value : double
deriving DecidableEq

structure MEASUREMENT_FSYS_USE where
  block_configured : double
  block_iops : Int
  block_used : double
  ephemeral_configured : double
  ephemeral_iops : Int
  ephemeral_used : double
  vm_id : Option String
deriving DecidableEq

structure MEASUREMENT_LATENCY_BUCKET where
  low_end : double
  high_end : double
  count : Int
deriving DecidableEq

structure MEASUREMENT_VNIC_USE where
  broadcast_packets_in : Int
  broadcast_packets_out : Int
  bytes_in : Int
  bytes_out : Int
  multicast_packets_in : Int
  multicast_packets_out : Int
  unicast_packets_in : Int
  unicast_packets_out : Int
  vnic_id : Option String
deriving DecidableEq

structure MEASUREMENT_FEATURE_USE where
  feature_id : Option String
  feature_utilization : double
deriving DecidableEq

structure CUSTOM_MEASUREMENT where
  name : Option String
  value : Option String
deriving DecidableEq

structure MEASUREMENT_GROUP where
  name : Option String
  measurements : DLIST CUSTOM_MEASUREMENT
deriving DecidableEq

structure MEASUREMENT_CODEC_USE where
  codec_id : Option String
  codec_utilization : Int
deriving DecidableEq

structure EVENT_MEASUREMENT where
  header : EVENT_HEADER
  concurrent_sessions : Int
  configured_entities : Int
  cpu_usage : DLIST MEASUREMENT_CPU_USE
  filesystem_usage : DLIST MEASUREMENT_FSYS_USE
  latency_distribution : DLIST MEASUREMENT_LATENCY_BUCKET
  mean_request_latency : double
  measurement_interval : double
  memory_configured : double
  memory_used : double
  request_rate : Int
  vnic_usage : DLIST MEASUREMENT_VNIC_USE
  aggregate_cpu_usage : double
  codec_usage : DLIST MEASUREMENT_CODEC_USE
  feature_usage : DLIST MEASUREMENT_FEATURE_USE
  measurement_groups : DLIST MEASUREMENT_GROUP
  measurement_fields_version : Int
  media_ports_in_use : Int
  vnfc_scaling_metric : double
deriving DecidableEq

structure EVENT_REPORT where
  header : EVENT_HEADER
  measurement_interval : double
  feature_usage : DLIST MEASUREMENT_FEATURE_USE
  measurement_groups : DLIST MEASUREMENT_GROUP
  measurement_fields_version : Int
deriving DecidableEq

/-- What an `EVENT_HEADER *` handed to the library points at: a bare header
(a heartbeat) or one of the structures that start with a header. -/
inductive EVENT where
  | header (h : EVENT_HEADER)
  | fault (f : EVENT_FAULT)
  | measurement (m : EVENT_MEASUREMENT)
  | report (r : EVENT_REPORT)
deriving DecidableEq

/-- The header at the start of the structure, read through the `EVENT_HEADER *`. -/
def EVENT.hdr : EVENT → EVENT_HEADER
  | .header h => h
  | .fault f => f.header
  | .measurement m => m.header
  | .report r => r.header

/-! ## Process-wide state and readings from outside the library -/

/-- The globals the event factories read and the one they write: the static
counter `event_sequence` of evel_event.c, the globals `functional_role` and
`event_source_type` of evel_internal.h, and the strings returned by
`openstack_vm_uuid()` and `openstack_vm_name()` (metadata.h is absent; they are
taken as given). -/
structure ENV where
  event_sequence : Int
  functional_role : String
  event_source_type : EVEL_SOURCE_TYPES
  openstack_vm_uuid : String
  openstack_vm_name : String
deriving DecidableEq

/-- The `struct timeval` filled in by `gettimeofday`. -/
structure timeval where
  tv_sec : Int
  tv_usec : Int
deriving DecidableEq

/-! ## Text formatting (the conversions the library uses) -/

/-- Decimal digits of a natural number, most significant first. -/
def dec_digits : Nat → Nat → List Char
  | 0, _ => []
  | fuel + 1, n =>
    if n < 10 then [Nat.digitChar n]
    else dec_digits fuel (n / 10) ++ [Nat.digitChar (n % 10)]

/-- The conversion `%llu` (and `%u`). -/
def fmt_u (n : Nat) : List Char := dec_digits (n + 1) n

/-- The conversion `%d`. -/
def fmt_d (n : Int) : List Char :=
  if n < 0 then '-' :: fmt_u n.natAbs else fmt_u n.natAbs

/-- The conversion `%lf` of a finite value: six digits after the point, the
exact value rounded to nearest, ties to even. -/
def fmt_lf (x : double) : List Char :=
  let n := x.num.natAbs * 1000000
  let q := n / x.den
  let r := n % x.den
  let q := if x.den < 2 * r ∨ (2 * r = x.den ∧ q % 2 = 1) then q + 1 else q
  let frac := fmt_u (q % 1000000)
  (if x < 0 then ['-'] else []) ++ fmt_u (q / 1000000) ++ ['.'] ++
    List.replicate (6 - frac.length) '0' ++ frac

/-- The conversion `%s`; glibc prints a NULL pointer as `(null)`. -/
def fmt_s (s : Option String) : List Char :=
  match s with
  | some x => x.data
  | none => "(null)".data

/-- The variable argument of a formatting call (each call of the library
passes at most one). -/
inductive ARG where
  | none
  | s (v : Option String)
  | d (v : Int)
  | llu (v : Nat)
  | lf (v : double)
deriving DecidableEq

/-- Expansion of a format: ordinary characters are copied, the first
conversion that matches the argument is replaced by the formatted argument. -/
def vformat : List Char → ARG → List Char
  | [], _ => []
  | '%' :: 's' :: rest, .s v => fmt_s v ++ rest
  | '%' :: 'd' :: rest, .d v => fmt_d v ++ rest
  | '%' :: 'l' :: 'l' :: 'u' :: rest, .llu v => fmt_u v ++ rest
  | '%' :: 'l' :: 'f' :: rest, .lf v => fmt_lf v ++ rest
  | c :: rest, a => c :: vformat rest a

/-- One call `snprintf(json + offset, max_size - offset, fmt, arg)` of an
encoder: its format literal and its argument. -/
structure CALL where
  fmt : String
  arg : ARG
deriving DecidableEq

/-- A call whose format has no conversion. -/
def lit (fmt : String) : CALL := ⟨fmt, ARG.none⟩

/-- The text a call formats. -/
def sprintf (c : CALL) : String := ⟨vformat c.fmt.data c.arg⟩

/-! ## Event factories (evel_event.c, evel_fault.c, evel_scaling_measurement.c,
evel_reporting_measurement.c) -/

/-- A header after `memset(.., 0, ..)`. -/
def EVENT_HEADER.zero : EVENT_HEADER :=
  { event_domain := 0, event_id := none, event_type := none, functional_role := none,
    last_epoch_microsec := 0, priority := 0, reporting_entity_id := none,
    reporting_entity_name := none, sequence := 0, source_id := none, source_name := none,
    start_epoch_microsec := 0 }

/-- evel_init_header: takes the clock reading `tv` of its `gettimeofday` call.
This is a call that no other call overlaps: the statement `event_sequence++`
and the two later reads of the global, for `event_id` and for `sequence`, see
the same value.  Calls that overlap in time are `init_header_step`. -/
def evel_init_header (env : ENV) (tv : timeval) (header : EVENT_HEADER) :
    EVENT_HEADER × ENV :=
  let event_sequence := int32_wrap (env.event_sequence + 1)
  let last_epoch_microsec := ull_of_long (tv.tv_usec + 1000000 * tv.tv_sec)
  ({ header with
      event_domain := EVEL_DOMAIN_HEARTBEAT
      event_id := some ⟨fmt_d event_sequence⟩
      functional_role := some env.functional_role
      last_epoch_microsec := last_epoch_microsec
      priority := EVEL_PRIORITY_NORMAL
      reporting_entity_id := some env.openstack_vm_uuid
      reporting_entity_name := some env.openstack_vm_name
      sequence := event_sequence
      source_id := some env.openstack_vm_uuid
      source_name := some env.openstack_vm_name
      start_epoch_microsec := last_epoch_microsec },
   { env with event_sequence := event_sequence })

/-- evel_new_heartbeat. -/
def evel_new_heartbeat (env : ENV) (tv : timeval) : EVENT_HEADER × ENV :=
  let r := evel_init_header env tv EVENT_HEADER.zero
  ({ r.1 with event_type := some "Autonomous heartbeat" }, r.2)

/-- evel_new_fault. -/
def evel_new_fault (env : ENV) (tv : timeval) (condition specific_problem : String)
    (priority : EVEL_EVENT_PRIORITIES) (severity : EVEL_FAULT_SEVERITIES) :
    Option (EVENT_FAULT × ENV) :=
  if ¬ (priority < EVEL_MAX_PRIORITIES) then none
  else if ¬ (severity < EVEL_MAX_SEVERITIES) then none
  else
    let r := evel_init_header env tv EVENT_HEADER.zero
    some ({ header := { r.1 with event_domain := EVEL_DOMAIN_FAULT, priority := priority }
            additional_info := dlist_initialize
            alarm_condition := some condition
            alarm_interface_a := none
            event_severity := severity
            event_source_type := env.event_source_type
            specific_problem := some specific_problem
            vf_status := EVEL_VF_STATUS_ACTIVE }, r.2)

/-- evel_new_measurement. -/
def evel_new_measurement (env : ENV) (tv : timeval) (concurrent_sessions : Int)
    (configured_entities : Int) (mean_request_latency measurement_interval : double)
    (memory_configured memory_used : double) (request_rate : Int) :
    Option (EVENT_MEASUREMENT × ENV) :=
  if ¬ (concurrent_sessions ≥ 0) then none
  else if ¬ (configured_entities ≥ 0) then none
  else if ¬ (mean_request_latency ≥ 0) then none
  else if ¬ (measurement_interval ≥ 0) then none
  else if ¬ (memory_configured ≥ 0) then none
  else if ¬ (memory_used ≥ 0) then none
  else if ¬ (request_rate ≥ 0) then none
  else
    let r := evel_init_header env tv EVENT_HEADER.zero
    some ({ header := { r.1 with event_domain := EVEL_DOMAIN_MEASUREMENT,
                                 priority := EVEL_PRIORITY_NORMAL }
            concurrent_sessions := concurrent_sessions
            configured_entities := configured_entities
            cpu_usage := dlist_initialize
            filesystem_usage := dlist_initialize
            latency_distribution := dlist_initialize
            mean_request_latency := mean_request_latency
            measurement_interval := measurement_interval
            memory_configured := memory_configured
            memory_used := memory_used
            request_rate := request_rate
            vnic_usage := dlist_initialize
            aggregate_cpu_usage := 0
            codec_usage := dlist_initialize
            feature_usage := dlist_initialize
            measurement_groups := dlist_initialize
            measurement_fields_version := EVEL_API_VERSION
            media_ports_in_use := 0
            vnfc_scaling_metric := 0 }, r.2)

/-- evel_new_report (measurement_groups is left as the memset left it). -/
def evel_new_report (env : ENV) (tv : timeval) (measurement_interval : double) :
    Option (EVENT_REPORT × ENV) :=
  if ¬ (measurement_interval ≥ 0) then none
  else
    let r := evel_init_header env tv EVENT_HEADER.zero
    some ({ header := { r.1 with event_domain := EVEL_DOMAIN_REPORT,
                                 priority := EVEL_PRIORITY_NORMAL }
            measurement_interval := measurement_interval
            feature_usage := dlist_initialize
            measurement_groups := []
            measurement_fields_version := EVEL_API_VERSION }, r.2)

/-! ## Fault setters (evel_fault.c) -/

/-- evel_fault_addl_info_add. -/
def evel_fault_addl_info_add (fault : EVENT_FAULT) (name value : String) :
    Option EVENT_FAULT :=
  if ¬ (fault.header.event_domain = EVEL_DOMAIN_FAULT) then none
  else
    let addl_info : FAULT_ADDL_INFO := { name := some name, value := some value }
    some { fault with additional_info := dlist_push_first fault.additional_info addl_info }

/-- evel_fault_interface_set. -/
def evel_fault_interface_set (fault : EVENT_FAULT) (interface : String) :
    Option EVENT_FAULT :=
  if ¬ (fault.header.event_domain = EVEL_DOMAIN_FAULT) then none
  else if fault.alarm_interface_a = none then
    some { fault with alarm_interface_a := some interface }
  else some fault

/-- evel_fault_type_set. -/
def evel_fault_type_set (fault : EVENT_FAULT) (type : String) : Option EVENT_FAULT :=
  if ¬ (fault.header.event_domain = EVEL_DOMAIN_FAULT) then none
  else if fault.header.event_type = none then
    some { fault with header := { fault.header with event_type := some type } }
  else some fault

/-! ## Measurement setters (evel_scaling_measurement.c) -/

/-- evel_measurement_type_set. -/
def evel_measurement_type_set (measurement : EVENT_MEASUREMENT) (type : String) :
    Option EVENT_MEASUREMENT :=
  if ¬ (measurement.header.event_domain = EVEL_DOMAIN_MEASUREMENT) then none
  else if measurement.header.event_type = none then
    some { measurement with header := { measurement.header with event_type := some type } }
  else some measurement

/-- evel_measurement_cpu_use_add. -/
def evel_measurement_cpu_use_add (measurement : EVENT_MEASUREMENT) (name : String)
    (value : double) : Option EVENT_MEASUREMENT :=
  if ¬ (measurement.header.event_domain = EVEL_DOMAIN_MEASUREMENT) then none
  else if ¬ (value ≥ 0) then none
  else
    let cpu_use : MEASUREMENT_CPU_USE := { name := some name, value := value }
    some { measurement with cpu_usage := dlist_push_first measurement.cpu_usage cpu_use }

/-- evel_measurement_fsys_use_add. -/
def evel_measurement_fsys_use_add (measurement : EVENT_MEASUREMENT) (vm_id : String)
    (block_configured block_used : double) (block_iops : Int)
    (ephemeral_configured ephemeral_used : double) (ephemeral_iops : Int) :
    Option EVENT_MEASUREMENT :=
  if ¬ (measurement.header.event_domain = EVEL_DOMAIN_MEASUREMENT) then none
  else if ¬ (block_configured ≥ 0) then none
  else if ¬ (block_used ≥ 0) then none
  else if ¬ (block_iops ≥ 0) then none
  else if ¬ (ephemeral_configured ≥ 0) then none
  else if ¬ (ephemeral_used ≥ 0) then none
  else if ¬ (ephemeral_iops ≥ 0) then none
  else
    let fsys_use : MEASUREMENT_FSYS_USE :=
      { vm_id := some vm_id
        block_configured := block_configured
        block_used := block_used
        block_iops := block_iops
        ephemeral_configured := block_configured
        ephemeral_used := ephemeral_used
        ephemeral_iops := ephemeral_iops }
    some { measurement with
            filesystem_usage := dlist_push_first measurement.filesystem_usage fsys_use }

/-- evel_measurement_latency_add. -/
def evel_measurement_latency_add (measurement : EVENT_MEASUREMENT)
    (low_end high_end : double) (count : Int) : Option EVENT_MEASUREMENT :=
  if ¬ (measurement.header.event_domain = EVEL_DOMAIN_MEASUREMENT) then none
  else if ¬ (low_end ≥ 0) then none
  else if ¬ (high_end ≥ 0) then none
  else if ¬ (count ≥ 0) then none
  else
    let bucket : MEASUREMENT_LATENCY_BUCKET :=
      { low_end := low_end, high_end := high_end, count := count }
    some { measurement with
            latency_distribution := dlist_push_first measurement.latency_distribution bucket }

/-- evel_measurement_vnic_use_add. -/
def evel_measurement_vnic_use_add (measurement : EVENT_MEASUREMENT) (vnic_id : String)
    (broadcast_packets_in broadcast_packets_out bytes_in bytes_out : Int)
    (multicast_packets_in multicast_packets_out unicast_packets_in unicast_packets_out : Int) :
    Option EVENT_MEASUREMENT :=
  if ¬ (measurement.header.event_domain = EVEL_DOMAIN_MEASUREMENT) then none
  else if ¬ (broadcast_packets_in ≥ 0) then none
  else if ¬ (broadcast_packets_out ≥ 0) then none
  else if ¬ (bytes_in ≥ 0) then none
  else if ¬ (bytes_out ≥ 0) then none
  else if ¬ (multicast_packets_in ≥ 0) then none
  else if ¬ (multicast_packets_out ≥ 0) then none
  else if ¬ (unicast_packets_in ≥ 0) then none
  else if ¬ (unicast_packets_out ≥ 0) then none
  else
    let vnic_use : MEASUREMENT_VNIC_USE :=
      { vnic_id := some vnic_id
        broadcast_packets_in := broadcast_packets_in
        broadcast_packets_out := broadcast_packets_out
        bytes_in := bytes_in
        bytes_out := bytes_out
        multicast_packets_in := multicast_packets_in
        multicast_packets_out := multicast_packets_out
        unicast_packets_in := unicast_packets_in
        unicast_packets_out := unicast_packets_out }
    some { measurement with vnic_usage := dlist_push_first measurement.vnic_usage vnic_use }

/-- evel_measurement_feature_use_add. -/
def evel_measurement_feature_use_add (measurement : EVENT_MEASUREMENT) (feature : String)
    (utilization : double) : Option EVENT_MEASUREMENT :=
  if ¬ (measurement.header.event_domain = EVEL_DOMAIN_MEASUREMENT) then none
  else if ¬ (utilization ≥ 0) then none
  else
    let feature_use : MEASUREMENT_FEATURE_USE :=
      { feature_id := some feature, feature_utilization := utilization }
    some { measurement with
            feature_usage := dlist_push_first measurement.feature_usage feature_use }

/-- The search loop and the final push of the two custom_measurement_add
functions: walks the groups from the given item; when a group of that name is
found the custom measurement is pushed onto it, and `none` stands for the loop
ending with `item == NULL` (`rest` is `dlist_get_next` of the item). -/
def custom_measurement_find_push (group : String) (custom_measurement : CUSTOM_MEASUREMENT) :
    DLIST_ITEM MEASUREMENT_GROUP → Option (DLIST MEASUREMENT_GROUP)
  | [] => none
  | measurement_group :: rest =>
    if measurement_group.name = some group then
      some ({ measurement_group with
                measurements := dlist_push_first measurement_group.measurements
                  custom_measurement } :: rest)
    else
      (custom_measurement_find_push group custom_measurement rest).map
        (fun l => measurement_group :: l)

/-- The body shared by evel_measurement_custom_measurement_add and
evel_report_custom_measurement_add, on the list of groups. -/
def custom_measurement_add (measurement_groups : DLIST MEASUREMENT_GROUP)
    (group name value : String) : DLIST MEASUREMENT_GROUP :=
  let custom_measurement : CUSTOM_MEASUREMENT := { name := some name, value := some value }
  match custom_measurement_find_push group custom_measurement
      (dlist_get_first measurement_groups) with
  | some l => l
  | none =>
    let measurement_group : MEASUREMENT_GROUP :=
      { name := some group, measurements := dlist_initialize }
    dlist_push_first measurement_groups
      { measurement_group with
          measurements := dlist_push_first measurement_group.measurements custom_measurement }

/-- evel_measurement_custom_measurement_add. -/
def evel_measurement_custom_measurement_add (measurement : EVENT_MEASUREMENT)
    (group name value : String) : Option EVENT_MEASUREMENT :=
  if ¬ (measurement.header.event_domain = EVEL_DOMAIN_MEASUREMENT) then none
  else
    some { measurement with
            measurement_groups :=
              custom_measurement_add measurement.measurement_groups group name value }

/-- evel_measurement_codec_use_add. -/
def evel_measurement_codec_use_add (measurement : EVENT_MEASUREMENT) (codec : String)
    (utilization : Int) : Option EVENT_MEASUREMENT :=
  if ¬ (measurement.header.event_domain = EVEL_DOMAIN_MEASUREMENT) then none
  else if ¬ (utilization ≥ 0) then none
  else
    let codec_use : MEASUREMENT_CODEC_USE :=
      { codec_id := some codec, codec_utilization := utilization }
    some { measurement with codec_usage := dlist_push_first measurement.codec_usage codec_use }

/-- evel_measurement_agg_cpu_use_set. -/
def evel_measurement_agg_cpu_use_set (measurement : EVENT_MEASUREMENT) (cpu_use : double) :
    Option EVENT_MEASUREMENT :=
  if ¬ (measurement.header.event_domain = EVEL_DOMAIN_MEASUREMENT) then none
  else if ¬ (cpu_use ≥ 0) then none
  else if measurement.aggregate_cpu_usage > 0 then some measurement
  else some { measurement with aggregate_cpu_usage := cpu_use }

/-- evel_measurement_media_port_use_set. -/
def evel_measurement_media_port_use_set (measurement : EVENT_MEASUREMENT)
    (media_ports_in_use : Int) : Option EVENT_MEASUREMENT :=
  if ¬ (measurement.header.event_domain = EVEL_DOMAIN_MEASUREMENT) then none
  else if ¬ (media_ports_in_use ≥ 0) then none
  else if measurement.media_ports_in_use > 0 then some measurement
  else some { measurement with media_ports_in_use := media_ports_in_use }

/-- evel_measurement_vnfc_scaling_metric_set. -/
def evel_measurement_vnfc_scaling_metric_set (measurement : EVENT_MEASUREMENT)
    (scaling_metric : double) : Option EVENT_MEASUREMENT :=
  if ¬ (measurement.header.event_domain = EVEL_DOMAIN_MEASUREMENT) then none
  else if ¬ (scaling_metric ≥ 0) then none
  else if measurement.vnfc_scaling_metric > 0 then some measurement
  else some { measurement with vnfc_scaling_metric := scaling_metric }

/-! ## Report setters (evel_reporting_measurement.c) -/

/-- evel_report_type_set. -/
def evel_report_type_set (report : EVENT_REPORT) (type : String) : Option EVENT_REPORT :=
  if ¬ (report.header.event_domain = EVEL_DOMAIN_REPORT) then none
  else if report.header.event_type = none then
    some { report with header := { report.header with event_type := some type } }
  else some report

/-- evel_report_feature_use_add. -/
def evel_report_feature_use_add (report : EVENT_REPORT) (feature : String)
    (utilization : double) : Option EVENT_REPORT :=
  if ¬ (report.header.event_domain = EVEL_DOMAIN_REPORT) then none
  else if ¬ (utilization ≥ 0) then none
  else
    let feature_use : MEASUREMENT_FEATURE_USE :=
      { feature_id := some feature, feature_utilization := utilization }
    some { report with feature_usage := dlist_push_first report.feature_usage feature_use }

/-- evel_report_custom_measurement_add. -/
def evel_report_custom_measurement_add (report : EVENT_REPORT) (group name value : String) :
    Option EVENT_REPORT :=
  if ¬ (report.header.event_domain = EVEL_DOMAIN_REPORT) then none
  else
    some { report with
            measurement_groups :=
              custom_measurement_add report.measurement_groups group name value }

/-! ## The calls each encoder makes

Every encoder is a straight sequence of statements
`offset += snprintf(json + offset, max_size - offset, fmt, arg)`; which of them
run depends on the event only.  The functions below list them in order, `none`
when a `default:` branch asserts. -/

/-- The statement `if (item != NULL) { offset += snprintf(.., ", "); }` that
ends the body of each loop over a list. -/
def separator_call {α : Type} (item : DLIST_ITEM α) : List CALL :=
  match item with
  | [] => []
  | _ :: _ => [lit ", "]

/-- The loop `while (item != NULL)` of an encoder over a list: the calls of
the body for the item, then the separator when `dlist_get_next` is not NULL. -/
def json_array_items {α : Type} (body : α → List CALL) : DLIST_ITEM α → List CALL
  | [] => []
  | item :: next => body item ++ separator_call next ++ json_array_items body next

/-- The block `item = dlist_get_first(..); if (item != NULL) ..` of an encoder:
the opening call, the loop and the closing call. -/
def json_array {α : Type} (opening : String) (body : α → List CALL) (list : DLIST α) :
    List CALL :=
  match dlist_get_first list with
  | [] => []
  | item :: next => [lit opening] ++ json_array_items body (item :: next) ++ [lit "], "]

/-- The `switch (event->event_domain)` of evel_json_encode_header. -/
def domain_call (event_domain : EVEL_EVENT_DOMAINS) : Option CALL :=
  if event_domain = EVEL_DOMAIN_HEARTBEAT then
    some (lit "\"domain\": \"heartbeat\", ")
  else if event_domain = EVEL_DOMAIN_FAULT then
    some (lit "\"domain\": \"fault\", ")
  else if event_domain = EVEL_DOMAIN_MEASUREMENT then
    some (lit "\"domain\": \"measurementsForVfScaling\", ")
  else if event_domain = EVEL_DOMAIN_REPORT then
    some (lit "\"domain\": \"measurementsForVfReporting\", ")
  else none

/-- The `switch (event->priority)` of evel_json_encode_header. -/
def priority_call (priority : EVEL_EVENT_PRIORITIES) : Option CALL :=
  if priority = EVEL_PRIORITY_HIGH then some (lit "\"priority\": \"High\", ")
  else if priority = EVEL_PRIORITY_MEDIUM then some (lit "\"priority\": \"Medium\", ")
  else if priority = EVEL_PRIORITY_NORMAL then some (lit "\"priority\": \"Normal\", ")
  else if priority = EVEL_PRIORITY_LOW then some (lit "\"priority\": \"Low\", ")
  else none

/-- The calls of evel_json_encode_header. -/
def evel_json_encode_header_calls (event : EVENT_HEADER) : Option (List CALL) :=
  match domain_call event.event_domain, priority_call event.priority with
  | some domain, some priority =>
    some ([lit "\"commonEventHeader\":\x7b",
           domain,
           ⟨"\"eventId\": \"%s\", ", .s event.event_id⟩] ++
          (match event.event_type with
            | some type => [⟨"\"eventType\": \"%s\", ", .s (some type)⟩]
            | none => []) ++
          [⟨"\"functionalRole\": \"%s\", ", .s event.functional_role⟩,
           ⟨"\"lastEpochMicrosec\": %llu, ", .llu event.last_epoch_microsec⟩,
           ⟨"\"reportingEntityId\": \"%s\", ", .s event.reporting_entity_id⟩,
           ⟨"\"reportingEntityName\": \"%s\", ", .s event.reporting_entity_name⟩,
           ⟨"\"sequence\": %d, ", .d event.sequence⟩,
           ⟨"\"sourceId\": \"%s\", ", .s event.source_id⟩,
           ⟨"\"sourceName\": \"%s\", ", .s event.source_name⟩,
           ⟨"\"startEpochMicrosec\": %llu, ", .llu event.start_epoch_microsec⟩,
           priority,
           ⟨"\"version\": %d", .d EVEL_API_VERSION⟩,
           lit "\x7d"])
  | _, _ => none

/-- Body of the additional-information loop of evel_json_encode_fault. -/
def addl_info_calls (addl_info : FAULT_ADDL_INFO) : List CALL :=
  [⟨"\x7b\"name\": \"%s\", ", .s addl_info.name⟩,
   ⟨"\"value\": \"%s\"\x7d", .s addl_info.value⟩]

/-- The `switch (event->event_severity)` of evel_json_encode_fault. -/
def severity_call (event_severity : EVEL_FAULT_SEVERITIES) : Option CALL :=
  if event_severity = EVEL_SEVERITY_CRITICAL then
    some (lit "\"eventSeverity\": \"CRITICAL\", ")
  else if event_severity = EVEL_SEVERITY_MAJOR then
    some (lit "\"eventSeverity\": \"MAJOR\", ")
  else if event_severity = EVEL_SEVERITY_MINOR then
    some (lit "\"eventSeverity\": \"MINOR\", ")
  else if event_severity = EVEL_SEVERITY_WARNING then
    some (lit "\"eventSeverity\": \"WARNING\", ")
  else if event_severity = EVEL_SEVERITY_NORMAL then
    some (lit "\"eventSeverity\": \"NORMAL\", ")
  else none

/-- The `switch (event->event_source_type)` of evel_json_encode_fault. -/
def source_type_call (event_source_type : EVEL_SOURCE_TYPES) : Option CALL :=
  if event_source_type = EVEL_SOURCE_OTHER then
    some (lit "\"eventSourceType\": \"other(0)\", ")
  else if event_source_type = EVEL_SOURCE_ROUTER then
    some (lit "\"eventSourceType\": \"router(1)\", ")
  else if event_source_type = EVEL_SOURCE_SWITCH then
    some (lit "\"eventSourceType\": \"switch(2)\", ")
  else if event_source_type = EVEL_SOURCE_HOST then
    some (lit "\"eventSourceType\": \"host(3)\", ")
  else if event_source_type = EVEL_SOURCE_CARD then
    some (lit "\"eventSourceType\": \"card(4)\", ")
  else if event_source_type = EVEL_SOURCE_PORT then
    some (lit "\"eventSourceType\": \"port(5)\", ")
  else if event_source_type = EVEL_SOURCE_SLOT_THRESHOLD then
    some (lit "\"eventSourceType\": \"slotThreshold(6)\", ")
  else if event_source_type = EVEL_SOURCE_PORT_THRESHOLD then
    some (lit "\"eventSourceType\": \"portThreshold(7)\", ")
  else if event_source_type = EVEL_SOURCE_VIRTUAL_MACHINE then
    some (lit "\"eventSourceType\": \"virtualMachine(8)\", ")
  else none

/-- The `switch (event->vf_status)` of evel_json_encode_fault. -/
def vf_status_call (vf_status : EVEL_VF_STATUSES) : Option CALL :=
  if vf_status = EVEL_VF_STATUS_ACTIVE then
    some (lit "\"vfStatus\": \"Active\"")
  else if vf_status = EVEL_VF_STATUS_IDLE then
    some (lit "\"vfStatus\": \"Idle\"")
  else if vf_status = EVEL_VF_STATUS_PREP_TERMINATE then
    some (lit "\"vfStatus\": \"Preparing to terminate\"")
  else if vf_status = EVEL_VF_STATUS_READY_TERMINATE then
    some (lit "\"vfStatus\": \"Ready to terminate\"")
  else if vf_status = EVEL_VF_STATUS_REQ_TERMINATE then
    some (lit "\"vfStatus\": \"Requesting termination\"")
  else none

/-- The calls of evel_json_encode_fault after the header. -/
def evel_json_encode_fault_calls (event : EVENT_FAULT) : Option (List CALL) :=
  match severity_call event.event_severity, source_type_call event.event_source_type,
      vf_status_call event.vf_status with
  | some severity, some source_type, some vf_status =>
    some ([lit ", \"faultFields\":\x7b"] ++
          json_array "\"alarmAdditionalInformation\": [" addl_info_calls
            event.additional_info ++
          [⟨"\"alarmCondition\": \"%s\", ", .s event.alarm_condition⟩] ++
          (match event.alarm_interface_a with
            | some interface => [⟨"\"alarmInterfaceA\": \"%s\", ", .s (some interface)⟩]
            | none => []) ++
          [severity,
           source_type,
           ⟨"\"faultFieldsVersion\": %d, ", .d EVEL_API_VERSION⟩,
           ⟨"\"specificProblem\": \"%s\", ", .s event.specific_problem⟩,
           vf_status,
           lit "\x7d"])
  | _, _, _ => none

/-- Body of the CPU use loop. -/
def cpu_use_calls (cpu_use : MEASUREMENT_CPU_USE) : List CALL :=
  [⟨"\x7b\"name\": \"%s\", ", .s cpu_use.name⟩,
   ⟨"\"value\": %lf\x7d", .lf cpu_use.value⟩]

/-- Body of the filesystem usage loop. -/
def fsys_use_calls (fsys_use : MEASUREMENT_FSYS_USE) : List CALL :=
  [⟨"\x7b\"blockConfigured\": %lf, ", .lf fsys_use.block_configured⟩,
   ⟨"\"blockIops\": %d, ", .d fsys_use.block_iops⟩,
   ⟨"\"blockUsed\": %lf, ", .lf fsys_use.block_used⟩,
   ⟨"\"ephemeralConfigured\": %lf, ", .lf fsys_use.ephemeral_configured⟩,
   ⟨"\"ephemeralIops\": %d, ", .d fsys_use.ephemeral_iops⟩,
   ⟨"\"ephemeralUsed\": %lf, ", .lf fsys_use.ephemeral_used⟩,
   ⟨"\"vmIdentifier\": \"%s\"\x7d", .s fsys_use.vm_id⟩]

/-- Body of the latency distribution loop. -/
def latency_bucket_calls (bucket : MEASUREMENT_LATENCY_BUCKET) : List CALL :=
  [⟨"\x7b\"lowEndOfLatencyBucket\": %lf, ", .lf bucket.low_end⟩,
   ⟨"\"highEndOfLatencyBucket\": %lf, ", .lf bucket.high_end⟩,
   ⟨"\"countsInTheBucket\": %d\x7d", .d bucket.count⟩]

/-- Body of the vNIC usage loop. -/
def vnic_use_calls (vnic_use : MEASUREMENT_VNIC_USE) : List CALL :=
  [⟨"\x7b\"broadcastPacketsIn\": %d, ", .d vnic_use.broadcast_packets_in⟩,
   ⟨"\"broadcastPacketsOut\": %d, ", .d vnic_use.broadcast_packets_out⟩,
   ⟨"\"bytesIn\": %d, ", .d vnic_use.bytes_in⟩,
   ⟨"\"bytesOut\": %d, ", .d vnic_use.bytes_out⟩,
   ⟨"\"multicastPacketsIn\": %d, ", .d vnic_use.multicast_packets_in⟩,
   ⟨"\"multicastPacketsOut\": %d, ", .d vnic_use.multicast_packets_out⟩,
   ⟨"\"unicastPacketsIn\": %d, ", .d vnic_use.unicast_packets_in⟩,
   ⟨"\"unicastPacketsOut\": %d, ", .d vnic_use.unicast_packets_out⟩,
   ⟨"\"vNicIdentifier\": \"%s\"\x7d", .s vnic_use.vnic_id⟩]

/-- Body of the feature utilization loop (measurement and report). -/
def feature_use_calls (feature_use : MEASUREMENT_FEATURE_USE) : List CALL :=
  [⟨"\x7b\"featureIdentifier\": \"%s\", ", .s feature_use.feature_id⟩,
   ⟨"\"featureUtilization\": %lf\x7d", .lf feature_use.feature_utilization⟩]

/-- Body of the codec utilization loop. -/
def codec_use_calls (codec_use : MEASUREMENT_CODEC_USE) : List CALL :=
  [⟨"\x7b\"codecIdentifier\": \"%s\", ", .s codec_use.codec_id⟩,
   ⟨"\"codecUtilization\": %d\x7d", .d codec_use.codec_utilization⟩]

/-- Body of the nested measurements loop (measurement and report). -/
def custom_measurement_calls (custom_measurement : CUSTOM_MEASUREMENT) : List CALL :=
  [⟨"\x7b\"name\": \"%s\", ", .s custom_measurement.name⟩,
   ⟨"\"value\": \"%s\"\x7d", .s custom_measurement.value⟩]

/-- Body of the additional measurement groups loop (measurement and report):
the nested list is walked without an emptiness test. -/
def measurement_group_calls (measurement_group : MEASUREMENT_GROUP) : List CALL :=
  [⟨"\x7b\"name\": \"%s\", ", .s measurement_group.name⟩,
   lit "\"measurements\": ["] ++
  json_array_items custom_measurement_calls
    (dlist_get_first measurement_group.measurements) ++
  [lit "]\x7d"]

/-- The calls of evel_json_encode_measurement after the header. -/
def evel_json_encode_measurement_calls (event : EVENT_MEASUREMENT) : List CALL :=
  [lit ", \"measurementsForVfScaling\":\x7b",
   ⟨"\"concurrentSessions\": %d, ", .d event.concurrent_sessions⟩,
   ⟨"\"configuredEntities\": %d, ", .d event.configured_entities⟩] ++
  json_array "\"cpuUsageArray\": [" cpu_use_calls event.cpu_usage ++
  json_array "\"filesystemUsageArray\": [" fsys_use_calls event.filesystem_usage ++
  json_array "\"latencyBucketMeasure\": [" latency_bucket_calls event.latency_distribution ++
  [⟨"\"meanRequestLatency\": %lf, ", .lf event.mean_request_latency⟩,
   ⟨"\"measurementInterval\": %lf, ", .lf event.measurement_interval⟩,
   ⟨"\"memoryConfigured\": %lf, ", .lf event.memory_configured⟩,
   ⟨"\"memoryUsed\": %lf, ", .lf event.memory_used⟩,
   ⟨"\"requestRate\": %d, ", .d event.request_rate⟩] ++
  json_array "\"vNicUsageArray\": [" vnic_use_calls event.vnic_usage ++
  (if event.aggregate_cpu_usage > 0 then
    [⟨"\"aggregateCpuUsage\": %lf, ", .lf event.aggregate_cpu_usage⟩] else []) ++
  (if event.media_ports_in_use > 0 then
    [⟨"\"numberOfMediaPortsInUse\": %d, ", .d event.media_ports_in_use⟩] else []) ++
  (if event.vnfc_scaling_metric > 0 then
    [⟨"\"vnfcScalingMetric\": %lf, ", .lf event.vnfc_scaling_metric⟩] else []) ++
  json_array "\"featureUsageArray\": [" feature_use_calls event.feature_usage ++
  json_array "\"codecsInUse\": [" codec_use_calls event.codec_usage ++
  json_array "\"additionalMeasurements\": [" measurement_group_calls
    event.measurement_groups ++
  [⟨"\"measurementFieldsVersion\": %d\x7d", .d EVEL_API_VERSION⟩]

/-- The calls of evel_json_encode_report after the header. -/
def evel_json_encode_report_calls (event : EVENT_REPORT) : List CALL :=
  [lit ", \"measurementsForVfReporting\":\x7b",
   ⟨"\"measurementInterval\": %lf, ", .lf event.measurement_interval⟩] ++
  json_array "\"featureUsageArray\": [" feature_use_calls event.feature_usage ++
  json_array "\"additionalMeasurements\": [" measurement_group_calls
    event.measurement_groups ++
  [⟨"\"measurementFieldsVersion\": %d\x7d", .d EVEL_API_VERSION⟩]

/-! ## The buffer and the encoders -/

/-- One store into memory by `snprintf`: the characters put at `json[addr]`,
`json[addr + 1]`, ..; a terminating NUL follows them. -/
structure STORE where
  addr : Int
  bytes : List Char
deriving DecidableEq

/-- State of an encoder: its variable `offset` and the stores made so far. -/
structure ENC where
  offset : Int
  stores : List STORE
deriving DecidableEq

/-- The glibc function `snprintf(str, size, fmt, arg)`: with `size = 0` nothing
is stored, otherwise at most `size - 1` characters and a NUL; the value
returned is the length of the whole formatted text. -/
def snprintf (str : Int) (size : Nat) (c : CALL) : List STORE × Int :=
  let text := sprintf c
  (if size = 0 then [] else [⟨str, text.data.take (size - 1)⟩], text.length)

/-- The statement `offset += snprintf(json + offset, max_size - offset, fmt, arg)`;
the `int` difference converts to `size_t`. -/
def emit (json : Int) (max_size : Int) (st : ENC) (c : CALL) : ENC :=
  let r := snprintf (json + st.offset) (size_t_of_int (max_size - st.offset)) c
  { offset := st.offset + r.2, stores := st.stores ++ r.1 }

/-- evel_json_encode_header: returns the value returned and the stores made. -/
def evel_json_encode_header (json : Int) (max_size : Int) (event : EVENT_HEADER) :
    Option ENC :=
  if ¬ (max_size > 0) then none
  else
    (evel_json_encode_header_calls event).map
      (fun calls => calls.foldl (emit json max_size) ⟨0, []⟩)

/-- evel_json_encode_fault. -/
def evel_json_encode_fault (json : Int) (max_size : Int) (event : EVENT_FAULT) :
    Option ENC :=
  if ¬ (max_size > 0) then none
  else if ¬ (event.header.event_domain = EVEL_DOMAIN_FAULT) then none
  else
    match evel_json_encode_header (json + 0) (max_size - 0) event.header with
    | none => none
    | some r =>
      (evel_json_encode_fault_calls event).map
        (fun calls => calls.foldl (emit json max_size) ⟨0 + r.offset, r.stores⟩)

/-- evel_json_encode_measurement. -/
def evel_json_encode_measurement (json : Int) (max_size : Int) (event : EVENT_MEASUREMENT) :
    Option ENC :=
  if ¬ (max_size > 0) then none
  else if ¬ (event.header.event_domain = EVEL_DOMAIN_MEASUREMENT) then none
  else
    match evel_json_encode_header (json + 0) (max_size - 0) event.header with
    | none => none
    | some r =>
      some ((evel_json_encode_measurement_calls event).foldl (emit json max_size)
        ⟨0 + r.offset, r.stores⟩)

/-- evel_json_encode_report. -/
def evel_json_encode_report (json : Int) (max_size : Int) (event : EVENT_REPORT) :
    Option ENC :=
  if ¬ (max_size > 0) then none
  else if ¬ (event.header.event_domain = EVEL_DOMAIN_REPORT) then none
  else
    match evel_json_encode_header (json + 0) (max_size - 0) event.header with
    | none => none
    | some r =>
      some ((evel_json_encode_report_calls event).foldl (emit json max_size)
        ⟨0 + r.offset, r.stores⟩)

/-- evel_json_encode_event.  The pointer is cast according to the domain in the
header; a cast to a structure the object is not is undefined and gives `none`. -/
def evel_json_encode_event (json : Int) (max_size : Int) (event : EVENT) : Option ENC :=
  let st := emit json max_size ⟨0, []⟩ (lit "\x7b\"event\":\x7b")
  let inner : Option ENC :=
    if event.hdr.event_domain = EVEL_DOMAIN_HEARTBEAT then
      evel_json_encode_header (json + st.offset) (max_size - st.offset) event.hdr
    else if event.hdr.event_domain = EVEL_DOMAIN_FAULT then
      match event with
      | .fault f => evel_json_encode_fault (json + st.offset) (max_size - st.offset) f
      | _ => none
    else if event.hdr.event_domain = EVEL_DOMAIN_MEASUREMENT then
      match event with
      | .measurement m =>
        evel_json_encode_measurement (json + st.offset) (max_size - st.offset) m
      | _ => none
    else if event.hdr.event_domain = EVEL_DOMAIN_REPORT then
      match event with
      | .report r => evel_json_encode_report (json + st.offset) (max_size - st.offset) r
      | _ => none
    else none
  inner.map (fun r =>
    emit json max_size ⟨st.offset + r.offset, st.stores ++ r.stores⟩ (lit "\x7d\x7d"))

/-! ## Reading the result -/

/-- Number of characters of a store that lie inside `json[0 .. max_size - 1]`. -/
def STORE.inside (max_size : Int) (s : STORE) : Nat :=
  ((List.range s.bytes.length).filter
    (fun (i : Nat) => decide (0 ≤ s.addr + (i : Int) ∧ s.addr + (i : Int) < max_size))).length

/-- Number of bytes of text actually written into the buffer of `max_size` bytes. -/
def bytes_written (max_size : Int) (r : ENC) : Nat :=
  (r.stores.map (STORE.inside max_size)).sum

/-- A store overruns the buffer when its NUL or a character lands outside it. -/
def STORE.overrun (max_size : Int) (s : STORE) : Bool :=
  decide (s.addr < 0 ∨ max_size ≤ s.addr + s.bytes.length)

/-- Effect of one store on the C string held at `json`: the string ends where
the NUL of the store falls; a store beyond the current end leaves it as is. -/
def store_apply (buf : List Char) (s : STORE) : List Char :=
  if 0 ≤ s.addr ∧ s.addr.toNat ≤ buf.length then buf.take s.addr.toNat ++ s.bytes else buf

/-- The C string held at `json` after the stores of a run. -/
def json_string (r : ENC) : List Char :=
  r.stores.foldl store_apply []

/-- The whole text the calls format, with no bound on its length. -/
def calls_text : List CALL → String
  | [] => ""
  | c :: calls => sprintf c ++ calls_text calls

/-- The double quote character. -/
def dquote : Char := Char.ofNat 34

/-- The member keys a format literal carries: the quoted strings that a colon
follows.  The second argument holds the characters read since the opening
quote, `none` outside a quoted string. -/
def scan_keys : List Char → Option (List Char) → List String
  | [], _ => []
  | c :: rest, none =>
    if c = dquote then scan_keys rest (some []) else scan_keys rest none
  | c :: rest, some acc =>
    if c = dquote then
      (match rest with
        | ':' :: _ => [String.mk acc]
        | _ => []) ++ scan_keys rest none
    else scan_keys rest (some (acc ++ [c]))

/-- The member keys a call emits. -/
def CALL.keys (c : CALL) : List String := scan_keys c.fmt.data none

/-- The member keys a sequence of calls emits, in order. -/
def emitted_keys (calls : List CALL) : List String := calls.flatMap CALL.keys

/-! ## The calls of a whole encoder run -/

/-- All the calls of evel_json_encode_fault, those of the header first. -/
def fault_calls (event : EVENT_FAULT) : Option (List CALL) :=
  match evel_json_encode_header_calls event.header, evel_json_encode_fault_calls event with
  | some h, some f => some (h ++ f)
  | _, _ => none

/-- All the calls of evel_json_encode_measurement, those of the header first. -/
def measurement_calls (event : EVENT_MEASUREMENT) : Option (List CALL) :=
  (evel_json_encode_header_calls event.header).map
    (fun h => h ++ evel_json_encode_measurement_calls event)

/-- All the calls of evel_json_encode_report, those of the header first. -/
def report_calls (event : EVENT_REPORT) : Option (List CALL) :=
  (evel_json_encode_header_calls event.header).map
    (fun h => h ++ evel_json_encode_report_calls event)

/-- The calls evel_json_encode_event hands over to, by the domain in the header. -/
def domain_calls (event : EVENT) : Option (List CALL) :=
  if event.hdr.event_domain = EVEL_DOMAIN_HEARTBEAT then
    evel_json_encode_header_calls event.hdr
  else if event.hdr.event_domain = EVEL_DOMAIN_FAULT then
    match event with
    | .fault f => fault_calls f
    | _ => none
  else if event.hdr.event_domain = EVEL_DOMAIN_MEASUREMENT then
    match event with
    | .measurement m => measurement_calls m
    | _ => none
  else if event.hdr.event_domain = EVEL_DOMAIN_REPORT then
    match event with
    | .report r => report_calls r
    | _ => none
  else none

/-- All the calls of evel_json_encode_event. -/
def event_calls (event : EVENT) : Option (List CALL) :=
  (domain_calls event).map
    (fun calls => [lit "\x7b\"event\":\x7b"] ++ calls ++ [lit "\x7d\x7d"])

/-- The stores a sequence of calls makes when the first call runs with the
given value of `offset`. -/
def run_stores (json : Int) (max_size : Int) : Int → List CALL → List STORE
  | _, [] => []
  | offset, c :: calls =>
    (snprintf (json + offset) (size_t_of_int (max_size - offset)) c).1 ++
      run_stores json max_size (offset + (sprintf c).length) calls

/-- The result of running a sequence of calls from `offset = 0`. -/
def run (json : Int) (max_size : Int) (calls : List CALL) : ENC :=
  ⟨(calls_text calls).length, run_stores json max_size 0 calls⟩

/-- Largest value of an `int`. -/
def INT_MAX : Int := 2147483647

/-! ## Events the encoders accept -/

/-- The header carries an externally routed domain and a priority of the enum:
the two `switch` statements of evel_json_encode_header find a case. -/
def EVENT_HEADER.valid (h : EVENT_HEADER) : Prop :=
  EVEL_DOMAIN_INTERNAL < h.event_domain ∧ h.event_domain < EVEL_MAX_DOMAINS ∧
    h.priority < EVEL_MAX_PRIORITIES

instance (h : EVENT_HEADER) : Decidable h.valid := by
  unfold EVENT_HEADER.valid
  infer_instance

/-- A fault whose domain is fault and whose enum fields hold enumerators. -/
def EVENT_FAULT.valid (f : EVENT_FAULT) : Prop :=
  f.header.event_domain = EVEL_DOMAIN_FAULT ∧ f.header.priority < EVEL_MAX_PRIORITIES ∧
    f.event_severity < EVEL_MAX_SEVERITIES ∧ f.event_source_type < EVEL_MAX_SOURCE_TYPES ∧
    f.vf_status < EVEL_MAX_VF_STATUSES

instance (f : EVENT_FAULT) : Decidable f.valid := by
  unfold EVENT_FAULT.valid
  infer_instance

/-- A measurement whose domain is measurement and whose priority is of the enum. -/
def EVENT_MEASUREMENT.valid (m : EVENT_MEASUREMENT) : Prop :=
  m.header.event_domain = EVEL_DOMAIN_MEASUREMENT ∧ m.header.priority < EVEL_MAX_PRIORITIES

instance (m : EVENT_MEASUREMENT) : Decidable m.valid := by
  unfold EVENT_MEASUREMENT.valid
  infer_instance

/-- A report whose domain is report and whose priority is of the enum. -/
def EVENT_REPORT.valid (r : EVENT_REPORT) : Prop :=
  r.header.event_domain = EVEL_DOMAIN_REPORT ∧ r.header.priority < EVEL_MAX_PRIORITIES

instance (r : EVENT_REPORT) : Decidable r.valid := by
  unfold EVENT_REPORT.valid
  infer_instance

/-! ## The events of the demo program (evel_demo.c) -/

/-- The globals after `evel_initialize(.., EVEL_SOURCE_VIRTUAL_MACHINE,
"EVEL demo client", ..)`, before the first event, with sample metadata. -/
def demo_env : ENV :=
  { event_sequence := 0
    functional_role := "EVEL demo client"
    event_source_type := EVEL_SOURCE_VIRTUAL_MACHINE
    openstack_vm_uuid := "Dummy VM UUID"
    openstack_vm_name := "Dummy VM name" }

/-- A sample clock reading. -/
def demo_tv : timeval := { tv_sec := 1500000000, tv_usec := 123456 }

/-- The heartbeat of the demo program. -/
def demo_heartbeat : EVENT_HEADER := (evel_new_heartbeat demo_env demo_tv).1

/-- The fault of the demo program as evel_new_fault returns it. -/
def demo_fault_new : EVENT_FAULT :=
  ((evel_new_fault demo_env demo_tv "My alarm condition" "It broke very badly"
    EVEL_PRIORITY_NORMAL EVEL_SEVERITY_MAJOR).get (by decide)).1

/-- The fault of the demo program when it is posted. -/
def demo_fault : EVENT_FAULT :=
  ((evel_fault_type_set demo_fault_new "Bad things happen...").bind fun f =>
    (evel_fault_interface_set f "My Interface Card").bind fun f =>
    (evel_fault_addl_info_add f "name1" "value1").bind fun f =>
    evel_fault_addl_info_add f "name2" "value2").get (by decide)

/-- The measurement of the demo program as evel_new_measurement returns it. -/
def demo_measurement_new : EVENT_MEASUREMENT :=
  ((evel_new_measurement demo_env demo_tv 1 2 3.3 4.4 5.5 6.6 7).get (by decide!)).1

/-- The report of the demo program as evel_new_report returns it. -/
def demo_report_new : EVENT_REPORT :=
  ((evel_new_report demo_env demo_tv 1.1).get (by decide!)).1

/-! ## Sequences of builder calls and the texts the claims speak of -/

/-- The calls `evel_fault_addl_info_add(fault, name_i, value_i)` one after
another, in the order of the list. -/
def evel_fault_addl_info_add_all (fault : EVENT_FAULT) :
    List (String × String) → Option EVENT_FAULT
  | [] => some fault
  | p :: ps =>
    (evel_fault_addl_info_add fault p.1 p.2).bind fun f => evel_fault_addl_info_add_all f ps

/-- The text of one object with a name and a value. -/
def addl_info_text (p : String × String) : String :=
  "\x7b\"name\": \"" ++ p.1 ++ "\", \"value\": \"" ++ p.2 ++ "\"\x7d"

/-- The texts joined by a comma and a blank. -/
def join_comma : List String → String
  | [] => ""
  | [a] => a
  | a :: b :: rest => a ++ ", " ++ join_comma (b :: rest)

/-- The text of an alarmAdditionalInformation member whose array holds one
object for each pair, in the order of the list. -/
def alarm_additional_information_text (pairs : List (String × String)) : String :=
  "\"alarmAdditionalInformation\": [" ++ join_comma (pairs.map addl_info_text) ++ "], "

/-- The thirteen header keys the specification lists as required. -/
def required_header_keys : List String :=
  ["domain", "eventId", "eventType", "functionalRole", "lastEpochMicrosec", "priority",
   "reportingEntityId", "reportingEntityName", "sequence", "sourceId", "sourceName",
   "startEpochMicrosec", "version"]

/-- The keys of the three domain blocks. -/
def domain_block_keys : List String :=
  ["faultFields", "measurementsForVfScaling", "measurementsForVfReporting"]

/-- The closing brace character. -/
def rbrace : Char := Char.ofNat 125

/-- A call of one of the setters of a fault, with its arguments. -/
inductive FAULT_OP where
  | type_set (type : String)
  | interface_set (interface : String)
  | addl_info_add (name value : String)
deriving DecidableEq

/-- The setter call on a fault. -/
def FAULT_OP.apply (fault : EVENT_FAULT) : FAULT_OP → Option EVENT_FAULT
  | .type_set type => evel_fault_type_set fault type
  | .interface_set interface => evel_fault_interface_set fault interface
  | .addl_info_add name value => evel_fault_addl_info_add fault name value

/-- Setter calls on a fault one after another, in the order of the list. -/
def fault_apply_all (fault : EVENT_FAULT) : List FAULT_OP → Option EVENT_FAULT
  | [] => some fault
  | op :: ops => (op.apply fault).bind fun f => fault_apply_all f ops

/-- The string a call of evel_fault_interface_set passes. -/
def FAULT_OP.interface_arg : FAULT_OP → Option String
  | .interface_set interface => some interface
  | _ => none

/-- The string a call of evel_fault_type_set passes. -/
def FAULT_OP.type_arg : FAULT_OP → Option String
  | .type_set type => some type
  | _ => none

/-- A call of one of the three numeric setters of a measurement. -/
inductive MEASUREMENT_OP where
  | agg_cpu_use_set (cpu_use : double)
  | media_port_use_set (media_ports_in_use : Int)
  | vnfc_scaling_metric_set (scaling_metric : double)
deriving DecidableEq

/-- The setter call on a measurement. -/
def MEASUREMENT_OP.apply (measurement : EVENT_MEASUREMENT) :
    MEASUREMENT_OP → Option EVENT_MEASUREMENT
  | .agg_cpu_use_set cpu_use => evel_measurement_agg_cpu_use_set measurement cpu_use
  | .media_port_use_set n => evel_measurement_media_port_use_set measurement n
  | .vnfc_scaling_metric_set x => evel_measurement_vnfc_scaling_metric_set measurement x

/-- Setter calls on a measurement one after another, in the order of the list. -/
def measurement_apply_all (measurement : EVENT_MEASUREMENT) :
    List MEASUREMENT_OP → Option EVENT_MEASUREMENT
  | [] => some measurement
  | op :: ops => (op.apply measurement).bind fun m => measurement_apply_all m ops

/-! ## The setter calls of the demo program -/

/-- The three numeric setter calls of the demo program. -/
def demo_measurement_ops : List MEASUREMENT_OP :=
  [.agg_cpu_use_set 8.8, .media_port_use_set 1234, .vnfc_scaling_metric_set 1234.5678]

/-- The measurement of the demo program after its three numeric setter calls. -/
def demo_measurement_set : EVENT_MEASUREMENT :=
  (measurement_apply_all demo_measurement_new demo_measurement_ops).get (by decide!)

/-- The setter calls of the demo program on its fault. -/
def demo_fault_ops : List FAULT_OP :=
  [.type_set "Bad things happen...", .interface_set "My Interface Card",
   .addl_info_add "name1" "value1", .addl_info_add "name2" "value2"]

/-! ## The sizes passed to snprintf -/

/-- The values of `max_size - offset` that a sequence of calls passes to
snprintf as its size, call by call, when the first call runs with the given
value of `offset`. -/
def run_sizes (max_size : Int) : Int → List CALL → List Int
  | _, [] => []
  | offset, c :: calls =>
    (max_size - offset) :: run_sizes max_size (offset + (sprintf c).length) calls

/-! ## Event factories called one after another -/

/-- A call of one of the four event factories: the clock reading its
`gettimeofday` returns and its arguments. -/
inductive NEW_EVENT where
  | heartbeat (tv : timeval)
  | fault (tv : timeval) (condition specific_problem : String)
      (priority : EVEL_EVENT_PRIORITIES) (severity : EVEL_FAULT_SEVERITIES)
  | measurement (tv : timeval) (concurrent_sessions configured_entities : Int)
      (mean_request_latency measurement_interval memory_configured memory_used : double)
      (request_rate : Int)
  | report (tv : timeval) (measurement_interval : double)
deriving DecidableEq

/-- Makes the call: the event created and the globals after it, `none` when an
assertion of the factory fails. -/
def NEW_EVENT.create (env : ENV) : NEW_EVENT → Option (EVENT × ENV)
  | .heartbeat tv =>
    let r := evel_new_heartbeat env tv
    some (.header r.1, r.2)
  | .fault tv condition specific_problem priority severity =>
    (evel_new_fault env tv condition specific_problem priority severity).map
      fun r => (.fault r.1, r.2)
  | .measurement tv concurrent_sessions configured_entities mean_request_latency
      measurement_interval memory_configured memory_used request_rate =>
    (evel_new_measurement env tv concurrent_sessions configured_entities mean_request_latency
      measurement_interval memory_configured memory_used request_rate).map
      fun r => (.measurement r.1, r.2)
  | .report tv measurement_interval =>
    (evel_new_report env tv measurement_interval).map fun r => (.report r.1, r.2)

/-- Factory calls made one after another, each starting from the globals the
previous one left: the events in creation order and the globals after the last. -/
def create_all (env : ENV) : List NEW_EVENT → Option (List EVENT × ENV)
  | [] => some ([], env)
  | c :: calls =>
    match c.create env with
    | none => none
    | some (e, env') => (create_all env' calls).map fun r => (e :: r.1, r.2)

/-- The header sequence numbers of a list of events. -/
def sequences (events : List EVENT) : List Int := events.map fun e => e.hdr.sequence

/-- The four factory calls of the demo program's main loop. -/
def demo_new_events : List NEW_EVENT :=
  [.heartbeat demo_tv,
   .fault demo_tv "My alarm condition" "It broke very badly" EVEL_PRIORITY_NORMAL
     EVEL_SEVERITY_MAJOR,
   .measurement demo_tv 1 2 3.3 4.4 5.5 6.6 7,
   .report demo_tv 1.1]

/-! ## Freeing events (evel_scaling_measurement.c, evel_reporting_measurement.c)

The functions are modelled by the structure they leave: the lists after the
loops.  The calls of `free` on the items popped and on the strings (also those
of evel_free_header) change no list and are not modelled. -/

/-- The loop `item = dlist_pop_last(&list); while (item != NULL) .. item =
dlist_pop_last(&list);` of the free functions: the list as the loop leaves it.
The fuel bounds the number of calls of dlist_pop_last, `none` when it runs out. -/
def free_items {α : Type} : Nat → DLIST α → Option (DLIST α)
  | 0, _ => none
  | fuel + 1, list =>
    match dlist_pop_last list with
    | (none, list') => some list'
    | (some _, list') => free_items fuel list'

/-- The loop of evel_free_report over the measurement groups: the inner loop
empties the list of custom measurements of each group popped, then the group is
freed. -/
def free_groups : Nat → DLIST MEASUREMENT_GROUP → Option (DLIST MEASUREMENT_GROUP)
  | 0, _ => none
  | fuel + 1, list =>
    match dlist_pop_last list with
    | (none, list') => some list'
    | (some measurement_group, list') =>
      match free_items (measurement_group.measurements.length + 1)
          measurement_group.measurements with
      | none => none
      | some _ => free_groups fuel list'

/-- evel_free_measurement: the measurement as the call leaves it. -/
def evel_free_measurement (event : EVENT_MEASUREMENT) : Option EVENT_MEASUREMENT :=
  if ¬ (event.header.event_domain = EVEL_DOMAIN_MEASUREMENT) then none
  else
    (free_items (event.cpu_usage.length + 1) event.cpu_usage).bind fun cpu_usage =>
    (free_items (event.filesystem_usage.length + 1) event.filesystem_usage).bind
      fun filesystem_usage =>
    (free_items (event.latency_distribution.length + 1) event.latency_distribution).bind
      fun latency_distribution =>
    (free_items (event.vnic_usage.length + 1) event.vnic_usage).bind fun vnic_usage =>
    (free_items (event.codec_usage.length + 1) event.codec_usage).bind fun codec_usage =>
    (free_items (event.feature_usage.length + 1) event.feature_usage).bind fun feature_usage =>
    some { event with
            cpu_usage := cpu_usage
            filesystem_usage := filesystem_usage
            latency_distribution := latency_distribution
            vnic_usage := vnic_usage
            codec_usage := codec_usage
            feature_usage := feature_usage }

/-- evel_free_report: the report as the call leaves it. -/
def evel_free_report (event : EVENT_REPORT) : Option EVENT_REPORT :=
  if ¬ (event.header.event_domain = EVEL_DOMAIN_REPORT) then none
  else
    (free_items (event.feature_usage.length + 1) event.feature_usage).bind fun feature_usage =>
    (free_groups (event.measurement_groups.length + 1) event.measurement_groups).bind
      fun measurement_groups =>
    some { event with
            feature_usage := feature_usage
            measurement_groups := measurement_groups }

/-- The measurement of the demo program when it is posted. -/
def demo_measurement : EVENT_MEASUREMENT :=
  ((evel_measurement_type_set demo_measurement_new "Perf management...").bind fun m =>
    (evel_measurement_agg_cpu_use_set m 8.8).bind fun m =>
    (evel_measurement_cpu_use_add m "cpu1" 11.11).bind fun m =>
    (evel_measurement_cpu_use_add m "cpu2" 22.22).bind fun m =>
    (evel_measurement_fsys_use_add m "00-11-22" 100.11 100.22 33 200.11 200.22 44).bind fun m =>
    (evel_measurement_fsys_use_add m "33-44-55" 300.11 300.22 55 400.11 400.22 66).bind fun m =>
    (evel_measurement_latency_add m 0.0 10.0 20).bind fun m =>
    (evel_measurement_latency_add m 10.0 20.0 30).bind fun m =>
    (evel_measurement_vnic_use_add m "eth0" 1 2 3 4 5 6 7 8).bind fun m =>
    (evel_measurement_vnic_use_add m "eth1" 11 12 13 14 15 16 17 18).bind fun m =>
    (evel_measurement_feature_use_add m "FeatureA" 123.4).bind fun m =>
    (evel_measurement_feature_use_add m "FeatureB" 567.8).bind fun m =>
    (evel_measurement_codec_use_add m "G711a" 91).bind fun m =>
    (evel_measurement_codec_use_add m "G729ab" 92).bind fun m =>
    (evel_measurement_media_port_use_set m 1234).bind fun m =>
    (evel_measurement_vnfc_scaling_metric_set m 1234.5678).bind fun m =>
    (evel_measurement_custom_measurement_add m "Group1" "Name1" "Value1").bind fun m =>
    (evel_measurement_custom_measurement_add m "Group2" "Name1" "Value1").bind fun m =>
    evel_measurement_custom_measurement_add m "Group2" "Name2" "Value2").get (by decide!)

/-- The report of the demo program when it is posted. -/
def demo_report : EVENT_REPORT :=
  ((evel_report_type_set demo_report_new "Perf reporting...").bind fun r =>
    (evel_report_feature_use_add r "FeatureA" 123.4).bind fun r =>
    (evel_report_feature_use_add r "FeatureB" 567.8).bind fun r =>
    (evel_report_custom_measurement_add r "Group1" "Name1" "Value1").bind fun r =>
    (evel_report_custom_measurement_add r "Group2" "Name1" "Value1").bind fun r =>
    evel_report_custom_measurement_add r "Group2" "Name2" "Value2").get (by decide!)

/-! ## Reading JSON text (RFC 8259)

A reader for the JSON grammar, used to say what a JSON consumer makes of the
text an encoder produces. -/

/-- A JSON value as read: strings decoded, numbers kept as their text. -/
inductive JSON where
  | null
  | bool (b : Bool)
  | number (text : List Char)
  | string (s : List Char)
  | array (items : List JSON)
  | object (members : List (List Char × JSON))

/-- The backslash character. -/
def backslash : Char := Char.ofNat 92

/-- Skips JSON whitespace (space, tab, line feed, carriage return). -/
def json_ws : List Char → List Char
  | [] => []
  | c :: rest =>
    if c = ' ' ∨ c = Char.ofNat 9 ∨ c = Char.ofNat 10 ∨ c = Char.ofNat 13 then json_ws rest
    else c :: rest

/-- Value of a hexadecimal digit. -/
def hex_digit (c : Char) : Option Nat :=
  if '0' ≤ c ∧ c ≤ '9' then some (c.toNat - '0'.toNat)
  else if 'a' ≤ c ∧ c ≤ 'f' then some (c.toNat - 'a'.toNat + 10)
  else if 'A' ≤ c ∧ c ≤ 'F' then some (c.toNat - 'A'.toNat + 10)
  else none

/-- The character a one-letter escape stands for. -/
def json_escape (c : Char) : Option Char :=
  if c = dquote then some dquote
  else if c = backslash then some backslash
  else if c = '/' then some '/'
  else if c = 'b' then some (Char.ofNat 8)
  else if c = 'f' then some (Char.ofNat 12)
  else if c = 'n' then some (Char.ofNat 10)
  else if c = 'r' then some (Char.ofNat 13)
  else if c = 't' then some (Char.ofNat 9)
  else none

/-- Reads a JSON string from just after its opening quote: the characters it
decodes to (appended to those read so far) and the text after its closing
quote.  A control character or a bad escape makes the text ill-formed. -/
def json_string_body : List Char → List Char → Option (List Char × List Char)
  | [], _ => none
  | [c], acc => if c = dquote then some (acc, []) else none
  | c :: d :: rest, acc =>
    if c = dquote then some (acc, d :: rest)
    else if c = backslash then
      if d = 'u' then
        match rest with
        | h1 :: h2 :: h3 :: h4 :: rest' =>
          match hex_digit h1, hex_digit h2, hex_digit h3, hex_digit h4 with
          | some a, some b, some c, some d =>
            json_string_body rest' (acc ++ [Char.ofNat (((a * 16 + b) * 16 + c) * 16 + d)])
          | _, _, _, _ => none
        | _ => none
      else
        match json_escape d with
        | some e => json_string_body rest (acc ++ [e])
        | none => none
    else if c.toNat < 32 then none
    else json_string_body (d :: rest) (acc ++ [c])

/-- Takes the digits at the start of the text. -/
def json_digits : List Char → List Char × List Char
  | [] => ([], [])
  | c :: rest =>
    if '0' ≤ c ∧ c ≤ '9' then
      let r := json_digits rest
      (c :: r.1, r.2)
    else ([], c :: rest)

/-- Reads a JSON number: an optional minus sign, an integer part without a
leading zero, an optional fraction and an optional exponent. -/
def json_number (input : List Char) : Option (List Char × List Char) :=
  let (sign, r0) := match input with
    | '-' :: rest => (['-'], rest)
    | _ => ([], input)
  let (int, r1) := json_digits r0
  if int = [] ∨ (int.head? = some '0' ∧ int.length ≠ 1) then none
  else
    let frac : Option (List Char × List Char) := match r1 with
      | '.' :: rest =>
        let (ds, r) := json_digits rest
        if ds = [] then none else some ('.' :: ds, r)
      | _ => some ([], r1)
    match frac with
    | none => none
    | some (fr, r2) =>
      match r2 with
      | e :: rest =>
        if e = 'e' ∨ e = 'E' then
          let (es, r3) := match rest with
            | '+' :: rest' => (['+'], rest')
            | '-' :: rest' => (['-'], rest')
            | _ => ([], rest)
          let (ds, r4) := json_digits r3
          if ds = [] then none else some (sign ++ int ++ fr ++ e :: es ++ ds, r4)
        else some (sign ++ int ++ fr, r2)
      | [] => some (sign ++ int ++ fr, r2)

/-- Drops the given word from the start of the text. -/
def json_word (word : List Char) (input : List Char) : Option (List Char) :=
  if word.isPrefixOf input then some (input.drop word.length) else none

mutual

/-- Reads one JSON value and returns it with the text after it.  The fuel
bounds the depth of the recursion; every call consumes a character, so the
length of the text plus one is enough. -/
def json_value : Nat → List Char → Option (JSON × List Char)
  | 0, _ => none
  | fuel + 1, input =>
    match json_ws input with
    | [] => none
    | c :: rest =>
      if c = Char.ofNat 123 then
        match json_ws rest with
        | [] => none
        | d :: rest' =>
          if d = Char.ofNat 125 then some (.object [], rest')
          else json_members fuel (d :: rest') []
      else if c = '[' then
        match json_ws rest with
        | [] => none
        | d :: rest' =>
          if d = ']' then some (.array [], rest')
          else json_items fuel (d :: rest') []
      else if c = dquote then
        (json_string_body rest []).map fun r => (.string r.1, r.2)
      else if c = 't' then (json_word "rue".data rest).map fun r => (.bool true, r)
      else if c = 'f' then (json_word "alse".data rest).map fun r => (.bool false, r)
      else if c = 'n' then (json_word "ull".data rest).map fun r => (.null, r)
      else (json_number (c :: rest)).map fun r => (.number r.1, r.2)

/-- Reads the members of an object up to its closing brace, after those read
so far. -/
def json_members : Nat → List Char → List (List Char × JSON) → Option (JSON × List Char)
  | 0, _, _ => none
  | fuel + 1, input, acc =>
    match json_ws input with
    | [] => none
    | c :: rest =>
      if c = dquote then
        match json_string_body rest [] with
        | none => none
        | some (key, r1) =>
          match json_ws r1 with
          | [] => none
          | d :: r2 =>
            if d = ':' then
              match json_value fuel r2 with
              | none => none
              | some (v, r3) =>
                match json_ws r3 with
                | [] => none
                | e :: r4 =>
                  if e = ',' then json_members fuel r4 (acc ++ [(key, v)])
                  else if e = Char.ofNat 125 then some (.object (acc ++ [(key, v)]), r4)
                  else none
            else none
      else none

/-- Reads the items of an array up to its closing bracket, after those read so
far. -/
def json_items : Nat → List Char → List JSON → Option (JSON × List Char)
  | 0, _, _ => none
  | fuel + 1, input, acc =>
    match json_value fuel input with
    | none => none
    | some (v, r1) =>
      match json_ws r1 with
      | [] => none
      | e :: r2 =>
        if e = ',' then json_items fuel r2 (acc ++ [v])
        else if e = ']' then some (.array (acc ++ [v]), r2)
        else none

end

/-- Reads a whole text as one JSON value; `none` when the text is not
well-formed JSON. -/
def json_read (text : String) : Option JSON :=
  match json_value (text.length + 1) text.data with
  | none => none
  | some (v, rest) => if json_ws rest = [] then some v else none

/-- The member of an object with the given key (the first one). -/
def JSON.member (key : String) : JSON → Option JSON
  | .object members => members.lookup key.data
  | _ => none

/-- The string a JSON string value decodes to. -/
def JSON.string? : JSON → Option String
  | .string s => some ⟨s⟩
  | _ => none

/-- The string member found by following the keys of a path of nested
objects. -/
def JSON.string_at : List String → JSON → Option String
  | [], v => v.string?
  | key :: path, v =>
    match v.member key with
    | none => none
    | some w => JSON.string_at path w

/-- The C string evel_json_encode_event leaves in a buffer of
EVEL_MAX_JSON_BODY bytes; `none` when an assertion fails. -/
def event_json (event : EVENT) : Option String :=
  (evel_json_encode_event 0 EVEL_MAX_JSON_BODY event).map fun r => ⟨json_string r⟩

/-- Whether the text produced for an event is well-formed JSON. -/
def event_json_well_formed (event : EVENT) : Option Bool :=
  (event_json event).map fun text => (json_read text).isSome

/-- The string found at a path of keys in the text produced for an event, as a
JSON consumer reads it: `some none` when the text is not well-formed JSON or
has no such string member. -/
def event_string_member (event : EVENT) (path : List String) : Option (Option String) :=
  (event_json event).map fun text => (json_read text).bind (JSON.string_at path)

/-- A fault whose alarm condition holds double quotes. -/
def fault_with_quotes : EVENT_FAULT :=
  ((evel_new_fault demo_env demo_tv "Link \"eth0\" down" "It broke very badly"
    EVEL_PRIORITY_NORMAL EVEL_SEVERITY_MAJOR).get (by decide)).1

/-- A fault whose specific problem holds a backslash. -/
def fault_with_backslash : EVENT_FAULT :=
  ((evel_new_fault demo_env demo_tv "My alarm condition" "Disk C:\\new is full"
    EVEL_PRIORITY_NORMAL EVEL_SEVERITY_MAJOR).get (by decide)).1

/-! ## Calls of evel_init_header that overlap in time

The three statements of evel_init_header that use the counter are
`event_sequence++`, the `snprintf` of `event_sequence` whose text becomes
`header->event_id`, and `header->sequence = event_sequence`.  No lock is taken
around them.  Each statement is taken as one indivisible step here, the
coarsest way in which calls running in different threads can interleave. -/

/-- A call of evel_init_header in progress: how many of the three statements
have run, and the two header fields they write (as memset left them before). -/
structure INIT_CALL where
  pc : Nat
  event_id : Option String
  sequence : Int
deriving DecidableEq

/-- A call that has run none of the three statements yet. -/
def INIT_CALL.start : INIT_CALL := { pc := 0, event_id := none, sequence := 0 }

/-- The next of the three statements of a call: the value it leaves in
`event_sequence` and the call after it. -/
def init_header_step (event_sequence : Int) (call : INIT_CALL) : Int × INIT_CALL :=
  if call.pc = 0 then (int32_wrap (event_sequence + 1), { call with pc := 1 })
  else if call.pc = 1 then
    (event_sequence, { call with pc := 2, event_id := some ⟨fmt_d event_sequence⟩ })
  else if call.pc = 2 then (event_sequence, { call with pc := 3, sequence := event_sequence })
  else (event_sequence, call)

/-- The process: the counter and the calls of evel_init_header in progress. -/
structure PROCESS where
  event_sequence : Int
  calls : List INIT_CALL
deriving DecidableEq

/-- The call number `i` runs its next statement. -/
def PROCESS.step (p : PROCESS) (i : Nat) : PROCESS :=
  match p.calls[i]? with
  | none => p
  | some call =>
    let r := init_header_step p.event_sequence call
    { event_sequence := r.1, calls := p.calls.set i r.2 }

/-- The process after the steps of a schedule, which names the call that runs
at each step. -/
def PROCESS.run (p : PROCESS) (schedule : List Nat) : PROCESS :=
  schedule.foldl PROCESS.step p

/-- The schedule in which the calls run in the given order and do not overlap:
each call runs its three statements before the next one starts. -/
def serial_schedule (order : List Nat) : List Nat := order.flatMap fun i => [i, i, i]

/-- The sequence numbers the calls named have given their headers. -/
def PROCESS.sequences (p : PROCESS) (order : List Nat) : List (Option Int) :=
  order.map fun i => (p.calls[i]?).map INIT_CALL.sequence

/-! ## The event handler: declarations of evel.h and evel_internal.h -/

abbrev EVEL_ERR_CODES := Nat

def EVEL_SUCCESS : EVEL_ERR_CODES := 0
def EVEL_ERR_GEN_FAIL : EVEL_ERR_CODES := 1
def EVEL_CURL_LIBRARY_FAIL : EVEL_ERR_CODES := 2
def EVEL_PTHREAD_LIBRARY_FAIL : EVEL_ERR_CODES := 3
def EVEL_OUT_OF_MEMORY : EVEL_ERR_CODES := 4
def EVEL_EVENT_BUFFER_FULL : EVEL_ERR_CODES := 5
def EVEL_EVENT_HANDLER_INACTIVE : EVEL_ERR_CODES := 6

/-- How many events can be backed up before events are dropped. -/
def EVEL_EVENT_BUFFER_DEPTH : Nat := 100

abbrev EVT_HANDLER_COMMAND := Nat

def EVT_CMD_TERMINATE : EVT_HANDLER_COMMAND := 0
def EVT_CMD_MAX_COMMANDS : EVT_HANDLER_COMMAND := 1

abbrev EVT_HANDLER_STATE := Nat

def EVT_HANDLER_UNINITIALIZED : EVT_HANDLER_STATE := 0
def EVT_HANDLER_INACTIVE : EVT_HANDLER_STATE := 1
def EVT_HANDLER_ACTIVE : EVT_HANDLER_STATE := 2
def EVT_HANDLER_REQUEST_TERMINATE : EVT_HANDLER_STATE := 3
def EVT_HANDLER_TERMINATING : EVT_HANDLER_STATE := 4
def EVT_HANDLER_TERMINATED : EVT_HANDLER_STATE := 5
def EVT_HANDLER_MAX_STATES : EVT_HANDLER_STATE := 6

/-! ## The event handler: behaviour

The code of the event handler (the definitions of evel_initialize,
evel_terminate and evel_post_event, the handler thread and its ring buffer) is
not among the sources; only the declarations above are.  What follows is
written from sections 3, 4.1, 4.2 and 4.3 of the specification. -/

/-- Modelled from the spec: an entry of the queue, whose code (the ring buffer)
is not among the sources; tagged as in section 3 of the specification: an event
the application posted, or the internal event (EVENT_INTERNAL of
evel_internal.h) that carries a command for the handler. -/
inductive QUEUE_ENTRY where
  | event (event : EVENT)
  | internal (command : EVT_HANDLER_COMMAND)
deriving DecidableEq

/-- Modelled from the spec: the state of the dispatch engine, whose code is not
among the sources.  It holds the lifecycle state, the fixed capacity of the
queue, the queue in FIFO order (oldest entry first) and, as the transport sees
them, the events the worker has dispatched so far (oldest first). -/
structure ENGINE where
  evt_handler_state : EVT_HANDLER_STATE
  capacity : Nat
  queue : List QUEUE_ENTRY
  dispatched : List EVENT
deriving DecidableEq

/-- Modelled from the spec: the engine before evel_initialize (the code is
absent): UNINITIALIZED, with an empty queue of the given capacity. -/
def ENGINE.new (capacity : Nat) : ENGINE :=
  { evt_handler_state := EVT_HANDLER_UNINITIALIZED, capacity := capacity, queue := [],
    dispatched := [] }

/-- Modelled from the spec: `enqueue` of the bounded queue of section 4.1 (the
ring buffer code is absent): the entry goes to the tail; on a full queue it
fails (`none`) and the queue is left unchanged. -/
def enqueue (capacity : Nat) (queue : List QUEUE_ENTRY) (entry : QUEUE_ENTRY) :
    Option (List QUEUE_ENTRY) :=
  if queue.length < capacity then some (queue ++ [entry]) else none

/-- Modelled from the spec: evel_initialize, whose definition is absent, as the
transition of section 4.3: from UNINITIALIZED the engine becomes ACTIVE when the
initialization succeeds and stays UNINITIALIZED when it fails; an engine in any
other state is left as it is (a later initialize makes a new engine). -/
def evel_initialize (s : ENGINE) (succeeds : Bool) : ENGINE :=
  if s.evt_handler_state = EVT_HANDLER_UNINITIALIZED ∧ succeeds = true then
    { s with evt_handler_state := EVT_HANDLER_ACTIVE }
  else s

/-- Modelled from the spec: evel_post_event, whose definition is absent
(sections 3, 4.1 and 4.3): accepted only in ACTIVE, in any other state it fails
with EVEL_EVENT_HANDLER_INACTIVE; in ACTIVE the event is enqueued, and on a full
queue the call fails with EVEL_EVENT_BUFFER_FULL and leaves the queue
unchanged. -/
def evel_post_event (s : ENGINE) (event : EVENT) : EVEL_ERR_CODES × ENGINE :=
  if ¬ (s.evt_handler_state = EVT_HANDLER_ACTIVE) then (EVEL_EVENT_HANDLER_INACTIVE, s)
  else
    match enqueue s.capacity s.queue (.event event) with
    | none => (EVEL_EVENT_BUFFER_FULL, s)
    | some queue => (EVEL_SUCCESS, { s with queue := queue })

/-- Modelled from the spec: evel_terminate, whose definition is absent, as the
transition of section 4.3: in ACTIVE the terminate command is enqueued behind
the entries already queued and the state becomes REQUEST_TERMINATE.  The
command takes a slot of the bounded queue like any entry: on a full queue the
enqueue fails and leaves the queue unchanged (section 4.1), and the state
becomes REQUEST_TERMINATE all the same.  In any other state the call changes
nothing. -/
def evel_terminate (s : ENGINE) : ENGINE :=
  if s.evt_handler_state = EVT_HANDLER_ACTIVE then
    match enqueue s.capacity s.queue (.internal EVT_CMD_TERMINATE) with
    | none => { s with evt_handler_state := EVT_HANDLER_REQUEST_TERMINATE }
    | some queue => { s with queue := queue, evt_handler_state := EVT_HANDLER_REQUEST_TERMINATE }
  else s

/-- Modelled from the spec: one step of the dispatch worker of sections 4.2 and
4.3, whose code is absent.  In REQUEST_TERMINATE the worker observes the
request and the state becomes TERMINATING.  In ACTIVE and in TERMINATING it
takes the oldest entry of the queue (with an empty queue it stays blocked): an
event is encoded and handed to the transport, whatever the outcome of the POST;
the terminate command makes it leave the loop, and the state becomes
TERMINATED.  In the other states no worker runs. -/
def worker_step (s : ENGINE) : ENGINE :=
  if s.evt_handler_state = EVT_HANDLER_REQUEST_TERMINATE then
    { s with evt_handler_state := EVT_HANDLER_TERMINATING }
  else if s.evt_handler_state = EVT_HANDLER_ACTIVE ∨
      s.evt_handler_state = EVT_HANDLER_TERMINATING then
    match s.queue with
    | [] => s
    | .event event :: queue => { s with queue := queue, dispatched := s.dispatched ++ [event] }
    | .internal command :: queue =>
      if command = EVT_CMD_TERMINATE then
        { s with queue := queue, evt_handler_state := EVT_HANDLER_TERMINATED }
      else { s with queue := queue }
  else s

/-- One thing that happens to the engine: a call of the API by the application
or a step of the worker. -/
inductive ENGINE_CALL where
  | init (succeeds : Bool)
  | post (event : EVENT)
  | terminate
  | worker
deriving DecidableEq

/-- The engine after a call or a worker step. -/
def ENGINE.step (s : ENGINE) : ENGINE_CALL → ENGINE
  | .init succeeds => evel_initialize s succeeds
  | .post event => (evel_post_event s event).2
  | .terminate => evel_terminate s
  | .worker => worker_step s

/-- The engine after a sequence of calls and worker steps, in the order in
which they take effect. -/
def ENGINE.run (s : ENGINE) (calls : List ENGINE_CALL) : ENGINE := calls.foldl ENGINE.step s

/-- The events a call hands over: the event of an evel_post_event that returns
EVEL_SUCCESS. -/
def ENGINE.accepts (s : ENGINE) : ENGINE_CALL → List EVENT
  | .post event => if (evel_post_event s event).1 = EVEL_SUCCESS then [event] else []
  | _ => []

/-- The events accepted by evel_post_event during a sequence of calls and
worker steps, in the order of acceptance. -/
def ENGINE.accepted (s : ENGINE) : List ENGINE_CALL → List EVENT
  | [] => []
  | call :: calls => s.accepts call ++ (s.step call).accepted calls

/-- The state that follows a state in the progression UNINITIALIZED, ACTIVE,
REQUEST_TERMINATE, TERMINATING, TERMINATED. -/
def next_state (state : EVT_HANDLER_STATE) : Option EVT_HANDLER_STATE :=
  if state = EVT_HANDLER_UNINITIALIZED then some EVT_HANDLER_ACTIVE
  else if state = EVT_HANDLER_ACTIVE then some EVT_HANDLER_REQUEST_TERMINATE
  else if state = EVT_HANDLER_REQUEST_TERMINATE then some EVT_HANDLER_TERMINATING
  else if state = EVT_HANDLER_TERMINATING then some EVT_HANDLER_TERMINATED
  else none

/-- The events among the entries of a queue, in order. -/
def queue_events : List QUEUE_ENTRY → List EVENT
  | [] => []
  | .event event :: queue => event :: queue_events queue
  | .internal _ :: queue => queue_events queue

/-- What holds of the engine in every state it can reach, `accepted` being the
events accepted so far: the queue is within its capacity, and the accepted
events are those dispatched followed by those pending in the queue, in order,
with nothing but the terminate command behind them, and that only once the
termination has been requested. -/
def ENGINE.inv (s : ENGINE) (capacity : Nat) (accepted : List EVENT) : Prop :=
  s.capacity = capacity ∧ s.queue.length ≤ capacity ∧
  ∃ pending : List EVENT, accepted = s.dispatched ++ pending ∧
    ((s.evt_handler_state = EVT_HANDLER_UNINITIALIZED ∧ s.queue = [] ∧ accepted = []) ∨
     (s.evt_handler_state = EVT_HANDLER_ACTIVE ∧ s.queue = pending.map QUEUE_ENTRY.event) ∨
     ((s.evt_handler_state = EVT_HANDLER_REQUEST_TERMINATE ∨
        s.evt_handler_state = EVT_HANDLER_TERMINATING) ∧
       (s.queue = pending.map QUEUE_ENTRY.event ++ [.internal EVT_CMD_TERMINATE] ∨
        s.queue = pending.map QUEUE_ENTRY.event)) ∨
     (s.evt_handler_state = EVT_HANDLER_TERMINATED ∧ s.queue = [] ∧ pending = []))

/-- The engine of default capacity after evel_initialize and a hundred
heartbeats posted with no worker step in between: ACTIVE, with a full queue. -/
def demo_engine_full : ENGINE :=
  (ENGINE.new EVEL_EVENT_BUFFER_DEPTH).run
    (.init true :: List.replicate 100 (.post (.header demo_heartbeat)))

/-- The engine of default capacity after evel_initialize, ninety-nine
heartbeats posted and evel_terminate, with no worker step in between:
REQUEST_TERMINATE, the queue full with the terminate command in its last
slot. -/
def demo_engine_requested : ENGINE :=
  (ENGINE.new EVEL_EVENT_BUFFER_DEPTH).run
    (.init true :: List.replicate 99 (.post (.header demo_heartbeat)) ++ [.terminate])

/-- A short life of an engine of capacity 2: two events posted, a third one
refused, the termination requested, and the worker steps that drain the
queue. -/
def demo_engine_calls : List ENGINE_CALL :=
  [.init true, .post (.header demo_heartbeat), .post (.fault demo_fault), .worker,
   .post (.fault demo_fault_new), .post (.header demo_heartbeat), .worker, .terminate,
   .post (.header demo_heartbeat), .worker, .worker, .worker]

/-! ## Reading decimal numbers -/

/-- The number a sequence of decimal digits stands for, most significant digit
first. -/
def dec_value (digits : List Char) : Nat :=
  digits.foldl (fun v c => 10 * v + (c.toNat - '0'.toNat)) 0

/-- The integer a decimal text with an optional minus sign stands for. -/
def dec_int : List Char → Int
  | '-' :: digits => - (dec_value digits : Int)
  | digits => (dec_value digits : Int)

/-- Whether a text is a decimal numeral: one or more digits, no leading zero
unless the numeral is `0`. -/
def is_numeral (text : List Char) : Prop :=
  text ≠ [] ∧ (∀ c ∈ text, '0' ≤ c ∧ c ≤ '9') ∧ (text.head? = some '0' → text = ['0'])

/-! ## All the setters and add operations of an event -/

/-- A call of one of the setters and add operations of a measurement, with its
arguments. -/
inductive MEASUREMENT_CALL where
  | type_set (type : String)
  | agg_cpu_use_set (cpu_use : double)
  | media_port_use_set (media_ports_in_use : Int)
  | vnfc_scaling_metric_set (scaling_metric : double)
  | cpu_use_add (name : String) (value : double)
  | fsys_use_add (vm_id : String) (block_configured block_used : double) (block_iops : Int)
      (ephemeral_configured ephemeral_used : double) (ephemeral_iops : Int)
  | latency_add (low_end high_end : double) (count : Int)
  | vnic_use_add (vnic_id : String)
      (broadcast_packets_in broadcast_packets_out bytes_in bytes_out : Int)
      (multicast_packets_in multicast_packets_out unicast_packets_in unicast_packets_out : Int)
  | feature_use_add (feature : String) (utilization : double)
  | codec_use_add (codec : String) (utilization : Int)
  | custom_measurement_add (group name value : String)
deriving DecidableEq

/-- The call on a measurement. -/
def MEASUREMENT_CALL.apply (measurement : EVENT_MEASUREMENT) :
    MEASUREMENT_CALL → Option EVENT_MEASUREMENT
  | .type_set type => evel_measurement_type_set measurement type
  | .agg_cpu_use_set cpu_use => evel_measurement_agg_cpu_use_set measurement cpu_use
  | .media_port_use_set n => evel_measurement_media_port_use_set measurement n
  | .vnfc_scaling_metric_set x => evel_measurement_vnfc_scaling_metric_set measurement x
  | .cpu_use_add name value => evel_measurement_cpu_use_add measurement name value
  | .fsys_use_add vm_id block_configured block_used block_iops ephemeral_configured
      ephemeral_used ephemeral_iops =>
    evel_measurement_fsys_use_add measurement vm_id block_configured block_used block_iops
      ephemeral_configured ephemeral_used ephemeral_iops
  | .latency_add low_end high_end count =>
    evel_measurement_latency_add measurement low_end high_end count
  | .vnic_use_add vnic_id broadcast_packets_in broadcast_packets_out bytes_in bytes_out
      multicast_packets_in multicast_packets_out unicast_packets_in unicast_packets_out =>
    evel_measurement_vnic_use_add measurement vnic_id broadcast_packets_in
      broadcast_packets_out bytes_in bytes_out multicast_packets_in multicast_packets_out
      unicast_packets_in unicast_packets_out
  | .feature_use_add feature utilization =>
    evel_measurement_feature_use_add measurement feature utilization
  | .codec_use_add codec utilization =>
    evel_measurement_codec_use_add measurement codec utilization
  | .custom_measurement_add group name value =>
    evel_measurement_custom_measurement_add measurement group name value

/-- Calls on a measurement one after another, in the order of the list. -/
def measurement_call_all (measurement : EVENT_MEASUREMENT) :
    List MEASUREMENT_CALL → Option EVENT_MEASUREMENT
  | [] => some measurement
  | c :: calls => (c.apply measurement).bind fun m => measurement_call_all m calls

/-- A call of one of the setters and add operations of a report. -/
inductive REPORT_CALL where
  | type_set (type : String)
  | feature_use_add (feature : String) (utilization : double)
  | custom_measurement_add (group name value : String)
deriving DecidableEq

/-- The call on a report. -/
def REPORT_CALL.apply (report : EVENT_REPORT) : REPORT_CALL → Option EVENT_REPORT
  | .type_set type => evel_report_type_set report type
  | .feature_use_add feature utilization =>
    evel_report_feature_use_add report feature utilization
  | .custom_measurement_add group name value =>
    evel_report_custom_measurement_add report group name value

/-- Calls on a report one after another, in the order of the list. -/
def report_call_all (report : EVENT_REPORT) : List REPORT_CALL → Option EVENT_REPORT
  | [] => some report
  | c :: calls => (c.apply report).bind fun r => report_call_all r calls

/-- A header with the one field a setter writes blanked: what is left is what
evel_init_header and the factory put there. -/
def EVENT_HEADER.fixed (h : EVENT_HEADER) : EVENT_HEADER := { h with event_type := none }

/-- A fault with the fields its setters write (the event type, the alarm
interface and the additional information) blanked. -/
def EVENT_FAULT.fixed (f : EVENT_FAULT) : EVENT_FAULT :=
  { f with header := f.header.fixed, alarm_interface_a := none, additional_info := [] }

/-- A measurement with the fields its setters and add operations write (the
event type, the three optional numbers and the seven lists) blanked. -/
def EVENT_MEASUREMENT.fixed (m : EVENT_MEASUREMENT) : EVENT_MEASUREMENT :=
  { m with header := m.header.fixed, cpu_usage := [], filesystem_usage := [],
           latency_distribution := [], vnic_usage := [], aggregate_cpu_usage := 0,
           codec_usage := [], feature_usage := [], measurement_groups := [],
           media_ports_in_use := 0, vnfc_scaling_metric := 0 }

/-- The calls of the demo program on its measurement, in order. -/
def demo_measurement_calls : List MEASUREMENT_CALL :=
  [.type_set "Perf management...", .agg_cpu_use_set 8.8, .cpu_use_add "cpu1" 11.11,
   .cpu_use_add "cpu2" 22.22,
   .fsys_use_add "00-11-22" 100.11 100.22 33 200.11 200.22 44,
   .fsys_use_add "33-44-55" 300.11 300.22 55 400.11 400.22 66,
   .latency_add 0.0 10.0 20, .latency_add 10.0 20.0 30,
   .vnic_use_add "eth0" 1 2 3 4 5 6 7 8, .vnic_use_add "eth1" 11 12 13 14 15 16 17 18,
   .feature_use_add "FeatureA" 123.4, .feature_use_add "FeatureB" 567.8,
   .codec_use_add "G711a" 91, .codec_use_add "G729ab" 92, .media_port_use_set 1234,
   .vnfc_scaling_metric_set 1234.5678, .custom_measurement_add "Group1" "Name1" "Value1",
   .custom_measurement_add "Group2" "Name1" "Value1",
   .custom_measurement_add "Group2" "Name2" "Value2"]

/-- The calls of the demo program on its report, in order. -/
def demo_report_calls : List REPORT_CALL :=
  [.type_set "Perf reporting...", .feature_use_add "FeatureA" 123.4,
   .feature_use_add "FeatureB" 567.8, .custom_measurement_add "Group1" "Name1" "Value1",
   .custom_measurement_add "Group2" "Name1" "Value1",
   .custom_measurement_add "Group2" "Name2" "Value2"]
/-- The encoder runs to its end on the event: every `switch` finds a case and
the domain assertions hold, so that the calls of evel_json_encode_event are
defined, and with any buffer of more than 10 bytes the function returns the
result of running them. -/
def encoder_returns (e : EVENT) : Prop :=
  ∃ calls, event_calls e = some calls ∧
    ∀ json max_size : Int, 10 < max_size →
      evel_json_encode_event json max_size e = some (run json max_size calls)

/-! ## Custom measurements added one after another -/

/-- The calls `evel_measurement_custom_measurement_add(m, group_i, name_i,
value_i)` one after another, in the order of the list of triples. -/
def evel_measurement_custom_measurement_add_all (measurement : EVENT_MEASUREMENT) :
    List (String × String × String) → Option EVENT_MEASUREMENT
  | [] => some measurement
  | t :: triples =>
    (evel_measurement_custom_measurement_add measurement t.1 t.2.1 t.2.2).bind
      fun m => evel_measurement_custom_measurement_add_all m triples

/-- The custom measurements a group named `group` is to hold after the calls
of the triples: those of the triples with that group, the last added first. -/
def group_content (triples : List (String × String × String)) (group : String) :
    List CUSTOM_MEASUREMENT :=
  ((triples.filter fun t => t.1 = group).map
    fun t => ({ name := some t.2.1, value := some t.2.2 } : CUSTOM_MEASUREMENT)).reverse

/-- The list of groups that the calls of the triples build from an empty list. -/
def custom_measurement_add_all (groups : DLIST MEASUREMENT_GROUP) :
    List (String × String × String) → DLIST MEASUREMENT_GROUP
  | [] => groups
  | t :: triples =>
    custom_measurement_add_all (custom_measurement_add groups t.1 t.2.1 t.2.2) triples

/-- The three custom measurements the demo program adds. -/
def demo_custom_measurements : List (String × String × String) :=
  [("Group1", "Name1", "Value1"), ("Group2", "Name1", "Value1"), ("Group2", "Name2", "Value2")]

/-! ## The add operations that reports and measurements share -/

/-- A call of one of the two add operations that exist both for a report and
for a measurement, with its arguments. -/
inductive USAGE_CALL where
  | feature_use_add (feature : String) (utilization : double)
  | custom_measurement_add (group name value : String)
deriving DecidableEq

/-- The call made on a report. -/
def USAGE_CALL.on_report (report : EVENT_REPORT) : USAGE_CALL → Option EVENT_REPORT
  | .feature_use_add feature utilization =>
    evel_report_feature_use_add report feature utilization
  | .custom_measurement_add group name value =>
    evel_report_custom_measurement_add report group name value

/-- The call made on a measurement. -/
def USAGE_CALL.on_measurement (measurement : EVENT_MEASUREMENT) :
    USAGE_CALL → Option EVENT_MEASUREMENT
  | .feature_use_add feature utilization =>
    evel_measurement_feature_use_add measurement feature utilization
  | .custom_measurement_add group name value =>
    evel_measurement_custom_measurement_add measurement group name value

/-- The calls made on a report one after another. -/
def report_usage_all (report : EVENT_REPORT) : List USAGE_CALL → Option EVENT_REPORT
  | [] => some report
  | c :: calls => (c.on_report report).bind fun r => report_usage_all r calls

/-- The calls made on a measurement one after another. -/
def measurement_usage_all (measurement : EVENT_MEASUREMENT) :
    List USAGE_CALL → Option EVENT_MEASUREMENT
  | [] => some measurement
  | c :: calls => (c.on_measurement measurement).bind fun m => measurement_usage_all m calls

/-- The feature and custom measurement calls of the demo program, which it
makes both on its measurement and on its report. -/
def demo_usage_calls : List USAGE_CALL :=
  [.feature_use_add "FeatureA" 123.4, .feature_use_add "FeatureB" 567.8,
   .custom_measurement_add "Group1" "Name1" "Value1",
   .custom_measurement_add "Group2" "Name1" "Value1",
   .custom_measurement_add "Group2" "Name2" "Value2"]

/-! ## Well-formed texts

What it takes for parts of a text to be read by the JSON reader, whatever
follows them. -/

/-- The opening brace character. -/
def lbrace : Char := Char.ofNat 123

/-- No double quote, no backslash and no control character: the characters that
stand for themselves inside a JSON string. -/
@[reducible] def plain_text (s : List Char) : Prop :=
  ∀ c ∈ s, c ≠ dquote ∧ c ≠ backslash ∧ 32 ≤ c.toNat

/-- A key of a format literal: plain, and no percent sign. -/
@[reducible] def plain_key (s : List Char) : Prop :=
  ∀ c ∈ s, c ≠ dquote ∧ c ≠ backslash ∧ 32 ≤ c.toNat ∧ c ≠ '%'

/-- What may follow a value: the end of the text, a comma, a closing brace or a
closing bracket. -/
def stops (rest : List Char) : Prop :=
  rest = [] ∨ ∃ c r, rest = c :: r ∧ (c = ',' ∨ c = rbrace ∨ c = ']')

/-- The text is one JSON value: with fuel `d` or more the reader reads it as
the same value and leaves what follows it. -/
def value_ok (d : Nat) (t : List Char) : Prop :=
  ∃ v, ∀ f, d ≤ f → ∀ rest, stops rest → json_value f (t ++ rest) = some (v, rest)

/-- The text is a sequence of at most `K` members of an object, each with the
comma and the blank after it: the reader, with `d` or more fuel left after them,
reads them and goes on with what follows. -/
def members_comma (d K : Nat) (t : List Char) : Prop :=
  ∃ kvs : List (List Char × JSON), kvs.length ≤ K ∧
    ∀ f, d ≤ f → ∀ more acc,
      json_members (f + kvs.length) (t ++ more) acc = json_members f more (acc ++ kvs)

/-- The text is the last member of an object and the closing brace. -/
def member_end (d : Nat) (t : List Char) : Prop :=
  ∃ kv : List Char × JSON, ∀ f, d ≤ f → ∀ rest acc,
    json_members (f + 1) (t ++ rest) acc = some (.object (acc ++ [kv]), rest)

/-- The text is a sequence of at most `K` items of an array, separated by a
comma and a blank, the closing bracket following. -/
def items_ok (d K : Nat) (t : List Char) : Prop :=
  ∃ vs : List JSON, vs.length ≤ K ∧
    ∀ f, d ≤ f → ∀ rest acc,
      json_items (f + vs.length) (t ++ ']' :: rest) acc = some (.array (acc ++ vs), rest)

/-- A string that is set (not NULL) and holds no double quote, backslash or
control character. -/
def plain_string : Option String → Prop
  | some x => plain_text x.data
  | none => False

instance (s : Option String) : Decidable (plain_string s) :=
  match s with
  | some x => inferInstanceAs (Decidable (plain_text x.data))
  | none => isFalse id

/-- An optional string that, when set, holds no double quote, backslash or
control character. -/
def plain_optional : Option String → Prop
  | some x => plain_text x.data
  | none => True

instance (s : Option String) : Decidable (plain_optional s) :=
  match s with
  | some x => inferInstanceAs (Decidable (plain_text x.data))
  | none => isTrue trivial

/-- The strings of a header are set and plain, the optional event type plain
when set. -/
def EVENT_HEADER.plain (h : EVENT_HEADER) : Prop :=
  plain_string h.event_id ∧ plain_optional h.event_type ∧ plain_string h.functional_role ∧
    plain_string h.reporting_entity_id ∧ plain_string h.reporting_entity_name ∧
    plain_string h.source_id ∧ plain_string h.source_name

/-- The strings of a fault are set and plain, the optional alarm interface plain
when set, and so are the names and values of its additional information. -/
def EVENT_FAULT.plain (f : EVENT_FAULT) : Prop :=
  f.header.plain ∧ plain_string f.alarm_condition ∧ plain_optional f.alarm_interface_a ∧
    plain_string f.specific_problem ∧
    ∀ a ∈ f.additional_info, plain_string a.name ∧ plain_string a.value

instance (h : EVENT_HEADER) : Decidable h.plain := by
  unfold EVENT_HEADER.plain
  infer_instance

instance (f : EVENT_FAULT) : Decidable f.plain := by
  unfold EVENT_FAULT.plain
  infer_instance

/-! ## What a text reads as

The value the JSON reader makes of a part of a text, whatever follows it. -/

/-- The text is one JSON value: with fuel `d` or more the reader reads it as
`v` and leaves what follows it. -/
def value_is (d : Nat) (t : List Char) (v : JSON) : Prop :=
  ∀ f, d ≤ f → ∀ rest, stops rest → json_value f (t ++ rest) = some (v, rest)

/-- The text is the members `kvs` of an object, each with the comma and the
blank after it: the reader, with `d` or more fuel left after them, reads them
and goes on with what follows. -/
def members_are (d : Nat) (t : List Char) (kvs : List (List Char × JSON)) : Prop :=
  ∀ f, d ≤ f → ∀ more acc,
    json_members (f + kvs.length) (t ++ more) acc = json_members f more (acc ++ kvs)

/-- The text is the last member `kv` of an object and the closing brace. -/
def member_last (d : Nat) (t : List Char) (kv : List Char × JSON) : Prop :=
  ∀ f, d ≤ f → ∀ rest acc,
    json_members (f + 1) (t ++ rest) acc = some (.object (acc ++ [kv]), rest)

/-- The keys of a JSON object, in the order of the text. -/
def JSON.keys : JSON → List String
  | .object members => members.map fun kv => String.mk kv.1
  | _ => []

/-- The value found by following the keys of a path of nested objects. -/
def JSON.get : List String → JSON → Option JSON
  | [], v => some v
  | key :: path, v =>
    match v.member key with
    | none => none
    | some w => JSON.get path w

/-- The value of the member `domain` that evel_json_encode_header prints for a
domain. -/
def domain_value (event_domain : EVEL_EVENT_DOMAINS) : String :=
  if event_domain = EVEL_DOMAIN_HEARTBEAT then "heartbeat"
  else if event_domain = EVEL_DOMAIN_FAULT then "fault"
  else if event_domain = EVEL_DOMAIN_MEASUREMENT then "measurementsForVfScaling"
  else "measurementsForVfReporting"

/-- The value of the member `priority` that evel_json_encode_header prints for
a priority. -/
def priority_value (priority : EVEL_EVENT_PRIORITIES) : String :=
  if priority = EVEL_PRIORITY_HIGH then "High"
  else if priority = EVEL_PRIORITY_MEDIUM then "Medium"
  else if priority = EVEL_PRIORITY_NORMAL then "Normal"
  else "Low"

/-- The members the commonEventHeader object of a header is to have, in the
order of the text: strings are the stored strings, numbers the decimal text of
the stored numbers, and the member eventType is there when an event type is
set. -/
def header_members (h : EVENT_HEADER) : List (List Char × JSON) :=
  [("domain".data, .string (domain_value h.event_domain).data),
   ("eventId".data, .string (fmt_s h.event_id))] ++
  (match h.event_type with
    | some type => [("eventType".data, JSON.string type.data)]
    | none => []) ++
  [("functionalRole".data, .string (fmt_s h.functional_role)),
   ("lastEpochMicrosec".data, .number (fmt_u h.last_epoch_microsec)),
   ("reportingEntityId".data, .string (fmt_s h.reporting_entity_id)),
   ("reportingEntityName".data, .string (fmt_s h.reporting_entity_name)),
   ("sequence".data, .number (fmt_d h.sequence)),
   ("sourceId".data, .string (fmt_s h.source_id)),
   ("sourceName".data, .string (fmt_s h.source_name)),
   ("startEpochMicrosec".data, .number (fmt_u h.start_epoch_microsec)),
   ("priority".data, .string (priority_value h.priority).data)] ++
  [("version".data, .number (fmt_d EVEL_API_VERSION))]

/-! ## The numbers of a measurement and the calls of its numeric setters -/

/-- The members the measurementsForVfScaling object of a measurement with no
item in its seven lists is to have, in the order of the text: the seven
mandatory numbers, each of the three optional numbers when it is greater than
0, and the version. -/
def measurement_number_members (m : EVENT_MEASUREMENT) : List (List Char × JSON) :=
  [("concurrentSessions".data, .number (fmt_d m.concurrent_sessions)),
   ("configuredEntities".data, .number (fmt_d m.configured_entities))] ++
  [("meanRequestLatency".data, .number (fmt_lf m.mean_request_latency)),
   ("measurementInterval".data, .number (fmt_lf m.measurement_interval)),
   ("memoryConfigured".data, .number (fmt_lf m.memory_configured)),
   ("memoryUsed".data, .number (fmt_lf m.memory_used)),
   ("requestRate".data, .number (fmt_d m.request_rate))] ++
  (if m.aggregate_cpu_usage > 0 then
    [("aggregateCpuUsage".data, JSON.number (fmt_lf m.aggregate_cpu_usage))] else []) ++
  (if m.media_ports_in_use > 0 then
    [("numberOfMediaPortsInUse".data, JSON.number (fmt_d m.media_ports_in_use))] else []) ++
  (if m.vnfc_scaling_metric > 0 then
    [("vnfcScalingMetric".data, JSON.number (fmt_lf m.vnfc_scaling_metric))] else []) ++
  [("measurementFieldsVersion".data, .number (fmt_d EVEL_API_VERSION))]

/-- The values passed to evel_measurement_media_port_use_set, in the order of
the calls. -/
def media_port_use_args : List MEASUREMENT_OP → List Int
  | [] => []
  | .media_port_use_set v :: ops => v :: media_port_use_args ops
  | _ :: ops => media_port_use_args ops

/-- The values passed to evel_measurement_agg_cpu_use_set, in the order of the
calls. -/
def agg_cpu_use_args : List MEASUREMENT_OP → List double
  | [] => []
  | .agg_cpu_use_set v :: ops => v :: agg_cpu_use_args ops
  | _ :: ops => agg_cpu_use_args ops

/-- The values passed to evel_measurement_vnfc_scaling_metric_set, in the order
of the calls. -/
def vnfc_scaling_metric_args : List MEASUREMENT_OP → List double
  | [] => []
  | .vnfc_scaling_metric_set v :: ops => v :: vnfc_scaling_metric_args ops
  | _ :: ops => vnfc_scaling_metric_args ops

/-- No call with a value greater than 0 comes after a first call with the value
0: the sequences on which a setter that keeps the first value and the code,
which keeps the first value greater than 0, leave the same value. -/
def first_value_kept {α : Type} [Zero α] (values : List α) : Prop :=
  values.head? = some 0 → ∀ v ∈ values, v = 0

instance {α : Type} [Zero α] [DecidableEq α] (values : List α) :
    Decidable (first_value_kept values) := by
  unfold first_value_kept
  infer_instance

/-- The metadata strings of the globals hold no double quote, backslash or
control character. -/
def ENV.plain (env : ENV) : Prop :=
  plain_text env.functional_role.data ∧ plain_text env.openstack_vm_uuid.data ∧
    plain_text env.openstack_vm_name.data

instance (env : ENV) : Decidable env.plain := by
  unfold ENV.plain
  infer_instance

/-- The globals of the demo program with a functional role that holds the text
of a measurementsForVfScaling member. -/
def env_with_block_in_role : ENV :=
  { demo_env with
    functional_role :=
      "r\"\x7d, \"measurementsForVfScaling\": \x7b\"numberOfMediaPortsInUse\": 1, \"x\": \"y" }

/-- The measurement of the demo program as evel_new_measurement returns it when
the functional role holds the text of a member. -/
def measurement_with_block_in_role : EVENT_MEASUREMENT :=
  ((evel_new_measurement env_with_block_in_role demo_tv 1 2 3.3 4.4 5.5 6.6 7).get
    (by decide!)).1

/-- The measurement of the demo program after each of the three numeric setters
was called with the permitted value 0. -/
def measurement_set_to_zero : EVENT_MEASUREMENT :=
  (measurement_apply_all demo_measurement_new
    [.media_port_use_set 0, .agg_cpu_use_set 0, .vnfc_scaling_metric_set 0]).get (by decide!)

/-! ## Events with a double quote in a string -/

/-- The globals of the demo program with a functional role that holds double
quotes (an argument of evel_initialize). -/
def env_with_quotes_in_role : ENV :=
  { demo_env with
    functional_role := "r\", \"eventType\": \"phantom\", \"sequence\": \"9" }

/-- The fault of the demo program as evel_new_fault returns it when the
functional role holds double quotes. -/
def fault_with_quotes_in_role : EVENT_FAULT :=
  ((evel_new_fault env_with_quotes_in_role demo_tv "My alarm condition" "It broke very badly"
    EVEL_PRIORITY_NORMAL EVEL_SEVERITY_MAJOR).get (by decide)).1

/-- The keys of the object found at a path in the text produced for an event,
as a JSON consumer reads it. -/
def event_keys_at (event : EVENT) (path : List String) : Option (List String) :=
  (((event_json event).bind json_read).bind (JSON.get path)).map JSON.keys

/-- The number of items of a JSON array. -/
def JSON.items_length : JSON → Option Nat
  | .array items => some items.length
  | _ => none

/-- The number of items of the array found at a path in the text produced for
an event, as a JSON consumer reads it: `some none` when the text is not
well-formed JSON or has no array there. -/
def event_items_at (event : EVENT) (path : List String) : Option (Option Nat) :=
  (event_json event).map fun text =>
    ((json_read text).bind (JSON.get path)).bind JSON.items_length

/-- The globals of the demo program with a functional role that holds the text
of a faultFields member (an argument of evel_initialize). -/
def env_with_fault_block_in_role : ENV :=
  { demo_env with functional_role := "r\"\x7d, \"faultFields\": \x7b\"a\": \"b" }

/-- The heartbeat evel_new_heartbeat returns when the functional role holds the
text of a faultFields member. -/
def heartbeat_with_fault_block_in_role : EVENT_HEADER :=
  (evel_new_heartbeat env_with_fault_block_in_role demo_tv).1

/-- A fault whose alarm condition holds the text of a faultFields member. -/
def fault_with_block_in_condition : EVENT_FAULT :=
  ((evel_new_fault demo_env demo_tv "x\"\x7d, \"faultFields\": \x7b\"a\": \"b"
    "It broke very badly" EVEL_PRIORITY_NORMAL EVEL_SEVERITY_MAJOR).get (by decide)).1

/-- A fault whose alarm condition holds the text of an alarmInterfaceA member;
evel_fault_interface_set is not called on it. -/
def fault_with_interface_in_condition : EVENT_FAULT :=
  ((evel_new_fault demo_env demo_tv "x\", \"alarmInterfaceA\": \"eth9"
    "It broke very badly" EVEL_PRIORITY_NORMAL EVEL_SEVERITY_MAJOR).get (by decide)).1

/-- A fault whose alarm condition holds the text of an alarmAdditionalInformation
member with an empty array; evel_fault_addl_info_add is not called on it. -/
def fault_with_array_in_condition : EVENT_FAULT :=
  ((evel_new_fault demo_env demo_tv "x\", \"alarmAdditionalInformation\": [], \"y\": \"z"
    "It broke very badly" EVEL_PRIORITY_NORMAL EVEL_SEVERITY_MAJOR).get (by decide)).1

/-- The globals of the demo program with a functional role that holds the text
of a measurementsForVfScaling member with an empty codecsInUse array. -/
def env_with_array_in_role : ENV :=
  { demo_env with
    functional_role :=
      "r\"\x7d, \"measurementsForVfScaling\": \x7b\"codecsInUse\": [], \"x\": \"y" }

/-- The measurement evel_new_measurement returns when the functional role holds
the text of a codecsInUse member; no add function is called on it. -/
def measurement_with_array_in_role : EVENT_MEASUREMENT :=
  ((evel_new_measurement env_with_array_in_role demo_tv 1 2 3.3 4.4 5.5 6.6 7).get
    (by decide!)).1

/-! ## Running the calls: general facts -/

theorem calls_text_nil : calls_text [] = "" := rfl

theorem calls_text_cons (c : CALL) (cs : List CALL) :
    calls_text (c :: cs) = sprintf c ++ calls_text cs := rfl

theorem run_stores_nil (j M o : Int) : run_stores j M o [] = [] := rfl

theorem run_stores_cons (j M o : Int) (c : CALL) (cs : List CALL) :
    run_stores j M o (c :: cs) =
      (snprintf (j + o) (size_t_of_int (M - o)) c).1 ++
        run_stores j M (o + (sprintf c).length) cs := rfl

theorem calls_text_append (a b : List CALL) :
    calls_text (a ++ b) = calls_text a ++ calls_text b := by
  induction a with
  | nil => simp [calls_text]
  | cons c a ih => simp [calls_text, ih, String.append_assoc]

theorem foldl_emit (j M : Int) (cs : List CALL) (st : ENC) :
    cs.foldl (emit j M) st =
      ⟨st.offset + (calls_text cs).length, st.stores ++ run_stores j M st.offset cs⟩ := by
  induction cs generalizing st with
  | nil => simp [calls_text, run_stores]
  | cons c cs ih =>
    simp only [List.foldl_cons, ih, calls_text, run_stores, emit, snprintf, String.length_append]
    simp only [String.length, Nat.cast_add, List.append_assoc, add_assoc]

theorem run_stores_append (j M : Int) (a b : List CALL) (o : Int) :
    run_stores j M o (a ++ b) =
      run_stores j M o a ++ run_stores j M (o + (calls_text a).length) b := by
  induction a generalizing o with
  | nil => simp [calls_text, run_stores]
  | cons c a ih =>
    rw [List.cons_append, run_stores, run_stores, ih]
    simp only [calls_text_cons, String.length_append, List.append_assoc, Nat.cast_add, add_assoc]

theorem run_stores_shift (j M k : Int) (cs : List CALL) (o : Int) :
    run_stores (j + k) (M - k) o cs = run_stores j M (k + o) cs := by
  induction cs generalizing o with
  | nil => simp [run_stores]
  | cons c cs ih =>
    simp only [run_stores, ih]
    have h1 : j + k + o = j + (k + o) := by ring
    have h2 : M - k - o = M - (k + o) := by ring
    have h3 : k + (o + ((sprintf c).length : Int)) = k + o + (sprintf c).length := by ring
    rw [h1, h2, h3]

theorem evel_json_encode_header_eq (j M : Int) (h : EVENT_HEADER) :
    evel_json_encode_header j M h =
      if 0 < M then (evel_json_encode_header_calls h).map (run j M) else none := by
  unfold evel_json_encode_header run
  by_cases hM : 0 < M
  · simp only [hM, gt_iff_lt, not_true_eq_false, if_false, if_true]
    congr 1
    funext cs
    rw [foldl_emit]
    simp
  · simp [hM]

theorem evel_json_encode_fault_eq (j M : Int) (f : EVENT_FAULT) :
    evel_json_encode_fault j M f =
      if 0 < M ∧ f.header.event_domain = EVEL_DOMAIN_FAULT then (fault_calls f).map (run j M)
      else none := by
  unfold evel_json_encode_fault
  by_cases hM : 0 < M
  · by_cases hd : f.header.event_domain = EVEL_DOMAIN_FAULT
    · simp only [hM, hd, gt_iff_lt, not_true_eq_false, if_false, and_self, if_true, add_zero,
        sub_zero, evel_json_encode_header_eq, fault_calls]
      cases hh : evel_json_encode_header_calls f.header with
      | none => simp
      | some hcs =>
        cases hf : evel_json_encode_fault_calls f with
        | none => simp
        | some fcs =>
          simp only [Option.map_some', foldl_emit, run, zero_add, run_stores_append,
            calls_text_append, String.length_append, Nat.cast_add]
    · simp [hM, hd]
  · simp [hM]

theorem evel_json_encode_measurement_eq (j M : Int) (m : EVENT_MEASUREMENT) :
    evel_json_encode_measurement j M m =
      if 0 < M ∧ m.header.event_domain = EVEL_DOMAIN_MEASUREMENT then
        (measurement_calls m).map (run j M)
      else none := by
  unfold evel_json_encode_measurement
  by_cases hM : 0 < M
  · by_cases hd : m.header.event_domain = EVEL_DOMAIN_MEASUREMENT
    · simp only [hM, hd, gt_iff_lt, not_true_eq_false, if_false, and_self, if_true, add_zero,
        sub_zero, evel_json_encode_header_eq, measurement_calls]
      cases hh : evel_json_encode_header_calls m.header with
      | none => simp
      | some hcs =>
        simp only [Option.map_some', foldl_emit, run, zero_add, run_stores_append,
          calls_text_append, String.length_append, Nat.cast_add]
    · simp [hM, hd]
  · simp [hM]

theorem evel_json_encode_report_eq (j M : Int) (r : EVENT_REPORT) :
    evel_json_encode_report j M r =
      if 0 < M ∧ r.header.event_domain = EVEL_DOMAIN_REPORT then
        (report_calls r).map (run j M)
      else none := by
  unfold evel_json_encode_report
  by_cases hM : 0 < M
  · by_cases hd : r.header.event_domain = EVEL_DOMAIN_REPORT
    · simp only [hM, hd, gt_iff_lt, not_true_eq_false, if_false, and_self, if_true, add_zero,
        sub_zero, evel_json_encode_header_eq, report_calls]
      cases hh : evel_json_encode_header_calls r.header with
      | none => simp
      | some hcs =>
        simp only [Option.map_some', foldl_emit, run, zero_add, run_stores_append,
          calls_text_append, String.length_append, Nat.cast_add]
    · simp [hM, hd]
  · simp [hM]

theorem emit_eq (j M : Int) (st : ENC) (c : CALL) :
    emit j M st c =
      ⟨st.offset + (sprintf c).length, st.stores ++ run_stores j M st.offset [c]⟩ := by
  rw [run_stores_cons, run_stores_nil, List.append_nil]
  rfl

theorem open_length : ((sprintf (lit "\x7b\"event\":\x7b")).length : Int) = 10 := by decide

theorem wrap_run (j M : Int) (cs : List CALL) :
    emit j M ⟨10 + (run (j + 10) (M - 10) cs).offset,
      (emit j M ⟨0, []⟩ (lit "\x7b\"event\":\x7b")).stores ++
        (run (j + 10) (M - 10) cs).stores⟩
      (lit "\x7d\x7d") =
    run j M ([lit "\x7b\"event\":\x7b"] ++ cs ++ [lit "\x7d\x7d"]) := by
  simp only [emit_eq, run, run_stores_shift, run_stores_append, calls_text_append,
    String.length_append, Nat.cast_add, zero_add, List.nil_append, add_zero, calls_text_cons,
    calls_text_nil, String.append_empty, List.append_assoc, open_length, List.singleton_append,
    run_stores_cons, run_stores_nil, List.append_nil, List.cons_append, add_assoc]

theorem evel_json_encode_event_eq (j M : Int) (e : EVENT) :
    evel_json_encode_event j M e =
      if 10 < M then (event_calls e).map (run j M) else none := by
  unfold evel_json_encode_event event_calls domain_calls
  have ho : (emit j M ⟨0, []⟩ (lit "\x7b\"event\":\x7b")).offset = 10 := by
    rw [emit_eq]; simp only [zero_add]; exact open_length
  simp only [ho]
  by_cases hM : 10 < M
  · have hM' : 0 < M - 10 := by omega
    simp only [hM, if_true]
    split_ifs with h1 h2 h3 h4
    · simp only [evel_json_encode_header_eq, hM', if_true, Option.map_map]
      congr 1
      funext cs
      exact wrap_run j M cs
    · cases e with
      | fault f =>
        simp only [EVENT.hdr] at h2
        simp only [evel_json_encode_fault_eq, hM', h2, and_self, if_true, Option.map_map]
        congr 1
        funext cs
        exact wrap_run j M cs
      | _ => simp
    · cases e with
      | measurement m =>
        simp only [EVENT.hdr] at h3
        simp only [evel_json_encode_measurement_eq, hM', h3, and_self, if_true, Option.map_map]
        congr 1
        funext cs
        exact wrap_run j M cs
      | _ => simp
    · cases e with
      | report r =>
        simp only [EVENT.hdr] at h4
        simp only [evel_json_encode_report_eq, hM', h4, and_self, if_true, Option.map_map]
        congr 1
        funext cs
        exact wrap_run j M cs
      | _ => simp
    · simp
  · have hM' : ¬ (0 < M - 10) := by omega
    simp only [hM, if_false]
    split_ifs with h1 h2 h3 h4
    · simp [evel_json_encode_header_eq, hM']
    · cases e <;> simp [evel_json_encode_fault_eq, hM']
    · cases e <;> simp [evel_json_encode_measurement_eq, hM']
    · cases e <;> simp [evel_json_encode_report_eq, hM']
    · simp

theorem size_t_of_int_eq (x : Int) (h0 : 0 ≤ x) (h1 : x ≤ INT_MAX) :
    size_t_of_int x = x.toNat := by
  unfold size_t_of_int
  unfold INT_MAX at h1
  rw [Int.emod_eq_of_lt h0 (by omega)]

theorem store_inside_all (M : Int) (s : STORE) (h0 : 0 ≤ s.addr)
    (h1 : s.addr + s.bytes.length ≤ M) : s.inside M = s.bytes.length := by
  unfold STORE.inside
  rw [List.filter_eq_self.mpr, List.length_range]
  intro i hi
  have := List.mem_range.mp hi
  simp only [decide_eq_true_eq]
  omega

theorem run_fits (M : Int) (hM : M ≤ INT_MAX) (cs : List CALL) :
    ∀ (o : Nat) (buf : List Char), buf.length = o →
      (o : Int) + (calls_text cs).length < M →
      (run_stores 0 M o cs).foldl store_apply buf = buf ++ (calls_text cs).data ∧
      ((run_stores 0 M o cs).map (STORE.inside M)).sum = (calls_text cs).length ∧
      ∀ s ∈ run_stores 0 M o cs, s.overrun M = false := by
  induction cs with
  | nil =>
    intro o buf _ _
    simp [run_stores_nil, calls_text_nil]
  | cons c cs ih =>
    intro o buf hbuf hlt
    rw [calls_text_cons, String.length_append, Nat.cast_add] at hlt
    have hsz : size_t_of_int (M - o) = (M - o).toNat :=
      size_t_of_int_eq _ (by omega) (by omega)
    have hne : (M - (o : Int)).toNat ≠ 0 := by omega
    have htake : (sprintf c).data.take ((M - (o : Int)).toNat - 1) = (sprintf c).data := by
      apply List.take_of_length_le
      have : (sprintf c).data.length = (sprintf c).length := rfl
      omega
    have hstore : (snprintf (0 + (o : Int)) (size_t_of_int (M - o)) c).1 =
        [⟨o, (sprintf c).data⟩] := by
      simp only [snprintf, hsz, hne, if_false, htake, zero_add]
    have hnext := ih (o + (sprintf c).length) (buf ++ (sprintf c).data)
      (by rw [List.length_append, hbuf]; rfl) (by push_cast; omega)
    have hcast : ((o : Int) + ((sprintf c).length : Int)) = ((o + (sprintf c).length : Nat) : Int) := by
      push_cast; rfl
    rw [run_stores_cons, hstore, hcast]
    obtain ⟨h1, h2, h3⟩ := hnext
    refine ⟨?_, ?_, ?_⟩
    · rw [List.singleton_append, List.foldl_cons]
      have : store_apply buf ⟨o, (sprintf c).data⟩ = buf ++ (sprintf c).data := by
        simp [store_apply, hbuf]
      rw [this, h1, calls_text_cons, String.data_append, List.append_assoc]
    · rw [List.singleton_append, List.map_cons, List.sum_cons, h2, calls_text_cons,
        String.length_append, store_inside_all]
      · rfl
      · simp
      · simp only [String.length] at hlt ⊢; omega
    · intro s hs
      rw [List.singleton_append, List.mem_cons] at hs
      rcases hs with rfl | hs
      · simp only [STORE.overrun, decide_eq_false_iff_not, not_or, not_lt, not_le]
        simp only [String.length] at hlt
        constructor <;> omega
      · exact h3 s hs

/-- When the whole text fits, a run returns its length, leaves it in the buffer
as a C string, stores every byte of it inside the buffer and nothing outside. -/
theorem run_of_fits (M : Int) (hM : M ≤ INT_MAX) (cs : List CALL)
    (hlt : ((calls_text cs).length : Int) < M) :
    (run 0 M cs).offset = (calls_text cs).length ∧
    json_string (run 0 M cs) = (calls_text cs).data ∧
    bytes_written M (run 0 M cs) = (calls_text cs).length ∧
    ∀ s ∈ (run 0 M cs).stores, s.overrun M = false := by
  have h := run_fits M hM cs 0 [] rfl (by simpa using hlt)
  simp only [Nat.cast_zero, List.nil_append] at h
  exact ⟨rfl, h.1, h.2.1, h.2.2⟩

/-! ## Keys -/

theorem emitted_keys_append (a b : List CALL) :
    emitted_keys (a ++ b) = emitted_keys a ++ emitted_keys b := by
  simp [emitted_keys]

theorem header_calls_keys (h : EVENT_HEADER) (hv : h.valid) :
    ∃ calls, evel_json_encode_header_calls h = some calls ∧
      emitted_keys calls =
        ["commonEventHeader", "domain", "eventId"] ++
        (if h.event_type = none then [] else ["eventType"]) ++
        ["functionalRole", "lastEpochMicrosec", "reportingEntityId", "reportingEntityName",
         "sequence", "sourceId", "sourceName", "startEpochMicrosec", "priority", "version"] := by
  obtain ⟨hd0, hd1, hp⟩ := hv
  simp only [EVEL_DOMAIN_INTERNAL, EVEL_MAX_DOMAINS, EVEL_MAX_PRIORITIES] at hd0 hd1 hp
  unfold evel_json_encode_header_calls
  generalize h.event_domain = d at *
  generalize h.priority = p at *
  interval_cases d <;> interval_cases p <;> cases h.event_type <;>
    exact ⟨_, rfl, rfl⟩

/-! ## Encoders on a buffer that is large enough -/

theorem encode_header_fits (h : EVENT_HEADER) (M : Int) (cs : List CALL)
    (hc : evel_json_encode_header_calls h = some cs) (hM : M ≤ INT_MAX)
    (hlt : ((calls_text cs).length : Int) < M) :
    ∃ r, evel_json_encode_header 0 M h = some r ∧ r.offset = (calls_text cs).length ∧
      json_string r = (calls_text cs).data ∧ bytes_written M r = (calls_text cs).length ∧
      ∀ s ∈ r.stores, s.overrun M = false := by
  have h0 : 0 < M := by omega
  refine ⟨run 0 M cs, ?_, run_of_fits M hM cs hlt⟩
  rw [evel_json_encode_header_eq, if_pos h0, hc]
  rfl

theorem encode_fault_fits (f : EVENT_FAULT) (M : Int) (cs : List CALL)
    (hc : fault_calls f = some cs) (hd : f.header.event_domain = EVEL_DOMAIN_FAULT)
    (hM : M ≤ INT_MAX) (hlt : ((calls_text cs).length : Int) < M) :
    ∃ r, evel_json_encode_fault 0 M f = some r ∧ r.offset = (calls_text cs).length ∧
      json_string r = (calls_text cs).data ∧ bytes_written M r = (calls_text cs).length ∧
      ∀ s ∈ r.stores, s.overrun M = false := by
  have h0 : 0 < M := by omega
  refine ⟨run 0 M cs, ?_, run_of_fits M hM cs hlt⟩
  rw [evel_json_encode_fault_eq, if_pos ⟨h0, hd⟩, hc]
  rfl

theorem encode_measurement_fits (m : EVENT_MEASUREMENT) (M : Int) (cs : List CALL)
    (hc : measurement_calls m = some cs)
    (hd : m.header.event_domain = EVEL_DOMAIN_MEASUREMENT)
    (hM : M ≤ INT_MAX) (hlt : ((calls_text cs).length : Int) < M) :
    ∃ r, evel_json_encode_measurement 0 M m = some r ∧ r.offset = (calls_text cs).length ∧
      json_string r = (calls_text cs).data ∧ bytes_written M r = (calls_text cs).length ∧
      ∀ s ∈ r.stores, s.overrun M = false := by
  have h0 : 0 < M := by omega
  refine ⟨run 0 M cs, ?_, run_of_fits M hM cs hlt⟩
  rw [evel_json_encode_measurement_eq, if_pos ⟨h0, hd⟩, hc]
  rfl

theorem encode_report_fits (r : EVENT_REPORT) (M : Int) (cs : List CALL)
    (hc : report_calls r = some cs) (hd : r.header.event_domain = EVEL_DOMAIN_REPORT)
    (hM : M ≤ INT_MAX) (hlt : ((calls_text cs).length : Int) < M) :
    ∃ e, evel_json_encode_report 0 M r = some e ∧ e.offset = (calls_text cs).length ∧
      json_string e = (calls_text cs).data ∧ bytes_written M e = (calls_text cs).length ∧
      ∀ s ∈ e.stores, s.overrun M = false := by
  have h0 : 0 < M := by omega
  refine ⟨run 0 M cs, ?_, run_of_fits M hM cs hlt⟩
  rw [evel_json_encode_report_eq, if_pos ⟨h0, hd⟩, hc]
  rfl

theorem event_text_length (cs : List CALL) :
    (calls_text ([lit "\x7b\"event\":\x7b"] ++ cs ++ [lit "\x7d\x7d"])).length =
      (calls_text cs).length + 12 := by
  rw [calls_text_append, calls_text_append, String.length_append, String.length_append]
  have h1 : (calls_text [lit "\x7b\"event\":\x7b"]).length = 10 := by decide
  have h2 : (calls_text [lit "\x7d\x7d"]).length = 2 := by decide
  omega

theorem encode_event_fits (e : EVENT) (M : Int) (cs : List CALL)
    (hc : event_calls e = some cs) (hM : M ≤ INT_MAX)
    (hlt : ((calls_text cs).length : Int) < M) :
    ∃ r, evel_json_encode_event 0 M e = some r ∧ r.offset = (calls_text cs).length ∧
      json_string r = (calls_text cs).data ∧ bytes_written M r = (calls_text cs).length ∧
      ∀ s ∈ r.stores, s.overrun M = false := by
  have h0 : 10 < M := by
    unfold event_calls at hc
    cases hdc : domain_calls e with
    | none => simp [hdc] at hc
    | some ds =>
      simp only [hdc, Option.map_some', Option.some.injEq] at hc
      rw [← hc, event_text_length] at hlt
      omega
  refine ⟨run 0 M cs, ?_, run_of_fits M hM cs hlt⟩
  rw [evel_json_encode_event_eq, if_pos h0, hc]
  rfl

/-! ## C1: order of the additional information -/

theorem addl_info_add_all_eq (ps : List (String × String)) :
    ∀ f : EVENT_FAULT, f.header.event_domain = EVEL_DOMAIN_FAULT →
      evel_fault_addl_info_add_all f ps =
        some { f with additional_info :=
          (ps.reverse.map fun p => (⟨some p.1, some p.2⟩ : FAULT_ADDL_INFO)) ++
            f.additional_info } := by
  induction ps with
  | nil => intro f _; simp [evel_fault_addl_info_add_all]
  | cons p ps ih =>
    intro f hd
    simp only [evel_fault_addl_info_add_all, evel_fault_addl_info_add, hd, not_true_eq_false,
      if_false, Option.some_bind]
    exact (ih { f with
      additional_info := (dlist_push_first f.additional_info ⟨some p.1, some p.2⟩) } hd).trans
        (by simp [dlist_push_first])

theorem addl_info_calls_text (p : String × String) :
    calls_text (addl_info_calls ⟨some p.1, some p.2⟩) = addl_info_text p := by
  apply String.ext
  simp only [addl_info_calls, calls_text_cons, calls_text_nil, String.append_empty,
    addl_info_text, String.data_append]
  simp only [sprintf, vformat, fmt_s, List.append_assoc, List.cons_append, List.nil_append]

theorem comma_text : calls_text [lit ", "] = ", " := by decide

theorem addl_info_items_text (ps : List (String × String)) :
    calls_text (json_array_items addl_info_calls
        (ps.map fun p => (⟨some p.1, some p.2⟩ : FAULT_ADDL_INFO))) =
      join_comma (ps.map addl_info_text) := by
  induction ps with
  | nil => rfl
  | cons p ps ih =>
    cases ps with
    | nil =>
      simp only [List.map_cons, List.map_nil, json_array_items, separator_call,
        List.append_nil, join_comma]
      exact addl_info_calls_text p
    | cons q qs =>
      simp only [List.map_cons] at ih ⊢
      rw [json_array_items, calls_text_append, calls_text_append, ih, addl_info_calls_text,
        separator_call, comma_text, join_comma]

theorem addl_info_array_text (ps : List (String × String)) (hne : ps ≠ []) :
    calls_text (json_array "\"alarmAdditionalInformation\": [" addl_info_calls
        (ps.map fun p => (⟨some p.1, some p.2⟩ : FAULT_ADDL_INFO))) =
      alarm_additional_information_text ps := by
  cases ps with
  | nil => exact absurd rfl hne
  | cons p ps =>
    have h := addl_info_items_text (p :: ps)
    have h1 : calls_text [lit "\"alarmAdditionalInformation\": ["] =
        "\"alarmAdditionalInformation\": [" := by decide
    have h2 : calls_text [lit "], "] = "], " := by decide
    simp only [List.map_cons] at h
    simp only [json_array, dlist_get_first, List.map_cons, calls_text_append, h, h1, h2,
      alarm_additional_information_text]

/-- The calls of evel_json_encode_fault that follow the additional information. -/
theorem fault_calls_shape (f : EVENT_FAULT) (hv : f.valid) :
    ∃ rest, ∀ l : DLIST FAULT_ADDL_INFO,
      evel_json_encode_fault_calls { f with additional_info := l } =
        some ([lit ", \"faultFields\":\x7b"] ++
          json_array "\"alarmAdditionalInformation\": [" addl_info_calls l ++ rest) := by
  obtain ⟨_, _, hs, ht, hvf⟩ := hv
  simp only [EVEL_MAX_SEVERITIES, EVEL_MAX_SOURCE_TYPES, EVEL_MAX_VF_STATUSES] at hs ht hvf
  unfold evel_json_encode_fault_calls
  generalize f.event_severity = s at *
  generalize f.event_source_type = t at *
  generalize f.vf_status = v at *
  interval_cases s <;> interval_cases t <;> interval_cases v <;>
    exact ⟨_, fun l => by simp only [List.append_assoc]; rfl⟩

/-- C2, at the first evel_measurement_fsys_use_add call of the demo program
(ephemeral_configured = 200.11, block_configured = 100.11): the entry added
holds 100.11, the block_configured argument, in ephemeral_configured, and the
encoder prints this value under ephemeralConfigured. -/
theorem C2_fsys_use_add_stores_block_configured_as_ephemeral :
    (evel_measurement_fsys_use_add demo_measurement_new "00-11-22" 100.11 100.22 33
        200.11 200.22 44).map
      (fun m => m.filesystem_usage.map fun e =>
        (e.block_configured, e.ephemeral_configured,
          (fsys_use_calls e).filter fun c => c.fmt = "\"ephemeralConfigured\": %lf, ")) =
      some [(100.11, 100.11, [⟨"\"ephemeralConfigured\": %lf, ", ARG.lf 100.11⟩])] ∧
    (100.11 : double) ≠ 200.11 := by
  decide!

/-! ## C8: the string setters are set-once -/

/-- C8: for each of evel_fault_interface_set, evel_fault_type_set,
evel_measurement_type_set and evel_report_type_set, on an event of the setter's
domain whose property is unset, the call with a sets the property to a and a
second call with b succeeds and returns the event unchanged. -/
theorem C8_string_setters_set_once (f : EVENT_FAULT) (m : EVENT_MEASUREMENT)
    (r : EVENT_REPORT) (a b : String)
    (hf : f.header.event_domain = EVEL_DOMAIN_FAULT)
    (hm : m.header.event_domain = EVEL_DOMAIN_MEASUREMENT)
    (hr : r.header.event_domain = EVEL_DOMAIN_REPORT)
    (hfi : f.alarm_interface_a = none) (hft : f.header.event_type = none)
    (hmt : m.header.event_type = none) (hrt : r.header.event_type = none) :
    (∃ f1, evel_fault_interface_set f a = some f1 ∧ f1.alarm_interface_a = some a ∧
      evel_fault_interface_set f1 b = some f1) ∧
    (∃ f1, evel_fault_type_set f a = some f1 ∧ f1.header.event_type = some a ∧
      evel_fault_type_set f1 b = some f1) ∧
    (∃ m1, evel_measurement_type_set m a = some m1 ∧ m1.header.event_type = some a ∧
      evel_measurement_type_set m1 b = some m1) ∧
    (∃ r1, evel_report_type_set r a = some r1 ∧ r1.header.event_type = some a ∧
      evel_report_type_set r1 b = some r1) := by
  refine ⟨⟨{ f with alarm_interface_a := some a }, ?_, rfl, ?_⟩,
    ⟨{ f with header := { f.header with event_type := some a } }, ?_, rfl, ?_⟩,
    ⟨{ m with header := { m.header with event_type := some a } }, ?_, rfl, ?_⟩,
    ⟨{ r with header := { r.header with event_type := some a } }, ?_, rfl, ?_⟩⟩
  · simp [evel_fault_interface_set, hf, hfi]
  · simp [evel_fault_interface_set, hf]
  · simp [evel_fault_type_set, hf, hft]
  · simp [evel_fault_type_set, hf]
  · simp [evel_measurement_type_set, hm, hmt]
  · simp [evel_measurement_type_set, hm]
  · simp [evel_report_type_set, hr, hrt]
  · simp [evel_report_type_set, hr]

/-- C8, witness: the fault, measurement and report of the demo program as their
factories return them, with the strings of the demo program. -/
theorem C8_string_setters_set_once_witness :
    demo_fault_new.header.event_domain = EVEL_DOMAIN_FAULT ∧
    demo_measurement_new.header.event_domain = EVEL_DOMAIN_MEASUREMENT ∧
    demo_report_new.header.event_domain = EVEL_DOMAIN_REPORT ∧
    demo_fault_new.alarm_interface_a = none ∧ demo_fault_new.header.event_type = none ∧
    demo_measurement_new.header.event_type = none ∧
    demo_report_new.header.event_type = none ∧
    ((∃ f1, evel_fault_interface_set demo_fault_new "My Interface Card" = some f1 ∧
        f1.alarm_interface_a = some "My Interface Card" ∧
        evel_fault_interface_set f1 "Another card" = some f1) ∧
      (∃ f1, evel_fault_type_set demo_fault_new "My Interface Card" = some f1 ∧
        f1.header.event_type = some "My Interface Card" ∧
        evel_fault_type_set f1 "Another card" = some f1) ∧
      (∃ m1, evel_measurement_type_set demo_measurement_new "My Interface Card" = some m1 ∧
        m1.header.event_type = some "My Interface Card" ∧
        evel_measurement_type_set m1 "Another card" = some m1) ∧
      (∃ r1, evel_report_type_set demo_report_new "My Interface Card" = some r1 ∧
        r1.header.event_type = some "My Interface Card" ∧
        evel_report_type_set r1 "Another card" = some r1)) :=
  ⟨by decide, by decide!, by decide!, by decide, by decide, by decide!, by decide!,
    C8_string_setters_set_once demo_fault_new demo_measurement_new demo_report_new
      "My Interface Card" "Another card" (by decide) (by decide!) (by decide!) (by decide)
      (by decide) (by decide!) (by decide!)⟩

/-! ## C9: the numeric setters -/

/-- C9, at the failing input: on the measurement of the demo program as
evel_new_measurement returns it, each numeric setter called with 0 and then
with 5 leaves the property equal to 5, the value of the second call. -/
theorem C9_numeric_setter_second_call_overwrites_zero :
    ((evel_measurement_media_port_use_set demo_measurement_new 0).bind
        fun m => evel_measurement_media_port_use_set m 5).map
      (fun m => m.media_ports_in_use) = some 5 ∧
    ((evel_measurement_agg_cpu_use_set demo_measurement_new 0).bind
        fun m => evel_measurement_agg_cpu_use_set m 5).map
      (fun m => m.aggregate_cpu_usage) = some 5 ∧
    ((evel_measurement_vnfc_scaling_metric_set demo_measurement_new 0).bind
        fun m => evel_measurement_vnfc_scaling_metric_set m 5).map
      (fun m => m.vnfc_scaling_metric) = some 5 := by
  decide!

/-! ## Keys of the arrays -/

theorem emitted_keys_nil : emitted_keys [] = [] := rfl

theorem emitted_keys_cons (c : CALL) (cs : List CALL) :
    emitted_keys (c :: cs) = c.keys ++ emitted_keys cs := rfl

theorem json_array_items_cons {α : Type} (body : α → List CALL) (a : α) (l : List α) :
    json_array_items body (a :: l) =
      body a ++ separator_call l ++ json_array_items body l := rfl

theorem separator_keys {α : Type} (l : List α) : emitted_keys (separator_call l) = [] := by
  cases l with
  | nil => rfl
  | cons b l => rfl

theorem not_mem_keys_items {α : Type} (k : String) (body : α → List CALL)
    (hbody : ∀ a, k ∉ emitted_keys (body a)) (l : List α) :
    k ∉ emitted_keys (json_array_items body l) := by
  induction l with
  | nil => simp [json_array_items, emitted_keys_nil]
  | cons a l ih =>
    rw [json_array_items_cons, emitted_keys_append, emitted_keys_append, separator_keys]
    simp only [List.mem_append, not_or, List.not_mem_nil, not_false_eq_true, and_true]
    exact ⟨hbody a, ih⟩

theorem not_mem_keys_array {α : Type} (k : String) (opening : String) (body : α → List CALL)
    (hopen : k ∉ (lit opening).keys) (hbody : ∀ a, k ∉ emitted_keys (body a)) (l : DLIST α) :
    k ∉ emitted_keys (json_array opening body l) := by
  cases l with
  | nil => simp [json_array, dlist_get_first, emitted_keys_nil]
  | cons a l =>
    have hclose : emitted_keys [lit "], "] = [] := by decide
    simp only [json_array, dlist_get_first, emitted_keys_append, emitted_keys_cons,
      emitted_keys_nil, List.append_nil, List.mem_append, not_or, hclose, List.not_mem_nil,
      not_false_eq_true, and_true]
    exact ⟨hopen, not_mem_keys_items k body hbody (a :: l)⟩

/-! ## The fields the numeric setters of a measurement leave -/

theorem measurement_op_step (op : MEASUREMENT_OP) (m0 m1 : EVENT_MEASUREMENT)
    (h : op.apply m0 = some m1) :
    m1.header = m0.header ∧
    (m1.media_ports_in_use > 0 ↔
      m0.media_ports_in_use > 0 ∨ ∃ v, op = .media_port_use_set v ∧ v > 0) ∧
    (m1.aggregate_cpu_usage > 0 ↔
      m0.aggregate_cpu_usage > 0 ∨ ∃ v, op = .agg_cpu_use_set v ∧ v > 0) ∧
    (m1.vnfc_scaling_metric > 0 ↔
      m0.vnfc_scaling_metric > 0 ∨ ∃ v, op = .vnfc_scaling_metric_set v ∧ v > 0) := by
  cases op with
  | agg_cpu_use_set x =>
    simp only [MEASUREMENT_OP.apply, evel_measurement_agg_cpu_use_set] at h
    split_ifs at h with h1 h2 h3
    · cases h; simp [h3]
    · cases h
      simp only [gt_iff_lt, MEASUREMENT_OP.agg_cpu_use_set.injEq,
        MEASUREMENT_OP.media_port_use_set.injEq, MEASUREMENT_OP.vnfc_scaling_metric_set.injEq,
        exists_eq_left', reduceCtorEq, false_and, exists_false, or_false, true_and, iff_self,
        and_true]
      constructor
      · intro h; exact Or.inr h
      · rintro (h | h)
        · exact absurd h h3
        · exact h
  | media_port_use_set x =>
    simp only [MEASUREMENT_OP.apply, evel_measurement_media_port_use_set] at h
    split_ifs at h with h1 h2 h3
    · cases h; simp [h3]
    · cases h
      simp only [gt_iff_lt, MEASUREMENT_OP.agg_cpu_use_set.injEq,
        MEASUREMENT_OP.media_port_use_set.injEq, MEASUREMENT_OP.vnfc_scaling_metric_set.injEq,
        exists_eq_left', reduceCtorEq, false_and, exists_false, or_false, true_and, iff_self,
        and_true]
      constructor
      · intro h; exact Or.inr h
      · rintro (h | h)
        · exact absurd h h3
        · exact h
  | vnfc_scaling_metric_set x =>
    simp only [MEASUREMENT_OP.apply, evel_measurement_vnfc_scaling_metric_set] at h
    split_ifs at h with h1 h2 h3
    · cases h; simp [h3]
    · cases h
      simp only [gt_iff_lt, MEASUREMENT_OP.agg_cpu_use_set.injEq,
        MEASUREMENT_OP.media_port_use_set.injEq, MEASUREMENT_OP.vnfc_scaling_metric_set.injEq,
        exists_eq_left', reduceCtorEq, false_and, exists_false, or_false, true_and, iff_self,
        and_true]
      constructor
      · intro h; exact Or.inr h
      · rintro (h | h)
        · exact absurd h h3
        · exact h

theorem measurement_apply_all_fields (ops : List MEASUREMENT_OP) :
    ∀ m0 m : EVENT_MEASUREMENT, measurement_apply_all m0 ops = some m →
      m.header = m0.header ∧
      (m.media_ports_in_use > 0 ↔
        m0.media_ports_in_use > 0 ∨ ∃ v, .media_port_use_set v ∈ ops ∧ v > 0) ∧
      (m.aggregate_cpu_usage > 0 ↔
        m0.aggregate_cpu_usage > 0 ∨ ∃ v, .agg_cpu_use_set v ∈ ops ∧ v > 0) ∧
      (m.vnfc_scaling_metric > 0 ↔
        m0.vnfc_scaling_metric > 0 ∨ ∃ v, .vnfc_scaling_metric_set v ∈ ops ∧ v > 0) := by
  induction ops with
  | nil =>
    intro m0 m h
    simp only [measurement_apply_all, Option.some.injEq] at h
    subst h
    simp
  | cons op ops ih =>
    intro m0 m h
    simp only [measurement_apply_all] at h
    cases h1 : op.apply m0 with
    | none => simp [h1] at h
    | some m1 =>
      simp only [h1, Option.some_bind] at h
      obtain ⟨s0, s1, s2, s3⟩ := measurement_op_step op m0 m1 h1
      obtain ⟨i0, i1, i2, i3⟩ := ih m1 m h
      refine ⟨i0.trans s0, ?_, ?_, ?_⟩
      · rw [i1, s1]
        constructor
        · rintro ((h | ⟨v, rfl, hv⟩) | ⟨v, hv, hp⟩)
          · exact Or.inl h
          · exact Or.inr ⟨v, List.mem_cons_self _ _, hv⟩
          · exact Or.inr ⟨v, List.mem_cons_of_mem _ hv, hp⟩
        · rintro (h | ⟨v, hv, hp⟩)
          · exact Or.inl (Or.inl h)
          · rcases List.mem_cons.mp hv with rfl | hv
            · exact Or.inl (Or.inr ⟨v, rfl, hp⟩)
            · exact Or.inr ⟨v, hv, hp⟩
      · rw [i2, s2]
        constructor
        · rintro ((h | ⟨v, rfl, hv⟩) | ⟨v, hv, hp⟩)
          · exact Or.inl h
          · exact Or.inr ⟨v, List.mem_cons_self _ _, hv⟩
          · exact Or.inr ⟨v, List.mem_cons_of_mem _ hv, hp⟩
        · rintro (h | ⟨v, hv, hp⟩)
          · exact Or.inl (Or.inl h)
          · rcases List.mem_cons.mp hv with rfl | hv
            · exact Or.inl (Or.inr ⟨v, rfl, hp⟩)
            · exact Or.inr ⟨v, hv, hp⟩
      · rw [i3, s3]
        constructor
        · rintro ((h | ⟨v, rfl, hv⟩) | ⟨v, hv, hp⟩)
          · exact Or.inl h
          · exact Or.inr ⟨v, List.mem_cons_self _ _, hv⟩
          · exact Or.inr ⟨v, List.mem_cons_of_mem _ hv, hp⟩
        · rintro (h | ⟨v, hv, hp⟩)
          · exact Or.inl (Or.inl h)
          · rcases List.mem_cons.mp hv with rfl | hv
            · exact Or.inl (Or.inr ⟨v, rfl, hp⟩)
            · exact Or.inr ⟨v, hv, hp⟩

theorem new_measurement_fields (env env' : ENV) (tv : timeval) (a b : Int) (c d e f : double)
    (g : Int) (m0 : EVENT_MEASUREMENT)
    (h : evel_new_measurement env tv a b c d e f g = some (m0, env')) :
    m0.valid ∧ m0.header.event_type = none ∧ m0.media_ports_in_use = 0 ∧
      m0.aggregate_cpu_usage = 0 ∧ m0.vnfc_scaling_metric = 0 := by
  unfold evel_new_measurement at h
  split_ifs at h
  simp only [Option.some.injEq, Prod.mk.injEq] at h
  obtain ⟨h, _⟩ := h
  subst h
  exact ⟨⟨rfl, show EVEL_PRIORITY_NORMAL < EVEL_MAX_PRIORITIES by decide⟩, rfl, rfl, rfl, rfl⟩

/-! ## The fields the setters of a fault leave -/

theorem fault_switch_calls (f : EVENT_FAULT) (hv : f.valid) :
    ∃ sev src vf, severity_call f.event_severity = some sev ∧
      source_type_call f.event_source_type = some src ∧
      vf_status_call f.vf_status = some vf ∧
      sev.keys = ["eventSeverity"] ∧ src.keys = ["eventSourceType"] ∧
      vf.keys = ["vfStatus"] := by
  obtain ⟨_, _, hs, ht, hvf⟩ := hv
  simp only [EVEL_MAX_SEVERITIES, EVEL_MAX_SOURCE_TYPES, EVEL_MAX_VF_STATUSES] at hs ht hvf
  generalize f.event_severity = s at *
  generalize f.event_source_type = t at *
  generalize f.vf_status = v at *
  have h1 : ∃ sev, severity_call s = some sev ∧ sev.keys = ["eventSeverity"] := by
    interval_cases s <;> exact ⟨_, rfl, by decide⟩
  have h2 : ∃ src, source_type_call t = some src ∧ src.keys = ["eventSourceType"] := by
    interval_cases t <;> exact ⟨_, rfl, by decide⟩
  have h3 : ∃ vf, vf_status_call v = some vf ∧ vf.keys = ["vfStatus"] := by
    interval_cases v <;> exact ⟨_, rfl, by decide⟩
  obtain ⟨sev, e1, k1⟩ := h1
  obtain ⟨src, e2, k2⟩ := h2
  obtain ⟨vf, e3, k3⟩ := h3
  exact ⟨sev, src, vf, e1, e2, e3, k1, k2, k3⟩

theorem fault_op_step (op : FAULT_OP) (f0 f1 : EVENT_FAULT) (h : op.apply f0 = some f1) :
    f1.valid = f0.valid ∧
    f1.alarm_interface_a = (f0.alarm_interface_a <|> op.interface_arg) ∧
    f1.header.event_type = (f0.header.event_type <|> op.type_arg) := by
  cases op with
  | type_set s =>
    simp only [FAULT_OP.apply, evel_fault_type_set] at h
    split_ifs at h with h1 h2
    · cases h
      simp [EVENT_FAULT.valid, FAULT_OP.interface_arg, FAULT_OP.type_arg, h2]
    · cases h
      cases ht : f0.header.event_type with
      | none => exact absurd ht h2
      | some t => simp [FAULT_OP.interface_arg, FAULT_OP.type_arg]
  | interface_set s =>
    simp only [FAULT_OP.apply, evel_fault_interface_set] at h
    split_ifs at h with h1 h2
    · cases h
      simp [EVENT_FAULT.valid, FAULT_OP.interface_arg, FAULT_OP.type_arg, h2]
    · cases h
      cases ht : f0.alarm_interface_a with
      | none => exact absurd ht h2
      | some t => simp [FAULT_OP.interface_arg, FAULT_OP.type_arg]
  | addl_info_add n v =>
    simp only [FAULT_OP.apply, evel_fault_addl_info_add] at h
    split_ifs at h with h1
    cases h
    simp [EVENT_FAULT.valid, FAULT_OP.interface_arg, FAULT_OP.type_arg]

theorem fault_apply_all_fields (ops : List FAULT_OP) :
    ∀ f0 f : EVENT_FAULT, fault_apply_all f0 ops = some f →
      f.valid = f0.valid ∧
      f.alarm_interface_a =
        (f0.alarm_interface_a <|> ops.findSome? FAULT_OP.interface_arg) ∧
      f.header.event_type = (f0.header.event_type <|> ops.findSome? FAULT_OP.type_arg) := by
  induction ops with
  | nil =>
    intro f0 f h
    simp only [fault_apply_all, Option.some.injEq] at h
    subst h
    simp
  | cons op ops ih =>
    intro f0 f h
    simp only [fault_apply_all] at h
    cases h1 : op.apply f0 with
    | none => simp [h1] at h
    | some f1 =>
      simp only [h1, Option.some_bind] at h
      obtain ⟨s0, s1, s2⟩ := fault_op_step op f0 f1 h1
      obtain ⟨i0, i1, i2⟩ := ih f1 f h
      refine ⟨i0.trans s0, ?_, ?_⟩
      · rw [i1, s1, List.findSome?_cons]
        cases f0.alarm_interface_a <;> cases op.interface_arg <;> simp
      · rw [i2, s2, List.findSome?_cons]
        cases f0.header.event_type <;> cases op.type_arg <;> simp

theorem new_fault_fields (env env' : ENV) (tv : timeval) (condition problem : String)
    (priority : EVEL_EVENT_PRIORITIES) (severity : EVEL_FAULT_SEVERITIES) (f0 : EVENT_FAULT)
    (hsrc : env.event_source_type < EVEL_MAX_SOURCE_TYPES)
    (h : evel_new_fault env tv condition problem priority severity = some (f0, env')) :
    f0.valid ∧ f0.header.event_type = none ∧ f0.alarm_interface_a = none ∧
      f0.additional_info = [] := by
  unfold evel_new_fault at h
  split_ifs at h with h1 h2
  simp only [Option.some.injEq, Prod.mk.injEq] at h
  obtain ⟨h, _⟩ := h
  subst h
  exact ⟨⟨rfl, h1, h2, hsrc,
    show EVEL_VF_STATUS_ACTIVE < EVEL_MAX_VF_STATUSES by decide⟩, rfl, rfl, rfl⟩

/-! ## The calls of the header and of the fault block -/

theorem count_keys_array_zero {α : Type} (k : String) (opening : String)
    (body : α → List CALL) (hopen : k ∉ (lit opening).keys)
    (hbody : ∀ a, k ∉ emitted_keys (body a)) (l : DLIST α) :
    (emitted_keys (json_array opening body l)).count k = 0 :=
  List.count_eq_zero.mpr (not_mem_keys_array k opening body hopen hbody l)

theorem header_shape (h : EVENT_HEADER) (hv : h.valid) :
    ∃ hcalls dom, evel_json_encode_header_calls h = some hcalls ∧
      domain_call h.event_domain = some dom ∧
      hcalls.take 2 = [lit "\"commonEventHeader\":\x7b", dom] ∧
      hcalls.getLast? = some (lit "\x7d") := by
  obtain ⟨hd0, hd1, hp⟩ := hv
  simp only [EVEL_DOMAIN_INTERNAL, EVEL_MAX_DOMAINS, EVEL_MAX_PRIORITIES] at hd0 hd1 hp
  unfold evel_json_encode_header_calls
  generalize h.event_domain = d at *
  generalize h.priority = p at *
  interval_cases d <;> interval_cases p <;> cases h.event_type <;>
    exact ⟨_, _, rfl, rfl, rfl, rfl⟩

theorem getLast?_of_eq_concat {α : Type} (l pre : List α) (x : α) (h : l = pre ++ [x]) :
    l.getLast? = some x := by
  rw [h, List.getLast?_concat]

theorem fault_block (f : EVENT_FAULT) (hv : f.valid) :
    ∃ fcalls, evel_json_encode_fault_calls f = some fcalls ∧
      fcalls.head? = some (lit (", \"" ++ "faultFields" ++ "\":\x7b")) ∧
      (∃ c, fcalls.getLast? = some c ∧ c.fmt.data.getLast? = some rbrace) ∧
      ∀ k ∈ domain_block_keys,
        (emitted_keys fcalls).count k = if k = "faultFields" then 1 else 0 := by
  obtain ⟨sev, src, vf, e1, e2, e3, k1, k2, k3⟩ := fault_switch_calls f hv
  have hopen : (lit ", \"faultFields\":\x7b").keys = ["faultFields"] := by decide
  have hcond : (⟨"\"alarmCondition\": \"%s\", ", .s f.alarm_condition⟩ : CALL).keys =
      ["alarmCondition"] := rfl
  have hver : (⟨"\"faultFieldsVersion\": %d, ", .d EVEL_API_VERSION⟩ : CALL).keys =
      ["faultFieldsVersion"] := rfl
  have hprob : (⟨"\"specificProblem\": \"%s\", ", .s f.specific_problem⟩ : CALL).keys =
      ["specificProblem"] := rfl
  have hclose : (lit "\x7d").keys = [] := by decide
  have hi : ∀ s, (⟨"\"alarmInterfaceA\": \"%s\", ", .s (some s)⟩ : CALL).keys =
      ["alarmInterfaceA"] := fun _ => rfl
  refine ⟨_, by unfold evel_json_encode_fault_calls; rw [e1, e2, e3], ?_, ?_, ?_⟩
  · rfl
  · refine ⟨lit "\x7d", getLast?_of_eq_concat _
      ([lit ", \"faultFields\":\x7b"] ++
        json_array "\"alarmAdditionalInformation\": [" addl_info_calls f.additional_info ++
        [⟨"\"alarmCondition\": \"%s\", ", .s f.alarm_condition⟩] ++
        (match f.alarm_interface_a with
          | some interface => [⟨"\"alarmInterfaceA\": \"%s\", ", .s (some interface)⟩]
          | none => []) ++
        [sev, src, ⟨"\"faultFieldsVersion\": %d, ", .d EVEL_API_VERSION⟩,
          ⟨"\"specificProblem\": \"%s\", ", .s f.specific_problem⟩, vf]) _ (by simp),
      by decide⟩
  · intro k hk
    simp only [domain_block_keys, List.mem_cons, List.mem_singleton, List.not_mem_nil,
      or_false] at hk
    rcases hk with rfl | rfl | rfl
    · have harr := count_keys_array_zero "faultFields" "\"alarmAdditionalInformation\": ["
        addl_info_calls (by decide)
        (fun a => show "faultFields" ∉ ["name", "value"] from by decide) f.additional_info
      simp only [emitted_keys_append, emitted_keys_cons, emitted_keys_nil, List.count_append,
        harr, hopen, hcond, hver, hprob, hclose, k1, k2, k3, List.append_nil]
      cases f.alarm_interface_a <;>
        simp only [emitted_keys_cons, emitted_keys_nil, hi, List.append_nil] <;> decide
    · have harr := count_keys_array_zero "measurementsForVfScaling"
        "\"alarmAdditionalInformation\": [" addl_info_calls (by decide)
        (fun a => show "measurementsForVfScaling" ∉ ["name", "value"] from by decide)
        f.additional_info
      simp only [emitted_keys_append, emitted_keys_cons, emitted_keys_nil, List.count_append,
        harr, hopen, hcond, hver, hprob, hclose, k1, k2, k3, List.append_nil]
      cases f.alarm_interface_a <;>
        simp only [emitted_keys_cons, emitted_keys_nil, hi, List.append_nil] <;> decide
    · have harr := count_keys_array_zero "measurementsForVfReporting"
        "\"alarmAdditionalInformation\": [" addl_info_calls (by decide)
        (fun a => show "measurementsForVfReporting" ∉ ["name", "value"] from by decide)
        f.additional_info
      simp only [emitted_keys_append, emitted_keys_cons, emitted_keys_nil, List.count_append,
        harr, hopen, hcond, hver, hprob, hclose, k1, k2, k3, List.append_nil]
      cases f.alarm_interface_a <;>
        simp only [emitted_keys_cons, emitted_keys_nil, hi, List.append_nil] <;> decide

/-! ## C10: the value returned and the bytes written -/

/-- C10, at the failing input: with a buffer of 100 bytes, each encoder returns
the length of the whole text of the demo program's event (414, 402, 757, 725 and
477) although 99 bytes of text were written into the buffer, the value returned
is not smaller than max_size, and stores are made beyond the end of the buffer. -/
theorem C10_return_value_is_not_bytes_written :
    (evel_json_encode_event 0 100 (.header demo_heartbeat)).map
      (fun r => (r.offset, bytes_written 100 r, r.stores.any (STORE.overrun 100))) =
        some (414, 99, true) ∧
    (evel_json_encode_header 0 100 demo_heartbeat).map
      (fun r => (r.offset, bytes_written 100 r, r.stores.any (STORE.overrun 100))) =
        some (402, 99, true) ∧
    (evel_json_encode_fault 0 100 demo_fault).map
      (fun r => (r.offset, bytes_written 100 r, r.stores.any (STORE.overrun 100))) =
        some (757, 99, true) ∧
    (evel_json_encode_measurement 0 100 demo_measurement_set).map
      (fun r => (r.offset, bytes_written 100 r, r.stores.any (STORE.overrun 100))) =
        some (725, 99, true) ∧
    (evel_json_encode_report 0 100 demo_report_new).map
      (fun r => (r.offset, bytes_written 100 r, r.stores.any (STORE.overrun 100))) =
        some (477, 99, true) := by
  decide!

/-! ## C20: an encoding that fits -/

theorem run_sizes_nil (M o : Int) : run_sizes M o [] = [] := rfl

theorem run_sizes_cons (M o : Int) (c : CALL) (cs : List CALL) :
    run_sizes M o (c :: cs) = (M - o) :: run_sizes M (o + (sprintf c).length) cs := rfl

/-- The stores of a run are those of its calls, each made at `json + offset`
with the size `max_size - offset` that run_sizes lists. -/
theorem run_stores_sizes (j M : Int) (cs : List CALL) (o : Int) :
    run_stores j M o cs =
      ((cs.zip (run_sizes M o cs)).map
        (fun p => (snprintf (j + (M - p.2)) (size_t_of_int p.2) p.1).1)).flatten := by
  induction cs generalizing o with
  | nil => rfl
  | cons c cs ih =>
    rw [run_stores_cons, run_sizes_cons, List.zip_cons_cons, List.map_cons, List.flatten_cons,
      ← ih]
    have h : M - (M - o) = o := by ring
    simp only [h]

theorem run_sizes_pos (M : Int) (cs : List CALL) :
    ∀ o : Int, o + (calls_text cs).length < M → ∀ sz ∈ run_sizes M o cs, 0 < sz := by
  induction cs with
  | nil => intro o _ sz hsz; simp [run_sizes_nil] at hsz
  | cons c cs ih =>
    intro o hlt sz hsz
    rw [calls_text_cons, String.length_append, Nat.cast_add] at hlt
    rw [run_sizes_cons, List.mem_cons] at hsz
    rcases hsz with rfl | hsz
    · omega
    · exact ih _ (by omega) sz hsz

theorem run_stores_length (M : Int) (hM : M ≤ INT_MAX) (cs : List CALL) :
    ∀ o : Int, 0 ≤ o → o + (calls_text cs).length < M →
      (run_stores 0 M o cs).length = cs.length := by
  induction cs with
  | nil => intro o _ _; rfl
  | cons c cs ih =>
    intro o ho hlt
    rw [calls_text_cons, String.length_append, Nat.cast_add] at hlt
    have hsz : size_t_of_int (M - o) = (M - o).toNat :=
      size_t_of_int_eq _ (by omega) (by omega)
    have hne : (M - o).toNat ≠ 0 := by omega
    have hstore : (snprintf (0 + o) (size_t_of_int (M - o)) c).1 =
        [⟨0 + o, (sprintf c).data.take ((M - o).toNat - 1)⟩] := by
      simp only [snprintf, hsz, hne, if_false]
    rw [run_stores_cons, hstore, List.length_append, ih _ (by omega) (by omega)]
    simp only [List.length_cons, List.length_nil]
    omega

/-- C20: when the complete encoding of an event (the text its calls format,
`L` characters) is shorter than `max_size`, evel_json_encode_event returns
exactly `L`, the buffer holds exactly that text as a C string, all `L` bytes of
it are stored inside the buffer and no store overruns it, every call stores
something, and the size `max_size - offset` passed to each snprintf call is
positive. -/
theorem C20_encoding_that_fits (e : EVENT) (M : Int) (cs : List CALL)
    (hc : event_calls e = some cs) (hM : M ≤ INT_MAX)
    (hlt : ((calls_text cs).length : Int) < M) :
    ∃ r, evel_json_encode_event 0 M e = some r ∧
      r.offset = (calls_text cs).length ∧
      json_string r = (calls_text cs).data ∧
      bytes_written M r = (calls_text cs).length ∧
      (∀ s ∈ r.stores, s.overrun M = false) ∧
      r.stores.length = cs.length ∧
      r.stores = ((cs.zip (run_sizes M 0 cs)).map
        (fun p => (snprintf (0 + (M - p.2)) (size_t_of_int p.2) p.1).1)).flatten ∧
      ∀ sz ∈ run_sizes M 0 cs, 0 < sz := by
  have h0 : 10 < M := by
    unfold event_calls at hc
    cases hdc : domain_calls e with
    | none => simp [hdc] at hc
    | some ds =>
      simp only [hdc, Option.map_some', Option.some.injEq] at hc
      rw [← hc, event_text_length] at hlt
      omega
  have hrun := run_of_fits M hM cs hlt
  refine ⟨run 0 M cs, ?_, hrun.1, hrun.2.1, hrun.2.2.1, hrun.2.2.2, ?_, ?_, ?_⟩
  · rw [evel_json_encode_event_eq, if_pos h0, hc]
    rfl
  · exact run_stores_length M hM cs 0 (le_refl 0) (by simpa using hlt)
  · exact run_stores_sizes 0 M cs 0
  · exact run_sizes_pos M cs 0 (by simpa using hlt)

/-- C20 at the fault of the demo program in a buffer of EVEL_MAX_JSON_BODY
bytes. -/
theorem C20_encoding_that_fits_witness :
    ∃ cs, event_calls (.fault demo_fault) = some cs ∧
      ((calls_text cs).length : Int) < EVEL_MAX_JSON_BODY ∧
      ∃ r, evel_json_encode_event 0 EVEL_MAX_JSON_BODY (.fault demo_fault) = some r ∧
        r.offset = (calls_text cs).length ∧
        json_string r = (calls_text cs).data ∧
        bytes_written EVEL_MAX_JSON_BODY r = (calls_text cs).length ∧
        (∀ s ∈ r.stores, s.overrun EVEL_MAX_JSON_BODY = false) ∧
        r.stores.length = cs.length ∧
        r.stores = ((cs.zip (run_sizes EVEL_MAX_JSON_BODY 0 cs)).map
          (fun p => (snprintf (0 + (EVEL_MAX_JSON_BODY - p.2)) (size_t_of_int p.2) p.1).1)).flatten ∧
        ∀ sz ∈ run_sizes EVEL_MAX_JSON_BODY 0 cs, 0 < sz :=   by
  have hs : (event_calls (.fault demo_fault)).isSome = true := by decide!
  obtain ⟨cs, hc⟩ := Option.isSome_iff_exists.mp hs
  have hl : (event_calls (.fault demo_fault)).map (fun cs => (calls_text cs).length) =
      some 769 := by decide!
  rw [hc, Option.map_some', Option.some.injEq] at hl
  have hlt : ((calls_text cs).length : Int) < EVEL_MAX_JSON_BODY := by
    rw [hl]; decide
  exact ⟨cs, hc, hlt,
    C20_encoding_that_fits (.fault demo_fault) EVEL_MAX_JSON_BODY cs hc (by decide) hlt⟩

/-! ## C12, C19: sequence numbers -/

theorem int32_wrap_id (x : Int) (h0 : -2147483648 ≤ x) (h1 : x ≤ INT_MAX) :
    int32_wrap x = x := by
  unfold int32_wrap
  unfold INT_MAX at h1
  omega

theorem int32_wrap_succ (x k : Int) : int32_wrap (int32_wrap x + k) = int32_wrap (x + k) := by
  unfold int32_wrap
  omega

/-- Every factory call gives its event the next value of the counter and
leaves that value in the counter. -/
theorem create_sequence (env env' : ENV) (c : NEW_EVENT) (e : EVENT)
    (h : c.create env = some (e, env')) :
    e.hdr.sequence = int32_wrap (env.event_sequence + 1) ∧
    env'.event_sequence = int32_wrap (env.event_sequence + 1) := by
  cases c with
  | heartbeat tv =>
    simp only [NEW_EVENT.create, Option.some.injEq, Prod.mk.injEq] at h
    obtain ⟨rfl, rfl⟩ := h
    exact ⟨rfl, rfl⟩
  | fault tv a b p s =>
    simp only [NEW_EVENT.create, evel_new_fault] at h
    split_ifs at h <;>
      simp only [Option.map_some', Option.map_none', Option.some.injEq, Prod.mk.injEq,
        reduceCtorEq] at h
    obtain ⟨rfl, rfl⟩ := h
    exact ⟨rfl, rfl⟩
  | measurement tv a b c d e f g =>
    simp only [NEW_EVENT.create, evel_new_measurement] at h
    split_ifs at h <;>
      simp only [Option.map_some', Option.map_none', Option.some.injEq, Prod.mk.injEq,
        reduceCtorEq] at h
    obtain ⟨rfl, rfl⟩ := h
    exact ⟨rfl, rfl⟩
  | report tv a =>
    simp only [NEW_EVENT.create, evel_new_report] at h
    split_ifs at h <;>
      simp only [Option.map_some', Option.map_none', Option.some.injEq, Prod.mk.injEq,
        reduceCtorEq] at h
    obtain ⟨rfl, rfl⟩ := h
    exact ⟨rfl, rfl⟩

theorem create_all_nil (env : ENV) : create_all env [] = some ([], env) := rfl

theorem create_all_cons (env : ENV) (c : NEW_EVENT) (calls : List NEW_EVENT) :
    create_all env (c :: calls) =
      match c.create env with
      | none => none
      | some (e, env') => (create_all env' calls).map fun r => (e :: r.1, r.2) := rfl

/-- The sequence numbers of events created one after another are the successive
values of the counter, taken modulo 2^32. -/
theorem create_all_sequences (calls : List NEW_EVENT) :
    ∀ (env env' : ENV) (events : List EVENT), create_all env calls = some (events, env') →
      sequences events = (List.range calls.length).map
        (fun (i : Nat) => int32_wrap (env.event_sequence + ((i : Int) + 1))) ∧
      events.length = calls.length := by
  induction calls with
  | nil =>
    intro env env' events h
    rw [create_all_nil, Option.some.injEq, Prod.mk.injEq] at h
    obtain ⟨rfl, _⟩ := h
    exact ⟨rfl, rfl⟩
  | cons c calls ih =>
    intro env env' events h
    rw [create_all_cons] at h
    cases hc : c.create env with
    | none => rw [hc] at h; simp at h
    | some p =>
      obtain ⟨e, env1⟩ := p
      simp only [hc] at h
      cases hr : create_all env1 calls with
      | none => rw [hr] at h; simp at h
      | some r =>
        obtain ⟨es, env2⟩ := r
        rw [hr] at h
        simp only [Option.map_some', Option.some.injEq, Prod.mk.injEq] at h
        obtain ⟨rfl, _⟩ := h
        obtain ⟨h1, h2⟩ := create_sequence env env1 c e hc
        obtain ⟨h3, h4⟩ := ih env1 env2 es hr
        refine ⟨?_, by simp [h4]⟩
        rw [List.length_cons, List.range_succ_eq_map, List.map_cons, List.map_map]
        simp only [sequences, List.map_cons] at h3 ⊢
        rw [h1, h3, h2]
        simp only [List.map_cons, List.map_map, Nat.cast_zero, zero_add, List.cons.injEq,
          true_and, List.map_inj_left, Function.comp, int32_wrap_succ, Nat.cast_succ]
        intro i _
        congr 1
        ring

/-- C12: when event factories (any mix of evel_new_heartbeat, evel_new_fault,
evel_new_measurement and evel_new_report) are called one after another in a
process whose counter starts at 0, and at most 2^31 - 1 events are created, the
sequence numbers of the events are 1, 2, 3, ... in creation order: the first
event gets 1, each later one the previous sequence plus 1, so they are strictly
increasing and pairwise distinct. -/
theorem C12_sequence_numbers_count_up (env env' : ENV) (calls : List NEW_EVENT)
    (events : List EVENT) (h0 : env.event_sequence = 0)
    (hn : (calls.length : Int) ≤ INT_MAX)
    (h : create_all env calls = some (events, env')) :
    events.length = calls.length ∧
    sequences events = (List.range calls.length).map (fun (i : Nat) => (i : Int) + 1) ∧
    (sequences events).Pairwise (fun a b => a < b) ∧
    (sequences events).Nodup := by
  obtain ⟨h1, h2⟩ := create_all_sequences calls env env' events h
  have h3 : sequences events = (List.range calls.length).map (fun (i : Nat) => (i : Int) + 1) := by
    rw [h1]
    apply List.map_congr_left
    intro i hi
    have := List.mem_range.mp hi
    rw [h0, zero_add]
    apply int32_wrap_id <;> omega
  have h4 : (sequences events).Pairwise (fun a b => a < b) := by
    rw [h3, List.pairwise_map]
    exact (List.pairwise_lt_range _).imp (fun hab => by omega)
  exact ⟨h2, h3, h4, h4.imp (fun hab => ne_of_lt hab)⟩

/-- C12 at the four factory calls of the demo program. -/
theorem C12_sequence_numbers_count_up_witness :
    ∃ events env', create_all demo_env demo_new_events = some (events, env') ∧
      demo_env.event_sequence = 0 ∧ ((demo_new_events.length : Int) ≤ INT_MAX) ∧
      events.length = demo_new_events.length ∧
      sequences events =
        (List.range demo_new_events.length).map (fun (i : Nat) => (i : Int) + 1) ∧
      (sequences events).Pairwise (fun a b => a < b) ∧
      (sequences events).Nodup := by
  have hs : (create_all demo_env demo_new_events).isSome = true := by decide!
  obtain ⟨⟨events, env'⟩, h⟩ := Option.isSome_iff_exists.mp hs
  exact ⟨events, env', h, rfl, by decide,
    C12_sequence_numbers_count_up demo_env env' demo_new_events events rfl (by decide) h⟩

/-- C19, counterexample: with the counter at 2^31 - 2 (the value it has after
that many events), the next two events get 2147483647 and then -2147483648: the
later event has the smaller sequence number. -/
theorem C19_counterexample_sequence_wraps_after_int_max :
    (create_all { demo_env with event_sequence := 2147483646 }
      [.heartbeat demo_tv, .heartbeat demo_tv]).map (fun r => sequences r.1) =
        some [2147483647, -2147483648] ∧
    ¬ ([2147483647, -2147483648] : List Int).Pairwise (fun a b => a < b) := by
  decide!

/-- C19, amended: the sequence numbers of events created one after another are
the successive values of the 32-bit counter, the `i`-th event created getting
`event_sequence + i` wrapped into the range of an `int`; they are pairwise
distinct among any 2^32 consecutive creations, and strictly increasing as long
as the counter has not passed 2^31 - 1. -/
theorem C19_sequence_numbers_modulo_2_32 (env env' : ENV) (calls : List NEW_EVENT)
    (events : List EVENT) (h : create_all env calls = some (events, env')) :
    sequences events = (List.range calls.length).map
      (fun (i : Nat) => int32_wrap (env.event_sequence + ((i : Int) + 1))) ∧
    ((calls.length : Int) ≤ 4294967296 → (sequences events).Nodup) ∧
    (-2147483648 ≤ env.event_sequence → env.event_sequence + calls.length ≤ INT_MAX →
      (sequences events).Pairwise (fun a b => a < b)) := by
  obtain ⟨h1, _⟩ := create_all_sequences calls env env' events h
  refine ⟨h1, ?_, ?_⟩
  · intro hn
    rw [h1]
    apply List.Nodup.map_on _ (List.nodup_range _)
    intro i hi j hj hij
    have hi' := List.mem_range.mp hi
    have hj' := List.mem_range.mp hj
    unfold int32_wrap at hij
    omega
  · intro hlo hhi
    rw [h1, List.pairwise_map]
    apply (List.pairwise_lt_range _).imp_of_mem
    intro i j hi hj hij
    have hi' := List.mem_range.mp hi
    have hj' := List.mem_range.mp hj
    rw [int32_wrap_id _ (by omega) (by omega), int32_wrap_id _ (by omega) (by omega)]
    omega

/-- C19, amended, at the four factory calls of the demo program. -/
theorem C19_sequence_numbers_modulo_2_32_witness :
    ∃ events env', create_all demo_env demo_new_events = some (events, env') ∧
      sequences events = (List.range demo_new_events.length).map
        (fun (i : Nat) => int32_wrap (demo_env.event_sequence + ((i : Int) + 1))) ∧
      (sequences events).Nodup ∧ (sequences events).Pairwise (fun a b => a < b) := by
  have hs : (create_all demo_env demo_new_events).isSome = true := by decide!
  obtain ⟨⟨events, env'⟩, h⟩ := Option.isSome_iff_exists.mp hs
  exact ⟨events, env', h,
    (C19_sequence_numbers_modulo_2_32 demo_env env' demo_new_events events h).1,
    (C19_sequence_numbers_modulo_2_32 demo_env env' demo_new_events events h).2.1 (by decide),
    (C19_sequence_numbers_modulo_2_32 demo_env env' demo_new_events events h).2.2 (by decide)
      (by decide)⟩

/-! ## C14: what the free functions release -/

theorem dlist_pop_last_nil {α : Type} : dlist_pop_last ([] : DLIST α) = (none, []) := rfl

theorem dlist_pop_last_concat {α : Type} (l : List α) (x : α) :
    dlist_pop_last (l ++ [x] : DLIST α) = (some x, l) := by
  simp [dlist_pop_last]

/-- With more fuel than the list has items, the loop ends with an empty list. -/
theorem free_items_eq {α : Type} (n : Nat) :
    ∀ (fuel : Nat) (list : DLIST α), list.length = n → n < fuel →
      free_items fuel list = some [] := by
  induction n with
  | zero =>
    intro fuel list hl hf
    obtain ⟨k, rfl⟩ : ∃ k, fuel = k + 1 := ⟨fuel - 1, by omega⟩
    have : list = [] := List.length_eq_zero.mp hl
    subst this
    rfl
  | succ n ih =>
    intro fuel list hl hf
    obtain ⟨k, rfl⟩ : ∃ k, fuel = k + 1 := ⟨fuel - 1, by omega⟩
    obtain ⟨l, x, rfl⟩ : ∃ l x, list = l ++ [x] := by
      have hne : list ≠ [] := by intro h; rw [h] at hl; simp at hl
      exact ⟨list.dropLast, list.getLast hne, (List.dropLast_append_getLast hne).symm⟩
    have hl' : l.length = n := by simpa using hl
    show (match dlist_pop_last (l ++ [x] : DLIST α) with
      | (none, list') => some list'
      | (some _, list') => free_items k list') = some []
    rw [dlist_pop_last_concat]
    exact ih k l hl' (by omega)

theorem free_groups_eq (n : Nat) :
    ∀ (fuel : Nat) (list : DLIST MEASUREMENT_GROUP), list.length = n → n < fuel →
      free_groups fuel list = some [] := by
  induction n with
  | zero =>
    intro fuel list hl hf
    obtain ⟨k, rfl⟩ : ∃ k, fuel = k + 1 := ⟨fuel - 1, by omega⟩
    have : list = [] := List.length_eq_zero.mp hl
    subst this
    rfl
  | succ n ih =>
    intro fuel list hl hf
    obtain ⟨k, rfl⟩ : ∃ k, fuel = k + 1 := ⟨fuel - 1, by omega⟩
    obtain ⟨l, x, rfl⟩ : ∃ l x, list = l ++ [x] := by
      have hne : list ≠ [] := by intro h; rw [h] at hl; simp at hl
      exact ⟨list.dropLast, list.getLast hne, (List.dropLast_append_getLast hne).symm⟩
    have hl' : l.length = n := by simpa using hl
    show (match dlist_pop_last (l ++ [x] : DLIST MEASUREMENT_GROUP) with
      | (none, list') => some list'
      | (some measurement_group, list') =>
        match free_items (measurement_group.measurements.length + 1)
            measurement_group.measurements with
        | none => none
        | some _ => free_groups k list') = some []
    rw [dlist_pop_last_concat]
    simp only [free_items_eq _ _ x.measurements rfl (Nat.lt_succ_self _)]
    exact ih k l hl' (by omega)

/-- evel_free_measurement returns, with six of the seven lists empty and the
list of measurement groups as it was. -/
theorem evel_free_measurement_eq (m : EVENT_MEASUREMENT)
    (hd : m.header.event_domain = EVEL_DOMAIN_MEASUREMENT) :
    evel_free_measurement m =
      some { m with cpu_usage := [], filesystem_usage := [], latency_distribution := [],
                    vnic_usage := [], codec_usage := [], feature_usage := [] } := by
  simp only [evel_free_measurement, hd, not_true_eq_false, if_false,
    free_items_eq _ _ _ rfl (Nat.lt_succ_self _), Option.some_bind]

/-- evel_free_report returns, with both lists empty. -/
theorem evel_free_report_eq (r : EVENT_REPORT)
    (hd : r.header.event_domain = EVEL_DOMAIN_REPORT) :
    evel_free_report r = some { r with feature_usage := [], measurement_groups := [] } := by
  simp only [evel_free_report, hd, not_true_eq_false, if_false,
    free_items_eq _ _ _ rfl (Nat.lt_succ_self _),
    free_groups_eq _ _ _ rfl (Nat.lt_succ_self _), Option.some_bind]

/-- C14, at the failing input: after evel_free_measurement on the measurement
of the demo program (two measurement groups holding three custom measurements)
the lists cpu_usage, filesystem_usage, latency_distribution, vnic_usage,
codec_usage and feature_usage are empty, but measurement_groups still holds its
two groups with their custom measurements; evel_free_report on the report of
the demo program, which holds the same groups, leaves its measurement_groups
empty. -/
theorem C14_free_measurement_keeps_measurement_groups :
    (evel_free_measurement demo_measurement).map
      (fun m => [m.cpu_usage.length, m.filesystem_usage.length, m.latency_distribution.length,
        m.vnic_usage.length, m.codec_usage.length, m.feature_usage.length,
        m.measurement_groups.length]) = some [0, 0, 0, 0, 0, 0, 2] ∧
    (evel_free_measurement demo_measurement).map
      (fun m => m.measurement_groups.map (fun g => g.measurements.length)) = some [2, 1] ∧
    (evel_free_measurement demo_measurement).map (fun m => m.measurement_groups) =
      some demo_measurement.measurement_groups ∧
    demo_report.measurement_groups = demo_measurement.measurement_groups ∧
    (evel_free_report demo_report).map
      (fun r => (r.feature_usage.length, r.measurement_groups.length)) = some (0, 0) := by
  refine ⟨?_, ?_, ?_, ?_, ?_⟩
  · decide!
  · decide!
  · decide!
  · decide!
  · decide!

/-! ## C11: strings are copied into the text as they are -/

/-- C11, at the failing inputs: the text evel_json_encode_event produces for a
fault whose alarm condition is `Link "eth0" down` is not well-formed JSON (the
quotes of the string are copied unescaped and end the JSON string early); the
text for a fault whose specific problem is `Disk C:\new is full` is well-formed
but its member specificProblem decodes to a different string, with a line feed
in place of the backslash and the `n`.  The fault of the demo program, whose
strings hold none of these characters, is encoded as well-formed JSON and its
alarm condition decodes back. -/
theorem C11_strings_are_not_escaped :
    fault_with_quotes.alarm_condition = some "Link \"eth0\" down" ∧
    event_json_well_formed (.fault fault_with_quotes) = some false ∧
    fault_with_backslash.specific_problem = some "Disk C:\\new is full" ∧
    event_json_well_formed (.fault fault_with_backslash) = some true ∧
    event_string_member (.fault fault_with_backslash)
      ["event", "faultFields", "specificProblem"] = some (some "Disk C:\new is full") ∧
    event_json_well_formed (.fault demo_fault) = some true ∧
    event_string_member (.fault demo_fault) ["event", "faultFields", "alarmCondition"] =
      some demo_fault.alarm_condition := by
  refine ⟨?_, ?_, ?_, ?_, ?_, ?_, ?_⟩
  · decide
  · decide!
  · decide
  · decide!
  · decide!
  · decide!
  · decide!

/-! ## C13: calls of evel_init_header from several threads -/

theorem int32_wrap_wrap (x : Int) : int32_wrap (int32_wrap x) = int32_wrap x := by
  unfold int32_wrap
  omega

/-- A call that runs its three statements with no other call in between takes
the values evel_init_header gives. -/
theorem init_call_alone (env : ENV) (tv : timeval) (header : EVENT_HEADER) :
    PROCESS.run ⟨env.event_sequence, [INIT_CALL.start]⟩ [0, 0, 0] =
      ⟨(evel_init_header env tv header).2.event_sequence,
        [⟨3, (evel_init_header env tv header).1.event_id,
          (evel_init_header env tv header).1.sequence⟩]⟩ := rfl

theorem process_run_append (p : PROCESS) (a b : List Nat) :
    p.run (a ++ b) = (p.run a).run b := by
  simp [PROCESS.run, List.foldl_append]

theorem process_run_three (p : PROCESS) (i : Nat) (hi : p.calls[i]? = some INIT_CALL.start) :
    p.run [i, i, i] =
      ⟨int32_wrap (p.event_sequence + 1),
        p.calls.set i ⟨3, some ⟨fmt_d (int32_wrap (p.event_sequence + 1))⟩,
          int32_wrap (p.event_sequence + 1)⟩⟩ := by
  have hlt : i < p.calls.length := by
    obtain ⟨h, _⟩ := List.getElem?_eq_some_iff.mp hi
    exact h
  simp only [PROCESS.run, List.foldl_cons, List.foldl_nil, PROCESS.step, hi,
    init_header_step, INIT_CALL.start, List.getElem?_set_self, hlt, List.length_set,
    List.set_set, if_true, if_false, OfNat.ofNat_ne_zero, OfNat.ofNat_ne_one, one_ne_zero]

/-- Calls that do not overlap: each gets the next value of the counter, and
the calls not named are left as they were. -/
theorem serial_run (order : List Nat) :
    ∀ p : PROCESS, order.Nodup → (∀ i ∈ order, p.calls[i]? = some INIT_CALL.start) →
      int32_wrap p.event_sequence = p.event_sequence →
      (p.run (serial_schedule order)).event_sequence =
        int32_wrap (p.event_sequence + order.length) ∧
      (∀ j, j ∉ order → (p.run (serial_schedule order)).calls[j]? = p.calls[j]?) ∧
      (p.run (serial_schedule order)).sequences order =
        (List.range order.length).map
          (fun (k : Nat) => some (int32_wrap (p.event_sequence + ((k : Int) + 1)))) := by
  induction order with
  | nil =>
    intro p _ _ hr
    refine ⟨?_, fun j _ => rfl, rfl⟩
    simp only [serial_schedule, List.flatMap_nil, PROCESS.run, List.foldl_nil, List.length_nil,
      Nat.cast_zero, add_zero, hr]
  | cons i rest ih =>
    intro p hnd hst hr
    obtain ⟨hi, hnd'⟩ := List.nodup_cons.mp hnd
    have h3 := process_run_three p i (hst i (List.mem_cons_self _ _))
    have hs : serial_schedule (i :: rest) = [i, i, i] ++ serial_schedule rest := by
      simp [serial_schedule]
    have hst' : ∀ j ∈ rest, (p.run [i, i, i]).calls[j]? = some INIT_CALL.start := by
      intro j hj
      have hne : i ≠ j := by rintro rfl; exact hi hj
      rw [h3]
      simp only [List.getElem?_set_ne hne]
      exact hst j (List.mem_cons_of_mem _ hj)
    have hr' : int32_wrap (p.run [i, i, i]).event_sequence = (p.run [i, i, i]).event_sequence := by
      rw [h3]; exact int32_wrap_wrap _
    obtain ⟨h1, h2, h4⟩ := ih (p.run [i, i, i]) hnd' hst' hr'
    rw [hs, process_run_append]
    have hes : (p.run [i, i, i]).event_sequence = int32_wrap (p.event_sequence + 1) := by
      rw [h3]
    have hlt : i < p.calls.length := by
      obtain ⟨h, _⟩ := List.getElem?_eq_some_iff.mp (hst i (List.mem_cons_self _ _))
      exact h
    refine ⟨?_, ?_, ?_⟩
    · rw [h1, hes, int32_wrap_succ, List.length_cons]
      congr 1
      push_cast
      ring
    · intro j hj
      have hji : i ≠ j := by rintro rfl; exact hj (List.mem_cons_self _ _)
      have hjr : j ∉ rest := fun h => hj (List.mem_cons_of_mem _ h)
      rw [h2 j hjr, h3]
      simp only [List.getElem?_set_ne hji]
    · simp only [PROCESS.sequences, List.map_cons] at h4 ⊢
      rw [h4, h2 i hi, List.length_cons, List.range_succ_eq_map, List.map_cons, List.map_map,
        hes, h3]
      simp only [List.getElem?_set_self hlt, Option.map_some', Nat.cast_zero, zero_add,
        List.cons.injEq, true_and, List.map_inj_left, Function.comp, int32_wrap_succ,
        Nat.cast_succ, Option.some.injEq]
      intro k _
      congr 1
      ring

/-- C13, counterexample: two calls of evel_init_header that overlap.  Both
increment the counter (to 1, then to 2) before either reads it back, so both
headers get the sequence number 2, and the event id "2". -/
theorem C13_counterexample_overlapping_calls_get_the_same_number :
    (PROCESS.run ⟨0, [INIT_CALL.start, INIT_CALL.start]⟩ [0, 1, 0, 0, 1, 1]) =
      ⟨2, [⟨3, some "2", 2⟩, ⟨3, some "2", 2⟩]⟩ ∧
    (PROCESS.run ⟨0, [INIT_CALL.start, INIT_CALL.start]⟩ [0, 1, 0, 0, 1, 1]).sequences [0, 1] =
      [some 2, some 2] := by
  decide

/-- C13, amended: when the calls of evel_init_header made by the threads do
not overlap (each call runs its statements that use the counter before the
next call starts, in whatever order the calls come), and the counter stays
within the range of an `int`, the calls get the successive values of the
counter, so the events get pairwise distinct sequence numbers. -/
theorem C13_calls_that_do_not_overlap_get_distinct_numbers (c : Int) (n : Nat)
    (order : List Nat) (hnd : order.Nodup) (hlt : ∀ i ∈ order, i < n)
    (hlo : -2147483648 ≤ c) (hhi : c + order.length ≤ INT_MAX) :
    (PROCESS.run ⟨c, List.replicate n INIT_CALL.start⟩ (serial_schedule order)).sequences
        order =
      (List.range order.length).map (fun (k : Nat) => some (c + ((k : Int) + 1))) ∧
    ((PROCESS.run ⟨c, List.replicate n INIT_CALL.start⟩ (serial_schedule order)).sequences
        order).Nodup := by
  have hst : ∀ i ∈ order,
      (⟨c, List.replicate n INIT_CALL.start⟩ : PROCESS).calls[i]? = some INIT_CALL.start := by
    intro i hi
    simp [List.getElem?_replicate, hlt i hi]
  have hr : int32_wrap c = c := int32_wrap_id c hlo (by omega)
  obtain ⟨_, _, h⟩ := serial_run order ⟨c, List.replicate n INIT_CALL.start⟩ hnd hst hr
  have h' : (PROCESS.run ⟨c, List.replicate n INIT_CALL.start⟩
      (serial_schedule order)).sequences order =
      (List.range order.length).map (fun (k : Nat) => some (c + ((k : Int) + 1))) := by
    rw [h]
    apply List.map_congr_left
    intro k hk
    have := List.mem_range.mp hk
    have hhi' := hhi
    unfold INT_MAX at hhi'
    dsimp only
    rw [int32_wrap_id _ (by omega) (by unfold INT_MAX; omega)]
  refine ⟨h', ?_⟩
  rw [h']
  apply List.Nodup.map_on _ (List.nodup_range _)
  intro i _ j _ hij
  simp only [Option.some.injEq] at hij
  omega

/-- C13, amended, at three calls that run one after another in the order 2, 0,
1 from a counter at 0. -/
theorem C13_calls_that_do_not_overlap_get_distinct_numbers_witness :
    (PROCESS.run ⟨0, List.replicate 3 INIT_CALL.start⟩ (serial_schedule [2, 0, 1])).sequences
        [2, 0, 1] =
      (List.range [2, 0, 1].length).map (fun (k : Nat) => some ((0 : Int) + ((k : Int) + 1))) ∧
    ((PROCESS.run ⟨0, List.replicate 3 INIT_CALL.start⟩ (serial_schedule [2, 0, 1])).sequences
        [2, 0, 1]).Nodup :=
  C13_calls_that_do_not_overlap_get_distinct_numbers 0 3 [2, 0, 1] (by decide) (by decide)
    (by decide) (by decide)

/-! ## C15 to C18: the event handler -/

theorem engine_run_nil (s : ENGINE) : s.run [] = s := rfl

theorem engine_run_cons (s : ENGINE) (c : ENGINE_CALL) (cs : List ENGINE_CALL) :
    s.run (c :: cs) = (s.step c).run cs := rfl

theorem engine_run_append (s : ENGINE) (a b : List ENGINE_CALL) :
    s.run (a ++ b) = (s.run a).run b := by
  simp [ENGINE.run, List.foldl_append]

theorem engine_accepted_cons (s : ENGINE) (c : ENGINE_CALL) (cs : List ENGINE_CALL) :
    s.accepted (c :: cs) = s.accepts c ++ (s.step c).accepted cs := rfl

theorem engine_accepted_append (a b : List ENGINE_CALL) :
    ∀ s : ENGINE, s.accepted (a ++ b) = s.accepted a ++ (s.run a).accepted b := by
  induction a with
  | nil => intro s; rfl
  | cons c a ih =>
    intro s
    rw [List.cons_append, engine_accepted_cons, engine_accepted_cons, ih, engine_run_cons,
      List.append_assoc]

theorem post_of_not_active (s : ENGINE) (e : EVENT)
    (h : s.evt_handler_state ≠ EVT_HANDLER_ACTIVE) :
    evel_post_event s e = (EVEL_EVENT_HANDLER_INACTIVE, s) := by
  simp only [evel_post_event, h, not_false_eq_true, if_true]

theorem post_of_full (s : ENGINE) (e : EVENT) (h : s.evt_handler_state = EVT_HANDLER_ACTIVE)
    (hf : s.capacity ≤ s.queue.length) : evel_post_event s e = (EVEL_EVENT_BUFFER_FULL, s) := by
  simp only [evel_post_event, h, not_true_eq_false, if_false, enqueue, Nat.not_lt.mpr hf]

theorem post_of_room (s : ENGINE) (e : EVENT) (h : s.evt_handler_state = EVT_HANDLER_ACTIVE)
    (hr : s.queue.length < s.capacity) :
    evel_post_event s e = (EVEL_SUCCESS, { s with queue := s.queue ++ [.event e] }) := by
  simp only [evel_post_event, h, not_true_eq_false, if_false, enqueue, hr, if_true]

theorem terminate_of_not_active (s : ENGINE) (h : s.evt_handler_state ≠ EVT_HANDLER_ACTIVE) :
    evel_terminate s = s := by
  simp only [evel_terminate, h, if_false]

theorem terminate_of_full (s : ENGINE) (h : s.evt_handler_state = EVT_HANDLER_ACTIVE)
    (hf : s.capacity ≤ s.queue.length) :
    evel_terminate s = { s with evt_handler_state := EVT_HANDLER_REQUEST_TERMINATE } := by
  simp only [evel_terminate, h, if_true, enqueue, Nat.not_lt.mpr hf, if_false]

theorem terminate_of_room (s : ENGINE) (h : s.evt_handler_state = EVT_HANDLER_ACTIVE)
    (hr : s.queue.length < s.capacity) :
    evel_terminate s =
      { s with queue := s.queue ++ [.internal EVT_CMD_TERMINATE],
               evt_handler_state := EVT_HANDLER_REQUEST_TERMINATE } := by
  simp only [evel_terminate, h, if_true, enqueue, hr]

theorem init_of_not_uninitialized (s : ENGINE) (ok : Bool)
    (h : s.evt_handler_state ≠ EVT_HANDLER_UNINITIALIZED) : evel_initialize s ok = s := by
  simp only [ evel_initialize, h, false_and, if_false]

theorem worker_of_request (s : ENGINE)
    (h : s.evt_handler_state = EVT_HANDLER_REQUEST_TERMINATE) :
    worker_step s = { s with evt_handler_state := EVT_HANDLER_TERMINATING } := by
  simp only [worker_step, h, if_true]

theorem worker_of_idle (s : ENGINE)
    (h : s.evt_handler_state = EVT_HANDLER_UNINITIALIZED ∨
      s.evt_handler_state = EVT_HANDLER_INACTIVE ∨
      s.evt_handler_state = EVT_HANDLER_TERMINATED) : worker_step s = s := by
  rcases h with h | h | h <;> rw [worker_step, h] <;> rfl

theorem worker_of_empty (s : ENGINE)
    (h : s.evt_handler_state = EVT_HANDLER_ACTIVE ∨
      s.evt_handler_state = EVT_HANDLER_TERMINATING) (hq : s.queue = []) :
    worker_step s = s := by
  rcases h with h | h <;> rw [worker_step, h, hq] <;> rfl

theorem worker_of_event (s : ENGINE) (e : EVENT) (q : List QUEUE_ENTRY)
    (h : s.evt_handler_state = EVT_HANDLER_ACTIVE ∨
      s.evt_handler_state = EVT_HANDLER_TERMINATING) (hq : s.queue = .event e :: q) :
    worker_step s = { s with queue := q, dispatched := s.dispatched ++ [e] } := by
  rcases h with h | h <;> rw [worker_step, h, hq] <;> rfl

theorem worker_of_terminate (s : ENGINE) (q : List QUEUE_ENTRY)
    (h : s.evt_handler_state = EVT_HANDLER_ACTIVE ∨
      s.evt_handler_state = EVT_HANDLER_TERMINATING)
    (hq : s.queue = .internal EVT_CMD_TERMINATE :: q) :
    worker_step s = { s with queue := q, evt_handler_state := EVT_HANDLER_TERMINATED } := by
  rcases h with h | h <;> rw [worker_step, h, hq] <;> rfl

theorem accepts_post (s : ENGINE) (e : EVENT) :
    s.accepts (.post e) = if (evel_post_event s e).1 = EVEL_SUCCESS then [e] else [] := rfl

/-- Every call and every worker step keeps the invariant of the engine. -/
theorem engine_inv_step (s : ENGINE) (capacity : Nat) (acc : List EVENT) (c : ENGINE_CALL)
    (h : s.inv capacity acc) : (s.step c).inv capacity (acc ++ s.accepts c) := by
  have hsame : s.inv capacity (acc ++ []) := by rw [List.append_nil]; exact h
  obtain ⟨hc, hl, pending, hacc, hst⟩ := h
  cases c with
  | init ok =>
    show ( evel_initialize s ok).inv capacity (acc ++ [])
    by_cases h0 : s.evt_handler_state = EVT_HANDLER_UNINITIALIZED
    · cases ok
      · have : evel_initialize s false = s := by simp [ evel_initialize]
        rw [this]; exact hsame
      · have : evel_initialize s true = { s with evt_handler_state := EVT_HANDLER_ACTIVE } := by
          simp [ evel_initialize, h0]
        rw [this]
        rcases hst with ⟨_, hq, ha⟩ | ⟨h2, _⟩ | ⟨h34, _⟩ | ⟨h5, _, _⟩
        · subst ha
          have hd : s.dispatched = [] ∧ pending = [] := by simpa using hacc.symm
          refine ⟨hc, hl, [], by simp [hd.1], Or.inr (Or.inl ⟨rfl, by simpa using hq⟩)⟩
        · rw [h0] at h2; exact absurd h2 (by decide)
        · rw [h0] at h34; exact absurd h34 (by decide)
        · rw [h0] at h5; exact absurd h5 (by decide)
    · rw [init_of_not_uninitialized s ok h0]; exact hsame
  | post e =>
    show (evel_post_event s e).2.inv capacity (acc ++ s.accepts (.post e))
    rw [accepts_post]
    by_cases h2 : s.evt_handler_state = EVT_HANDLER_ACTIVE
    · by_cases hr : s.queue.length < s.capacity
      · rw [post_of_room s e h2 hr]
        rcases hst with ⟨h0, _, _⟩ | ⟨_, hq⟩ | ⟨h34, _⟩ | ⟨h5, _, _⟩
        · rw [h2] at h0; exact absurd h0 (by decide)
        · refine ⟨hc, ?_, pending ++ [e], ?_, Or.inr (Or.inl ⟨h2, ?_⟩)⟩
          · simp only [List.length_append, List.length_singleton]; omega
          · simp [hacc]
          · simp [hq]
        · rw [h2] at h34; exact absurd h34 (by decide)
        · rw [h2] at h5; exact absurd h5 (by decide)
      · rw [post_of_full s e h2 (Nat.le_of_not_lt hr)]
        exact hsame
    · rw [post_of_not_active s e h2]
      exact hsame
  | terminate =>
    show (evel_terminate s).inv capacity (acc ++ [])
    by_cases h2 : s.evt_handler_state = EVT_HANDLER_ACTIVE
    · rcases hst with ⟨h0, _, _⟩ | ⟨_, hq⟩ | ⟨h34, _⟩ | ⟨h5, _, _⟩
      · rw [h2] at h0; exact absurd h0 (by decide)
      · by_cases hr : s.queue.length < s.capacity
        · rw [terminate_of_room s h2 hr]
          refine ⟨hc, ?_, pending, by simp [hacc],
            Or.inr (Or.inr (Or.inl ⟨Or.inl rfl, Or.inl ?_⟩))⟩
          · simp only [List.length_append, List.length_singleton]; omega
          · simp [hq]
        · rw [terminate_of_full s h2 (Nat.le_of_not_lt hr)]
          exact ⟨hc, hl, pending, by simp [hacc],
            Or.inr (Or.inr (Or.inl ⟨Or.inl rfl, Or.inr hq⟩))⟩
      · rw [h2] at h34; exact absurd h34 (by decide)
      · rw [h2] at h5; exact absurd h5 (by decide)
    · rw [terminate_of_not_active s h2]
      exact hsame
  | worker =>
    show (worker_step s).inv capacity (acc ++ [])
    rw [List.append_nil]
    rcases hst with ⟨h0, hq0, ha0⟩ | ⟨h2, hq⟩ | ⟨h34, hq⟩ | ⟨h5, hq5, hp5⟩
    · rw [worker_of_idle s (Or.inl h0)]; exact ⟨hc, hl, pending, hacc, Or.inl ⟨h0, hq0, ha0⟩⟩
    · cases pending with
      | nil =>
        rw [worker_of_empty s (Or.inl h2) (by simpa using hq)]
        exact ⟨hc, hl, [], hacc, Or.inr (Or.inl ⟨h2, hq⟩)⟩
      | cons e p =>
        rw [worker_of_event s e (p.map .event) (Or.inl h2) (by simpa using hq)]
        refine ⟨hc, ?_, p, by simp [hacc], Or.inr (Or.inl ⟨h2, rfl⟩)⟩
        rw [hq] at hl
        simp only [List.length_map, List.length_cons] at hl ⊢
        omega
    · rcases h34 with h3 | h4
      · rw [worker_of_request s h3]
        exact ⟨hc, hl, pending, hacc, Or.inr (Or.inr (Or.inl ⟨Or.inr rfl, hq⟩))⟩
      · rcases hq with hq | hq
        · cases pending with
          | nil =>
            rw [worker_of_terminate s [] (Or.inr h4) (by simpa using hq)]
            exact ⟨hc, by simp, [], hacc, Or.inr (Or.inr (Or.inr ⟨rfl, rfl, rfl⟩))⟩
          | cons e p =>
            rw [worker_of_event s e (p.map .event ++ [.internal EVT_CMD_TERMINATE]) (Or.inr h4)
              (by simpa using hq)]
            refine ⟨hc, ?_, p, by simp [hacc],
              Or.inr (Or.inr (Or.inl ⟨Or.inr h4, Or.inl rfl⟩))⟩
            rw [hq] at hl
            simp only [List.length_map, List.length_cons, List.length_append,
              List.length_singleton, List.map_cons, List.cons_append] at hl ⊢
            omega
        · cases pending with
          | nil =>
            rw [worker_of_empty s (Or.inr h4) (by simpa using hq)]
            exact ⟨hc, hl, [], hacc, Or.inr (Or.inr (Or.inl ⟨Or.inr h4, Or.inr hq⟩))⟩
          | cons e p =>
            rw [worker_of_event s e (p.map .event) (Or.inr h4) (by simpa using hq)]
            refine ⟨hc, ?_, p, by simp [hacc],
              Or.inr (Or.inr (Or.inl ⟨Or.inr h4, Or.inr rfl⟩))⟩
            rw [hq] at hl
            simp only [List.length_map, List.length_cons] at hl ⊢
            omega
    · rw [worker_of_idle s (Or.inr (Or.inr h5))]
      exact ⟨hc, hl, pending, hacc, Or.inr (Or.inr (Or.inr ⟨h5, hq5, hp5⟩))⟩

/-- The invariant holds in every state the engine reaches. -/
theorem engine_inv_run (capacity : Nat) (calls : List ENGINE_CALL) :
    ∀ (s : ENGINE) (acc : List EVENT), s.inv capacity acc →
      (s.run calls).inv capacity (acc ++ s.accepted calls) := by
  induction calls with
  | nil => intro s acc h; simpa [engine_run_nil, ENGINE.accepted] using h
  | cons c calls ih =>
    intro s acc h
    rw [engine_run_cons, engine_accepted_cons, ← List.append_assoc]
    exact ih _ _ (engine_inv_step s capacity acc c h)

theorem engine_inv_new (capacity : Nat) : (ENGINE.new capacity).inv capacity [] :=
  ⟨rfl, Nat.zero_le _, [], rfl, Or.inl ⟨rfl, rfl, rfl⟩⟩

theorem engine_inv_reachable (capacity : Nat) (calls : List ENGINE_CALL) :
    ((ENGINE.new capacity).run calls).inv capacity ((ENGINE.new capacity).accepted calls) := by
  have h := engine_inv_run capacity calls _ _ (engine_inv_new capacity)
  simpa using h

theorem queue_events_map (pending : List EVENT) :
    queue_events (pending.map QUEUE_ENTRY.event) = pending := by
  induction pending with
  | nil => rfl
  | cons e p ih => simp [queue_events, ih]

theorem queue_events_map_terminate (pending : List EVENT) :
    queue_events (pending.map QUEUE_ENTRY.event ++ [.internal EVT_CMD_TERMINATE]) = pending := by
  induction pending with
  | nil => rfl
  | cons e p ih => simp [queue_events, ih]

theorem terminate_not_mem_map (pending : List EVENT) :
    QUEUE_ENTRY.internal EVT_CMD_TERMINATE ∉ pending.map QUEUE_ENTRY.event := by
  simp

/-- The worker, once it has observed the request, dispatches the pending
events in order and stops at the terminate command. -/
theorem worker_drain (pending : List EVENT) :
    ∀ s : ENGINE, s.evt_handler_state = EVT_HANDLER_TERMINATING →
      s.queue = pending.map QUEUE_ENTRY.event ++ [.internal EVT_CMD_TERMINATE] →
      s.run (List.replicate (pending.length + 1) .worker) =
        { s with evt_handler_state := EVT_HANDLER_TERMINATED, queue := [],
                 dispatched := s.dispatched ++ pending } := by
  induction pending with
  | nil =>
    intro s h4 hq
    show worker_step s = _
    rw [worker_of_terminate s [] (Or.inr h4) (by simpa using hq)]
    simp
  | cons e p ih =>
    intro s h4 hq
    rw [List.length_cons, List.replicate_succ, engine_run_cons]
    show (worker_step s).run _ = _
    rw [worker_of_event s e (p.map .event ++ [.internal EVT_CMD_TERMINATE]) (Or.inr h4)
      (by simpa using hq)]
    have h := ih { s with queue := p.map .event ++ [.internal EVT_CMD_TERMINATE],
                          dispatched := s.dispatched ++ [e] } h4 rfl
    rw [h]
    simp

theorem full_ne_success : EVEL_EVENT_BUFFER_FULL ≠ EVEL_SUCCESS := by decide

theorem inactive_ne_success : EVEL_EVENT_HANDLER_INACTIVE ≠ EVEL_SUCCESS := by decide

theorem uninitialized_ne_active : EVT_HANDLER_UNINITIALIZED ≠ EVT_HANDLER_ACTIVE := by decide

theorem request_ne_active : EVT_HANDLER_REQUEST_TERMINATE ≠ EVT_HANDLER_ACTIVE := by decide

/-! ### C15 -/

/-- C15, counterexample: after evel_initialize, ninety-nine events posted and
evel_terminate, the queue of default capacity holds its hundred entries (the
terminate command is the last), and the next evel_post_event returns
EVEL_EVENT_HANDLER_INACTIVE, not EVEL_EVENT_BUFFER_FULL. -/
theorem C15_counterexample_full_queue_of_an_inactive_handler :
    demo_engine_requested.queue.length = EVEL_EVENT_BUFFER_DEPTH ∧
    demo_engine_requested.capacity = EVEL_EVENT_BUFFER_DEPTH ∧
    demo_engine_requested.evt_handler_state = EVT_HANDLER_REQUEST_TERMINATE ∧
    evel_post_event demo_engine_requested (.header demo_heartbeat) =
      (EVEL_EVENT_HANDLER_INACTIVE, demo_engine_requested) := by
  decide!

/-- C15, amended: in every state the engine reaches from UNINITIALIZED by calls
of evel_initialize, evel_post_event and evel_terminate and by worker steps,
the capacity is the one it was made with and the queue holds at most that many
entries; and when the handler is ACTIVE and the queue holds exactly its
capacity, evel_post_event returns EVEL_EVENT_BUFFER_FULL and leaves the engine,
its queue included, as it was. -/
theorem C15_queue_is_bounded_and_post_fails_when_full (capacity : Nat)
    (calls : List ENGINE_CALL) (event : EVENT) :
    ((ENGINE.new capacity).run calls).capacity = capacity ∧
    ((ENGINE.new capacity).run calls).queue.length ≤ capacity ∧
    (((ENGINE.new capacity).run calls).evt_handler_state = EVT_HANDLER_ACTIVE →
      ((ENGINE.new capacity).run calls).queue.length = capacity →
      evel_post_event ((ENGINE.new capacity).run calls) event =
        (EVEL_EVENT_BUFFER_FULL, (ENGINE.new capacity).run calls)) := by
  obtain ⟨hc, hl, _⟩ := engine_inv_reachable capacity calls
  refine ⟨hc, hl, fun ha hf => post_of_full _ event ha ?_⟩
  rw [hc, hf]

/-- C15, amended, at the engine of default capacity after evel_initialize and a
hundred events posted: the hundred-and-first evel_post_event returns
EVEL_EVENT_BUFFER_FULL and changes nothing. -/
theorem C15_queue_is_bounded_and_post_fails_when_full_witness :
    demo_engine_full.evt_handler_state = EVT_HANDLER_ACTIVE ∧
    demo_engine_full.queue.length = EVEL_EVENT_BUFFER_DEPTH ∧
    evel_post_event demo_engine_full (.fault demo_fault) =
      (EVEL_EVENT_BUFFER_FULL, demo_engine_full) :=
  ⟨by decide!, by decide!,
    (C15_queue_is_bounded_and_post_fails_when_full EVEL_EVENT_BUFFER_DEPTH
      (.init true :: List.replicate 100 (.post (.header demo_heartbeat)))
      (.fault demo_fault)).2.2 (by decide!) (by decide!)⟩

/-! ### C16 -/

/-- C16, counterexample: the handler is ACTIVE and its queue is full; the event
is not accepted, evel_post_event returns EVEL_EVENT_BUFFER_FULL. -/
theorem C16_counterexample_active_handler_refuses_when_full :
    demo_engine_full.evt_handler_state = EVT_HANDLER_ACTIVE ∧
    (evel_post_event demo_engine_full (.header demo_heartbeat)).1 = EVEL_EVENT_BUFFER_FULL ∧
    (evel_post_event demo_engine_full (.header demo_heartbeat)).1 ≠ EVEL_SUCCESS := by
  decide!

/-- C16, amended: evel_post_event accepts an event (returns EVEL_SUCCESS) if
and only if the handler state is EVT_HANDLER_ACTIVE and the queue holds fewer
entries than its capacity, and then the event becomes the last entry of the
queue; in any state other than ACTIVE (so before evel_initialize, and after
evel_terminate on an active handler) it returns EVEL_EVENT_HANDLER_INACTIVE and
leaves the engine, its queue included, as it was. -/
theorem C16_post_is_accepted_only_when_active (s : ENGINE) (event : EVENT) (capacity : Nat) :
    ((evel_post_event s event).1 = EVEL_SUCCESS ↔
      s.evt_handler_state = EVT_HANDLER_ACTIVE ∧ s.queue.length < s.capacity) ∧
    ((evel_post_event s event).1 = EVEL_SUCCESS →
      (evel_post_event s event).2 = { s with queue := s.queue ++ [.event event] }) ∧
    (s.evt_handler_state ≠ EVT_HANDLER_ACTIVE →
      evel_post_event s event = (EVEL_EVENT_HANDLER_INACTIVE, s)) ∧
    evel_post_event (ENGINE.new capacity) event =
      (EVEL_EVENT_HANDLER_INACTIVE, ENGINE.new capacity) ∧
    (s.evt_handler_state = EVT_HANDLER_ACTIVE →
      evel_post_event (evel_terminate s) event =
        (EVEL_EVENT_HANDLER_INACTIVE, evel_terminate s)) := by
  have hiff : (evel_post_event s event).1 = EVEL_SUCCESS ↔
      s.evt_handler_state = EVT_HANDLER_ACTIVE ∧ s.queue.length < s.capacity := by
    by_cases h2 : s.evt_handler_state = EVT_HANDLER_ACTIVE
    · by_cases hr : s.queue.length < s.capacity
      · rw [post_of_room s event h2 hr]
        exact ⟨fun _ => ⟨h2, hr⟩, fun _ => rfl⟩
      · rw [post_of_full s event h2 (Nat.le_of_not_lt hr)]
        exact ⟨fun h => absurd h full_ne_success, fun h => absurd h.2 hr⟩
    · rw [post_of_not_active s event h2]
      exact ⟨fun h => absurd h inactive_ne_success, fun h => absurd h.1 h2⟩
  refine ⟨hiff, ?_, post_of_not_active s event, post_of_not_active _ event uninitialized_ne_active, ?_⟩
  · intro h
    obtain ⟨h2, hr⟩ := hiff.mp h
    rw [post_of_room s event h2 hr]
  · intro h2
    apply post_of_not_active
    by_cases hr : s.queue.length < s.capacity
    · rw [terminate_of_room s h2 hr]; exact request_ne_active
    · rw [terminate_of_full s h2 (Nat.le_of_not_lt hr)]; exact request_ne_active

/-- C16, amended, at the engine after evel_initialize, ninety-nine events and
evel_terminate: the event is refused with EVEL_EVENT_HANDLER_INACTIVE. -/
theorem C16_post_is_accepted_only_when_active_witness :
    demo_engine_requested.evt_handler_state ≠ EVT_HANDLER_ACTIVE ∧
    evel_post_event demo_engine_requested (.fault demo_fault) =
      (EVEL_EVENT_HANDLER_INACTIVE, demo_engine_requested) :=
  ⟨by decide!,
    (C16_post_is_accepted_only_when_active demo_engine_requested (.fault demo_fault)
      EVEL_EVENT_BUFFER_DEPTH).2.2.1 (by decide!)⟩

/-! ### C17 -/

/-- C17: in every state the engine reaches, the events accepted so far by
evel_post_event are, in the order of their acceptance, the events the worker
has dispatched followed by the events still in the queue.  When the
EVT_CMD_TERMINATE entry is in the queue it is the last entry, behind every
pending event, and the worker steps that follow dispatch the pending events in
order, take the command and reach EVT_HANDLER_TERMINATED with every accepted
event dispatched.  Whenever the handler is TERMINATED the events dispatched are
exactly the events accepted, in the same order, and the queue is empty. -/
theorem C17_terminate_is_a_drain_barrier (capacity : Nat) (calls : List ENGINE_CALL)
    (s : ENGINE) (accepted : List EVENT) (hs : (ENGINE.new capacity).run calls = s)
    (ha : (ENGINE.new capacity).accepted calls = accepted) :
    accepted = s.dispatched ++ queue_events s.queue ∧
    (QUEUE_ENTRY.internal EVT_CMD_TERMINATE ∈ s.queue →
      s.queue = (queue_events s.queue).map QUEUE_ENTRY.event ++ [.internal EVT_CMD_TERMINATE] ∧
      (s.run (List.replicate (s.queue.length + 1) .worker)).evt_handler_state =
        EVT_HANDLER_TERMINATED ∧
      (s.run (List.replicate (s.queue.length + 1) .worker)).dispatched = accepted) ∧
    (s.evt_handler_state = EVT_HANDLER_TERMINATED → s.dispatched = accepted ∧ s.queue = []) := by
  have hinv := engine_inv_reachable capacity calls
  rw [hs, ha] at hinv
  obtain ⟨_, _, pending, hacc, hst⟩ := hinv
  rcases hst with ⟨h0, hq, ha0⟩ | ⟨h2, hq⟩ | ⟨h34, hq | hq⟩ | ⟨h5, hq, hp⟩
  · have hd : s.dispatched = [] ∧ pending = [] := by
      rw [ha0] at hacc
      simpa using hacc.symm
    refine ⟨by rw [hq, hacc, hd.2]; rfl, fun hm => ?_, fun h => ?_⟩
    · rw [hq] at hm; simp at hm
    · rw [h0] at h; exact absurd h (by decide)
  · refine ⟨by rw [hq, queue_events_map, hacc], fun hm => ?_, fun h => ?_⟩
    · rw [hq] at hm; exact absurd hm (terminate_not_mem_map pending)
    · rw [h2] at h; exact absurd h (by decide)
  · refine ⟨by rw [hq, queue_events_map_terminate, hacc], fun _ => ?_, fun h => ?_⟩
    · have hlen : s.queue.length + 1 = (pending.length + 1) + 1 := by simp [hq]
      refine ⟨by rw [hq, queue_events_map_terminate], ?_⟩
      rw [hlen]
      rcases h34 with h3 | h4
      · rw [List.replicate_succ, engine_run_cons]
        show ((worker_step s).run _).evt_handler_state = _ ∧ ((worker_step s).run _).dispatched = _
        rw [worker_of_request s h3,
          worker_drain pending { s with evt_handler_state := EVT_HANDLER_TERMINATING } rfl hq]
        exact ⟨rfl, hacc.symm⟩
      · rw [List.replicate_succ', engine_run_append, worker_drain pending s h4 hq]
        exact ⟨rfl, hacc.symm⟩
    · rcases h34 with h3 | h4
      · rw [h3] at h; exact absurd h (by decide)
      · rw [h4] at h; exact absurd h (by decide)
  · refine ⟨by rw [hq, queue_events_map, hacc], fun hm => ?_, fun h => ?_⟩
    · rw [hq] at hm; exact absurd hm (terminate_not_mem_map pending)
    · rcases h34 with h3 | h4
      · rw [h3] at h; exact absurd h (by decide)
      · rw [h4] at h; exact absurd h (by decide)
  · subst hp
    refine ⟨by rw [hq, hacc]; rfl, fun hm => ?_, fun _ => ⟨by simpa using hacc.symm, hq⟩⟩
    rw [hq] at hm; simp at hm

/-- C17 at an engine of capacity 2: three events are accepted and one refused
before evel_terminate, one more is refused after it, and when the worker has
taken the terminate command the three accepted events have been dispatched, in
the order of their acceptance. -/
theorem C17_terminate_is_a_drain_barrier_witness :
    ((ENGINE.new 2).run demo_engine_calls).evt_handler_state = EVT_HANDLER_TERMINATED ∧
    (ENGINE.new 2).accepted demo_engine_calls =
      [.header demo_heartbeat, .fault demo_fault, .fault demo_fault_new] ∧
    ((ENGINE.new 2).run demo_engine_calls).dispatched = (ENGINE.new 2).accepted demo_engine_calls ∧
    ((ENGINE.new 2).run demo_engine_calls).queue = [] :=
  ⟨by decide!, by decide!,
    (C17_terminate_is_a_drain_barrier 2 demo_engine_calls _ _ rfl rfl).2.2 (by decide!)⟩

/-! ### C18 -/

/-- In a state the engine reaches, a call or a worker step leaves the handler
state as it is or moves it to the next state of the progression. -/
theorem engine_step_forward (s : ENGINE) (capacity : Nat) (acc : List EVENT) (c : ENGINE_CALL)
    (h : s.inv capacity acc) :
    (s.step c).evt_handler_state = s.evt_handler_state ∨
    next_state s.evt_handler_state = some (s.step c).evt_handler_state := by
  obtain ⟨_, _, pending, _, hst⟩ := h
  cases c with
  | init ok =>
    show ( evel_initialize s ok).evt_handler_state = _ ∨ _ = some ( evel_initialize s ok).evt_handler_state
    by_cases h0 : s.evt_handler_state = EVT_HANDLER_UNINITIALIZED
    · cases ok
      · left; simp [ evel_initialize]
      · right
        have : evel_initialize s true = { s with evt_handler_state := EVT_HANDLER_ACTIVE } := by
          simp [ evel_initialize, h0]
        rw [this, h0]; rfl
    · left; rw [init_of_not_uninitialized s ok h0]
  | post e =>
    left
    show (evel_post_event s e).2.evt_handler_state = _
    by_cases h2 : s.evt_handler_state = EVT_HANDLER_ACTIVE
    · by_cases hr : s.queue.length < s.capacity
      · rw [post_of_room s e h2 hr]
      · rw [post_of_full s e h2 (Nat.le_of_not_lt hr)]
    · rw [post_of_not_active s e h2]
  | terminate =>
    show (evel_terminate s).evt_handler_state = _ ∨ _ = some (evel_terminate s).evt_handler_state
    by_cases h2 : s.evt_handler_state = EVT_HANDLER_ACTIVE
    · right
      by_cases hr : s.queue.length < s.capacity
      · rw [terminate_of_room s h2 hr, h2]; rfl
      · rw [terminate_of_full s h2 (Nat.le_of_not_lt hr), h2]; rfl
    · left; rw [terminate_of_not_active s h2]
  | worker =>
    show (worker_step s).evt_handler_state = _ ∨ _ = some (worker_step s).evt_handler_state
    rcases hst with ⟨h0, _, _⟩ | ⟨h2, hq⟩ | ⟨h34, hq⟩ | ⟨h5, _, _⟩
    · left; rw [worker_of_idle s (Or.inl h0)]
    · left
      cases pending with
      | nil => rw [worker_of_empty s (Or.inl h2) (by simpa using hq)]
      | cons e p => rw [worker_of_event s e (p.map .event) (Or.inl h2) (by simpa using hq)]
    · rcases h34 with h3 | h4
      · right; rw [worker_of_request s h3, h3]; rfl
      · rcases hq with hq | hq
        · cases pending with
          | nil =>
            right
            rw [worker_of_terminate s [] (Or.inr h4) (by simpa using hq), h4]; rfl
          | cons e p =>
            left
            rw [worker_of_event s e (p.map .event ++ [.internal EVT_CMD_TERMINATE]) (Or.inr h4)
              (by simpa using hq)]
        · left
          cases pending with
          | nil => rw [worker_of_empty s (Or.inr h4) (by simpa using hq)]
          | cons e p => rw [worker_of_event s e (p.map .event) (Or.inr h4) (by simpa using hq)]
    · left; rw [worker_of_idle s (Or.inr (Or.inr h5))]

theorem next_state_lt (a b : Nat) (h : next_state a = some b) : a < b := by
  unfold next_state at h
  split_ifs at h with h0 h2 h3 h4
  · cases h; rw [h0]; decide
  · cases h; rw [h2]; decide
  · cases h; rw [h3]; decide
  · cases h; rw [h4]; decide

theorem engine_inv_state (s : ENGINE) (capacity : Nat) (acc : List EVENT)
    (h : s.inv capacity acc) :
    s.evt_handler_state ∈ [EVT_HANDLER_UNINITIALIZED, EVT_HANDLER_ACTIVE,
      EVT_HANDLER_REQUEST_TERMINATE, EVT_HANDLER_TERMINATING, EVT_HANDLER_TERMINATED] := by
  obtain ⟨_, _, pending, _, hst⟩ := h
  rcases hst with ⟨h, _, _⟩ | ⟨h, _⟩ | ⟨h | h, _⟩ | ⟨h, _, _⟩ <;> rw [h] <;> decide

theorem engine_run_forward (capacity : Nat) (more : List ENGINE_CALL) :
    ∀ (s : ENGINE) (acc : List EVENT), s.inv capacity acc →
      s.evt_handler_state ≤ (s.run more).evt_handler_state := by
  induction more with
  | nil => intro s acc _; exact le_refl _
  | cons c more ih =>
    intro s acc h
    rw [engine_run_cons]
    have h1 := ih _ _ (engine_inv_step s capacity acc c h)
    rcases engine_step_forward s capacity acc c h with h2 | h2
    · rw [h2] at h1; exact h1
    · exact le_trans (le_of_lt (next_state_lt _ _ h2)) h1

/-- C18: in every state the engine reaches from UNINITIALIZED, the handler
state is one of UNINITIALIZED, ACTIVE, REQUEST_TERMINATE, TERMINATING and
TERMINATED; every call of the API and every worker step either leaves the state
as it is or moves it to the next state of this progression; hence whatever
happens later the state is never an earlier one, and a TERMINATED handler stays
TERMINATED. -/
theorem C18_handler_state_only_moves_forward (capacity : Nat)
    (calls more : List ENGINE_CALL) (call : ENGINE_CALL) (s : ENGINE)
    (hs : (ENGINE.new capacity).run calls = s) :
    s.evt_handler_state ∈ [EVT_HANDLER_UNINITIALIZED, EVT_HANDLER_ACTIVE,
      EVT_HANDLER_REQUEST_TERMINATE, EVT_HANDLER_TERMINATING, EVT_HANDLER_TERMINATED] ∧
    ((s.step call).evt_handler_state = s.evt_handler_state ∨
      next_state s.evt_handler_state = some (s.step call).evt_handler_state) ∧
    s.evt_handler_state ≤ (s.run more).evt_handler_state ∧
    (s.evt_handler_state = EVT_HANDLER_TERMINATED →
      (s.run more).evt_handler_state = EVT_HANDLER_TERMINATED ∧
      (s.run more).evt_handler_state ≠ EVT_HANDLER_ACTIVE) := by
  have hinv := engine_inv_reachable capacity calls
  rw [hs] at hinv
  have hle := engine_run_forward capacity more s _ hinv
  have hmore := engine_inv_state _ _ _ (engine_inv_run capacity more s _ hinv)
  refine ⟨engine_inv_state _ _ _ hinv, engine_step_forward s capacity _ call hinv, hle, ?_⟩
  intro h5
  rw [h5] at hle
  have hx : ∀ x : Nat, 5 ≤ x → (x = 0 ∨ x = 2 ∨ x = 3 ∨ x = 4 ∨ x = 5) → x = 5 ∧ x ≠ 2 := by
    omega
  simp only [EVT_HANDLER_UNINITIALIZED, EVT_HANDLER_ACTIVE, EVT_HANDLER_REQUEST_TERMINATE,
    EVT_HANDLER_TERMINATING, EVT_HANDLER_TERMINATED, List.mem_cons, List.mem_singleton,
    List.mem_nil_iff, or_false] at hmore hle ⊢
  exact hx _ hle hmore

/-- C18 at the short life of an engine of capacity 2 after its first eight
steps (the handler is in REQUEST_TERMINATE): the next worker step moves it to
TERMINATING, and after the remaining steps it is TERMINATED. -/
theorem C18_handler_state_only_moves_forward_witness :
    ((ENGINE.new 2).run (demo_engine_calls.take 8)).evt_handler_state =
      EVT_HANDLER_REQUEST_TERMINATE ∧
    next_state ((ENGINE.new 2).run (demo_engine_calls.take 8)).evt_handler_state =
      some ((((ENGINE.new 2).run (demo_engine_calls.take 8))).step .worker).evt_handler_state ∧
    ((ENGINE.new 2).run (demo_engine_calls.take 8)).evt_handler_state ≤
      (((ENGINE.new 2).run (demo_engine_calls.take 8)).run
        (demo_engine_calls.drop 8)).evt_handler_state ∧
    (((ENGINE.new 2).run (demo_engine_calls.take 8)).run
        (demo_engine_calls.drop 8)).evt_handler_state = EVT_HANDLER_TERMINATED :=
  ⟨by decide!, by decide!,
    (C18_handler_state_only_moves_forward 2 (demo_engine_calls.take 8)
      (demo_engine_calls.drop 8) .worker _ rfl).2.2.1, by decide!⟩

/-! ## Decimal texts -/

theorem digitChar_digit (d : Nat) (h : d < 10) :
    '0' ≤ Nat.digitChar d ∧ Nat.digitChar d ≤ '9' ∧
      (Nat.digitChar d).toNat - '0'.toNat = d ∧ (Nat.digitChar d = '0' → d = 0) := by
  interval_cases d <;> decide

theorem dec_digits_succ (fuel n : Nat) :
    dec_digits (fuel + 1) n =
      if n < 10 then [Nat.digitChar n]
      else dec_digits fuel (n / 10) ++ [Nat.digitChar (n % 10)] := rfl

theorem dec_value_append (ds : List Char) (c : Char) :
    dec_value (ds ++ [c]) = 10 * dec_value ds + (c.toNat - '0'.toNat) := by
  simp [dec_value, List.foldl_append]

/-- With enough fuel the digits of a number are a numeral that stands for
it. -/
theorem dec_digits_spec (fuel : Nat) :
    ∀ n, n < fuel → is_numeral (dec_digits fuel n) ∧ dec_value (dec_digits fuel n) = n ∧
      ((dec_digits fuel n).head? = some '0' → n = 0) := by
  induction fuel with
  | zero => intro n h; omega
  | succ fuel ih =>
    intro n h
    rw [dec_digits_succ]
    by_cases h10 : n < 10
    · rw [if_pos h10]
      obtain ⟨h1, h2, h3, h4⟩ := digitChar_digit n h10
      refine ⟨⟨by simp, ?_, ?_⟩, ?_, ?_⟩
      · intro c hc
        rw [List.mem_singleton] at hc
        rw [hc]; exact ⟨h1, h2⟩
      · intro hh
        simp only [List.head?_cons, Option.some.injEq] at hh
        rw [hh]
      · show 10 * 0 + ((Nat.digitChar n).toNat - '0'.toNat) = n
        rw [h3]; omega
      · intro hh
        simp only [List.head?_cons, Option.some.injEq] at hh
        exact h4 hh
    · rw [if_neg h10]
      have hlt : n / 10 < fuel := by omega
      obtain ⟨⟨hne, hd, hz⟩, hv, hz'⟩ := ih (n / 10) hlt
      obtain ⟨h1, h2, h3, _⟩ := digitChar_digit (n % 10) (Nat.mod_lt _ (by decide))
      have hhead : (dec_digits fuel (n / 10) ++ [Nat.digitChar (n % 10)]).head? =
          (dec_digits fuel (n / 10)).head? := by
        cases hds : dec_digits fuel (n / 10) with
        | nil => exact absurd hds hne
        | cons a as => rfl
      have hpos : ¬ (dec_digits fuel (n / 10)).head? = some '0' := by
        intro hh
        have := hz' hh
        omega
      refine ⟨⟨by simp, ?_, ?_⟩, ?_, ?_⟩
      · intro c hc
        rw [List.mem_append, List.mem_singleton] at hc
        rcases hc with hc | hc
        · exact hd c hc
        · rw [hc]; exact ⟨h1, h2⟩
      · intro hh
        rw [hhead] at hh
        exact absurd hh hpos
      · rw [dec_value_append, hv, h3]
        omega
      · intro hh
        rw [hhead] at hh
        exact absurd hh hpos

theorem fmt_u_spec (n : Nat) : is_numeral (fmt_u n) ∧ dec_value (fmt_u n) = n := by
  obtain ⟨h1, h2, _⟩ := dec_digits_spec (n + 1) n (Nat.lt_succ_self n)
  exact ⟨h1, h2⟩

theorem fmt_u_head (n : Nat) : ∃ c rest, fmt_u n = c :: rest ∧ '0' ≤ c ∧ c ≤ '9' := by
  obtain ⟨⟨hne, hd, _⟩, _⟩ := fmt_u_spec n
  cases h : fmt_u n with
  | nil => exact absurd h hne
  | cons c rest => exact ⟨c, rest, rfl, hd c (by rw [h]; exact List.mem_cons_self _ _)⟩

/-- The text of `%d` reads back as the number printed. -/
theorem dec_int_fmt_d (n : Int) : dec_int (fmt_d n) = n := by
  unfold fmt_d
  by_cases hn : n < 0
  · rw [if_pos hn]
    show - (dec_value (fmt_u n.natAbs) : Int) = n
    rw [(fmt_u_spec _).2]
    omega
  · rw [if_neg hn]
    obtain ⟨c, rest, hc, h0, _⟩ := fmt_u_head n.natAbs
    have hv := (fmt_u_spec n.natAbs).2
    rw [hc] at hv ⊢
    have hne : c ≠ '-' := by
      intro h
      rw [h] at h0
      exact absurd h0 (by decide)
    have : dec_int (c :: rest) = (dec_value (c :: rest) : Int) := by
      unfold dec_int
      split
      · rename_i heq
        simp only [List.cons.injEq] at heq
        exact absurd heq.1 hne
      · rfl
    rw [this, hv]
    omega

theorem fmt_d_injective (a b : Int) (h : fmt_d a = fmt_d b) : a = b := by
  rw [← dec_int_fmt_d a, ← dec_int_fmt_d b, h]

/-! ## C30: the header as evel_init_header leaves it -/

/-- C30: for every header initialised by evel_init_header, with a clock
reading that is not negative and below 2^63 microseconds: source_id equals
reporting_entity_id, source_name equals reporting_entity_name (they are the
strings of the metadata), start_epoch_microsec equals last_epoch_microsec and
equals tv_usec + 1000000 * tv_sec, priority is Normal, the domain is heartbeat
and event_type is as it was before the call, unset for the zeroed header the
factories pass; evel_new_heartbeat changes only event_type, to `Autonomous
heartbeat`, and so leaves the domain as heartbeat. -/
theorem C30_init_header_postconditions (env : ENV) (tv : timeval) (header : EVENT_HEADER)
    (h0 : 0 ≤ tv.tv_usec + 1000000 * tv.tv_sec)
    (h1 : tv.tv_usec + 1000000 * tv.tv_sec < 9223372036854775808) :
    (evel_init_header env tv header).1.source_id =
      (evel_init_header env tv header).1.reporting_entity_id ∧
    (evel_init_header env tv header).1.source_name =
      (evel_init_header env tv header).1.reporting_entity_name ∧
    (evel_init_header env tv header).1.reporting_entity_id = some env.openstack_vm_uuid ∧
    (evel_init_header env tv header).1.reporting_entity_name = some env.openstack_vm_name ∧
    (evel_init_header env tv header).1.start_epoch_microsec =
      (evel_init_header env tv header).1.last_epoch_microsec ∧
    ((evel_init_header env tv header).1.last_epoch_microsec : Int) =
      tv.tv_usec + 1000000 * tv.tv_sec ∧
    (evel_init_header env tv header).1.priority = EVEL_PRIORITY_NORMAL ∧
    (evel_init_header env tv header).1.event_domain = EVEL_DOMAIN_HEARTBEAT ∧
    (evel_init_header env tv header).1.event_type = header.event_type ∧
    (evel_init_header env tv EVENT_HEADER.zero).1.event_type = none ∧
    (evel_new_heartbeat env tv).1 =
      { (evel_init_header env tv EVENT_HEADER.zero).1 with
        event_type := some "Autonomous heartbeat" } ∧
    (evel_new_heartbeat env tv).1.event_type = some "Autonomous heartbeat" ∧
    (evel_new_heartbeat env tv).1.event_domain = EVEL_DOMAIN_HEARTBEAT ∧
    (evel_new_heartbeat env tv).2 = (evel_init_header env tv EVENT_HEADER.zero).2 := by
  refine ⟨rfl, rfl, rfl, rfl, rfl, ?_, rfl, rfl, rfl, rfl, rfl, rfl, rfl, rfl⟩
  show ((ull_of_long (tv.tv_usec + 1000000 * tv.tv_sec) : Nat) : Int) = _
  unfold ull_of_long
  rw [Int.emod_eq_of_lt h0 (by omega)]
  exact Int.toNat_of_nonneg h0

/-- C30 at the clock reading and the globals of the demo. -/
theorem C30_init_header_postconditions_witness :
    ((evel_init_header demo_env demo_tv EVENT_HEADER.zero).1.last_epoch_microsec : Int) =
      1500000000123456 ∧
    (evel_init_header demo_env demo_tv EVENT_HEADER.zero).1.source_id = some "Dummy VM UUID" ∧
    (evel_new_heartbeat demo_env demo_tv).1.event_type = some "Autonomous heartbeat" :=
  ⟨(C30_init_header_postconditions demo_env demo_tv EVENT_HEADER.zero (by decide)
      (by decide)).2.2.2.2.2.1,
    by decide, by decide⟩

/-! ## C21: the fault as evel_new_fault returns it -/

/-- C21: for every call evel_new_fault(condition, specific_problem, priority,
severity) with priority < EVEL_MAX_PRIORITIES and severity <
EVEL_MAX_SEVERITIES the fault is created; its header domain is fault and its
priority the given priority, event_severity is the given severity,
alarm_condition and specific_problem are the given strings, vf_status is
Active, the additional-info list is empty, alarm_interface_a and the header
event type are unset, and event_source_type is the global of that name. -/
theorem C21_new_fault_postconditions (env : ENV) (tv : timeval)
    (condition specific_problem : String) (priority : EVEL_EVENT_PRIORITIES)
    (severity : EVEL_FAULT_SEVERITIES) (hp : priority < EVEL_MAX_PRIORITIES)
    (hs : severity < EVEL_MAX_SEVERITIES) :
    ∃ fault env', evel_new_fault env tv condition specific_problem priority severity =
        some (fault, env') ∧
      fault.header.event_domain = EVEL_DOMAIN_FAULT ∧
      fault.header.priority = priority ∧
      fault.event_severity = severity ∧
      fault.alarm_condition = some condition ∧
      fault.specific_problem = some specific_problem ∧
      fault.vf_status = EVEL_VF_STATUS_ACTIVE ∧
      fault.additional_info = [] ∧
      fault.alarm_interface_a = none ∧
      fault.header.event_type = none ∧
      fault.event_source_type = env.event_source_type ∧
      fault.header = { (evel_init_header env tv EVENT_HEADER.zero).1 with
        event_domain := EVEL_DOMAIN_FAULT, priority := priority } ∧
      env' = (evel_init_header env tv EVENT_HEADER.zero).2 := by
  simp only [evel_new_fault, hp, hs, not_true_eq_false, if_false]
  exact ⟨_, _, rfl, rfl, rfl, rfl, rfl, rfl, rfl, rfl, rfl, rfl, rfl, rfl, rfl⟩

/-- C21 at the call of the demo program. -/
theorem C21_new_fault_postconditions_witness :
    ∃ fault env', evel_new_fault demo_env demo_tv "My alarm condition" "It broke very badly"
        EVEL_PRIORITY_NORMAL EVEL_SEVERITY_MAJOR = some (fault, env') ∧
      fault.header.event_domain = EVEL_DOMAIN_FAULT ∧
      fault.header.priority = EVEL_PRIORITY_NORMAL ∧
      fault.event_severity = EVEL_SEVERITY_MAJOR ∧
      fault.alarm_condition = some "My alarm condition" ∧
      fault.specific_problem = some "It broke very badly" ∧
      fault.vf_status = EVEL_VF_STATUS_ACTIVE ∧
      fault.additional_info = [] ∧
      fault.alarm_interface_a = none ∧
      fault.header.event_type = none ∧
      fault.event_source_type = demo_env.event_source_type ∧
      fault.header = { (evel_init_header demo_env demo_tv EVENT_HEADER.zero).1 with
        event_domain := EVEL_DOMAIN_FAULT, priority := EVEL_PRIORITY_NORMAL } ∧
      env' = (evel_init_header demo_env demo_tv EVENT_HEADER.zero).2 :=
  C21_new_fault_postconditions demo_env demo_tv "My alarm condition" "It broke very badly"
    EVEL_PRIORITY_NORMAL EVEL_SEVERITY_MAJOR (by decide) (by decide)

/-! ## C22, C23: what the setters leave alone -/

theorem fault_apply_all_nil (f : EVENT_FAULT) : fault_apply_all f [] = some f := rfl

theorem fault_apply_all_cons (f : EVENT_FAULT) (op : FAULT_OP) (ops : List FAULT_OP) :
    fault_apply_all f (op :: ops) = (op.apply f).bind fun g => fault_apply_all g ops := rfl

theorem ite_none_some {α : Type} {c : Prop} [Decidable c] {x : Option α} {y : α}
    (h : (if c then none else x) = some y) : x = some y := by
  split_ifs at h
  exact h

theorem fault_op_fixed (op : FAULT_OP) (f0 f1 : EVENT_FAULT) (h : op.apply f0 = some f1) :
    f1.fixed = f0.fixed := by
  cases op with
  | type_set s =>
    simp only [FAULT_OP.apply, evel_fault_type_set] at h
    split_ifs at h
    all_goals (cases h; rfl)
  | interface_set s =>
    simp only [FAULT_OP.apply, evel_fault_interface_set] at h
    split_ifs at h
    all_goals (cases h; rfl)
  | addl_info_add n v =>
    simp only [FAULT_OP.apply, evel_fault_addl_info_add] at h
    split_ifs at h
    all_goals (cases h; rfl)

theorem fault_apply_all_fixed (ops : List FAULT_OP) :
    ∀ f0 f1 : EVENT_FAULT, fault_apply_all f0 ops = some f1 → f1.fixed = f0.fixed := by
  induction ops with
  | nil => intro f0 f1 h; cases h; rfl
  | cons op ops ih =>
    intro f0 f1 h
    rw [fault_apply_all_cons] at h
    cases hop : op.apply f0 with
    | none => rw [hop] at h; cases h
    | some g =>
      rw [hop] at h
      exact (ih g f1 h).trans (fault_op_fixed op f0 g hop)

/-- C22: for every fault and every sequence of calls of evel_fault_type_set,
evel_fault_interface_set and evel_fault_addl_info_add on it, the fault after
the calls differs from the fault before them at most in the header event type,
alarm_interface_a and the additional information: alarm_condition,
specific_problem, event_severity, event_source_type, vf_status and the
header's domain, priority, sequence, event id, timestamps, functional role and
entity and source identity strings are unchanged. -/
theorem C22_fault_mandatory_fields_are_immutable (f f' : EVENT_FAULT) (ops : List FAULT_OP)
    (h : fault_apply_all f ops = some f') :
    f'.fixed = f.fixed ∧
    f'.alarm_condition = f.alarm_condition ∧ f'.specific_problem = f.specific_problem ∧
    f'.event_severity = f.event_severity ∧ f'.event_source_type = f.event_source_type ∧
    f'.vf_status = f.vf_status ∧
    f'.header.event_domain = f.header.event_domain ∧ f'.header.priority = f.header.priority ∧
    f'.header.sequence = f.header.sequence ∧ f'.header.event_id = f.header.event_id ∧
    f'.header.last_epoch_microsec = f.header.last_epoch_microsec ∧
    f'.header.start_epoch_microsec = f.header.start_epoch_microsec ∧
    f'.header.functional_role = f.header.functional_role ∧
    f'.header.reporting_entity_id = f.header.reporting_entity_id ∧
    f'.header.reporting_entity_name = f.header.reporting_entity_name ∧
    f'.header.source_id = f.header.source_id ∧
    f'.header.source_name = f.header.source_name := by
  have hf := fault_apply_all_fixed ops f f' h
  have key : ∀ {α : Type} (g : EVENT_FAULT → α), g f'.fixed = g f.fixed :=
    fun g => congrArg g hf
  exact ⟨hf, key (fun x => x.alarm_condition), key (fun x => x.specific_problem),
    key (fun x => x.event_severity), key (fun x => x.event_source_type),
    key (fun x => x.vf_status),
    key (fun x => x.header.event_domain), key (fun x => x.header.priority),
    key (fun x => x.header.sequence), key (fun x => x.header.event_id),
    key (fun x => x.header.last_epoch_microsec),
    key (fun x => x.header.start_epoch_microsec),
    key (fun x => x.header.functional_role),
    key (fun x => x.header.reporting_entity_id),
    key (fun x => x.header.reporting_entity_name),
    key (fun x => x.header.source_id),
    key (fun x => x.header.source_name)⟩

/-- C22 at the fault and the setter calls of the demo program. -/
theorem C22_fault_mandatory_fields_are_immutable_witness :
    fault_apply_all demo_fault_new demo_fault_ops = some demo_fault ∧
    demo_fault.alarm_condition = some "My alarm condition" ∧
    demo_fault.specific_problem = some "It broke very badly" ∧
    demo_fault.header.sequence = demo_fault_new.header.sequence ∧
    demo_fault.header.event_id = demo_fault_new.header.event_id :=
  ⟨by decide,
    ((C22_fault_mandatory_fields_are_immutable demo_fault_new demo_fault demo_fault_ops
      (by decide)).2.1).trans (by decide),
    ((C22_fault_mandatory_fields_are_immutable demo_fault_new demo_fault demo_fault_ops
      (by decide)).2.2.1).trans (by decide),
    (C22_fault_mandatory_fields_are_immutable demo_fault_new demo_fault demo_fault_ops
      (by decide)).2.2.2.2.2.2.2.2.1,
    (C22_fault_mandatory_fields_are_immutable demo_fault_new demo_fault demo_fault_ops
      (by decide)).2.2.2.2.2.2.2.2.2.1⟩

theorem measurement_call_all_nil (m : EVENT_MEASUREMENT) :
    measurement_call_all m [] = some m := rfl

theorem measurement_call_all_cons (m : EVENT_MEASUREMENT) (c : MEASUREMENT_CALL)
    (cs : List MEASUREMENT_CALL) :
    measurement_call_all m (c :: cs) = (c.apply m).bind fun g => measurement_call_all g cs :=
  rfl

theorem type_set_fixed (m0 m1 : EVENT_MEASUREMENT) (s : String)
    (h : evel_measurement_type_set m0 s = some m1) : m1.fixed = m0.fixed := by
  simp only [evel_measurement_type_set] at h
  split_ifs at h
  all_goals (cases h; rfl)

theorem agg_cpu_use_set_fixed (m0 m1 : EVENT_MEASUREMENT) (x : double)
    (h : evel_measurement_agg_cpu_use_set m0 x = some m1) : m1.fixed = m0.fixed := by
  simp only [evel_measurement_agg_cpu_use_set] at h
  split_ifs at h
  all_goals (cases h; rfl)

theorem media_port_use_set_fixed (m0 m1 : EVENT_MEASUREMENT) (x : Int)
    (h : evel_measurement_media_port_use_set m0 x = some m1) : m1.fixed = m0.fixed := by
  simp only [evel_measurement_media_port_use_set] at h
  split_ifs at h
  all_goals (cases h; rfl)

theorem vnfc_scaling_metric_set_fixed (m0 m1 : EVENT_MEASUREMENT) (x : double)
    (h : evel_measurement_vnfc_scaling_metric_set m0 x = some m1) : m1.fixed = m0.fixed := by
  simp only [evel_measurement_vnfc_scaling_metric_set] at h
  split_ifs at h
  all_goals (cases h; rfl)

theorem cpu_use_add_fixed (m0 m1 : EVENT_MEASUREMENT) (n : String) (v : double)
    (h : evel_measurement_cpu_use_add m0 n v = some m1) : m1.fixed = m0.fixed := by
  simp only [evel_measurement_cpu_use_add] at h
  split_ifs at h
  all_goals (cases h; rfl)

theorem fsys_use_add_fixed (m0 m1 : EVENT_MEASUREMENT) (a : String) (b c : double) (d : Int) (e f : double) (g : Int)
    (h : evel_measurement_fsys_use_add m0 a b c d e f g = some m1) : m1.fixed = m0.fixed := by
  simp only [evel_measurement_fsys_use_add] at h
  split_ifs at h
  all_goals (cases h; rfl)

theorem latency_add_fixed (m0 m1 : EVENT_MEASUREMENT) (a b : double) (c : Int)
    (h : evel_measurement_latency_add m0 a b c = some m1) : m1.fixed = m0.fixed := by
  simp only [evel_measurement_latency_add] at h
  split_ifs at h
  all_goals (cases h; rfl)

theorem vnic_use_add_fixed (m0 m1 : EVENT_MEASUREMENT) (a : String) (b c d e f g i j : Int)
    (h : evel_measurement_vnic_use_add m0 a b c d e f g i j = some m1) : m1.fixed = m0.fixed := by
  unfold evel_measurement_vnic_use_add at h
  repeat (replace h := ite_none_some h)
  cases h
  rfl

theorem feature_use_add_fixed (m0 m1 : EVENT_MEASUREMENT) (a : String) (b : double)
    (h : evel_measurement_feature_use_add m0 a b = some m1) : m1.fixed = m0.fixed := by
  simp only [evel_measurement_feature_use_add] at h
  split_ifs at h
  all_goals (cases h; rfl)

theorem codec_use_add_fixed (m0 m1 : EVENT_MEASUREMENT) (a : String) (b : Int)
    (h : evel_measurement_codec_use_add m0 a b = some m1) : m1.fixed = m0.fixed := by
  simp only [evel_measurement_codec_use_add] at h
  split_ifs at h
  all_goals (cases h; rfl)

theorem custom_measurement_add_fixed (m0 m1 : EVENT_MEASUREMENT) (a b c : String)
    (h : evel_measurement_custom_measurement_add m0 a b c = some m1) : m1.fixed = m0.fixed := by
  simp only [evel_measurement_custom_measurement_add] at h
  split_ifs at h
  all_goals (cases h; rfl)

theorem measurement_call_fixed (c : MEASUREMENT_CALL) (m0 m1 : EVENT_MEASUREMENT)
    (h : c.apply m0 = some m1) : m1.fixed = m0.fixed := by
  cases c with
  | type_set s => exact type_set_fixed m0 m1 s h
  | agg_cpu_use_set x => exact agg_cpu_use_set_fixed m0 m1 x h
  | media_port_use_set x => exact media_port_use_set_fixed m0 m1 x h
  | vnfc_scaling_metric_set x => exact vnfc_scaling_metric_set_fixed m0 m1 x h
  | cpu_use_add n v => exact cpu_use_add_fixed m0 m1 n v h
  | fsys_use_add a b c d e f g => exact fsys_use_add_fixed m0 m1 a b c d e f g h
  | latency_add a b c => exact latency_add_fixed m0 m1 a b c h
  | vnic_use_add a b c d e f g i j => exact vnic_use_add_fixed m0 m1 a b c d e f g i j h
  | feature_use_add a b => exact feature_use_add_fixed m0 m1 a b h
  | codec_use_add a b => exact codec_use_add_fixed m0 m1 a b h
  | custom_measurement_add a b c => exact custom_measurement_add_fixed m0 m1 a b c h

theorem measurement_call_all_fixed (cs : List MEASUREMENT_CALL) :
    ∀ m0 m1 : EVENT_MEASUREMENT, measurement_call_all m0 cs = some m1 →
      m1.fixed = m0.fixed := by
  induction cs with
  | nil => intro m0 m1 h; cases h; rfl
  | cons c cs ih =>
    intro m0 m1 h
    rw [measurement_call_all_cons] at h
    cases hc : c.apply m0 with
    | none => rw [hc] at h; cases h
    | some g =>
      rw [hc] at h
      exact (ih g m1 h).trans (measurement_call_fixed c m0 g hc)
theorem new_measurement_eq (env env' : ENV) (tv : timeval) (a b : Int) (c d e f : double)
    (g : Int) (m0 : EVENT_MEASUREMENT)
    (h : evel_new_measurement env tv a b c d e f g = some (m0, env')) :
    m0.concurrent_sessions = a ∧ m0.configured_entities = b ∧ m0.mean_request_latency = c ∧
    m0.measurement_interval = d ∧ m0.memory_configured = e ∧ m0.memory_used = f ∧
    m0.request_rate = g ∧ m0.header.event_domain = EVEL_DOMAIN_MEASUREMENT ∧
    m0.header.priority = EVEL_PRIORITY_NORMAL ∧
    m0.header.sequence = (evel_init_header env tv EVENT_HEADER.zero).1.sequence ∧
    m0.header.event_id = (evel_init_header env tv EVENT_HEADER.zero).1.event_id := by
  unfold evel_new_measurement at h
  repeat (replace h := ite_none_some h)
  cases h
  exact ⟨rfl, rfl, rfl, rfl, rfl, rfl, rfl, rfl, rfl, rfl, rfl⟩

/-- C23: evel_new_measurement stores each of its seven arguments in the field
of the same name, and after every sequence of setter and add calls on the
measurement (type_set, agg_cpu_use_set, media_port_use_set,
vnfc_scaling_metric_set and the cpu, fsys, latency, vnic, feature, codec and
custom-measurement adds) the measurement differs from the one the factory
returned at most in the event type, the three optional numbers and the seven
lists: the seven mandatory fields still hold the arguments, and the header's
domain, priority, sequence and event id are unchanged. -/
theorem C23_measurement_mandatory_fields_are_immutable (env env' : ENV) (tv : timeval)
    (concurrent_sessions configured_entities : Int)
    (mean_request_latency measurement_interval memory_configured memory_used : double)
    (request_rate : Int) (m0 m : EVENT_MEASUREMENT) (calls : List MEASUREMENT_CALL)
    (hn : evel_new_measurement env tv concurrent_sessions configured_entities
      mean_request_latency measurement_interval memory_configured memory_used request_rate =
        some (m0, env'))
    (hc : measurement_call_all m0 calls = some m) :
    (m0.concurrent_sessions = concurrent_sessions ∧
      m0.configured_entities = configured_entities ∧
      m0.mean_request_latency = mean_request_latency ∧
      m0.measurement_interval = measurement_interval ∧
      m0.memory_configured = memory_configured ∧ m0.memory_used = memory_used ∧
      m0.request_rate = request_rate) ∧
    m.fixed = m0.fixed ∧
    (m.concurrent_sessions = concurrent_sessions ∧
      m.configured_entities = configured_entities ∧
      m.mean_request_latency = mean_request_latency ∧
      m.measurement_interval = measurement_interval ∧
      m.memory_configured = memory_configured ∧ m.memory_used = memory_used ∧
      m.request_rate = request_rate) ∧
    m.header.event_domain = m0.header.event_domain ∧ m.header.priority = m0.header.priority ∧
    m.header.sequence = m0.header.sequence ∧ m.header.event_id = m0.header.event_id := by
  obtain ⟨h1, h2, h3, h4, h5, h6, h7, _⟩ :=
    new_measurement_eq env env' tv _ _ _ _ _ _ _ m0 hn
  have hf := measurement_call_all_fixed calls m0 m hc
  have key : ∀ {α : Type} (g : EVENT_MEASUREMENT → α), g m.fixed = g m0.fixed :=
    fun g => congrArg g hf
  exact ⟨⟨h1, h2, h3, h4, h5, h6, h7⟩, hf,
    ⟨(key (fun x => x.concurrent_sessions)).trans h1,
     (key (fun x => x.configured_entities)).trans h2,
     (key (fun x => x.mean_request_latency)).trans h3,
     (key (fun x => x.measurement_interval)).trans h4,
     (key (fun x => x.memory_configured)).trans h5,
     (key (fun x => x.memory_used)).trans h6,
     (key (fun x => x.request_rate)).trans h7⟩,
    key (fun x => x.header.event_domain), key (fun x => x.header.priority),
    key (fun x => x.header.sequence), key (fun x => x.header.event_id)⟩

/-- C23 at the measurement of the demo program and all its setter and add
calls. -/
theorem C23_measurement_mandatory_fields_are_immutable_witness :
    ∃ m0 env' m,
      evel_new_measurement demo_env demo_tv 1 2 3.3 4.4 5.5 6.6 7 = some (m0, env') ∧
      measurement_call_all m0 demo_measurement_calls = some m ∧
      (m.concurrent_sessions = 1 ∧ m.configured_entities = 2 ∧ m.mean_request_latency = 3.3 ∧
        m.measurement_interval = 4.4 ∧ m.memory_configured = 5.5 ∧ m.memory_used = 6.6 ∧
        m.request_rate = 7) ∧
      m.header.sequence = m0.header.sequence := by
  have h1 : (evel_new_measurement demo_env demo_tv 1 2 3.3 4.4 5.5 6.6 7).isSome = true := by
    decide!
  obtain ⟨⟨m0, env'⟩, hn⟩ := Option.isSome_iff_exists.mp h1
  have h2 : ((evel_new_measurement demo_env demo_tv 1 2 3.3 4.4 5.5 6.6 7).bind
      fun p => measurement_call_all p.1 demo_measurement_calls).isSome = true := by decide!
  rw [hn, Option.some_bind] at h2
  obtain ⟨m, hc⟩ := Option.isSome_iff_exists.mp h2
  exact ⟨m0, env', m, hn, hc,
    (C23_measurement_mandatory_fields_are_immutable demo_env env' demo_tv 1 2 3.3 4.4 5.5 6.6 7
      m0 m demo_measurement_calls hn hc).2.2.1,
    (C23_measurement_mandatory_fields_are_immutable demo_env env' demo_tv 1 2 3.3 4.4 5.5 6.6 7
      m0 m demo_measurement_calls hn hc).2.2.2.2.2.1⟩

/-! ## C27: the assertions of the encoder -/

theorem report_call_all_nil (r : EVENT_REPORT) : report_call_all r [] = some r := rfl

theorem report_call_all_cons (r : EVENT_REPORT) (c : REPORT_CALL) (cs : List REPORT_CALL) :
    report_call_all r (c :: cs) = (c.apply r).bind fun g => report_call_all g cs := rfl

theorem report_call_valid (c : REPORT_CALL) (r0 r1 : EVENT_REPORT) (h : c.apply r0 = some r1) :
    r1.valid = r0.valid := by
  cases c with
  | type_set s =>
    simp only [REPORT_CALL.apply, evel_report_type_set] at h
    split_ifs at h
    all_goals (cases h; rfl)
  | feature_use_add a b =>
    simp only [REPORT_CALL.apply, evel_report_feature_use_add] at h
    split_ifs at h
    all_goals (cases h; rfl)
  | custom_measurement_add a b c =>
    simp only [REPORT_CALL.apply, evel_report_custom_measurement_add] at h
    split_ifs at h
    all_goals (cases h; rfl)

theorem report_call_all_valid (cs : List REPORT_CALL) :
    ∀ r0 r1 : EVENT_REPORT, report_call_all r0 cs = some r1 → r1.valid = r0.valid := by
  induction cs with
  | nil => intro r0 r1 h; cases h; rfl
  | cons c cs ih =>
    intro r0 r1 h
    rw [report_call_all_cons] at h
    cases hc : c.apply r0 with
    | none => rw [hc] at h; cases h
    | some g =>
      rw [hc] at h
      exact (ih g r1 h).trans (report_call_valid c r0 g hc)

theorem new_report_valid (env env' : ENV) (tv : timeval) (x : double) (r0 : EVENT_REPORT)
    (h : evel_new_report env tv x = some (r0, env')) : r0.valid := by
  unfold evel_new_report at h
  replace h := ite_none_some h
  cases h
  exact ⟨rfl, show EVEL_PRIORITY_NORMAL < EVEL_MAX_PRIORITIES by decide⟩

theorem encoder_returns_of_calls (e : EVENT) (cs : List CALL) (h : domain_calls e = some cs) :
    encoder_returns e := by
  refine ⟨[lit "\x7b\"event\":\x7b"] ++ cs ++ [lit "\x7d\x7d"], ?_, ?_⟩
  · simp only [event_calls, h, Option.map_some']
  · intro j M hM
    rw [evel_json_encode_event_eq, if_pos hM]
    simp only [event_calls, h, Option.map_some']

theorem heartbeat_returns (h : EVENT_HEADER) (hd : h.event_domain = EVEL_DOMAIN_HEARTBEAT)
    (hp : h.priority < EVEL_MAX_PRIORITIES) : encoder_returns (.header h) := by
  have hv : h.valid := ⟨by rw [hd]; decide, by rw [hd]; decide, hp⟩
  obtain ⟨hcalls, _, hh, _⟩ := header_shape h hv
  apply encoder_returns_of_calls _ hcalls
  have hd' : (EVENT.header h).hdr.event_domain = EVEL_DOMAIN_HEARTBEAT := hd
  have hh' : evel_json_encode_header_calls (EVENT.header h).hdr = some hcalls := hh
  simp only [domain_calls, hd', hh']
  rw [if_pos trivial]

theorem fault_returns (f : EVENT_FAULT) (hf : f.valid) : encoder_returns (.fault f) := by
  have hv : f.header.valid := ⟨by rw [hf.1]; decide, by rw [hf.1]; decide, hf.2.1⟩
  obtain ⟨hcalls, _, hh, _⟩ := header_shape _ hv
  obtain ⟨fcalls, hfc, _⟩ := fault_block f hf
  apply encoder_returns_of_calls _ (hcalls ++ fcalls)
  have hd : (EVENT.fault f).hdr.event_domain = EVEL_DOMAIN_FAULT := hf.1
  simp only [domain_calls, hd, fault_calls, hh, hfc]
  rw [if_neg (by decide), if_pos trivial]

theorem measurement_returns (m : EVENT_MEASUREMENT) (hm : m.valid) :
    encoder_returns (.measurement m) := by
  have hv : m.header.valid := ⟨by rw [hm.1]; decide, by rw [hm.1]; decide, hm.2⟩
  obtain ⟨hcalls, _, hh, _⟩ := header_shape _ hv
  apply encoder_returns_of_calls _ (hcalls ++ evel_json_encode_measurement_calls m)
  have hd : (EVENT.measurement m).hdr.event_domain = EVEL_DOMAIN_MEASUREMENT := hm.1
  simp only [domain_calls, hd, measurement_calls, hh]
  rw [if_neg (by decide), if_neg (by decide), if_pos trivial]
  rfl

theorem report_returns (r : EVENT_REPORT) (hr : r.valid) : encoder_returns (.report r) := by
  have hv : r.header.valid := ⟨by rw [hr.1]; decide, by rw [hr.1]; decide, hr.2⟩
  obtain ⟨hcalls, _, hh, _⟩ := header_shape _ hv
  apply encoder_returns_of_calls _ (hcalls ++ evel_json_encode_report_calls r)
  have hd : (EVENT.report r).hdr.event_domain = EVEL_DOMAIN_REPORT := hr.1
  simp only [domain_calls, hd, report_calls, hh]
  rw [if_neg (by decide), if_neg (by decide), if_neg (by decide), if_pos trivial]
  rfl

/-- C27: with the global event_source_type an enumerator, the encoder runs to
its end on every event built through the public factories: on the heartbeat
evel_new_heartbeat returns, and on every fault, measurement and report that
evel_new_fault, evel_new_measurement and evel_new_report return (their own
assertions holding) after any sequence of calls of that type's setters and add
operations.  The calls of evel_json_encode_event are then defined, which means
that no `default:` branch of the switches on the domain, the priority, the
severity, the source type and the VF status is reached and that the domain
assertions of the encoder called hold. -/
theorem C27_assertion_branches_are_unreachable (env : ENV) (tv : timeval)
    (hsrc : env.event_source_type < EVEL_MAX_SOURCE_TYPES) :
    encoder_returns (.header (evel_new_heartbeat env tv).1) ∧
    (∀ (condition specific_problem : String) (priority : EVEL_EVENT_PRIORITIES)
        (severity : EVEL_FAULT_SEVERITIES) (f0 f : EVENT_FAULT) (env' : ENV)
        (ops : List FAULT_OP),
      evel_new_fault env tv condition specific_problem priority severity = some (f0, env') →
      fault_apply_all f0 ops = some f → encoder_returns (.fault f)) ∧
    (∀ (a b : Int) (c d e f : double) (g : Int) (m0 m : EVENT_MEASUREMENT) (env' : ENV)
        (calls : List MEASUREMENT_CALL),
      evel_new_measurement env tv a b c d e f g = some (m0, env') →
      measurement_call_all m0 calls = some m → encoder_returns (.measurement m)) ∧
    (∀ (measurement_interval : double) (r0 r : EVENT_REPORT) (env' : ENV)
        (calls : List REPORT_CALL),
      evel_new_report env tv measurement_interval = some (r0, env') →
      report_call_all r0 calls = some r → encoder_returns (.report r)) := by
  refine ⟨heartbeat_returns _ rfl
    (show EVEL_PRIORITY_NORMAL < EVEL_MAX_PRIORITIES by decide), ?_, ?_, ?_⟩
  · intro condition problem priority severity f0 f env' ops hn hops
    have hv0 := (new_fault_fields env env' tv condition problem priority severity f0 hsrc hn).1
    have hv : f.valid := by
      rw [(fault_apply_all_fields ops f0 f hops).1]; exact hv0
    exact fault_returns f hv
  · intro a b c d e f g m0 m env' calls hn hc
    have hv0 := (new_measurement_fields env env' tv a b c d e f g m0 hn).1
    have hf := measurement_call_all_fixed calls m0 m hc
    have hv : m.valid :=
      ⟨(congrArg (fun x => x.header.event_domain) hf : _).trans hv0.1,
        by
          have hp : m.header.priority = m0.header.priority :=
            congrArg (fun x => x.header.priority) hf
          rw [hp]; exact hv0.2⟩
    exact measurement_returns m hv
  · intro x r0 r env' calls hn hc
    have hv0 := new_report_valid env env' tv x r0 hn
    have hv : r.valid := by rw [report_call_all_valid calls r0 r hc]; exact hv0
    exact report_returns r hv

/-- C27 at the globals and the four events of the demo program with all their
setter and add calls. -/
theorem C27_assertion_branches_are_unreachable_witness :
    encoder_returns (.header demo_heartbeat) ∧ encoder_returns (.fault demo_fault) ∧
    encoder_returns (.measurement demo_measurement) ∧ encoder_returns (.report demo_report) := by
  have h := C27_assertion_branches_are_unreachable demo_env demo_tv (by decide)
  refine ⟨h.1, ?_, ?_, ?_⟩
  · exact h.2.1 "My alarm condition" "It broke very badly" EVEL_PRIORITY_NORMAL
      EVEL_SEVERITY_MAJOR demo_fault_new demo_fault
      (evel_init_header demo_env demo_tv EVENT_HEADER.zero).2 demo_fault_ops (by decide)
      (by decide)
  · exact h.2.2.1 1 2 3.3 4.4 5.5 6.6 7 demo_measurement_new demo_measurement
      (evel_init_header demo_env demo_tv EVENT_HEADER.zero).2 demo_measurement_calls
      (by decide!) (by decide!)
  · exact h.2.2.2 1.1 demo_report_new demo_report
      (evel_init_header demo_env demo_tv EVENT_HEADER.zero).2 demo_report_calls (by decide!)
      (by decide!)

/-! ## C25: the groups of custom measurements -/

theorem find_push_none (g : String) (cm : CUSTOM_MEASUREMENT) :
    ∀ groups : DLIST MEASUREMENT_GROUP, some g ∉ groups.map (fun gr => gr.name) →
      custom_measurement_find_push g cm groups = none := by
  intro groups
  induction groups with
  | nil => intro _; rfl
  | cons gr rest ih =>
    intro h
    simp only [List.map_cons, List.mem_cons, not_or] at h
    have hne : ¬ gr.name = some g := fun e => h.1 e.symm
    simp only [custom_measurement_find_push, hne, if_false, ih h.2, Option.map_none']

/-- The group of the given name with one more custom measurement at its head,
any other group as it is. -/
theorem find_push_some (g : String) (cm : CUSTOM_MEASUREMENT) :
    ∀ groups : DLIST MEASUREMENT_GROUP, (groups.map (fun gr => gr.name)).Nodup →
      some g ∈ groups.map (fun gr => gr.name) →
      custom_measurement_find_push g cm groups =
        some (groups.map fun gr =>
          if gr.name = some g then { gr with measurements := cm :: gr.measurements }
          else gr) := by
  intro groups
  induction groups with
  | nil => intro _ h; simp at h
  | cons gr rest ih =>
    intro hnd hmem
    simp only [List.map_cons, List.nodup_cons] at hnd
    by_cases hg : gr.name = some g
    · have hrest : rest.map (fun gr =>
          if gr.name = some g then { gr with measurements := cm :: gr.measurements }
          else gr) = rest := by
        conv_rhs => rw [← List.map_id rest]
        apply List.map_congr_left
        intro x hx
        have : ¬ x.name = some g := by
          intro e
          apply hnd.1
          rw [hg, ← e]
          exact List.mem_map_of_mem (fun gr => gr.name) hx
        simp only [this, if_false, id]
      simp only [custom_measurement_find_push, hg, if_true, List.map_cons, hrest,
        dlist_push_first]
    · have hmem' : some g ∈ rest.map (fun gr => gr.name) := by
        simp only [List.map_cons, List.mem_cons] at hmem
        rcases hmem with h | h
        · exact absurd h.symm hg
        · exact h
      simp only [custom_measurement_find_push, hg, if_false, ih hnd.2 hmem', Option.map_some',
        List.map_cons]


theorem custom_measurement_add_new (groups : DLIST MEASUREMENT_GROUP) (g n v : String)
    (h : some g ∉ groups.map (fun gr => gr.name)) :
    custom_measurement_add groups g n v =
      { name := some g, measurements := [{ name := some n, value := some v }] } :: groups := by
  simp only [custom_measurement_add, dlist_get_first, find_push_none g _ groups h,
    dlist_push_first, dlist_initialize]

theorem custom_measurement_add_old (groups : DLIST MEASUREMENT_GROUP) (g n v : String)
    (hnd : (groups.map (fun gr => gr.name)).Nodup)
    (h : some g ∈ groups.map (fun gr => gr.name)) :
    custom_measurement_add groups g n v =
      groups.map fun gr =>
        if gr.name = some g then
          { gr with measurements := { name := some n, value := some v } :: gr.measurements }
        else gr := by
  simp only [custom_measurement_add, dlist_get_first, find_push_some g _ groups hnd h]

theorem custom_measurement_add_all_nil (groups : DLIST MEASUREMENT_GROUP) :
    custom_measurement_add_all groups [] = groups := rfl

theorem custom_measurement_add_all_cons (groups : DLIST MEASUREMENT_GROUP)
    (t : String × String × String) (ts : List (String × String × String)) :
    custom_measurement_add_all groups (t :: ts) =
      custom_measurement_add_all (custom_measurement_add groups t.1 t.2.1 t.2.2) ts := rfl

theorem custom_measurement_add_all_snoc (ts : List (String × String × String))
    (t : String × String × String) :
    ∀ groups : DLIST MEASUREMENT_GROUP,
      custom_measurement_add_all groups (ts ++ [t]) =
        custom_measurement_add (custom_measurement_add_all groups ts) t.1 t.2.1 t.2.2 := by
  induction ts with
  | nil => intro groups; rfl
  | cons a ts ih =>
    intro groups
    rw [List.cons_append, custom_measurement_add_all_cons, ih, custom_measurement_add_all_cons]

theorem group_content_snoc (ts : List (String × String × String)) (g n v g' : String) :
    group_content (ts ++ [(g, n, v)]) g' =
      if g = g' then { name := some n, value := some v } :: group_content ts g'
      else group_content ts g' := by
  unfold group_content
  by_cases h : g = g'
  · simp [List.filter_append, h]
  · simp [List.filter_append, h]

theorem group_content_nil_of_not_mem (ts : List (String × String × String)) (g : String)
    (h : g ∉ ts.map (fun t => t.1)) : group_content ts g = [] := by
  unfold group_content
  have : ts.filter (fun t => t.1 = g) = [] := by
    rw [List.filter_eq_nil_iff]
    intro t ht
    simp only [decide_eq_true_eq]
    intro e
    exact h (e ▸ List.mem_map_of_mem (fun t => t.1) ht)
  rw [this]
  rfl

theorem sum_lengths_push (g : String) (cm : CUSTOM_MEASUREMENT) :
    ∀ groups : DLIST MEASUREMENT_GROUP, (groups.map (fun gr => gr.name)).Nodup →
      some g ∈ groups.map (fun gr => gr.name) →
      ((groups.map fun gr =>
          if gr.name = some g then { gr with measurements := cm :: gr.measurements }
          else gr).map fun gr => gr.measurements.length).sum =
        (groups.map fun gr => gr.measurements.length).sum + 1 := by
  intro groups
  induction groups with
  | nil => intro _ h; simp at h
  | cons gr rest ih =>
    intro hnd hmem
    simp only [List.map_cons, List.nodup_cons] at hnd
    by_cases hg : gr.name = some g
    · have hrest : rest.map (fun gr =>
          if gr.name = some g then { gr with measurements := cm :: gr.measurements }
          else gr) = rest := by
        conv_rhs => rw [← List.map_id rest]
        apply List.map_congr_left
        intro x hx
        have : ¬ x.name = some g := by
          intro e
          apply hnd.1
          rw [hg, ← e]
          exact List.mem_map_of_mem (fun gr => gr.name) hx
        simp only [this, if_false, id]
      simp only [List.map_cons, hg, if_true, hrest, List.sum_cons, List.length_cons]
      omega
    · have hmem' : some g ∈ rest.map (fun gr => gr.name) := by
        simp only [List.map_cons, List.mem_cons] at hmem
        rcases hmem with h | h
        · exact absurd h.symm hg
        · exact h
      simp only [List.map_cons, hg, if_false, List.sum_cons, ih hnd.2 hmem']
      omega

/-- What the list of groups holds after the calls of the triples, from an
empty list: the names of the groups are pairwise distinct and are the groups
named in the triples, each group holds the custom measurements added under its
name, and the groups hold as many custom measurements as there were calls. -/
theorem custom_measurement_groups (ts : List (String × String × String)) :
    ((custom_measurement_add_all [] ts).map (fun gr => gr.name)).Nodup ∧
    (∀ x, x ∈ (custom_measurement_add_all [] ts).map (fun gr => gr.name) ↔
      ∃ g ∈ ts.map (fun t => t.1), x = some g) ∧
    (∀ gr ∈ custom_measurement_add_all [] ts, ∀ g, gr.name = some g →
      gr.measurements = group_content ts g) ∧
    ((custom_measurement_add_all [] ts).map (fun gr => gr.measurements.length)).sum =
      ts.length := by
  induction ts using List.reverseRecOn with
  | nil => exact ⟨List.nodup_nil, by simp [custom_measurement_add_all_nil],
      by simp [custom_measurement_add_all_nil], rfl⟩
  | append_singleton ts t ih =>
    obtain ⟨g, n, v⟩ := t
    obtain ⟨hnd, hnames, hcont, hsum⟩ := ih
    rw [custom_measurement_add_all_snoc]
    by_cases hmem : some g ∈ (custom_measurement_add_all [] ts).map (fun gr => gr.name)
    · rw [custom_measurement_add_old _ g n v hnd hmem]
      have hmap : ((custom_measurement_add_all [] ts).map fun gr =>
          if gr.name = some g then
            { gr with measurements := { name := some n, value := some v } :: gr.measurements }
          else gr).map (fun gr => gr.name) =
          (custom_measurement_add_all [] ts).map (fun gr => gr.name) := by
        rw [List.map_map]
        apply List.map_congr_left
        intro x _
        simp only [Function.comp]
        split_ifs <;> rfl
      refine ⟨by rw [hmap]; exact hnd, ?_, ?_, ?_⟩
      · intro x
        rw [hmap, hnames x]
        obtain ⟨g0, hg0, hx0⟩ := (hnames (some g)).mp hmem
        have hg0' : g0 = g := (Option.some.inj hx0).symm
        constructor
        · rintro ⟨g1, hg1, rfl⟩
          exact ⟨g1, by simp only [List.map_append, List.mem_append]; exact Or.inl hg1, rfl⟩
        · rintro ⟨g1, hg1, rfl⟩
          simp only [List.map_append, List.mem_append, List.map_cons, List.map_nil,
            List.mem_singleton] at hg1
          rcases hg1 with h | h
          · exact ⟨g1, h, rfl⟩
          · exact ⟨g0, hg0, by rw [h, hg0']⟩
      · intro gr' hgr' g' hname
        obtain ⟨gr, hgr, rfl⟩ := List.mem_map.mp hgr'
        rw [group_content_snoc]
        by_cases hg : gr.name = some g
        · simp only [hg, if_true] at hname ⊢
          have : g = g' := Option.some.inj hname
          subst this
          rw [if_pos rfl, hcont gr hgr g hg]
        · simp only [hg, if_false] at hname ⊢
          have hne : ¬ g = g' := by
            intro e
            exact hg (e ▸ hname)
          rw [if_neg hne]
          exact hcont gr hgr g' hname
      · rw [sum_lengths_push g _ _ hnd hmem, hsum, List.length_append, List.length_singleton]
    · rw [custom_measurement_add_new _ g n v hmem]
      have hgts : g ∉ ts.map (fun t => t.1) := by
        intro h
        exact hmem ((hnames (some g)).mpr ⟨g, h, rfl⟩)
      refine ⟨?_, ?_, ?_, ?_⟩
      · rw [List.map_cons, List.nodup_cons]
        exact ⟨hmem, hnd⟩
      · intro x
        rw [List.map_cons, List.mem_cons, hnames x]
        constructor
        · rintro (rfl | ⟨g1, hg1, rfl⟩)
          · exact ⟨g, by simp, rfl⟩
          · exact ⟨g1, by simp only [List.map_append, List.mem_append]; exact Or.inl hg1, rfl⟩
        · rintro ⟨g1, hg1, rfl⟩
          simp only [List.map_append, List.mem_append, List.map_cons, List.map_nil,
            List.mem_singleton] at hg1
          rcases hg1 with h | h
          · exact Or.inr ⟨g1, h, rfl⟩
          · exact Or.inl (by rw [h])
      · intro gr hgr g' hname
        rw [group_content_snoc]
        rw [List.mem_cons] at hgr
        rcases hgr with rfl | hgr
        · have : g = g' := Option.some.inj hname
          subst this
          rw [if_pos rfl, group_content_nil_of_not_mem ts g hgts]
        · have hne : ¬ g = g' := by
            intro e
            apply hmem
            rw [e, ← hname]
            exact List.mem_map_of_mem (fun gr => gr.name) hgr
          rw [if_neg hne]
          exact hcont gr hgr g' hname
      · rw [List.map_cons, List.sum_cons, hsum, List.length_append, List.length_singleton]
        simp only [List.length_singleton]
        omega

theorem custom_measurement_groups_length (ts : List (String × String × String)) :
    (custom_measurement_add_all [] ts).length = (ts.map (fun t => t.1)).dedup.length := by
  obtain ⟨hnd, hnames, _, _⟩ := custom_measurement_groups ts
  have hnd2 : ((ts.map (fun t => t.1)).dedup.map some).Nodup :=
    (List.nodup_dedup _).map (Option.some_injective _)
  have hperm : ((custom_measurement_add_all [] ts).map (fun gr => gr.name)).Perm
      ((ts.map (fun t => t.1)).dedup.map some) := by
    rw [List.perm_ext_iff_of_nodup hnd hnd2]
    intro x
    rw [hnames x]
    simp only [List.mem_map, List.mem_dedup]
    constructor
    · rintro ⟨g, ⟨t, ht, rfl⟩, rfl⟩
      exact ⟨t.1, ⟨t, ht, rfl⟩, rfl⟩
    · rintro ⟨g, ⟨t, ht, rfl⟩, rfl⟩
      exact ⟨t.1, ⟨t, ht, rfl⟩, rfl⟩
  have := hperm.length_eq
  simpa using this

theorem custom_measurement_add_all_eq (ts : List (String × String × String)) :
    ∀ m : EVENT_MEASUREMENT, m.header.event_domain = EVEL_DOMAIN_MEASUREMENT →
      evel_measurement_custom_measurement_add_all m ts =
        some { m with measurement_groups := custom_measurement_add_all m.measurement_groups ts } := by
  induction ts with
  | nil => intro m _; rfl
  | cons t ts ih =>
    intro m hd
    simp only [evel_measurement_custom_measurement_add_all,
      evel_measurement_custom_measurement_add, hd, not_true_eq_false, if_false,
      Option.some_bind]
    exact ih { m with measurement_groups :=
      (custom_measurement_add m.measurement_groups t.1 t.2.1 t.2.2) } hd

/-- C25: after every sequence of calls evel_measurement_custom_measurement_add(m,
group_i, name_i, value_i) on a measurement without groups (as
evel_new_measurement returns it), every call having returned: the names of the
groups in the list measurement_groups are pairwise distinct, none is NULL, and
they are exactly the group_i (so there are as many groups as distinct group_i);
every group holds exactly the (name_i, value_i) pairs of the calls made with its
name, the pair added last first; and the groups hold as many custom
measurements in total as there were calls. -/
theorem C25_custom_measurement_groups (m0 : EVENT_MEASUREMENT)
    (triples : List (String × String × String))
    (hd : m0.header.event_domain = EVEL_DOMAIN_MEASUREMENT) (h0 : m0.measurement_groups = []) :
    ∃ m, evel_measurement_custom_measurement_add_all m0 triples = some m ∧
      (m.measurement_groups.map (fun gr => gr.name)).Nodup ∧
      (∀ gr ∈ m.measurement_groups, ∃ g, gr.name = some g ∧ g ∈ triples.map (fun t => t.1)) ∧
      (∀ g ∈ triples.map (fun t => t.1), ∃ gr ∈ m.measurement_groups, gr.name = some g) ∧
      m.measurement_groups.length = (triples.map (fun t => t.1)).dedup.length ∧
      (∀ gr ∈ m.measurement_groups, ∀ g, gr.name = some g →
        gr.measurements = group_content triples g) ∧
      (m.measurement_groups.map (fun gr => gr.measurements.length)).sum = triples.length := by
  refine ⟨_, custom_measurement_add_all_eq triples m0 hd, ?_⟩
  simp only [h0]
  obtain ⟨hnd, hnames, hcont, hsum⟩ := custom_measurement_groups triples
  refine ⟨hnd, ?_, ?_, custom_measurement_groups_length triples, hcont, hsum⟩
  · intro gr hgr
    obtain ⟨g, hg, hx⟩ := (hnames gr.name).mp (List.mem_map_of_mem (fun gr => gr.name) hgr)
    exact ⟨g, hx, hg⟩
  · intro g hg
    obtain ⟨gr, hgr, hx⟩ := List.mem_map.mp ((hnames (some g)).mpr ⟨g, hg, rfl⟩)
    exact ⟨gr, hgr, hx⟩

/-- C25 at the measurement of the demo program and its three custom
measurements: two groups, Group2 (holding Name2 and then Name1) before
Group1. -/
theorem C25_custom_measurement_groups_witness :
    ∃ m, evel_measurement_custom_measurement_add_all demo_measurement_new
        demo_custom_measurements = some m ∧
      m.measurement_groups =
        [⟨some "Group2", [⟨some "Name2", some "Value2"⟩, ⟨some "Name1", some "Value1"⟩]⟩,
         ⟨some "Group1", [⟨some "Name1", some "Value1"⟩]⟩] ∧
      (m.measurement_groups.map (fun gr => gr.name)).Nodup ∧
      m.measurement_groups.length = (demo_custom_measurements.map (fun t => t.1)).dedup.length ∧
      (m.measurement_groups.map (fun gr => gr.measurements.length)).sum =
        demo_custom_measurements.length := by
  obtain ⟨m, hm, h1, _, _, h4, _, h6⟩ :=
    C25_custom_measurement_groups demo_measurement_new demo_custom_measurements (by decide!)
      (by decide!)
  refine ⟨m, hm, ?_, h1, h4, h6⟩
  have h : (evel_measurement_custom_measurement_add_all demo_measurement_new
      demo_custom_measurements).map (fun m => m.measurement_groups) =
      some [⟨some "Group2", [⟨some "Name2", some "Value2"⟩, ⟨some "Name1", some "Value1"⟩]⟩,
         ⟨some "Group1", [⟨some "Name1", some "Value1"⟩]⟩] := by decide!
  rw [hm] at h
  exact Option.some.inj h

/-! ## C26: the report and the measurement builders -/

theorem usage_call_agree (c : USAGE_CALL) (r0 : EVENT_REPORT) (m0 : EVENT_MEASUREMENT)
    (hr : r0.header.event_domain = EVEL_DOMAIN_REPORT)
    (hm : m0.header.event_domain = EVEL_DOMAIN_MEASUREMENT)
    (hf : r0.feature_usage = m0.feature_usage)
    (hg : r0.measurement_groups = m0.measurement_groups) :
    (c.on_report r0 = none ∧ c.on_measurement m0 = none) ∨
    ∃ r m, c.on_report r0 = some r ∧ c.on_measurement m0 = some m ∧
      r.header.event_domain = EVEL_DOMAIN_REPORT ∧
      m.header.event_domain = EVEL_DOMAIN_MEASUREMENT ∧
      r.feature_usage = m.feature_usage ∧ r.measurement_groups = m.measurement_groups := by
  cases c with
  | feature_use_add a b =>
    by_cases hb : b ≥ 0
    · right
      refine ⟨{ r0 with feature_usage := dlist_push_first r0.feature_usage ⟨some a, b⟩ },
        { m0 with feature_usage := dlist_push_first m0.feature_usage ⟨some a, b⟩ },
        ?_, ?_, hr, hm, ?_, hg⟩
      · simp only [USAGE_CALL.on_report, evel_report_feature_use_add, hr, hb,
          not_true_eq_false, if_false]
      · simp only [USAGE_CALL.on_measurement, evel_measurement_feature_use_add, hm, hb,
          not_true_eq_false, if_false]
      · simp only [hf]
    · left
      constructor
      · simp only [USAGE_CALL.on_report, evel_report_feature_use_add, hr, hb,
          not_true_eq_false, not_false_eq_true, if_false, if_true]
      · simp only [USAGE_CALL.on_measurement, evel_measurement_feature_use_add, hm, hb,
          not_true_eq_false, not_false_eq_true, if_false, if_true]
  | custom_measurement_add a b c =>
    right
    refine ⟨{ r0 with measurement_groups := custom_measurement_add r0.measurement_groups a b c },
      { m0 with measurement_groups := custom_measurement_add m0.measurement_groups a b c },
      ?_, ?_, hr, hm, hf, ?_⟩
    · simp only [USAGE_CALL.on_report, evel_report_custom_measurement_add, hr,
        not_true_eq_false, if_false]
    · simp only [USAGE_CALL.on_measurement, evel_measurement_custom_measurement_add, hm,
        not_true_eq_false, if_false]
    · simp only [hg]

theorem usage_all_agree (calls : List USAGE_CALL) :
    ∀ (r0 : EVENT_REPORT) (m0 : EVENT_MEASUREMENT),
      r0.header.event_domain = EVEL_DOMAIN_REPORT →
      m0.header.event_domain = EVEL_DOMAIN_MEASUREMENT →
      r0.feature_usage = m0.feature_usage →
      r0.measurement_groups = m0.measurement_groups →
      (report_usage_all r0 calls = none ∧ measurement_usage_all m0 calls = none) ∨
      ∃ r m, report_usage_all r0 calls = some r ∧ measurement_usage_all m0 calls = some m ∧
        r.feature_usage = m.feature_usage ∧ r.measurement_groups = m.measurement_groups := by
  induction calls with
  | nil => intro r0 m0 _ _ hf hg; exact Or.inr ⟨r0, m0, rfl, rfl, hf, hg⟩
  | cons c calls ih =>
    intro r0 m0 hr hm hf hg
    rcases usage_call_agree c r0 m0 hr hm hf hg with ⟨h1, h2⟩ | ⟨r, m, h1, h2, hr', hm', hf', hg'⟩
    · left
      simp only [report_usage_all, measurement_usage_all, h1, h2, Option.none_bind, and_self]
    · simp only [report_usage_all, measurement_usage_all, h1, h2, Option.some_bind]
      exact ih r m hr' hm' hf' hg'

/-- C26: for every sequence of feature-use and custom-measurement add calls,
made with the same arguments on a report and on a measurement whose
feature_usage and measurement_groups lists are equal (empty, for a fresh report
and a fresh measurement): the two sequences both run to their end or both stop
at a failed assertion; when they run to their end the report and the
measurement hold equal feature_usage and measurement_groups lists, and the
calls with which evel_json_encode_report and evel_json_encode_measurement emit
the members featureUsageArray and additionalMeasurements are the same calls,
hence print the same text. -/
theorem C26_report_and_measurement_builders_agree (r0 : EVENT_REPORT)
    (m0 : EVENT_MEASUREMENT) (calls : List USAGE_CALL)
    (hr : r0.header.event_domain = EVEL_DOMAIN_REPORT)
    (hm : m0.header.event_domain = EVEL_DOMAIN_MEASUREMENT)
    (hf : r0.feature_usage = m0.feature_usage)
    (hg : r0.measurement_groups = m0.measurement_groups) :
    (report_usage_all r0 calls = none ∧ measurement_usage_all m0 calls = none) ∨
    ∃ r m features groups, report_usage_all r0 calls = some r ∧
      measurement_usage_all m0 calls = some m ∧
      r.feature_usage = m.feature_usage ∧ r.measurement_groups = m.measurement_groups ∧
      features = json_array "\"featureUsageArray\": [" feature_use_calls r.feature_usage ∧
      features = json_array "\"featureUsageArray\": [" feature_use_calls m.feature_usage ∧
      groups = json_array "\"additionalMeasurements\": [" measurement_group_calls
        r.measurement_groups ∧
      groups = json_array "\"additionalMeasurements\": [" measurement_group_calls
        m.measurement_groups ∧
      (∃ before, evel_json_encode_report_calls r =
        before ++ features ++ groups ++
          [⟨"\"measurementFieldsVersion\": %d\x7d", .d EVEL_API_VERSION⟩]) ∧
      (∃ before, evel_json_encode_measurement_calls m =
        before ++ features ++ json_array "\"codecsInUse\": [" codec_use_calls m.codec_usage ++
          groups ++ [⟨"\"measurementFieldsVersion\": %d\x7d", .d EVEL_API_VERSION⟩]) := by
  rcases usage_all_agree calls r0 m0 hr hm hf hg with h | ⟨r, m, h1, h2, hf', hg'⟩
  · exact Or.inl h
  · refine Or.inr ⟨r, m, _, _, h1, h2, hf', hg', rfl, by rw [hf'], rfl, by rw [hg'],
      ⟨_, rfl⟩, ?_⟩
    rw [hf', hg']
    exact ⟨_, rfl⟩

/-- C26 at the report and the measurement of the demo program as the factories
return them, with the feature and custom measurement calls of the demo. -/
theorem C26_report_and_measurement_builders_agree_witness :
    ∃ r m, report_usage_all demo_report_new demo_usage_calls = some r ∧
      measurement_usage_all demo_measurement_new demo_usage_calls = some m ∧
      r.feature_usage = m.feature_usage ∧ r.measurement_groups = m.measurement_groups ∧
      calls_text (json_array "\"featureUsageArray\": [" feature_use_calls r.feature_usage) =
        calls_text (json_array "\"featureUsageArray\": [" feature_use_calls m.feature_usage) ∧
      calls_text (json_array "\"additionalMeasurements\": [" measurement_group_calls
          r.measurement_groups) =
        calls_text (json_array "\"additionalMeasurements\": [" measurement_group_calls
          m.measurement_groups) := by
  rcases C26_report_and_measurement_builders_agree demo_report_new demo_measurement_new
    demo_usage_calls (by decide!) (by decide!) (by decide!) (by decide!) with
    h | ⟨r, m, features, groups, h1, h2, h3, h4, h5, h6, h7, h8, _⟩
  · have : (report_usage_all demo_report_new demo_usage_calls).isSome = true := by decide!
    rw [h.1] at this
    exact absurd this (by decide)
  · exact ⟨r, m, h1, h2, h3, h4, by rw [← h5, ← h6], by rw [← h7, ← h8]⟩

/-! ## The text of an array -/

theorem vformat_none : ∀ l : List Char, vformat l ARG.none = l := by
  intro l
  induction l with
  | nil => rfl
  | cons c l ih =>
    rw [vformat]
    · rw [ih]
    all_goals (intros; simp_all)

theorem lit_text (s : String) : calls_text [lit s] = s := by
  apply String.ext
  simp only [calls_text_cons, calls_text_nil, String.append_empty, sprintf, lit, vformat_none]

theorem json_array_items_text {α : Type} (body : α → List CALL) :
    ∀ l : List α,
      calls_text (json_array_items body l) = join_comma (l.map fun a => calls_text (body a)) := by
  intro l
  induction l with
  | nil => rfl
  | cons a l ih =>
    cases l with
    | nil =>
      simp only [json_array_items, separator_call, List.append_nil, List.map_cons,
        List.map_nil, join_comma]
    | cons b l =>
      simp only [List.map_cons] at ih ⊢
      rw [json_array_items, calls_text_append, calls_text_append, ih, separator_call,
        lit_text, join_comma]

theorem json_array_text {α : Type} (opening : String) (body : α → List CALL) (l : DLIST α)
    (hne : l ≠ []) :
    calls_text (json_array opening body l) =
      opening ++ join_comma (l.map fun a => calls_text (body a)) ++ "], " := by
  cases l with
  | nil => exact absurd rfl hne
  | cons a l =>
    have h := json_array_items_text body (a :: l)
    simp only [json_array, dlist_get_first, calls_text_append, h, lit_text]

/-! ## C28: the text of a heartbeat and of a fault is well-formed JSON -/

theorem json_ws_space (rest : List Char) : json_ws (' ' :: rest) = json_ws rest := by
  simp [json_ws]

theorem json_ws_dquote (rest : List Char) : json_ws (dquote :: rest) = dquote :: rest := by
  rw [json_ws, if_neg (by decide)]

theorem json_ws_lbrace (rest : List Char) : json_ws (lbrace :: rest) = lbrace :: rest := by
  rw [json_ws, if_neg (by decide)]

theorem json_ws_stops (rest : List Char) (h : stops rest) : json_ws rest = rest := by
  rcases h with rfl | ⟨c, r, rfl, rfl | rfl | rfl⟩
  · rfl
  · rw [json_ws, if_neg (by decide)]
  · rw [json_ws, if_neg (by decide)]
  · rw [json_ws, if_neg (by decide)]

theorem json_value_space (f : Nat) (i : List Char) :
    json_value f (' ' :: i) = json_value f i := by
  cases f with
  | zero => simp only [json_value]
  | succ f => simp only [json_value, json_ws_space]

theorem json_members_space (f : Nat) (i : List Char) (acc : List (List Char × JSON)) :
    json_members f (' ' :: i) acc = json_members f i acc := by
  cases f with
  | zero => simp only [json_members]
  | succ f => simp only [json_members, json_ws_space]

theorem json_items_space (f : Nat) (i : List Char) (acc : List JSON) :
    json_items f (' ' :: i) acc = json_items f i acc := by
  cases f with
  | zero => simp only [json_items]
  | succ f => simp only [json_items, json_value_space]

theorem json_string_body_quote (rest acc : List Char) :
    json_string_body (dquote :: rest) acc = some (acc, rest) := by
  rw [json_string_body.eq_def]
  cases rest with
  | nil => simp
  | cons d r => simp

theorem json_string_body_char (c d : Char) (r acc : List Char) (h1 : c ≠ dquote)
    (h2 : c ≠ backslash) (h3 : ¬ c.toNat < 32) :
    json_string_body (c :: d :: r) acc = json_string_body (d :: r) (acc ++ [c]) := by
  rw [json_string_body.eq_def]
  simp [h1, h2, h3]

theorem json_string_body_plain (s : List Char) (rest : List Char) (h : plain_text s) :
    ∀ acc, json_string_body (s ++ dquote :: rest) acc = some (acc ++ s, rest) := by
  induction s with
  | nil =>
    intro acc
    rw [List.nil_append, json_string_body_quote, List.append_nil]
  | cons c s ih =>
    intro acc
    have hc := h c (List.mem_cons_self c s)
    have hs : plain_text s := fun x hx => h x (List.mem_cons_of_mem c hx)
    have e : ∃ d r, s ++ dquote :: rest = d :: r := by
      cases s with
      | nil => exact ⟨_, _, rfl⟩
      | cons d s => exact ⟨_, _, rfl⟩
    obtain ⟨d, r, e⟩ := e
    have hlt : ¬ c.toNat < 32 := by omega
    rw [List.cons_append, e, json_string_body_char c d r acc hc.1 hc.2.1 hlt, ← e, ih hs]
    simp

theorem json_value_string (s : List Char) (h : plain_text s) :
    value_ok 1 (dquote :: s ++ [dquote]) := by
  refine ⟨.string s, ?_⟩
  intro f hf rest _
  obtain ⟨g, rfl⟩ : ∃ g, f = g + 1 := ⟨f - 1, by omega⟩
  have e : dquote :: s ++ [dquote] ++ rest = dquote :: (s ++ dquote :: rest) := by simp
  rw [e, json_value, json_ws_dquote]
  simp only [if_true, json_string_body_plain s rest h, Option.map_some', List.nil_append]
  rw [if_neg (by decide), if_neg (by decide)]

theorem digit_not_special (c : Char) (h : ('0' ≤ c ∧ c ≤ '9') ∨ c = '-') :
    ¬ (c = ' ' ∨ c = Char.ofNat 9 ∨ c = Char.ofNat 10 ∨ c = Char.ofNat 13) ∧
    c ≠ Char.ofNat 123 ∧ c ≠ '[' ∧ c ≠ dquote ∧ c ≠ 't' ∧ c ≠ 'f' ∧ c ≠ 'n' := by
  have key : ∀ x : Char, ¬ (('0' ≤ x ∧ x ≤ '9') ∨ x = '-') → c ≠ x := by
    intro x hx e
    exact hx (e ▸ h)
  refine ⟨?_, key _ (by decide), key _ (by decide), key _ (by decide), key _ (by decide),
    key _ (by decide), key _ (by decide)⟩
  rintro (e | e | e | e)
  · exact key _ (by decide) e
  · exact key _ (by decide) e
  · exact key _ (by decide) e
  · exact key _ (by decide) e

theorem stops_not_digit (rest : List Char) (h : stops rest) :
    json_digits rest = ([], rest) ∧
      (∀ r, rest ≠ '.' :: r) ∧ (∀ e r, rest = e :: r → ¬ (e = 'e' ∨ e = 'E')) := by
  rcases h with rfl | ⟨c, r, rfl, hc⟩
  · exact ⟨rfl, fun r => by simp, fun e r h => by cases h⟩
  · have h1 : ¬ ('0' ≤ c ∧ c ≤ '9') := by
      rcases hc with rfl | rfl | rfl <;> decide
    have h2 : c ≠ '.' := by
      rcases hc with rfl | rfl | rfl <;> decide
    have h3 : ¬ (c = 'e' ∨ c = 'E') := by
      rcases hc with rfl | rfl | rfl <;> decide
    refine ⟨by rw [json_digits, if_neg h1], ?_, ?_⟩
    · intro r' e
      exact h2 (List.cons.inj e).1
    · intro e r' he
      rw [← (List.cons.inj he).1]
      exact h3

theorem json_digits_numeral (ds rest : List Char) (hd : ∀ c ∈ ds, '0' ≤ c ∧ c ≤ '9')
    (hr : stops rest) : json_digits (ds ++ rest) = (ds, rest) := by
  induction ds with
  | nil => exact (stops_not_digit rest hr).1
  | cons c ds ih =>
    have hc := hd c (List.mem_cons_self c ds)
    rw [List.cons_append, json_digits, if_pos hc,
      ih (fun x hx => hd x (List.mem_cons_of_mem c hx))]
theorem json_number_tail (sign ds rest : List Char) (hne : ds ≠ [])
    (hd : ∀ c ∈ ds, '0' ≤ c ∧ c ≤ '9') (h0 : ds.head? = some '0' → ds = ['0'])
    (hr : stops rest) (int r1 : List Char) :
    json_digits (ds ++ rest) = (int, r1) →
    (if int = [] ∨ int.head? = some '0' ∧ int.length ≠ 1 then none
      else
        let frac : Option (List Char × List Char) :=
          match r1 with
          | '.' :: rest =>
            match json_digits rest with
            | (ds, r) => if ds = [] then none else some ('.' :: ds, r)
          | _ => some ([], r1)
        match frac with
        | none => none
        | some (fr, r2) =>
          match r2 with
          | e :: rest =>
            if e = 'e' ∨ e = 'E' then
              match
                (match rest with
                | '+' :: rest' => (['+'], rest')
                | '-' :: rest' => (['-'], rest')
                | _ => ([], rest) : List Char × List Char) with
              | (es, r3) =>
                match json_digits r3 with
                | (ds, r4) =>
                  if ds = [] then none else some (sign ++ int ++ fr ++ e :: es ++ ds, r4)
            else some (sign ++ int ++ fr, r2)
          | [] => some (sign ++ int ++ fr, r2)) = some (sign ++ ds, rest) := by
  intro h
  obtain ⟨hdig, hdot, hexp⟩ := stops_not_digit rest hr
  rw [json_digits_numeral ds rest hd hr] at h
  cases h
  have hint : ¬ (ds = [] ∨ (ds.head? = some '0' ∧ ds.length ≠ 1)) := by
    rintro (e | ⟨e1, e2⟩)
    · exact hne e
    · rw [h0 e1] at e2
      exact e2 rfl
  rw [if_neg hint]
  rcases hr with rfl | ⟨c, r, rfl, hc⟩
  · simp
  · have h2 : c ≠ '.' := by
      rcases hc with rfl | rfl | rfl <;> decide
    have h3 : ¬ (c = 'e' ∨ c = 'E') := hexp c r rfl
    simp only
    rw [if_neg h3, List.append_nil]

theorem json_number_digits (sign ds rest : List Char) (hne : ds ≠ [])
    (hd : ∀ c ∈ ds, '0' ≤ c ∧ c ≤ '9') (h0 : ds.head? = some '0' → ds = ['0'])
    (hs : sign = [] ∨ sign = ['-']) (hr : stops rest) :
    json_number (sign ++ ds ++ rest) = some (sign ++ ds, rest) := by
  unfold json_number
  split
  rename_i sg r0 heq
  have e : sg = sign ∧ r0 = ds ++ rest := by
    rcases hs with rfl | rfl
    · obtain ⟨c, ds', rfl⟩ := List.exists_cons_of_ne_nil hne
      have hm : c ≠ '-' := by
        intro e
        have := hd c (List.mem_cons_self c ds')
        rw [e] at this
        exact absurd this (by decide)
      split at heq
      · rename_i heq2
        simp only [List.nil_append, List.cons_append, List.cons.injEq] at heq2
        exact absurd heq2.1 hm
      · cases heq
        exact ⟨rfl, rfl⟩
    · split at heq
      · rename_i heq2
        simp only [List.cons_append, List.nil_append, List.cons.injEq, true_and] at heq2
        cases heq
        exact ⟨rfl, heq2.symm⟩
      · rename_i hno
        exact absurd rfl (hno (ds ++ rest))
  obtain ⟨rfl, rfl⟩ := e
  split
  rename_i int r1 heq1
  exact json_number_tail sg ds rest hne hd h0 hr int r1 heq1
theorem json_value_number (sign ds : List Char) (hne : ds ≠ [])
    (hd : ∀ c ∈ ds, '0' ≤ c ∧ c ≤ '9') (h0 : ds.head? = some '0' → ds = ['0'])
    (hs : sign = [] ∨ sign = ['-']) : value_ok 1 (sign ++ ds) := by
  refine ⟨.number (sign ++ ds), ?_⟩
  intro f hf rest hr
  obtain ⟨g, rfl⟩ : ∃ g, f = g + 1 := ⟨f - 1, by omega⟩
  have hnum := json_number_digits sign ds rest hne hd h0 hs hr
  obtain ⟨c, t, ht, hc⟩ : ∃ c t, sign ++ ds ++ rest = c :: t ∧
      (('0' ≤ c ∧ c ≤ '9') ∨ c = '-') := by
    rcases hs with rfl | rfl
    · obtain ⟨c, ds', rfl⟩ := List.exists_cons_of_ne_nil hne
      exact ⟨c, ds' ++ rest, rfl, Or.inl (hd c (List.mem_cons_self c ds'))⟩
    · exact ⟨'-', ds ++ rest, rfl, Or.inr rfl⟩
  obtain ⟨n1, n2, n3, n4, n5, n6, n7⟩ := digit_not_special c hc
  rw [ht] at hnum ⊢
  rw [json_value, json_ws, if_neg n1]
  simp only [n2, n3, n4, n5, n6, n7, if_false, hnum, Option.map_some']

theorem value_ok_fmt_u (n : Nat) : value_ok 1 (fmt_u n) := by
  obtain ⟨⟨h1, h2, h3⟩, _⟩ := fmt_u_spec n
  exact json_value_number [] (fmt_u n) h1 h2 h3 (Or.inl rfl)

theorem value_ok_fmt_d (n : Int) : value_ok 1 (fmt_d n) := by
  obtain ⟨⟨h1, h2, h3⟩, _⟩ := fmt_u_spec n.natAbs
  unfold fmt_d
  split_ifs
  · exact json_value_number ['-'] (fmt_u n.natAbs) h1 h2 h3 (Or.inr rfl)
  · exact json_value_number [] (fmt_u n.natAbs) h1 h2 h3 (Or.inl rfl)

theorem value_ok_space (d : Nat) (t : List Char) (h : value_ok d t) :
    value_ok d (' ' :: t) := by
  obtain ⟨v, hv⟩ := h
  refine ⟨v, fun f hf rest hr => ?_⟩
  rw [List.cons_append, json_value_space]
  exact hv f hf rest hr

theorem value_ok_mono (d e : Nat) (t : List Char) (hde : d ≤ e) (h : value_ok d t) :
    value_ok e t := by
  obtain ⟨v, hv⟩ := h
  exact ⟨v, fun f hf rest hr => hv f (le_trans hde hf) rest hr⟩

theorem stops_comma (r : List Char) : stops (',' :: r) := Or.inr ⟨_, _, rfl, Or.inl rfl⟩

theorem stops_rbrace (r : List Char) : stops (rbrace :: r) :=
  Or.inr ⟨_, _, rfl, Or.inr (Or.inl rfl)⟩

theorem stops_rbracket (r : List Char) : stops (']' :: r) :=
  Or.inr ⟨_, _, rfl, Or.inr (Or.inr rfl)⟩

theorem json_members_member (f : Nat) (key vt rest : List Char) (v : JSON)
    (acc : List (List Char × JSON)) (hk : plain_text key)
    (hv : json_value f (vt ++ rest) = some (v, rest)) (e : Char) (r4 : List Char)
    (hws : json_ws rest = e :: r4) :
    json_members (f + 1) (dquote :: key ++ dquote :: ':' :: vt ++ rest) acc =
      if e = ',' then json_members f r4 (acc ++ [(key, v)])
      else if e = Char.ofNat 125 then some (.object (acc ++ [(key, v)]), r4)
      else none := by
  have e : dquote :: key ++ dquote :: ':' :: vt ++ rest =
      dquote :: (key ++ dquote :: (':' :: (vt ++ rest))) := by simp
  rw [e, json_members, json_ws_dquote]
  simp only [if_true, json_string_body_plain key _ hk, List.nil_append]
  rw [json_ws, if_neg (by decide)]
  simp only [if_true, hv, hws]

theorem members_comma_nil (d K : Nat) : members_comma d K [] :=
  ⟨[], Nat.zero_le K, fun f _ more acc => by simp⟩

theorem members_comma_append (d K1 K2 : Nat) (t1 t2 : List Char)
    (h1 : members_comma d K1 t1) (h2 : members_comma d K2 t2) :
    members_comma d (K1 + K2) (t1 ++ t2) := by
  obtain ⟨k1, hk1, p1⟩ := h1
  obtain ⟨k2, hk2, p2⟩ := h2
  refine ⟨k1 ++ k2, by rw [List.length_append]; omega, fun f hf more acc => ?_⟩
  have e : f + (k1 ++ k2).length = (f + k2.length) + k1.length := by
    rw [List.length_append]; omega
  rw [e, List.append_assoc, p1 (f + k2.length) (by omega), p2 f hf, List.append_assoc]

theorem members_comma_mono (d e K L : Nat) (t : List Char) (hde : d ≤ e) (hKL : K ≤ L)
    (h : members_comma d K t) : members_comma e L t := by
  obtain ⟨k, hk, p⟩ := h
  exact ⟨k, le_trans hk hKL, fun f hf more acc => p f (le_trans hde hf) more acc⟩

theorem member_comma_of_value (d : Nat) (key vt : List Char) (hk : plain_text key)
    (hv : value_ok d vt) :
    members_comma d 1 (dquote :: key ++ dquote :: ':' :: vt ++ [',', ' ']) := by
  obtain ⟨v, hv⟩ := hv
  refine ⟨[(key, v)], le_refl 1, fun f hf more acc => ?_⟩
  have e : dquote :: key ++ dquote :: ':' :: vt ++ [',', ' '] ++ more =
      dquote :: key ++ dquote :: ':' :: vt ++ (',' :: ' ' :: more) := by simp
  rw [e, List.length_singleton,
    json_members_member f key vt _ v acc hk (hv f hf _ (stops_comma _)) ',' (' ' :: more)
      (json_ws_stops _ (stops_comma _)),
    if_pos rfl, json_members_space]

theorem member_end_of_value (d : Nat) (key vt : List Char) (hk : plain_text key)
    (hv : value_ok d vt) :
    member_end d (dquote :: key ++ dquote :: ':' :: vt ++ [rbrace]) := by
  obtain ⟨v, hv⟩ := hv
  refine ⟨(key, v), fun f hf rest acc => ?_⟩
  have e : dquote :: key ++ dquote :: ':' :: vt ++ [rbrace] ++ rest =
      dquote :: key ++ dquote :: ':' :: vt ++ (rbrace :: rest) := by simp
  rw [e, json_members_member f key vt _ v acc hk (hv f hf _ (stops_rbrace _)) rbrace rest
      (json_ws_stops _ (stops_rbrace _)),
    if_neg (by decide), if_pos (by decide)]

theorem member_end_mono (d e : Nat) (t : List Char) (hde : d ≤ e) (h : member_end d t) :
    member_end e t := by
  obtain ⟨kv, p⟩ := h
  exact ⟨kv, fun f hf rest acc => p f (le_trans hde hf) rest acc⟩

theorem value_ok_object (d K : Nat) (t1 t2 : List Char) (h1 : members_comma d K t1)
    (h2 : member_end d t2) (hq : ∃ r, t1 ++ t2 = dquote :: r) :
    value_ok (d + K + 2) (lbrace :: (t1 ++ t2)) := by
  obtain ⟨kvs, hk, p1⟩ := h1
  obtain ⟨kv, p2⟩ := h2
  obtain ⟨r, hq⟩ := hq
  refine ⟨.object (kvs ++ [kv]), fun f hf rest _ => ?_⟩
  obtain ⟨g, rfl⟩ : ∃ g, f = (g + 1 + kvs.length) + 1 :=
    ⟨f - kvs.length - 2, by omega⟩
  have hq2 : ∃ r2, t1 ++ t2 ++ rest = dquote :: r2 := ⟨r ++ rest, by rw [hq]; rfl⟩
  obtain ⟨r2, hq2⟩ := hq2
  rw [List.cons_append, json_value, json_ws_lbrace]
  simp only [lbrace, if_true]
  rw [hq2, json_ws_dquote]
  simp only
  rw [if_neg (by decide), ← hq2, List.append_assoc, p1 (g + 1) (by omega), p2 g (by omega)]
  rfl
theorem json_items_last (f : Nat) (t rest : List Char) (v : JSON) (acc : List JSON)
    (hv : json_value f (t ++ ']' :: rest) = some (v, ']' :: rest)) :
    json_items (f + 1) (t ++ ']' :: rest) acc = some (.array (acc ++ [v]), rest) := by
  rw [json_items]
  simp only [hv, json_ws_stops _ (stops_rbracket rest), if_true]
  rw [if_neg (by decide)]

theorem json_items_next (f : Nat) (t more : List Char) (v : JSON) (acc : List JSON)
    (hv : json_value f (t ++ ',' :: ' ' :: more) = some (v, ',' :: ' ' :: more)) :
    json_items (f + 1) (t ++ ',' :: ' ' :: more) acc = json_items f more (acc ++ [v]) := by
  rw [json_items]
  simp only [hv, json_ws_stops _ (stops_comma _), if_true, json_items_space]

theorem join_comma_data (a b : String) (l : List String) :
    (join_comma (a :: b :: l)).data = a.data ++ ',' :: ' ' :: (join_comma (b :: l)).data := by
  rw [join_comma]
  simp only [String.data_append, List.append_assoc]
  rfl

theorem items_ok_join (d : Nat) (l : List String) (hne : l ≠ [])
    (hl : ∀ a ∈ l, value_ok d a.data) : items_ok d l.length (join_comma l).data := by
  induction l with
  | nil => exact absurd rfl hne
  | cons a l ih =>
    obtain ⟨v, hv⟩ := hl a (List.mem_cons_self a l)
    cases l with
    | nil =>
      refine ⟨[v], le_refl 1, fun f hf rest acc => ?_⟩
      exact json_items_last f a.data rest v acc (hv f hf _ (stops_rbracket rest))
    | cons b l =>
      obtain ⟨vs, hvs, p⟩ := ih (List.cons_ne_nil b l)
        (fun x hx => hl x (List.mem_cons_of_mem a hx))
      refine ⟨v :: vs, Nat.succ_le_succ hvs, fun f hf rest acc => ?_⟩
      have e : f + (v :: vs).length = (f + vs.length) + 1 := rfl
      rw [join_comma_data, e, List.append_assoc, List.cons_append, List.cons_append,
        json_items_next (f + vs.length) a.data _ v acc
          (hv (f + vs.length) (by omega) _ (stops_comma _)),
        p f hf rest (acc ++ [v]), List.append_assoc]
      rfl

theorem value_ok_array (d K : Nat) (t : List Char) (h : items_ok d K t)
    (hq : ∃ r, t = lbrace :: r) : value_ok (d + K + 1) ('[' :: t ++ [']']) := by
  obtain ⟨vs, hk, p⟩ := h
  obtain ⟨r, rfl⟩ := hq
  refine ⟨.array vs, fun f hf rest _ => ?_⟩
  obtain ⟨g, rfl⟩ : ∃ g, f = (g + vs.length) + 1 := ⟨f - vs.length - 1, by omega⟩
  have e : '[' :: lbrace :: r ++ [']'] ++ rest = '[' :: (lbrace :: r ++ ']' :: rest) := by simp
  rw [e, json_value, json_ws, if_neg (by decide)]
  simp only [if_true]
  rw [if_neg (by decide), List.cons_append, json_ws_lbrace]
  simp only
  rw [if_neg (by decide), ← List.cons_append, p g (by omega)]
  rfl

theorem vformat_skip (pre l : List Char) (a : ARG) (h : ∀ c ∈ pre, c ≠ '%') :
    vformat (pre ++ l) a = pre ++ vformat l a := by
  induction pre with
  | nil => rfl
  | cons c pre ih =>
    have hc : c ≠ '%' := h c (List.mem_cons_self c pre)
    have ih2 := ih (fun x hx => h x (List.mem_cons_of_mem c hx))
    rw [List.cons_append, List.cons_append, ← ih2]
    rw [vformat]
    all_goals (intros; simp_all)

theorem plain_key_skip (key : List Char) (h : plain_key key) :
    plain_text key ∧ ∀ c ∈ dquote :: key ++ [dquote, ':', ' '], c ≠ '%' := by
  refine ⟨fun c hc => ⟨(h c hc).1, (h c hc).2.1, (h c hc).2.2.1⟩, ?_⟩
  intro c hc
  simp only [List.cons_append, List.mem_cons, List.mem_append, List.mem_singleton,
    List.not_mem_nil, or_false] at hc
  rcases hc with rfl | hc | rfl | rfl | rfl
  · decide
  · exact (h c hc).2.2.2
  · decide
  · decide
  · decide
theorem plain_string_fmt (s : Option String) (h : plain_string s) : plain_text (fmt_s s) := by
  cases s with
  | none => exact absurd h id
  | some x => exact h

theorem plain_optional_some (s : Option String) (x : String) (h : plain_optional s)
    (e : s = some x) : plain_text x.data := by
  subst e
  exact h

theorem text_string_member_comma (key val : List Char) (hk : plain_text key)
    (hv : plain_text val) :
    members_comma 1 1 (dquote :: key ++ [dquote, ':', ' ', dquote] ++ val ++ [dquote, ',', ' ']) := by
  have h := member_comma_of_value 1 key (' ' :: (dquote :: val ++ [dquote])) hk
    (value_ok_space 1 _ (json_value_string val hv))
  have e : dquote :: key ++ [dquote, ':', ' ', dquote] ++ val ++ [dquote, ',', ' '] =
      dquote :: key ++ dquote :: ':' :: (' ' :: (dquote :: val ++ [dquote])) ++ [',', ' '] := by
    simp
  rw [e]
  exact h

theorem text_number_member_comma (key num : List Char) (hk : plain_text key)
    (hv : value_ok 1 num) :
    members_comma 1 1 (dquote :: key ++ [dquote, ':', ' '] ++ num ++ [',', ' ']) := by
  have h := member_comma_of_value 1 key (' ' :: num) hk (value_ok_space 1 _ hv)
  have e : dquote :: key ++ [dquote, ':', ' '] ++ num ++ [',', ' '] =
      dquote :: key ++ dquote :: ':' :: (' ' :: num) ++ [',', ' '] := by simp
  rw [e]
  exact h

theorem text_string_member_end (key val : List Char) (hk : plain_text key)
    (hv : plain_text val) :
    member_end 1 (dquote :: key ++ [dquote, ':', ' ', dquote] ++ val ++ [dquote, rbrace]) := by
  have h := member_end_of_value 1 key (' ' :: (dquote :: val ++ [dquote])) hk
    (value_ok_space 1 _ (json_value_string val hv))
  have e : dquote :: key ++ [dquote, ':', ' ', dquote] ++ val ++ [dquote, rbrace] =
      dquote :: key ++ dquote :: ':' :: (' ' :: (dquote :: val ++ [dquote])) ++ [rbrace] := by
    simp
  rw [e]
  exact h

theorem text_number_member_end (key num : List Char) (hk : plain_text key)
    (hv : value_ok 1 num) :
    member_end 1 (dquote :: key ++ [dquote, ':', ' '] ++ num ++ [rbrace]) := by
  have h := member_end_of_value 1 key (' ' :: num) hk (value_ok_space 1 _ hv)
  have e : dquote :: key ++ [dquote, ':', ' '] ++ num ++ [rbrace] =
      dquote :: key ++ dquote :: ':' :: (' ' :: num) ++ [rbrace] := by simp
  rw [e]
  exact h

theorem sprintf_s_data (pre post : String) (v : Option String)
    (h : ∀ c ∈ pre.data, c ≠ '%') :
    (sprintf ⟨pre ++ "%s" ++ post, .s v⟩).data = pre.data ++ fmt_s v ++ post.data := by
  have e : (pre ++ "%s" ++ post).data = pre.data ++ ('%' :: 's' :: post.data) := by
    simp only [String.data_append, List.append_assoc]
    rfl
  show vformat (pre ++ "%s" ++ post).data (.s v) = _
  rw [e, vformat_skip _ _ _ h, vformat, List.append_assoc]

theorem sprintf_d_data (pre post : String) (v : Int) (h : ∀ c ∈ pre.data, c ≠ '%') :
    (sprintf ⟨pre ++ "%d" ++ post, .d v⟩).data = pre.data ++ fmt_d v ++ post.data := by
  have e : (pre ++ "%d" ++ post).data = pre.data ++ ('%' :: 'd' :: post.data) := by
    simp only [String.data_append, List.append_assoc]
    rfl
  show vformat (pre ++ "%d" ++ post).data (.d v) = _
  rw [e, vformat_skip _ _ _ h, vformat, List.append_assoc]

theorem sprintf_llu_data (pre post : String) (v : Nat) (h : ∀ c ∈ pre.data, c ≠ '%') :
    (sprintf ⟨pre ++ "%llu" ++ post, .llu v⟩).data = pre.data ++ fmt_u v ++ post.data := by
  have e : (pre ++ "%llu" ++ post).data =
      pre.data ++ ('%' :: 'l' :: 'l' :: 'u' :: post.data) := by
    simp only [String.data_append, List.append_assoc]
    rfl
  show vformat (pre ++ "%llu" ++ post).data (.llu v) = _
  rw [e, vformat_skip _ _ _ h, vformat, List.append_assoc]

theorem sprintf_lit_data (s : String) : (sprintf (lit s)).data = s.data :=
  vformat_none s.data

theorem string_call (key : String) (v : Option String) (hk : plain_key key.data)
    (hv : plain_text (fmt_s v)) :
    members_comma 1 1 (sprintf ⟨"\"" ++ key ++ "\": \"" ++ "%s" ++ "\", ", .s v⟩).data := by
  have hp : ∀ c ∈ ("\"" ++ key ++ "\": \"").data, c ≠ '%' := by
    intro c hc
    simp only [String.data_append, List.mem_append] at hc
    rcases hc with (hc | hc) | hc
    · have : c ∈ [dquote] := hc
      rw [List.mem_singleton.mp this]; decide
    · exact (hk c hc).2.2.2
    · have : c ∈ [dquote, ':', ' ', dquote] := hc
      simp only [List.mem_cons, List.mem_singleton, List.not_mem_nil, or_false] at this
      rcases this with rfl | rfl | rfl | rfl <;> decide
  rw [sprintf_s_data _ _ _ hp]
  exact text_string_member_comma key.data (fmt_s v)
    (fun c hc => ⟨(hk c hc).1, (hk c hc).2.1, (hk c hc).2.2.1⟩) hv
theorem calls_data_nil : (calls_text []).data = [] := rfl

theorem calls_data_cons (c : CALL) (cs : List CALL) :
    (calls_text (c :: cs)).data = (sprintf c).data ++ (calls_text cs).data := by
  rw [calls_text_cons, String.data_append]

theorem calls_data_append (a b : List CALL) :
    (calls_text (a ++ b)).data = (calls_text a).data ++ (calls_text b).data := by
  rw [calls_text_append, String.data_append]

theorem plain_key_plain (key : List Char) (h : plain_key key) : plain_text key :=
  fun c hc => ⟨(h c hc).1, (h c hc).2.1, (h c hc).2.2.1⟩

theorem key_prefix_skip (key : String) (hk : plain_key key.data) :
    ∀ c ∈ ("\"" ++ key ++ "\": ").data, c ≠ '%' := by
  intro c hc
  simp only [String.data_append, List.mem_append] at hc
  rcases hc with (hc | hc) | hc
  · have : c ∈ [dquote] := hc
    rw [List.mem_singleton.mp this]; decide
  · exact (hk c hc).2.2.2
  · have : c ∈ [dquote, ':', ' '] := hc
    simp only [List.mem_cons, List.mem_singleton, List.not_mem_nil, or_false] at this
    rcases this with rfl | rfl | rfl <;> decide

theorem key_prefix_data (key : String) :
    ("\"" ++ key ++ "\": ").data = dquote :: key.data ++ [dquote, ':', ' '] := by
  simp only [String.data_append]
  rfl

theorem d_call (key : String) (n : Int) (hk : plain_key key.data) :
    members_comma 1 1 (sprintf ⟨"\"" ++ key ++ "\": " ++ "%d" ++ ", ", .d n⟩).data := by
  rw [sprintf_d_data _ _ _ (key_prefix_skip key hk), key_prefix_data]
  exact text_number_member_comma key.data (fmt_d n) (plain_key_plain _ hk) (value_ok_fmt_d n)

theorem llu_call (key : String) (n : Nat) (hk : plain_key key.data) :
    members_comma 1 1 (sprintf ⟨"\"" ++ key ++ "\": " ++ "%llu" ++ ", ", .llu n⟩).data := by
  rw [sprintf_llu_data _ _ _ (key_prefix_skip key hk), key_prefix_data]
  exact text_number_member_comma key.data (fmt_u n) (plain_key_plain _ hk) (value_ok_fmt_u n)

theorem lit_call (key val : String) (hk : plain_text key.data) (hv : plain_text val.data) :
    members_comma 1 1 (sprintf (lit ("\"" ++ key ++ "\": \"" ++ val ++ "\", "))).data ∧
      ∃ r, (sprintf (lit ("\"" ++ key ++ "\": \"" ++ val ++ "\", "))).data = dquote :: r := by
  have e : (sprintf (lit ("\"" ++ key ++ "\": \"" ++ val ++ "\", "))).data =
      dquote :: key.data ++ [dquote, ':', ' ', dquote] ++ val.data ++ [dquote, ',', ' '] := by
    rw [sprintf_lit_data]
    simp only [String.data_append]
    rfl
  rw [e]
  exact ⟨text_string_member_comma key.data val.data hk hv, _, rfl⟩

theorem calls_members_cons (d K : Nat) (c : CALL) (cs : List CALL)
    (h1 : members_comma d 1 (sprintf c).data) (h2 : members_comma d K (calls_text cs).data) :
    members_comma d (1 + K) (calls_text (c :: cs)).data := by
  rw [calls_data_cons]
  exact members_comma_append d 1 K _ _ h1 h2

theorem calls_members_one (d : Nat) (c : CALL) (h1 : members_comma d 1 (sprintf c).data) :
    members_comma d 1 (calls_text [c]).data := by
  rw [calls_data_cons, calls_data_nil, List.append_nil]
  exact h1

theorem domain_member (x : EVEL_EVENT_DOMAINS) (h0 : EVEL_DOMAIN_INTERNAL < x)
    (h1 : x < EVEL_MAX_DOMAINS) :
    ∃ c, domain_call x = some c ∧ members_comma 1 1 (sprintf c).data ∧
      ∃ r, (sprintf c).data = dquote :: r := by
  simp only [EVEL_DOMAIN_INTERNAL, EVEL_MAX_DOMAINS] at h0 h1
  interval_cases x
  · exact ⟨_, rfl, lit_call "domain" "heartbeat" (by decide) (by decide)⟩
  · exact ⟨_, rfl, lit_call "domain" "fault" (by decide) (by decide)⟩
  · exact ⟨_, rfl, lit_call "domain" "measurementsForVfScaling" (by decide) (by decide)⟩
  · exact ⟨_, rfl, lit_call "domain" "measurementsForVfReporting" (by decide) (by decide)⟩

theorem priority_member (x : EVEL_EVENT_PRIORITIES) (h1 : x < EVEL_MAX_PRIORITIES) :
    ∃ c, priority_call x = some c ∧ members_comma 1 1 (sprintf c).data := by
  simp only [EVEL_MAX_PRIORITIES] at h1
  interval_cases x
  · exact ⟨_, rfl, (lit_call "priority" "High" (by decide) (by decide)).1⟩
  · exact ⟨_, rfl, (lit_call "priority" "Medium" (by decide) (by decide)).1⟩
  · exact ⟨_, rfl, (lit_call "priority" "Normal" (by decide) (by decide)).1⟩
  · exact ⟨_, rfl, (lit_call "priority" "Low" (by decide) (by decide)).1⟩

theorem severity_member (x : EVEL_FAULT_SEVERITIES) (h1 : x < EVEL_MAX_SEVERITIES) :
    ∃ c, severity_call x = some c ∧ members_comma 1 1 (sprintf c).data := by
  simp only [EVEL_MAX_SEVERITIES] at h1
  interval_cases x
  · exact ⟨_, rfl, (lit_call "eventSeverity" "CRITICAL" (by decide) (by decide)).1⟩
  · exact ⟨_, rfl, (lit_call "eventSeverity" "MAJOR" (by decide) (by decide)).1⟩
  · exact ⟨_, rfl, (lit_call "eventSeverity" "MINOR" (by decide) (by decide)).1⟩
  · exact ⟨_, rfl, (lit_call "eventSeverity" "WARNING" (by decide) (by decide)).1⟩
  · exact ⟨_, rfl, (lit_call "eventSeverity" "NORMAL" (by decide) (by decide)).1⟩

theorem source_type_member (x : EVEL_SOURCE_TYPES) (h1 : x < EVEL_MAX_SOURCE_TYPES) :
    ∃ c, source_type_call x = some c ∧ members_comma 1 1 (sprintf c).data := by
  simp only [EVEL_MAX_SOURCE_TYPES] at h1
  interval_cases x
  · exact ⟨_, rfl, (lit_call "eventSourceType" "other(0)" (by decide) (by decide)).1⟩
  · exact ⟨_, rfl, (lit_call "eventSourceType" "router(1)" (by decide) (by decide)).1⟩
  · exact ⟨_, rfl, (lit_call "eventSourceType" "switch(2)" (by decide) (by decide)).1⟩
  · exact ⟨_, rfl, (lit_call "eventSourceType" "host(3)" (by decide) (by decide)).1⟩
  · exact ⟨_, rfl, (lit_call "eventSourceType" "card(4)" (by decide) (by decide)).1⟩
  · exact ⟨_, rfl, (lit_call "eventSourceType" "port(5)" (by decide) (by decide)).1⟩
  · exact ⟨_, rfl, (lit_call "eventSourceType" "slotThreshold(6)" (by decide) (by decide)).1⟩
  · exact ⟨_, rfl, (lit_call "eventSourceType" "portThreshold(7)" (by decide) (by decide)).1⟩
  · exact ⟨_, rfl, (lit_call "eventSourceType" "virtualMachine(8)" (by decide) (by decide)).1⟩

theorem lit_end (key val : String) (hk : plain_text key.data) (hv : plain_text val.data) :
    member_end 1 (calls_text [lit ("\"" ++ key ++ "\": \"" ++ val ++ "\""), lit "\x7d"]).data := by
  have e : (calls_text [lit ("\"" ++ key ++ "\": \"" ++ val ++ "\""), lit "\x7d"]).data =
      dquote :: key.data ++ [dquote, ':', ' ', dquote] ++ val.data ++ [dquote, rbrace] := by
    rw [calls_data_cons, calls_data_cons, calls_data_nil, sprintf_lit_data, sprintf_lit_data]
    simp only [String.data_append, List.append_assoc]
    rfl
  rw [e]
  exact text_string_member_end key.data val.data hk hv

theorem vf_status_end (x : EVEL_VF_STATUSES) (h1 : x < EVEL_MAX_VF_STATUSES) :
    ∃ c, vf_status_call x = some c ∧ member_end 1 (calls_text [c, lit "\x7d"]).data := by
  simp only [EVEL_MAX_VF_STATUSES] at h1
  interval_cases x
  · exact ⟨_, rfl, lit_end "vfStatus" "Active" (by decide) (by decide)⟩
  · exact ⟨_, rfl, lit_end "vfStatus" "Idle" (by decide) (by decide)⟩
  · exact ⟨_, rfl, lit_end "vfStatus" "Preparing to terminate" (by decide) (by decide)⟩
  · exact ⟨_, rfl, lit_end "vfStatus" "Ready to terminate" (by decide) (by decide)⟩
  · exact ⟨_, rfl, lit_end "vfStatus" "Requesting termination" (by decide) (by decide)⟩

theorem version_end (n : Int) :
    member_end 1 (calls_text [⟨"\"version\": %d", .d n⟩, lit "\x7d"]).data := by
  have e : (calls_text [⟨"\"version\": %d", .d n⟩, lit "\x7d"]).data =
      dquote :: "version".data ++ [dquote, ':', ' '] ++ fmt_d n ++ [rbrace] := by
    rw [calls_data_cons, calls_data_cons, calls_data_nil, sprintf_lit_data]
    have := sprintf_d_data "\"version\": " "" n (by decide)
    rw [show (⟨"\"version\": %d", .d n⟩ : CALL) = ⟨"\"version\": " ++ "%d" ++ "", .d n⟩
      from rfl, this]
    simp only [List.append_assoc]
    rfl
  rw [e]
  exact text_number_member_end "version".data (fmt_d n) (by decide) (value_ok_fmt_d n)
theorem string_call_head (key : String) (v : Option String) (hk : plain_key key.data) :
    ∃ r, (sprintf ⟨"\"" ++ key ++ "\": \"" ++ "%s" ++ "\", ", .s v⟩).data = dquote :: r := by
  have hp : ∀ c ∈ ("\"" ++ key ++ "\": \"").data, c ≠ '%' := by
    intro c hc
    simp only [String.data_append, List.mem_append] at hc
    rcases hc with (hc | hc) | hc
    · have : c ∈ [dquote] := hc
      rw [List.mem_singleton.mp this]; decide
    · exact (hk c hc).2.2.2
    · have : c ∈ [dquote, ':', ' ', dquote] := hc
      simp only [List.mem_cons, List.mem_singleton, List.not_mem_nil, or_false] at this
      rcases this with rfl | rfl | rfl | rfl <;> decide
  rw [sprintf_s_data _ _ _ hp]
  simp only [String.data_append, List.append_assoc]
  exact ⟨_, rfl⟩

theorem header_object (h : EVENT_HEADER) (hv : h.valid) (hp : h.plain) :
    ∃ hcalls obj, evel_json_encode_header_calls h = some hcalls ∧
      (calls_text hcalls).data = dquote :: "commonEventHeader".data ++ dquote :: ':' :: obj ∧
      value_ok 15 obj := by
  obtain ⟨p1, p2, p3, p4, p5, p6, p7⟩ := hp
  obtain ⟨dom, hdom, mdom, rd, hrd⟩ := domain_member h.event_domain hv.1 hv.2.1
  obtain ⟨pri, hpri, mpri⟩ := priority_member h.priority hv.2.2
  have hopt : members_comma 1 1 (calls_text (match h.event_type with
      | some type => [(⟨"\"eventType\": \"%s\", ", .s (some type)⟩ : CALL)]
      | none => [])).data := by
    cases ht : h.event_type with
    | none => exact members_comma_nil 1 1
    | some type =>
      exact calls_members_one 1 _ (string_call "eventType" (some type) (by decide) (plain_optional_some _ type p2 ht))
  have m1 : members_comma 1 2 (calls_text
      [dom, ⟨"\"eventId\": \"%s\", ", .s h.event_id⟩]).data :=
    calls_members_cons 1 1 _ _ mdom (calls_members_one 1 _
      (string_call "eventId" h.event_id (by decide) (plain_string_fmt _ p1)))
  have m2 : members_comma 1 9 (calls_text
      [⟨"\"functionalRole\": \"%s\", ", .s h.functional_role⟩,
       ⟨"\"lastEpochMicrosec\": %llu, ", .llu h.last_epoch_microsec⟩,
       ⟨"\"reportingEntityId\": \"%s\", ", .s h.reporting_entity_id⟩,
       ⟨"\"reportingEntityName\": \"%s\", ", .s h.reporting_entity_name⟩,
       ⟨"\"sequence\": %d, ", .d h.sequence⟩,
       ⟨"\"sourceId\": \"%s\", ", .s h.source_id⟩,
       ⟨"\"sourceName\": \"%s\", ", .s h.source_name⟩,
       ⟨"\"startEpochMicrosec\": %llu, ", .llu h.start_epoch_microsec⟩,
       pri]).data :=
    calls_members_cons 1 8 _ _
      (string_call "functionalRole" h.functional_role (by decide) (plain_string_fmt _ p3))
    (calls_members_cons 1 7 _ _ (llu_call "lastEpochMicrosec" h.last_epoch_microsec (by decide))
    (calls_members_cons 1 6 _ _
      (string_call "reportingEntityId" h.reporting_entity_id (by decide)
        (plain_string_fmt _ p4))
    (calls_members_cons 1 5 _ _
      (string_call "reportingEntityName" h.reporting_entity_name (by decide)
        (plain_string_fmt _ p5))
    (calls_members_cons 1 4 _ _ (d_call "sequence" h.sequence (by decide))
    (calls_members_cons 1 3 _ _
      (string_call "sourceId" h.source_id (by decide) (plain_string_fmt _ p6))
    (calls_members_cons 1 2 _ _
      (string_call "sourceName" h.source_name (by decide) (plain_string_fmt _ p7))
    (calls_members_cons 1 1 _ _
      (llu_call "startEpochMicrosec" h.start_epoch_microsec (by decide))
    (calls_members_one 1 _ mpri))))))))
  have mall := members_comma_append 1 (2 + 1) 9 _ _ (members_comma_append 1 2 1 _ _ m1 hopt) m2
  have mend := version_end EVEL_API_VERSION
  refine ⟨[lit "\"commonEventHeader\":\x7b", dom,
      ⟨"\"eventId\": \"%s\", ", .s h.event_id⟩] ++
    (match h.event_type with
      | some type => [(⟨"\"eventType\": \"%s\", ", .s (some type)⟩ : CALL)]
      | none => []) ++
    [⟨"\"functionalRole\": \"%s\", ", .s h.functional_role⟩,
     ⟨"\"lastEpochMicrosec\": %llu, ", .llu h.last_epoch_microsec⟩,
     ⟨"\"reportingEntityId\": \"%s\", ", .s h.reporting_entity_id⟩,
     ⟨"\"reportingEntityName\": \"%s\", ", .s h.reporting_entity_name⟩,
     ⟨"\"sequence\": %d, ", .d h.sequence⟩,
     ⟨"\"sourceId\": \"%s\", ", .s h.source_id⟩,
     ⟨"\"sourceName\": \"%s\", ", .s h.source_name⟩,
     ⟨"\"startEpochMicrosec\": %llu, ", .llu h.start_epoch_microsec⟩,
     pri,
     ⟨"\"version\": %d", .d EVEL_API_VERSION⟩,
     lit "\x7d"], _, ?_, ?_, value_ok_object 1 (2 + 1 + 9) _ _ mall mend ?_⟩
  · unfold evel_json_encode_header_calls
    rw [hdom, hpri]
  · simp only [calls_data_append, calls_data_cons, calls_data_nil, sprintf_lit_data,
      List.append_assoc, List.append_nil, List.cons_append]
    rfl
  · rw [calls_data_cons, hrd]
    simp only [List.cons_append, List.append_assoc]
    exact ⟨_, rfl⟩
theorem addl_info_value (a : FAULT_ADDL_INFO) (hn : plain_string a.name)
    (hv : plain_string a.value) :
    value_ok 4 (calls_text (addl_info_calls a)).data ∧
      ∃ r, (calls_text (addl_info_calls a)).data = lbrace :: r := by
  have e : (calls_text (addl_info_calls a)).data =
      lbrace :: ((dquote :: "name".data ++ [dquote, ':', ' ', dquote] ++ fmt_s a.name ++
          [dquote, ',', ' ']) ++
        (dquote :: "value".data ++ [dquote, ':', ' ', dquote] ++ fmt_s a.value ++
          [dquote, rbrace])) := by
    have e1 := sprintf_s_data "\x7b\"name\": \"" "\", " a.name (by decide)
    have e2 := sprintf_s_data "\"value\": \"" "\"\x7d" a.value (by decide)
    rw [addl_info_calls, calls_data_cons, calls_data_cons, calls_data_nil,
      show (⟨"\x7b\"name\": \"%s\", ", .s a.name⟩ : CALL) =
        ⟨"\x7b\"name\": \"" ++ "%s" ++ "\", ", .s a.name⟩ from rfl, e1,
      show (⟨"\"value\": \"%s\"\x7d", .s a.value⟩ : CALL) =
        ⟨"\"value\": \"" ++ "%s" ++ "\"\x7d", .s a.value⟩ from rfl, e2]
    simp only [List.append_assoc, List.append_nil, List.cons_append]
    rfl
  rw [e]
  exact ⟨value_ok_object 1 1 _ _
    (text_string_member_comma "name".data _ (by decide) (plain_string_fmt _ hn))
    (text_string_member_end "value".data _ (by decide) (plain_string_fmt _ hv))
    ⟨_, rfl⟩, _, rfl⟩

theorem join_comma_head (a : String) (l : List String) :
    ∃ r, (join_comma (a :: l)).data = a.data ++ r := by
  cases l with
  | nil => exact ⟨[], by rw [join_comma, List.append_nil]⟩
  | cons b l => exact ⟨_, join_comma_data a b l⟩

theorem join_comma_length (l : List String) (h : ∀ s ∈ l, s.data ≠ []) :
    l.length ≤ (join_comma l).data.length := by
  induction l with
  | nil => exact Nat.zero_le _
  | cons a l ih =>
    have ha : 1 ≤ a.data.length := by
      have := h a (List.mem_cons_self a l)
      cases hd : a.data with
      | nil => exact absurd hd this
      | cons c r => simp
    cases l with
    | nil =>
      rw [join_comma]
      exact ha
    | cons b l =>
      have ih2 := ih (fun s hs => h s (List.mem_cons_of_mem a hs))
      rw [join_comma_data, List.length_append, List.length_cons, List.length_cons]
      simp only [List.length_cons] at ih2 ⊢
      omega

theorem addl_info_member (l : DLIST FAULT_ADDL_INFO)
    (hl : ∀ a ∈ l, plain_string a.name ∧ plain_string a.value) :
    members_comma (l.length + 5) 1
        (calls_text (json_array "\"alarmAdditionalInformation\": [" addl_info_calls l)).data ∧
      ((calls_text (json_array "\"alarmAdditionalInformation\": [" addl_info_calls l)).data = [] ∨
        ∃ r, (calls_text (json_array "\"alarmAdditionalInformation\": ["
          addl_info_calls l)).data = dquote :: r) ∧
      l.length ≤ (calls_text (json_array "\"alarmAdditionalInformation\": ["
        addl_info_calls l)).data.length := by
  cases l with
  | nil => exact ⟨members_comma_nil _ _, Or.inl rfl, Nat.le_refl _⟩
  | cons a l =>
    have hval : ∀ s ∈ (a :: l).map (fun x => calls_text (addl_info_calls x)),
        value_ok 4 s.data := by
      intro s hs
      obtain ⟨x, hx, rfl⟩ := List.mem_map.mp hs
      exact (addl_info_value x (hl x hx).1 (hl x hx).2).1
    have hne : ∀ s ∈ (a :: l).map (fun x => calls_text (addl_info_calls x)), s.data ≠ [] := by
      intro s hs
      obtain ⟨x, hx, rfl⟩ := List.mem_map.mp hs
      obtain ⟨r, hr⟩ := (addl_info_value x (hl x hx).1 (hl x hx).2).2
      rw [hr]
      exact List.cons_ne_nil _ _
    have hitems := items_ok_join 4 _ (by simp) hval
    have hlen := join_comma_length _ hne
    rw [List.length_map] at hitems hlen
    obtain ⟨r0, hr0⟩ := (addl_info_value a (hl a (List.mem_cons_self a l)).1
      (hl a (List.mem_cons_self a l)).2).2
    obtain ⟨r1, hr1⟩ := join_comma_head (calls_text (addl_info_calls a))
      (l.map (fun x => calls_text (addl_info_calls x)))
    have hq : ∃ r, (join_comma ((a :: l).map (fun x => calls_text (addl_info_calls x)))).data =
        lbrace :: r := ⟨r0 ++ r1, by rw [List.map_cons, hr1, hr0]; rfl⟩
    have hv := value_ok_space _ _ (value_ok_array 4 (a :: l).length _ hitems hq)
    have hm := member_comma_of_value _ "alarmAdditionalInformation".data _ (by decide) hv
    have e : (calls_text (json_array "\"alarmAdditionalInformation\": [" addl_info_calls
        (a :: l))).data =
        dquote :: "alarmAdditionalInformation".data ++ dquote :: ':' :: (' ' :: ('[' ::
          (join_comma ((a :: l).map (fun x => calls_text (addl_info_calls x)))).data ++
            [']'])) ++ [',', ' '] := by
      rw [json_array_text _ _ _ (List.cons_ne_nil a l)]
      simp only [String.data_append, List.append_assoc, List.cons_append]
      rfl
    rw [e]
    refine ⟨members_comma_mono _ _ 1 1 _ (by omega) (le_refl 1) hm, Or.inr ⟨_, rfl⟩, ?_⟩
    simp only [List.length_cons, List.length_append] at hlen ⊢
    omega
theorem fault_object (f : EVENT_FAULT) (hv : f.valid) (hp : f.plain) :
    ∃ fcalls obj, evel_json_encode_fault_calls f = some fcalls ∧
      (calls_text fcalls).data =
        ',' :: ' ' :: dquote :: "faultFields".data ++ dquote :: ':' :: obj ∧
      value_ok (f.additional_info.length + 14) obj ∧
      f.additional_info.length ≤ obj.length := by
  obtain ⟨_, q1, q2, q3, q4⟩ := hp
  obtain ⟨_, _, hs, ht, hvf⟩ := hv
  obtain ⟨sev, hsev, msev⟩ := severity_member f.event_severity hs
  obtain ⟨src, hsrc, msrc⟩ := source_type_member f.event_source_type ht
  obtain ⟨vf, hvfc, mvf⟩ := vf_status_end f.vf_status hvf
  obtain ⟨marr, harr, hlen⟩ := addl_info_member f.additional_info q4
  have mcond : members_comma 1 1 (calls_text
      [⟨"\"alarmCondition\": \"%s\", ", .s f.alarm_condition⟩]).data :=
    calls_members_one 1 _
      (string_call "alarmCondition" f.alarm_condition (by decide) (plain_string_fmt _ q1))
  obtain ⟨rc, hrc⟩ := string_call_head "alarmCondition" f.alarm_condition (by decide)
  have mopt : members_comma 1 1 (calls_text (match f.alarm_interface_a with
      | some interface => [(⟨"\"alarmInterfaceA\": \"%s\", ", .s (some interface)⟩ : CALL)]
      | none => [])).data := by
    cases hi : f.alarm_interface_a with
    | none => exact members_comma_nil 1 1
    | some s =>
      exact calls_members_one 1 _
        (string_call "alarmInterfaceA" (some s) (by decide) (plain_optional_some _ s q2 hi))
  have mrest : members_comma 1 4 (calls_text
      [sev, src, ⟨"\"faultFieldsVersion\": %d, ", .d EVEL_API_VERSION⟩,
       ⟨"\"specificProblem\": \"%s\", ", .s f.specific_problem⟩]).data :=
    calls_members_cons 1 3 _ _ msev
    (calls_members_cons 1 2 _ _ msrc
    (calls_members_cons 1 1 _ _ (d_call "faultFieldsVersion" EVEL_API_VERSION (by decide))
    (calls_members_one 1 _
      (string_call "specificProblem" f.specific_problem (by decide)
        (plain_string_fmt _ q3)))))
  have hd : 1 ≤ f.additional_info.length + 5 := by omega
  have mall := members_comma_append _ (1 + 1 + 1) 4 _ _
    (members_comma_append _ (1 + 1) 1 _ _
      (members_comma_append _ 1 1 _ _ marr
        (members_comma_mono 1 _ 1 1 _ hd (le_refl 1) mcond))
      (members_comma_mono 1 _ 1 1 _ hd (le_refl 1) mopt))
    (members_comma_mono 1 _ 4 4 _ hd (le_refl 4) mrest)
  have mend := member_end_mono 1 (f.additional_info.length + 5) _ hd mvf
  refine ⟨[lit ", \"faultFields\":\x7b"] ++
      json_array "\"alarmAdditionalInformation\": [" addl_info_calls f.additional_info ++
      [⟨"\"alarmCondition\": \"%s\", ", .s f.alarm_condition⟩] ++
      (match f.alarm_interface_a with
        | some interface => [(⟨"\"alarmInterfaceA\": \"%s\", ", .s (some interface)⟩ : CALL)]
        | none => []) ++
      [sev, src, ⟨"\"faultFieldsVersion\": %d, ", .d EVEL_API_VERSION⟩,
       ⟨"\"specificProblem\": \"%s\", ", .s f.specific_problem⟩, vf, lit "\x7d"], _, ?_, ?_,
    value_ok_mono _ _ _ (by omega) (value_ok_object _ (1 + 1 + 1 + 4) _ _ mall mend ?_), ?_⟩
  · unfold evel_json_encode_fault_calls
    rw [hsev, hsrc, hvfc]
  · simp only [calls_data_append, calls_data_cons, calls_data_nil, sprintf_lit_data,
      List.append_assoc, List.append_nil, List.cons_append]
    rfl
  · rw [calls_data_cons, calls_data_nil, List.append_nil,
      show (⟨"\"alarmCondition\": \"%s\", ", .s f.alarm_condition⟩ : CALL) =
        ⟨"\"" ++ "alarmCondition" ++ "\": \"" ++ "%s" ++ "\", ", .s f.alarm_condition⟩
        from rfl, hrc]
    rcases harr with e | ⟨r, e⟩
    · rw [e]
      simp only [List.nil_append, List.cons_append, List.append_assoc]
      exact ⟨_, rfl⟩
    · rw [e]
      simp only [List.cons_append, List.append_assoc]
      exact ⟨_, rfl⟩
  · simp only [List.length_cons, List.length_append]
    omega

theorem read_of_value_ok (d : Nat) (text : String) (h : value_ok d text.data)
    (hd : d ≤ text.length + 1) : (json_read text).isSome := by
  obtain ⟨v, hv⟩ := h
  have := hv (text.length + 1) hd [] (Or.inl rfl)
  rw [List.append_nil] at this
  unfold json_read
  rw [this]
  rfl

theorem heartbeat_text (h : EVENT_HEADER) (hd : h.event_domain = EVEL_DOMAIN_HEARTBEAT)
    (hv : h.valid) (hp : h.plain) :
    ∃ cs, event_calls (.header h) = some cs ∧ (json_read (calls_text cs)).isSome := by
  obtain ⟨hcalls, obj, hh, htext, hobj⟩ := header_object h hv hp
  have hev : event_calls (.header h) =
      some ([lit "\x7b\"event\":\x7b"] ++ hcalls ++ [lit "\x7d\x7d"]) := by
    have hd' : (EVENT.header h).hdr.event_domain = EVEL_DOMAIN_HEARTBEAT := hd
    have hh' : evel_json_encode_header_calls (EVENT.header h).hdr = some hcalls := hh
    simp only [event_calls, domain_calls, hd', hh', if_true, Option.map_some']
  have m2 := member_end_of_value 15 "commonEventHeader".data obj (by decide) hobj
  have v1 := value_ok_object 15 0 [] _ (members_comma_nil 15 0) m2 ⟨_, rfl⟩
  have m3 := member_end_of_value _ "event".data _ (by decide) v1
  have v2 := value_ok_object _ 0 [] _ (members_comma_nil _ 0) m3 ⟨_, rfl⟩
  have e : (calls_text ([lit "\x7b\"event\":\x7b"] ++ hcalls ++ [lit "\x7d\x7d"])).data =
      lbrace :: ([] ++ (dquote :: "event".data ++ dquote :: ':' ::
        (lbrace :: ([] ++ (dquote :: "commonEventHeader".data ++ dquote :: ':' :: obj ++
          [rbrace]))) ++ [rbrace])) := by
    simp only [calls_data_append, calls_data_cons, calls_data_nil, sprintf_lit_data, htext,
      List.append_assoc, List.append_nil, List.cons_append, List.nil_append]
    rfl
  refine ⟨_, hev, read_of_value_ok _ _ (e ▸ v2) ?_⟩
  have hl : (calls_text ([lit "\x7b\"event\":\x7b"] ++ hcalls ++ [lit "\x7d\x7d"])).length =
      (calls_text ([lit "\x7b\"event\":\x7b"] ++ hcalls ++ [lit "\x7d\x7d"])).data.length := rfl
  rw [hl, e]
  simp only [List.length_cons, List.length_append, List.nil_append]
  omega

theorem fault_text (f : EVENT_FAULT) (hv : f.valid) (hp : f.plain) :
    ∃ cs, event_calls (.fault f) = some cs ∧ (json_read (calls_text cs)).isSome := by
  have hhv : f.header.valid := ⟨by rw [hv.1]; decide, by rw [hv.1]; decide, hv.2.1⟩
  obtain ⟨hcalls, hobj, hh, htext, hhobj⟩ := header_object f.header hhv hp.1
  obtain ⟨fcalls, fobj, hf, ftext, hfobj, hflen⟩ := fault_object f hv hp
  have hev : event_calls (.fault f) =
      some ([lit "\x7b\"event\":\x7b"] ++ (hcalls ++ fcalls) ++ [lit "\x7d\x7d"]) := by
    have hd' : (EVENT.fault f).hdr.event_domain = EVEL_DOMAIN_FAULT := hv.1
    simp only [event_calls, domain_calls, hd', fault_calls, hh, hf, Option.map_some']
    rw [if_neg (by decide), if_pos trivial]
    rfl
  have m1 := member_comma_of_value 15 "commonEventHeader".data hobj (by decide) hhobj
  have m2 := member_end_of_value _ "faultFields".data fobj (by decide) hfobj
  have v1 := value_ok_object (f.additional_info.length + 15) 1 _ _
    (members_comma_mono 15 _ 1 1 _ (by omega) (le_refl 1) m1)
    (member_end_mono _ _ _ (by omega) m2) ⟨_, rfl⟩
  have m3 := member_end_of_value _ "event".data _ (by decide) v1
  have v2 := value_ok_object _ 0 [] _ (members_comma_nil _ 0) m3 ⟨_, rfl⟩
  have e : (calls_text ([lit "\x7b\"event\":\x7b"] ++ (hcalls ++ fcalls) ++
      [lit "\x7d\x7d"])).data =
      lbrace :: ([] ++ (dquote :: "event".data ++ dquote :: ':' ::
        (lbrace :: ((dquote :: "commonEventHeader".data ++ dquote :: ':' :: hobj ++
            [',', ' ']) ++
          (dquote :: "faultFields".data ++ dquote :: ':' :: fobj ++ [rbrace]))) ++
        [rbrace])) := by
    simp only [calls_data_append, calls_data_cons, calls_data_nil, sprintf_lit_data, htext,
      ftext, List.append_assoc, List.append_nil, List.cons_append, List.nil_append]
    rfl
  refine ⟨_, hev, read_of_value_ok _ _ (e ▸ v2) ?_⟩
  have hl : (calls_text ([lit "\x7b\"event\":\x7b"] ++ (hcalls ++ fcalls) ++
      [lit "\x7d\x7d"])).length =
      (calls_text ([lit "\x7b\"event\":\x7b"] ++ (hcalls ++ fcalls) ++
        [lit "\x7d\x7d"])).data.length := rfl
  rw [hl, e]
  simp only [List.length_cons, List.length_append, List.nil_append]
  omega
/-- C28: for every heartbeat and every fault whose enum fields hold enumerators
and whose strings are set and hold no double quote, backslash or control
character (the optional event type and alarm interface set or not, any number
of additional-information pairs), the calls of evel_json_encode_event are
defined and the text they format is read by the JSON reader as one JSON value,
which is what a well-formed text is: the braces and brackets match and each
member or item is followed by one comma or by the closing brace or bracket.  In
a buffer large enough for the text, evel_json_encode_event leaves exactly this
text. -/
theorem C28_heartbeat_and_fault_text_is_well_formed (e : EVENT)
    (he : (∃ h, e = .header h ∧ h.event_domain = EVEL_DOMAIN_HEARTBEAT ∧ h.valid ∧ h.plain) ∨
      (∃ f, e = .fault f ∧ f.valid ∧ f.plain)) :
    ∃ cs, event_calls e = some cs ∧ (json_read (calls_text cs)).isSome = true ∧
      ∀ M : Int, M ≤ INT_MAX → ((calls_text cs).length : Int) < M →
        ∃ r, evel_json_encode_event 0 M e = some r ∧ json_string r = (calls_text cs).data := by
  have key : ∃ cs, event_calls e = some cs ∧ (json_read (calls_text cs)).isSome = true := by
    rcases he with ⟨h, rfl, hd, hv, hp⟩ | ⟨f, rfl, hv, hp⟩
    · exact heartbeat_text h hd hv hp
    · exact fault_text f hv hp
  obtain ⟨cs, hcs, hread⟩ := key
  refine ⟨cs, hcs, hread, fun M hM hlt => ?_⟩
  obtain ⟨r, hr, _, hjs, _⟩ := encode_event_fits e M cs hcs hM hlt
  exact ⟨r, hr, hjs⟩

/-- C28 at the heartbeat and the fault of the demo program, the fault with its
event type, its alarm interface and two additional-information pairs. -/
theorem C28_heartbeat_and_fault_text_is_well_formed_witness :
    (∃ cs, event_calls (.header demo_heartbeat) = some cs ∧
      (json_read (calls_text cs)).isSome = true ∧
      ∀ M : Int, M ≤ INT_MAX → ((calls_text cs).length : Int) < M →
        ∃ r, evel_json_encode_event 0 M (.header demo_heartbeat) = some r ∧
          json_string r = (calls_text cs).data) ∧
    (∃ cs, event_calls (.fault demo_fault) = some cs ∧
      (json_read (calls_text cs)).isSome = true ∧
      ∀ M : Int, M ≤ INT_MAX → ((calls_text cs).length : Int) < M →
        ∃ r, evel_json_encode_event 0 M (.fault demo_fault) = some r ∧
          json_string r = (calls_text cs).data) :=
  ⟨C28_heartbeat_and_fault_text_is_well_formed (.header demo_heartbeat)
      (Or.inl ⟨demo_heartbeat, rfl, by decide, by decide, by decide⟩),
    C28_heartbeat_and_fault_text_is_well_formed (.fault demo_fault)
      (Or.inr ⟨demo_fault, rfl, by decide, by decide⟩)⟩

/-! ## The values a text reads as -/

theorem value_is_string (s : List Char) (h : plain_text s) :
    value_is 1 (dquote :: s ++ [dquote]) (.string s) := by
  intro f hf rest _
  obtain ⟨g, rfl⟩ : ∃ g, f = g + 1 := ⟨f - 1, by omega⟩
  have e : dquote :: s ++ [dquote] ++ rest = dquote :: (s ++ dquote :: rest) := by simp
  rw [e, json_value, json_ws_dquote]
  simp only [if_true, json_string_body_plain s rest h, Option.map_some', List.nil_append]
  rw [if_neg (by decide), if_neg (by decide)]

theorem value_is_number (sign ds : List Char) (hne : ds ≠ [])
    (hd : ∀ c ∈ ds, '0' ≤ c ∧ c ≤ '9') (h0 : ds.head? = some '0' → ds = ['0'])
    (hs : sign = [] ∨ sign = ['-']) : value_is 1 (sign ++ ds) (.number (sign ++ ds)) := by
  intro f hf rest hr
  obtain ⟨g, rfl⟩ : ∃ g, f = g + 1 := ⟨f - 1, by omega⟩
  have hnum := json_number_digits sign ds rest hne hd h0 hs hr
  obtain ⟨c, t, ht, hc⟩ : ∃ c t, sign ++ ds ++ rest = c :: t ∧
      (('0' ≤ c ∧ c ≤ '9') ∨ c = '-') := by
    rcases hs with rfl | rfl
    · obtain ⟨c, ds', rfl⟩ := List.exists_cons_of_ne_nil hne
      exact ⟨c, ds' ++ rest, rfl, Or.inl (hd c (List.mem_cons_self c ds'))⟩
    · exact ⟨'-', ds ++ rest, rfl, Or.inr rfl⟩
  obtain ⟨n1, n2, n3, n4, n5, n6, n7⟩ := digit_not_special c hc
  rw [ht] at hnum ⊢
  rw [json_value, json_ws, if_neg n1]
  simp only [n2, n3, n4, n5, n6, n7, if_false, hnum, Option.map_some']

theorem value_is_fmt_u (n : Nat) : value_is 1 (fmt_u n) (.number (fmt_u n)) := by
  obtain ⟨⟨h1, h2, h3⟩, _⟩ := fmt_u_spec n
  exact value_is_number [] (fmt_u n) h1 h2 h3 (Or.inl rfl)

theorem value_is_fmt_d (n : Int) : value_is 1 (fmt_d n) (.number (fmt_d n)) := by
  obtain ⟨⟨h1, h2, h3⟩, _⟩ := fmt_u_spec n.natAbs
  unfold fmt_d
  split_ifs
  · exact value_is_number ['-'] (fmt_u n.natAbs) h1 h2 h3 (Or.inr rfl)
  · exact value_is_number [] (fmt_u n.natAbs) h1 h2 h3 (Or.inl rfl)

theorem value_is_space (d : Nat) (t : List Char) (v : JSON) (h : value_is d t v) :
    value_is d (' ' :: t) v := by
  intro f hf rest hr
  rw [List.cons_append, json_value_space]
  exact h f hf rest hr

theorem value_is_mono (d e : Nat) (t : List Char) (v : JSON) (hde : d ≤ e)
    (h : value_is d t v) : value_is e t v :=
  fun f hf rest hr => h f (le_trans hde hf) rest hr

theorem members_are_nil (d : Nat) : members_are d [] [] :=
  fun f _ more acc => by simp

theorem members_are_append (d : Nat) (t1 t2 : List Char) (k1 k2 : List (List Char × JSON))
    (h1 : members_are d t1 k1) (h2 : members_are d t2 k2) :
    members_are d (t1 ++ t2) (k1 ++ k2) := by
  intro f hf more acc
  have e : f + (k1 ++ k2).length = (f + k2.length) + k1.length := by
    rw [List.length_append]; omega
  rw [e, List.append_assoc, h1 (f + k2.length) (by omega), h2 f hf, List.append_assoc]

theorem member_is_of_value (d : Nat) (key vt : List Char) (v : JSON) (hk : plain_text key)
    (hv : value_is d vt v) :
    members_are d (dquote :: key ++ dquote :: ':' :: vt ++ [',', ' ']) [(key, v)] := by
  intro f hf more acc
  have e : dquote :: key ++ dquote :: ':' :: vt ++ [',', ' '] ++ more =
      dquote :: key ++ dquote :: ':' :: vt ++ (',' :: ' ' :: more) := by simp
  rw [e, List.length_singleton,
    json_members_member f key vt _ v acc hk (hv f hf _ (stops_comma _)) ',' (' ' :: more)
      (json_ws_stops _ (stops_comma _)),
    if_pos rfl, json_members_space]

theorem member_last_of_value (d : Nat) (key vt : List Char) (v : JSON) (hk : plain_text key)
    (hv : value_is d vt v) :
    member_last d (dquote :: key ++ dquote :: ':' :: vt ++ [rbrace]) (key, v) := by
  intro f hf rest acc
  have e : dquote :: key ++ dquote :: ':' :: vt ++ [rbrace] ++ rest =
      dquote :: key ++ dquote :: ':' :: vt ++ (rbrace :: rest) := by simp
  rw [e, json_members_member f key vt _ v acc hk (hv f hf _ (stops_rbrace _)) rbrace rest
      (json_ws_stops _ (stops_rbrace _)),
    if_neg (by decide), if_pos (by decide)]

theorem value_is_object (d : Nat) (t1 t2 : List Char) (kvs : List (List Char × JSON))
    (kv : List Char × JSON) (h1 : members_are d t1 kvs) (h2 : member_last d t2 kv)
    (hq : ∃ r, t1 ++ t2 = dquote :: r) :
    value_is (d + kvs.length + 2) (lbrace :: (t1 ++ t2)) (.object (kvs ++ [kv])) := by
  obtain ⟨r, hq⟩ := hq
  intro f hf rest _
  obtain ⟨g, rfl⟩ : ∃ g, f = (g + 1 + kvs.length) + 1 :=
    ⟨f - kvs.length - 2, by omega⟩
  have hq2 : ∃ r2, t1 ++ t2 ++ rest = dquote :: r2 := ⟨r ++ rest, by rw [hq]; rfl⟩
  obtain ⟨r2, hq2⟩ := hq2
  rw [List.cons_append, json_value, json_ws_lbrace]
  simp only [lbrace, if_true]
  rw [hq2, json_ws_dquote]
  simp only
  rw [if_neg (by decide), ← hq2, List.append_assoc, h1 (g + 1) (by omega), h2 g (by omega)]
  rfl

theorem read_of_value_is (d : Nat) (t : List Char) (v : JSON) (h : value_is d t v)
    (hd : d ≤ t.length + 1) : json_read ⟨t⟩ = some v := by
  have := h (t.length + 1) hd [] (Or.inl rfl)
  rw [List.append_nil] at this
  unfold json_read
  show (match json_value (t.length + 1) t with
    | none => none
    | some (v, rest) => if json_ws rest = [] then some v else none) = some v
  rw [this]
  rfl

theorem json_digits_append (ds rest : List Char) (hd : ∀ c ∈ ds, '0' ≤ c ∧ c ≤ '9')
    (hr : json_digits rest = ([], rest)) : json_digits (ds ++ rest) = (ds, rest) := by
  induction ds with
  | nil => exact hr
  | cons c ds ih =>
    have hc := hd c (List.mem_cons_self c ds)
    rw [List.cons_append, json_digits, if_pos hc,
      ih (fun x hx => hd x (List.mem_cons_of_mem c hx))]

theorem json_number_tail_fraction (sign int ds rest : List Char) (hne : int ≠ [])
    (hd : ∀ c ∈ int, '0' ≤ c ∧ c ≤ '9') (h0 : int.head? = some '0' → int = ['0'])
    (hds : ds ≠ []) (hdd : ∀ c ∈ ds, '0' ≤ c ∧ c ≤ '9')
    (hr : stops rest) (i r1 : List Char) :
    json_digits (int ++ '.' :: (ds ++ rest)) = (i, r1) →
    (if i = [] ∨ i.head? = some '0' ∧ i.length ≠ 1 then none
      else
        let frac : Option (List Char × List Char) :=
          match r1 with
          | '.' :: rest =>
            match json_digits rest with
            | (ds, r) => if ds = [] then none else some ('.' :: ds, r)
          | _ => some ([], r1)
        match frac with
        | none => none
        | some (fr, r2) =>
          match r2 with
          | e :: rest =>
            if e = 'e' ∨ e = 'E' then
              match
                (match rest with
                | '+' :: rest' => (['+'], rest')
                | '-' :: rest' => (['-'], rest')
                | _ => ([], rest) : List Char × List Char) with
              | (es, r3) =>
                match json_digits r3 with
                | (ds, r4) =>
                  if ds = [] then none else some (sign ++ i ++ fr ++ e :: es ++ ds, r4)
            else some (sign ++ i ++ fr, r2)
          | [] => some (sign ++ i ++ fr, r2)) =
      some (sign ++ int ++ '.' :: ds, rest) := by
  intro h
  obtain ⟨hdig, _, hexp⟩ := stops_not_digit rest hr
  have hdot : json_digits ('.' :: (ds ++ rest)) = ([], '.' :: (ds ++ rest)) := by
    rw [json_digits, if_neg (by decide)]
  rw [json_digits_append int _ hd hdot] at h
  cases h
  have hint : ¬ (int = [] ∨ (int.head? = some '0' ∧ int.length ≠ 1)) := by
    rintro (e | ⟨e1, e2⟩)
    · exact hne e
    · rw [h0 e1] at e2
      exact e2 rfl
  rw [if_neg hint]
  simp only [json_digits_numeral ds rest hdd hr, hds, if_false]
  rcases hr with rfl | ⟨c, r, rfl, hc⟩
  · simp
  · have h3 : ¬ (c = 'e' ∨ c = 'E') := hexp c r rfl
    simp only
    rw [if_neg h3]

theorem json_number_fraction (sign int ds rest : List Char) (hne : int ≠ [])
    (hd : ∀ c ∈ int, '0' ≤ c ∧ c ≤ '9') (h0 : int.head? = some '0' → int = ['0'])
    (hds : ds ≠ []) (hdd : ∀ c ∈ ds, '0' ≤ c ∧ c ≤ '9')
    (hs : sign = [] ∨ sign = ['-']) (hr : stops rest) :
    json_number (sign ++ int ++ '.' :: ds ++ rest) = some (sign ++ int ++ '.' :: ds, rest) := by
  have e0 : sign ++ int ++ '.' :: ds ++ rest = sign ++ int ++ ('.' :: (ds ++ rest)) := by simp
  rw [e0]
  unfold json_number
  split
  rename_i sg r0 heq
  have e : sg = sign ∧ r0 = int ++ '.' :: (ds ++ rest) := by
    rcases hs with rfl | rfl
    · obtain ⟨c, int', rfl⟩ := List.exists_cons_of_ne_nil hne
      have hm : c ≠ '-' := by
        intro e
        have := hd c (List.mem_cons_self c int')
        rw [e] at this
        exact absurd this (by decide)
      split at heq
      · rename_i heq2
        simp only [List.nil_append, List.cons_append, List.cons.injEq] at heq2
        exact absurd heq2.1 hm
      · cases heq
        exact ⟨rfl, rfl⟩
    · split at heq
      · rename_i heq2
        simp only [List.cons_append, List.nil_append, List.cons.injEq, true_and] at heq2
        cases heq
        exact ⟨rfl, heq2.symm⟩
      · rename_i hno
        exact absurd rfl (hno (int ++ '.' :: (ds ++ rest)))
  obtain ⟨rfl, rfl⟩ := e
  split
  rename_i i r1 heq1
  exact json_number_tail_fraction sg int ds rest hne hd h0 hds hdd hr i r1 heq1

theorem value_is_fraction (sign int ds : List Char) (hne : int ≠ [])
    (hd : ∀ c ∈ int, '0' ≤ c ∧ c ≤ '9') (h0 : int.head? = some '0' → int = ['0'])
    (hds : ds ≠ []) (hdd : ∀ c ∈ ds, '0' ≤ c ∧ c ≤ '9')
    (hs : sign = [] ∨ sign = ['-']) :
    value_is 1 (sign ++ int ++ '.' :: ds) (.number (sign ++ int ++ '.' :: ds)) := by
  intro f hf rest hr
  obtain ⟨g, rfl⟩ : ∃ g, f = g + 1 := ⟨f - 1, by omega⟩
  have hnum := json_number_fraction sign int ds rest hne hd h0 hds hdd hs hr
  obtain ⟨c, t, ht, hc⟩ : ∃ c t, sign ++ int ++ '.' :: ds ++ rest = c :: t ∧
      (('0' ≤ c ∧ c ≤ '9') ∨ c = '-') := by
    rcases hs with rfl | rfl
    · obtain ⟨c, int', rfl⟩ := List.exists_cons_of_ne_nil hne
      exact ⟨c, int' ++ '.' :: ds ++ rest, by simp, Or.inl (hd c (List.mem_cons_self c int'))⟩
    · exact ⟨'-', int ++ '.' :: ds ++ rest, by simp, Or.inr rfl⟩
  obtain ⟨n1, n2, n3, n4, n5, n6, n7⟩ := digit_not_special c hc
  rw [ht] at hnum ⊢
  rw [json_value, json_ws, if_neg n1]
  simp only [n2, n3, n4, n5, n6, n7, if_false, hnum, Option.map_some']

theorem value_is_fmt_lf (x : double) : value_is 1 (fmt_lf x) (.number (fmt_lf x)) := by
  unfold fmt_lf
  simp only
  generalize (if x.den < 2 * (x.num.natAbs * 1000000 % x.den) ∨
      2 * (x.num.natAbs * 1000000 % x.den) = x.den ∧
        x.num.natAbs * 1000000 / x.den % 2 = 1 then
      x.num.natAbs * 1000000 / x.den + 1 else x.num.natAbs * 1000000 / x.den) = q
  obtain ⟨⟨h1, h2, h3⟩, _⟩ := fmt_u_spec (q / 1000000)
  obtain ⟨⟨g1, g2, _⟩, _⟩ := fmt_u_spec (q % 1000000)
  have hds : List.replicate (6 - (fmt_u (q % 1000000)).length) '0' ++ fmt_u (q % 1000000) ≠
      [] := by
    intro e
    exact g1 (List.append_eq_nil.mp e).2
  have hdd : ∀ c ∈ List.replicate (6 - (fmt_u (q % 1000000)).length) '0' ++
      fmt_u (q % 1000000), '0' ≤ c ∧ c ≤ '9' := by
    intro c hc
    rcases List.mem_append.mp hc with hc | hc
    · rw [(List.mem_replicate.mp hc).2]
      decide
    · exact g2 c hc
  have e : ∀ sign : List Char, sign ++ fmt_u (q / 1000000) ++ ['.'] ++
      List.replicate (6 - (fmt_u (q % 1000000)).length) '0' ++ fmt_u (q % 1000000) =
      sign ++ fmt_u (q / 1000000) ++ '.' ::
        (List.replicate (6 - (fmt_u (q % 1000000)).length) '0' ++ fmt_u (q % 1000000)) := by
    intro sign
    simp
  rw [e]
  split_ifs
  · exact value_is_fraction ['-'] _ _ h1 h2 h3 hds hdd (Or.inr rfl)
  · exact value_is_fraction [] _ _ h1 h2 h3 hds hdd (Or.inl rfl)

/-! ## The header object, read with its values -/

theorem text_string_member_is (key val : List Char) (hk : plain_text key)
    (hv : plain_text val) :
    members_are 1 (dquote :: key ++ [dquote, ':', ' ', dquote] ++ val ++ [dquote, ',', ' '])
      [(key, .string val)] := by
  have h := member_is_of_value 1 key (' ' :: (dquote :: val ++ [dquote])) _ hk
    (value_is_space 1 _ _ (value_is_string val hv))
  have e : dquote :: key ++ [dquote, ':', ' ', dquote] ++ val ++ [dquote, ',', ' '] =
      dquote :: key ++ dquote :: ':' :: (' ' :: (dquote :: val ++ [dquote])) ++ [',', ' '] := by
    simp
  rw [e]
  exact h

theorem text_number_member_is (key num : List Char) (hk : plain_text key)
    (hv : value_is 1 num (.number num)) :
    members_are 1 (dquote :: key ++ [dquote, ':', ' '] ++ num ++ [',', ' '])
      [(key, .number num)] := by
  have h := member_is_of_value 1 key (' ' :: num) _ hk (value_is_space 1 _ _ hv)
  have e : dquote :: key ++ [dquote, ':', ' '] ++ num ++ [',', ' '] =
      dquote :: key ++ dquote :: ':' :: (' ' :: num) ++ [',', ' '] := by simp
  rw [e]
  exact h

theorem text_number_member_last (key num : List Char) (hk : plain_text key)
    (hv : value_is 1 num (.number num)) :
    member_last 1 (dquote :: key ++ [dquote, ':', ' '] ++ num ++ [rbrace])
      (key, .number num) := by
  have h := member_last_of_value 1 key (' ' :: num) _ hk (value_is_space 1 _ _ hv)
  have e : dquote :: key ++ [dquote, ':', ' '] ++ num ++ [rbrace] =
      dquote :: key ++ dquote :: ':' :: (' ' :: num) ++ [rbrace] := by simp
  rw [e]
  exact h

theorem sprintf_lf_data (pre post : String) (v : double) (h : ∀ c ∈ pre.data, c ≠ '%') :
    (sprintf ⟨pre ++ "%lf" ++ post, .lf v⟩).data = pre.data ++ fmt_lf v ++ post.data := by
  have e : (pre ++ "%lf" ++ post).data = pre.data ++ ('%' :: 'l' :: 'f' :: post.data) := by
    simp only [String.data_append, List.append_assoc]
    rfl
  show vformat (pre ++ "%lf" ++ post).data (.lf v) = _
  rw [e, vformat_skip _ _ _ h, vformat, List.append_assoc]

theorem string_call_is (key : String) (v : Option String) (hk : plain_key key.data)
    (hv : plain_text (fmt_s v)) :
    members_are 1 (sprintf ⟨"\"" ++ key ++ "\": \"" ++ "%s" ++ "\", ", .s v⟩).data
      [(key.data, .string (fmt_s v))] := by
  have hp : ∀ c ∈ ("\"" ++ key ++ "\": \"").data, c ≠ '%' := by
    intro c hc
    simp only [String.data_append, List.mem_append] at hc
    rcases hc with (hc | hc) | hc
    · have : c ∈ [dquote] := hc
      rw [List.mem_singleton.mp this]; decide
    · exact (hk c hc).2.2.2
    · have : c ∈ [dquote, ':', ' ', dquote] := hc
      simp only [List.mem_cons, List.mem_singleton, List.not_mem_nil, or_false] at this
      rcases this with rfl | rfl | rfl | rfl <;> decide
  rw [sprintf_s_data _ _ _ hp]
  exact text_string_member_is key.data (fmt_s v) (plain_key_plain _ hk) hv

theorem string_call_length (key : String) (v : Option String) (hk : plain_key key.data) :
    8 ≤ (sprintf ⟨"\"" ++ key ++ "\": \"" ++ "%s" ++ "\", ", .s v⟩).data.length := by
  have hp : ∀ c ∈ ("\"" ++ key ++ "\": \"").data, c ≠ '%' := by
    intro c hc
    simp only [String.data_append, List.mem_append] at hc
    rcases hc with (hc | hc) | hc
    · have : c ∈ [dquote] := hc
      rw [List.mem_singleton.mp this]; decide
    · exact (hk c hc).2.2.2
    · have : c ∈ [dquote, ':', ' ', dquote] := hc
      simp only [List.mem_cons, List.mem_singleton, List.not_mem_nil, or_false] at this
      rcases this with rfl | rfl | rfl | rfl <;> decide
  rw [sprintf_s_data _ _ _ hp]
  have e1 : ("\"" : String).data.length = 1 := rfl
  have e2 : ("\": \"" : String).data.length = 4 := rfl
  have e3 : ("\", " : String).data.length = 3 := rfl
  simp only [String.data_append, List.length_append, e1, e2, e3]
  omega

theorem d_call_is (key : String) (n : Int) (hk : plain_key key.data) :
    members_are 1 (sprintf ⟨"\"" ++ key ++ "\": " ++ "%d" ++ ", ", .d n⟩).data
      [(key.data, .number (fmt_d n))] := by
  rw [sprintf_d_data _ _ _ (key_prefix_skip key hk), key_prefix_data]
  exact text_number_member_is key.data (fmt_d n) (plain_key_plain _ hk) (value_is_fmt_d n)

theorem llu_call_is (key : String) (n : Nat) (hk : plain_key key.data) :
    members_are 1 (sprintf ⟨"\"" ++ key ++ "\": " ++ "%llu" ++ ", ", .llu n⟩).data
      [(key.data, .number (fmt_u n))] := by
  rw [sprintf_llu_data _ _ _ (key_prefix_skip key hk), key_prefix_data]
  exact text_number_member_is key.data (fmt_u n) (plain_key_plain _ hk) (value_is_fmt_u n)

theorem lf_call_is (key : String) (x : double) (hk : plain_key key.data) :
    members_are 1 (sprintf ⟨"\"" ++ key ++ "\": " ++ "%lf" ++ ", ", .lf x⟩).data
      [(key.data, .number (fmt_lf x))] := by
  rw [sprintf_lf_data _ _ _ (key_prefix_skip key hk), key_prefix_data]
  exact text_number_member_is key.data (fmt_lf x) (plain_key_plain _ hk) (value_is_fmt_lf x)

theorem lit_call_is (key val : String) (hk : plain_text key.data) (hv : plain_text val.data) :
    members_are 1 (sprintf (lit ("\"" ++ key ++ "\": \"" ++ val ++ "\", "))).data
      [(key.data, .string val.data)] := by
  have e : (sprintf (lit ("\"" ++ key ++ "\": \"" ++ val ++ "\", "))).data =
      dquote :: key.data ++ [dquote, ':', ' ', dquote] ++ val.data ++ [dquote, ',', ' '] := by
    rw [sprintf_lit_data]
    simp only [String.data_append]
    rfl
  rw [e]
  exact text_string_member_is key.data val.data hk hv

theorem d_call_last (key : String) (n : Int) (hk : plain_key key.data) :
    member_last 1 (sprintf ⟨"\"" ++ key ++ "\": " ++ "%d" ++ "\x7d", .d n⟩).data
      (key.data, .number (fmt_d n)) := by
  rw [sprintf_d_data _ _ _ (key_prefix_skip key hk), key_prefix_data]
  exact text_number_member_last key.data (fmt_d n) (plain_key_plain _ hk) (value_is_fmt_d n)

theorem calls_are_cons (d : Nat) (c : CALL) (cs : List CALL) (kv : List Char × JSON)
    (kvs : List (List Char × JSON)) (h1 : members_are d (sprintf c).data [kv])
    (h2 : members_are d (calls_text cs).data kvs) :
    members_are d (calls_text (c :: cs)).data (kv :: kvs) := by
  rw [calls_data_cons]
  exact members_are_append d _ _ [kv] kvs h1 h2

theorem calls_are_one (d : Nat) (c : CALL) (kv : List Char × JSON)
    (h1 : members_are d (sprintf c).data [kv]) :
    members_are d (calls_text [c]).data [kv] := by
  rw [calls_data_cons, calls_data_nil, List.append_nil]
  exact h1

theorem domain_member_is (x : EVEL_EVENT_DOMAINS) (h0 : EVEL_DOMAIN_INTERNAL < x)
    (h1 : x < EVEL_MAX_DOMAINS) :
    ∃ c, domain_call x = some c ∧
      members_are 1 (sprintf c).data [("domain".data, .string (domain_value x).data)] ∧
      ∃ r, (sprintf c).data = dquote :: r := by
  simp only [EVEL_DOMAIN_INTERNAL, EVEL_MAX_DOMAINS] at h0 h1
  interval_cases x
  · exact ⟨_, rfl, lit_call_is "domain" "heartbeat" (by decide) (by decide),
      (lit_call "domain" "heartbeat" (by decide) (by decide)).2⟩
  · exact ⟨_, rfl, lit_call_is "domain" "fault" (by decide) (by decide),
      (lit_call "domain" "fault" (by decide) (by decide)).2⟩
  · exact ⟨_, rfl, lit_call_is "domain" "measurementsForVfScaling" (by decide) (by decide),
      (lit_call "domain" "measurementsForVfScaling" (by decide) (by decide)).2⟩
  · exact ⟨_, rfl, lit_call_is "domain" "measurementsForVfReporting" (by decide) (by decide),
      (lit_call "domain" "measurementsForVfReporting" (by decide) (by decide)).2⟩

theorem priority_member_is (x : EVEL_EVENT_PRIORITIES) (h1 : x < EVEL_MAX_PRIORITIES) :
    ∃ c, priority_call x = some c ∧
      members_are 1 (sprintf c).data [("priority".data, .string (priority_value x).data)] := by
  simp only [EVEL_MAX_PRIORITIES] at h1
  interval_cases x
  · exact ⟨_, rfl, lit_call_is "priority" "High" (by decide) (by decide)⟩
  · exact ⟨_, rfl, lit_call_is "priority" "Medium" (by decide) (by decide)⟩
  · exact ⟨_, rfl, lit_call_is "priority" "Normal" (by decide) (by decide)⟩
  · exact ⟨_, rfl, lit_call_is "priority" "Low" (by decide) (by decide)⟩

theorem version_last (n : Int) :
    member_last 1 (calls_text [⟨"\"version\": %d", .d n⟩, lit "\x7d"]).data
      ("version".data, .number (fmt_d n)) := by
  have e : (calls_text [⟨"\"version\": %d", .d n⟩, lit "\x7d"]).data =
      dquote :: "version".data ++ [dquote, ':', ' '] ++ fmt_d n ++ [rbrace] := by
    rw [calls_data_cons, calls_data_cons, calls_data_nil, sprintf_lit_data]
    have := sprintf_d_data "\"version\": " "" n (by decide)
    rw [show (⟨"\"version\": %d", .d n⟩ : CALL) = ⟨"\"version\": " ++ "%d" ++ "", .d n⟩
      from rfl, this]
    simp only [List.append_assoc]
    rfl
  rw [e]
  exact text_number_member_last "version".data (fmt_d n) (by decide) (value_is_fmt_d n)

theorem version_length (n : Int) :
    15 ≤ (calls_text [⟨"\"version\": %d", .d n⟩, lit "\x7d"]).data.length + 3 := by
  have e : (calls_text [⟨"\"version\": %d", .d n⟩, lit "\x7d"]).data =
      dquote :: "version".data ++ [dquote, ':', ' '] ++ fmt_d n ++ [rbrace] := by
    rw [calls_data_cons, calls_data_cons, calls_data_nil, sprintf_lit_data]
    have := sprintf_d_data "\"version\": " "" n (by decide)
    rw [show (⟨"\"version\": %d", .d n⟩ : CALL) = ⟨"\"version\": " ++ "%d" ++ "", .d n⟩
      from rfl, this]
    simp only [List.append_assoc]
    rfl
  rw [e]
  have hk : "version".data.length = 7 := rfl
  simp only [List.length_cons, List.length_append, List.length_nil, hk]
  omega

theorem header_reads (h : EVENT_HEADER) (hv : h.valid) (hp : h.plain) :
    ∃ hcalls obj, evel_json_encode_header_calls h = some hcalls ∧
      (calls_text hcalls).data = dquote :: "commonEventHeader".data ++ dquote :: ':' :: obj ∧
      value_is 16 obj (.object (header_members h)) ∧ 15 ≤ obj.length := by
  obtain ⟨p1, p2, p3, p4, p5, p6, p7⟩ := hp
  obtain ⟨dom, hdom, mdom, rd, hrd⟩ := domain_member_is h.event_domain hv.1 hv.2.1
  obtain ⟨pri, hpri, mpri⟩ := priority_member_is h.priority hv.2.2
  have hopt : members_are 1 (calls_text (match h.event_type with
      | some type => [(⟨"\"eventType\": \"%s\", ", .s (some type)⟩ : CALL)]
      | none => [])).data
      (match h.event_type with
        | some type => [("eventType".data, JSON.string type.data)]
        | none => []) := by
    cases ht : h.event_type with
    | none => exact members_are_nil 1
    | some type =>
      exact calls_are_one 1 _ _
        (string_call_is "eventType" (some type) (by decide) (plain_optional_some _ type p2 ht))
  have m1 := calls_are_cons 1 _ _ _ _ mdom (calls_are_one 1 _ _
      (string_call_is "eventId" h.event_id (by decide) (plain_string_fmt _ p1)))
  have m2 :=
    calls_are_cons 1 _ _ _ _
      (string_call_is "functionalRole" h.functional_role (by decide) (plain_string_fmt _ p3))
    (calls_are_cons 1 _ _ _ _ (llu_call_is "lastEpochMicrosec" h.last_epoch_microsec (by decide))
    (calls_are_cons 1 _ _ _ _
      (string_call_is "reportingEntityId" h.reporting_entity_id (by decide)
        (plain_string_fmt _ p4))
    (calls_are_cons 1 _ _ _ _
      (string_call_is "reportingEntityName" h.reporting_entity_name (by decide)
        (plain_string_fmt _ p5))
    (calls_are_cons 1 _ _ _ _ (d_call_is "sequence" h.sequence (by decide))
    (calls_are_cons 1 _ _ _ _
      (string_call_is "sourceId" h.source_id (by decide) (plain_string_fmt _ p6))
    (calls_are_cons 1 _ _ _ _
      (string_call_is "sourceName" h.source_name (by decide) (plain_string_fmt _ p7))
    (calls_are_cons 1 _ _ _ _
      (llu_call_is "startEpochMicrosec" h.start_epoch_microsec (by decide))
    (calls_are_one 1 _ _ mpri))))))))
  have mall := members_are_append 1 _ _ _ _ (members_are_append 1 _ _ _ _ m1 hopt) m2
  have mend := version_last EVEL_API_VERSION
  have hlen : ((([("domain".data, JSON.string (domain_value h.event_domain).data),
      ("eventId".data, JSON.string (fmt_s h.event_id))] ++
      (match h.event_type with
        | some type => [("eventType".data, JSON.string type.data)]
        | none => [])) ++
      [("functionalRole".data, JSON.string (fmt_s h.functional_role)),
       ("lastEpochMicrosec".data, JSON.number (fmt_u h.last_epoch_microsec)),
       ("reportingEntityId".data, JSON.string (fmt_s h.reporting_entity_id)),
       ("reportingEntityName".data, JSON.string (fmt_s h.reporting_entity_name)),
       ("sequence".data, JSON.number (fmt_d h.sequence)),
       ("sourceId".data, JSON.string (fmt_s h.source_id)),
       ("sourceName".data, JSON.string (fmt_s h.source_name)),
       ("startEpochMicrosec".data, JSON.number (fmt_u h.start_epoch_microsec)),
       ("priority".data, JSON.string (priority_value h.priority).data)]).length) ≤ 13 := by
    cases h.event_type <;> simp
  have hobj := value_is_mono _ 16 _ _ (by omega) (value_is_object 1 _ _ _ _ mall mend (by
    rw [calls_data_cons, hrd]
    simp only [List.cons_append, List.append_assoc]
    exact ⟨_, rfl⟩))
  refine ⟨[lit "\"commonEventHeader\":\x7b", dom,
      ⟨"\"eventId\": \"%s\", ", .s h.event_id⟩] ++
    (match h.event_type with
      | some type => [(⟨"\"eventType\": \"%s\", ", .s (some type)⟩ : CALL)]
      | none => []) ++
    [⟨"\"functionalRole\": \"%s\", ", .s h.functional_role⟩,
     ⟨"\"lastEpochMicrosec\": %llu, ", .llu h.last_epoch_microsec⟩,
     ⟨"\"reportingEntityId\": \"%s\", ", .s h.reporting_entity_id⟩,
     ⟨"\"reportingEntityName\": \"%s\", ", .s h.reporting_entity_name⟩,
     ⟨"\"sequence\": %d, ", .d h.sequence⟩,
     ⟨"\"sourceId\": \"%s\", ", .s h.source_id⟩,
     ⟨"\"sourceName\": \"%s\", ", .s h.source_name⟩,
     ⟨"\"startEpochMicrosec\": %llu, ", .llu h.start_epoch_microsec⟩,
     pri,
     ⟨"\"version\": %d", .d EVEL_API_VERSION⟩,
     lit "\x7d"], _, ?_, ?_, hobj, ?_⟩
  · unfold evel_json_encode_header_calls
    rw [hdom, hpri]
  · simp only [calls_data_append, calls_data_cons, calls_data_nil, sprintf_lit_data,
      List.append_assoc, List.append_nil, List.cons_append]
    rfl
  · have h1 := version_length EVEL_API_VERSION
    have h2 := string_call_length "eventId" h.event_id (by decide)
    simp only [calls_data_cons, List.length_cons, List.length_append] at h1 ⊢
    omega

/-! ## The buffer of evel_json_encode_event and the text of the calls -/

/-- When the text of the calls is shorter than EVEL_MAX_JSON_BODY, the buffer
evel_json_encode_event leaves holds that text. -/
theorem event_json_of_calls (e : EVENT)
    (h : ((event_calls e).map fun cs =>
      decide (((calls_text cs).length : Int) < EVEL_MAX_JSON_BODY)) = some true) :
    event_json e = (event_calls e).map calls_text := by
  cases hc : event_calls e with
  | none => simp [hc] at h
  | some cs =>
    simp only [hc, Option.map_some', Option.some.injEq, decide_eq_true_eq] at h
    obtain ⟨r, hr, _, hs, _⟩ := encode_event_fits e EVEL_MAX_JSON_BODY cs hc (by decide) h
    simp only [event_json, hr, Option.map_some', Option.some.injEq]
    exact String.ext hs

theorem event_keys_at_of_calls (e : EVENT) (path : List String)
    (h : ((event_calls e).map fun cs =>
      decide (((calls_text cs).length : Int) < EVEL_MAX_JSON_BODY)) = some true) :
    event_keys_at e path =
      ((((event_calls e).map calls_text).bind json_read).bind (JSON.get path)).map JSON.keys := by
  rw [event_keys_at, event_json_of_calls e h]

theorem event_string_member_of_calls (e : EVENT) (path : List String)
    (h : ((event_calls e).map fun cs =>
      decide (((calls_text cs).length : Int) < EVEL_MAX_JSON_BODY)) = some true) :
    event_string_member e path =
      ((event_calls e).map calls_text).map fun text =>
        (json_read text).bind (JSON.string_at path) := by
  rw [event_string_member, event_json_of_calls e h]

theorem event_items_at_of_calls (e : EVENT) (path : List String)
    (h : ((event_calls e).map fun cs =>
      decide (((calls_text cs).length : Int) < EVEL_MAX_JSON_BODY)) = some true) :
    event_items_at e path =
      ((event_calls e).map calls_text).map fun text =>
        ((json_read text).bind (JSON.get path)).bind JSON.items_length := by
  rw [event_items_at, event_json_of_calls e h]

/-! ## C3: the keys of the header object -/

theorem header_keys (h : EVENT_HEADER) :
    JSON.keys (.object (header_members h)) =
      if h.event_type = none then
        ["domain", "eventId", "functionalRole", "lastEpochMicrosec", "reportingEntityId",
         "reportingEntityName", "sequence", "sourceId", "sourceName", "startEpochMicrosec",
         "priority", "version"]
      else
        ["domain", "eventId", "eventType", "functionalRole", "lastEpochMicrosec",
         "reportingEntityId", "reportingEntityName", "sequence", "sourceId", "sourceName",
         "startEpochMicrosec", "priority", "version"] := by
  unfold header_members
  cases h.event_type with
  | none => rfl
  | some type => rfl

/-- C3, counterexample: the text produced for the demo program's fault as
evel_new_fault returns it (no event type set) has a commonEventHeader object
without the key eventType; and when the functional role holds double quotes,
the commonEventHeader object of the same fault has a key eventType although no
event type is set, and the key sequence twice. -/
theorem C3_counterexample_fresh_fault_has_no_eventType :
    demo_fault_new.header.event_type = none ∧
    event_keys_at (.fault demo_fault_new) ["event", "commonEventHeader"] =
      some ["domain", "eventId", "functionalRole", "lastEpochMicrosec", "reportingEntityId",
        "reportingEntityName", "sequence", "sourceId", "sourceName", "startEpochMicrosec",
        "priority", "version"] ∧
    fault_with_quotes_in_role.header.event_type = none ∧
    event_keys_at (.fault fault_with_quotes_in_role) ["event", "commonEventHeader"] =
      some ["domain", "eventId", "functionalRole", "eventType", "sequence",
        "lastEpochMicrosec", "reportingEntityId", "reportingEntityName", "sequence",
        "sourceId", "sourceName", "startEpochMicrosec", "priority", "version"] := by
  refine ⟨by decide, ?_, by decide, ?_⟩
  · rw [event_keys_at_of_calls _ _ (by decide!)]
    decide!
  · rw [event_keys_at_of_calls _ _ (by decide!)]
    decide!

/-- C3, amended: for every header of an externally routed domain with a
priority of the enum whose strings are set and hold no double quote, backslash
or control character, evel_json_encode_header runs to its end and leaves, in a
buffer that is large enough, the key commonEventHeader, a colon and a text that
the JSON reader reads as the object
with the members `header_members`: this object has each of the twelve keys
domain, eventId, functionalRole, lastEpochMicrosec, priority, reportingEntityId,
reportingEntityName, sequence, sourceId, sourceName, startEpochMicrosec and
version exactly once, the key eventType exactly once when an event type is set
and not at all when none is, and no other key. -/
theorem C3_header_object_keys (h : EVENT_HEADER) (hv : h.valid) (hp : h.plain) :
    ∃ calls obj, evel_json_encode_header_calls h = some calls ∧
      (∀ M : Int, M ≤ INT_MAX → ((calls_text calls).length : Int) < M →
        ∃ r, evel_json_encode_header 0 M h = some r ∧
          json_string r = (calls_text calls).data) ∧
      calls_text calls = "\"commonEventHeader\":" ++ obj ∧
      json_read obj = some (.object (header_members h)) ∧
      (∀ k ∈ required_header_keys, k ≠ "eventType" →
        (JSON.keys (.object (header_members h))).count k = 1) ∧
      (JSON.keys (.object (header_members h))).count "eventType" =
        (if h.event_type = none then 0 else 1) ∧
      ∀ k ∈ JSON.keys (.object (header_members h)), k ∈ required_header_keys := by
  obtain ⟨calls, obj, hc, ht, hobj, hlen⟩ := header_reads h hv hp
  refine ⟨calls, ⟨obj⟩, hc, ?_, ?_, read_of_value_is 16 obj _ hobj (by omega), ?_, ?_, ?_⟩
  · intro M hM hlt
    obtain ⟨r, hr, _, hs, _⟩ := encode_header_fits h M calls hc hM hlt
    exact ⟨r, hr, hs⟩
  · apply String.ext
    rw [ht, String.data_append]
    rfl
  · rw [header_keys]
    by_cases he : h.event_type = none
    · simp only [he, if_true]
      decide
    · simp only [he, if_false]
      decide
  · rw [header_keys]
    by_cases he : h.event_type = none
    · simp only [he, if_true]
      decide
    · simp only [he, if_false]
      decide
  · rw [header_keys]
    by_cases he : h.event_type = none
    · simp only [he, if_true]
      decide
    · simp only [he, if_false]
      decide

/-- C3, witness: the header of the demo program's heartbeat, which has an event
type, and the header of its fault as evel_new_fault returns it, which has
none. -/
theorem C3_header_object_keys_witness :
    (demo_heartbeat.valid ∧ demo_heartbeat.plain ∧
      ∃ calls obj, evel_json_encode_header_calls demo_heartbeat = some calls ∧
        (∀ M : Int, M ≤ INT_MAX → ((calls_text calls).length : Int) < M →
          ∃ r, evel_json_encode_header 0 M demo_heartbeat = some r ∧
            json_string r = (calls_text calls).data) ∧
        calls_text calls = "\"commonEventHeader\":" ++ obj ∧
        json_read obj = some (.object (header_members demo_heartbeat)) ∧
        (∀ k ∈ required_header_keys, k ≠ "eventType" →
          (JSON.keys (.object (header_members demo_heartbeat))).count k = 1) ∧
        (JSON.keys (.object (header_members demo_heartbeat))).count "eventType" =
          (if demo_heartbeat.event_type = none then 0 else 1) ∧
        ∀ k ∈ JSON.keys (.object (header_members demo_heartbeat)),
          k ∈ required_header_keys) :=
  ⟨by decide, by decide, C3_header_object_keys demo_heartbeat (by decide) (by decide)⟩

/-! ## C6: the optional numeric keys of a measurement -/

theorem event_text_reads (hcalls bcalls : List CALL) (hobj bobj : List Char)
    (hdoc bdoc : JSON) (key : String) (d : Nat) (hk : plain_text key.data)
    (ht : (calls_text hcalls).data =
      dquote :: "commonEventHeader".data ++ dquote :: ':' :: hobj)
    (hv : value_is 16 hobj hdoc)
    (bt : (calls_text bcalls).data = ',' :: ' ' :: dquote :: key.data ++ dquote :: ':' :: bobj)
    (bv : value_is d bobj bdoc) (hd : d ≤ bobj.length + 16) :
    json_read (calls_text ([lit "\x7b\"event\":\x7b"] ++ (hcalls ++ bcalls) ++
        [lit "\x7d\x7d"])) =
      some (.object [("event".data,
        .object [("commonEventHeader".data, hdoc), (key.data, bdoc)])]) := by
  have m1 := member_is_of_value (bobj.length + 16) "commonEventHeader".data hobj _ (by decide)
    (value_is_mono 16 _ _ _ (by omega) hv)
  have m2 := member_last_of_value (bobj.length + 16) key.data bobj _ hk
    (value_is_mono d _ _ _ hd bv)
  have v1 := value_is_object _ _ _ _ _ m1 m2 ⟨_, rfl⟩
  have m3 := member_last_of_value _ "event".data _ _ (by decide) v1
  have v2 := value_is_object _ [] _ [] _ (members_are_nil _) m3 ⟨_, rfl⟩
  have e : (calls_text ([lit "\x7b\"event\":\x7b"] ++ (hcalls ++ bcalls) ++
      [lit "\x7d\x7d"])).data =
      lbrace :: ([] ++ (dquote :: "event".data ++ dquote :: ':' ::
        (lbrace :: ((dquote :: "commonEventHeader".data ++ dquote :: ':' :: hobj ++
            [',', ' ']) ++
          (dquote :: key.data ++ dquote :: ':' :: bobj ++ [rbrace]))) ++
        [rbrace])) := by
    simp only [calls_data_append, calls_data_cons, calls_data_nil, sprintf_lit_data, ht,
      bt, List.append_assoc, List.append_nil, List.cons_append, List.nil_append]
    rfl
  have hs : calls_text ([lit "\x7b\"event\":\x7b"] ++ (hcalls ++ bcalls) ++
      [lit "\x7d\x7d"]) = ⟨(calls_text ([lit "\x7b\"event\":\x7b"] ++ (hcalls ++ bcalls) ++
      [lit "\x7d\x7d"])).data⟩ := rfl
  rw [hs, e]
  refine read_of_value_is _ _ _ v2 ?_
  simp only [List.length_cons, List.length_append, List.nil_append, List.length_nil]
  omega

theorem plain_fmt_d (n : Int) : plain_text (fmt_d n) := by
  obtain ⟨⟨_, h2, _⟩, _⟩ := fmt_u_spec n.natAbs
  have hdig : ∀ c : Char, '0' ≤ c ∧ c ≤ '9' →
      c ≠ dquote ∧ c ≠ backslash ∧ 32 ≤ c.toNat := by
    intro c hc
    have key : ∀ x : Char, ¬ ('0' ≤ x ∧ x ≤ '9') → c ≠ x := fun x hx e => hx (e ▸ hc)
    refine ⟨key _ (by decide), key _ (by decide), ?_⟩
    have h48 : (48 : Nat) ≤ c.toNat := hc.1
    omega
  unfold fmt_d
  split_ifs
  · intro c hc
    rcases List.mem_cons.mp hc with rfl | hc
    · decide
    · exact hdig c (h2 c hc)
  · intro c hc
    exact hdig c (h2 c hc)

theorem init_header_plain (env : ENV) (tv : timeval) (hp : env.plain)
    (domain : EVEL_EVENT_DOMAINS) (priority : EVEL_EVENT_PRIORITIES) :
    ({ (evel_init_header env tv EVENT_HEADER.zero).1 with
        event_domain := domain, priority := priority } : EVENT_HEADER).plain :=
  ⟨plain_fmt_d _, trivial, hp.1, hp.2.1, hp.2.2, hp.2.1, hp.2.2⟩

theorem measurement_number_keys (m : EVENT_MEASUREMENT) :
    JSON.keys (.object (measurement_number_members m)) =
      ["concurrentSessions", "configuredEntities", "meanRequestLatency",
       "measurementInterval", "memoryConfigured", "memoryUsed", "requestRate"] ++
      (if m.aggregate_cpu_usage > 0 then ["aggregateCpuUsage"] else []) ++
      (if m.media_ports_in_use > 0 then ["numberOfMediaPortsInUse"] else []) ++
      (if m.vnfc_scaling_metric > 0 then ["vnfcScalingMetric"] else []) ++
      ["measurementFieldsVersion"] := by
  unfold measurement_number_members
  split_ifs <;> rfl

theorem measurement_reads (m : EVENT_MEASUREMENT)
    (h1 : m.cpu_usage = []) (h2 : m.filesystem_usage = []) (h3 : m.latency_distribution = [])
    (h4 : m.vnic_usage = []) (h5 : m.feature_usage = []) (h6 : m.codec_usage = [])
    (h7 : m.measurement_groups = []) :
    ∃ obj, (calls_text (evel_json_encode_measurement_calls m)).data =
        ',' :: ' ' :: dquote :: "measurementsForVfScaling".data ++ dquote :: ':' :: obj ∧
      value_is 16 obj (.object (measurement_number_members m)) := by
  have ma := calls_are_cons 1 _ _ _ _
      (d_call_is "concurrentSessions" m.concurrent_sessions (by decide))
    (calls_are_one 1 _ _ (d_call_is "configuredEntities" m.configured_entities (by decide)))
  have mb := calls_are_cons 1 _ _ _ _
      (lf_call_is "meanRequestLatency" m.mean_request_latency (by decide))
    (calls_are_cons 1 _ _ _ _
      (lf_call_is "measurementInterval" m.measurement_interval (by decide))
    (calls_are_cons 1 _ _ _ _ (lf_call_is "memoryConfigured" m.memory_configured (by decide))
    (calls_are_cons 1 _ _ _ _ (lf_call_is "memoryUsed" m.memory_used (by decide))
    (calls_are_one 1 _ _ (d_call_is "requestRate" m.request_rate (by decide))))))
  have o1 : members_are 1 (calls_text (if m.aggregate_cpu_usage > 0 then
      [(⟨"\"aggregateCpuUsage\": %lf, ", .lf m.aggregate_cpu_usage⟩ : CALL)] else [])).data
      (if m.aggregate_cpu_usage > 0 then
        [("aggregateCpuUsage".data, JSON.number (fmt_lf m.aggregate_cpu_usage))] else []) := by
    split_ifs
    · exact calls_are_one 1 _ _ (lf_call_is "aggregateCpuUsage" _ (by decide))
    · exact members_are_nil 1
  have o2 : members_are 1 (calls_text (if m.media_ports_in_use > 0 then
      [(⟨"\"numberOfMediaPortsInUse\": %d, ", .d m.media_ports_in_use⟩ : CALL)] else [])).data
      (if m.media_ports_in_use > 0 then
        [("numberOfMediaPortsInUse".data, JSON.number (fmt_d m.media_ports_in_use))]
        else []) := by
    split_ifs
    · exact calls_are_one 1 _ _ (d_call_is "numberOfMediaPortsInUse" _ (by decide))
    · exact members_are_nil 1
  have o3 : members_are 1 (calls_text (if m.vnfc_scaling_metric > 0 then
      [(⟨"\"vnfcScalingMetric\": %lf, ", .lf m.vnfc_scaling_metric⟩ : CALL)] else [])).data
      (if m.vnfc_scaling_metric > 0 then
        [("vnfcScalingMetric".data, JSON.number (fmt_lf m.vnfc_scaling_metric))]
        else []) := by
    split_ifs
    · exact calls_are_one 1 _ _ (lf_call_is "vnfcScalingMetric" _ (by decide))
    · exact members_are_nil 1
  have mall := members_are_append 1 _ _ _ _
    (members_are_append 1 _ _ _ _
      (members_are_append 1 _ _ _ _ (members_are_append 1 _ _ _ _ ma mb) o1) o2) o3
  have mend := d_call_last "measurementFieldsVersion" EVEL_API_VERSION (by decide)
  have hlen : ((((([("concurrentSessions".data, JSON.number (fmt_d m.concurrent_sessions)),
      ("configuredEntities".data, JSON.number (fmt_d m.configured_entities))] ++
      [("meanRequestLatency".data, JSON.number (fmt_lf m.mean_request_latency)),
       ("measurementInterval".data, JSON.number (fmt_lf m.measurement_interval)),
       ("memoryConfigured".data, JSON.number (fmt_lf m.memory_configured)),
       ("memoryUsed".data, JSON.number (fmt_lf m.memory_used)),
       ("requestRate".data, JSON.number (fmt_d m.request_rate))]) ++
      (if m.aggregate_cpu_usage > 0 then
        [("aggregateCpuUsage".data, JSON.number (fmt_lf m.aggregate_cpu_usage))] else [])) ++
      (if m.media_ports_in_use > 0 then
        [("numberOfMediaPortsInUse".data, JSON.number (fmt_d m.media_ports_in_use))]
        else [])) ++
      (if m.vnfc_scaling_metric > 0 then
        [("vnfcScalingMetric".data, JSON.number (fmt_lf m.vnfc_scaling_metric))]
        else []))).length ≤ 10 := by
    split_ifs <;> simp
  have hobj := value_is_mono _ 16 _ _ (by omega) (value_is_object 1 _ _ _ _ mall mend (by
    rw [calls_data_cons]
    obtain ⟨r, hr⟩ : ∃ r, (sprintf ⟨"\"" ++ "concurrentSessions" ++ "\": " ++ "%d" ++ ", ",
        .d m.concurrent_sessions⟩).data = dquote :: r := by
      rw [sprintf_d_data _ _ _ (key_prefix_skip "concurrentSessions" (by decide)),
        key_prefix_data]
      exact ⟨_, rfl⟩
    rw [hr]
    simp only [List.cons_append, List.append_assoc]
    exact ⟨_, rfl⟩))
  refine ⟨_, ?_, hobj⟩
  unfold evel_json_encode_measurement_calls
  rw [h1, h2, h3, h4, h5, h6, h7]
  simp only [json_array, dlist_get_first, calls_data_append, calls_data_cons, calls_data_nil,
    sprintf_lit_data, List.append_assoc, List.append_nil, List.cons_append, List.nil_append]
  rfl

theorem measurement_op_frame (op : MEASUREMENT_OP) (m0 m1 : EVENT_MEASUREMENT)
    (h : op.apply m0 = some m1) :
    m1.header = m0.header ∧ m1.cpu_usage = m0.cpu_usage ∧
    m1.filesystem_usage = m0.filesystem_usage ∧
    m1.latency_distribution = m0.latency_distribution ∧ m1.vnic_usage = m0.vnic_usage ∧
    m1.feature_usage = m0.feature_usage ∧ m1.codec_usage = m0.codec_usage ∧
    m1.measurement_groups = m0.measurement_groups ∧
    (∀ v, op = .media_port_use_set v → 0 ≤ v) ∧ (∀ v, op = .agg_cpu_use_set v → 0 ≤ v) ∧
    (∀ v, op = .vnfc_scaling_metric_set v → 0 ≤ v) := by
  cases op with
  | agg_cpu_use_set x =>
    simp only [MEASUREMENT_OP.apply, evel_measurement_agg_cpu_use_set] at h
    split_ifs at h with h1 h2 h3
    all_goals
      cases h
      refine ⟨rfl, rfl, rfl, rfl, rfl, rfl, rfl, rfl, ?_, ?_, ?_⟩ <;> intro v hv <;> cases hv
      exact h2
  | media_port_use_set x =>
    simp only [MEASUREMENT_OP.apply, evel_measurement_media_port_use_set] at h
    split_ifs at h with h1 h2 h3
    all_goals
      cases h
      refine ⟨rfl, rfl, rfl, rfl, rfl, rfl, rfl, rfl, ?_, ?_, ?_⟩ <;> intro v hv <;> cases hv
      exact h2
  | vnfc_scaling_metric_set x =>
    simp only [MEASUREMENT_OP.apply, evel_measurement_vnfc_scaling_metric_set] at h
    split_ifs at h with h1 h2 h3
    all_goals
      cases h
      refine ⟨rfl, rfl, rfl, rfl, rfl, rfl, rfl, rfl, ?_, ?_, ?_⟩ <;> intro v hv <;> cases hv
      exact h2

theorem measurement_apply_all_frame (ops : List MEASUREMENT_OP) :
    ∀ m0 m : EVENT_MEASUREMENT, measurement_apply_all m0 ops = some m →
      m.cpu_usage = m0.cpu_usage ∧ m.filesystem_usage = m0.filesystem_usage ∧
      m.latency_distribution = m0.latency_distribution ∧ m.vnic_usage = m0.vnic_usage ∧
      m.feature_usage = m0.feature_usage ∧ m.codec_usage = m0.codec_usage ∧
      m.measurement_groups = m0.measurement_groups ∧
      (∀ v ∈ media_port_use_args ops, 0 ≤ v) ∧ (∀ v ∈ agg_cpu_use_args ops, 0 ≤ v) ∧
      (∀ v ∈ vnfc_scaling_metric_args ops, 0 ≤ v) := by
  induction ops with
  | nil =>
    intro m0 m h
    cases h
    exact ⟨rfl, rfl, rfl, rfl, rfl, rfl, rfl, fun v hv => (by cases hv),
      fun v hv => (by cases hv), fun v hv => (by cases hv)⟩
  | cons op ops ih =>
    intro m0 m h
    simp only [measurement_apply_all] at h
    cases hc : op.apply m0 with
    | none => rw [hc] at h; cases h
    | some g =>
      rw [hc] at h
      obtain ⟨_, a1, a2, a3, a4, a5, a6, a7, n1, n2, n3⟩ := measurement_op_frame op m0 g hc
      obtain ⟨b1, b2, b3, b4, b5, b6, b7, p1, p2, p3⟩ := ih g m h
      refine ⟨b1.trans a1, b2.trans a2, b3.trans a3, b4.trans a4, b5.trans a5, b6.trans a6,
        b7.trans a7, ?_, ?_, ?_⟩
      · intro v hv
        cases op with
        | media_port_use_set x =>
          rcases List.mem_cons.mp hv with rfl | hv
          · exact n1 _ rfl
          · exact p1 v hv
        | agg_cpu_use_set x => exact p1 v hv
        | vnfc_scaling_metric_set x => exact p1 v hv
      · intro v hv
        cases op with
        | agg_cpu_use_set x =>
          rcases List.mem_cons.mp hv with rfl | hv
          · exact n2 _ rfl
          · exact p2 v hv
        | media_port_use_set x => exact p2 v hv
        | vnfc_scaling_metric_set x => exact p2 v hv
      · intro v hv
        cases op with
        | vnfc_scaling_metric_set x =>
          rcases List.mem_cons.mp hv with rfl | hv
          · exact n3 _ rfl
          · exact p3 v hv
        | media_port_use_set x => exact p3 v hv
        | agg_cpu_use_set x => exact p3 v hv

theorem media_port_use_args_mem (ops : List MEASUREMENT_OP) (v : Int) :
    v ∈ media_port_use_args ops ↔ MEASUREMENT_OP.media_port_use_set v ∈ ops := by
  induction ops with
  | nil => simp [media_port_use_args]
  | cons op ops ih => cases op <;> simp [media_port_use_args, ih]

theorem agg_cpu_use_args_mem (ops : List MEASUREMENT_OP) (v : double) :
    v ∈ agg_cpu_use_args ops ↔ MEASUREMENT_OP.agg_cpu_use_set v ∈ ops := by
  induction ops with
  | nil => simp [agg_cpu_use_args]
  | cons op ops ih => cases op <;> simp [agg_cpu_use_args, ih]

theorem vnfc_scaling_metric_args_mem (ops : List MEASUREMENT_OP) (v : double) :
    v ∈ vnfc_scaling_metric_args ops ↔ MEASUREMENT_OP.vnfc_scaling_metric_set v ∈ ops := by
  induction ops with
  | nil => simp [vnfc_scaling_metric_args]
  | cons op ops ih => cases op <;> simp [vnfc_scaling_metric_args, ih]

theorem first_value_positive {α : Type} [LinearOrder α] [Zero α] (values : List α)
    (hn : ∀ v ∈ values, 0 ≤ v) (hk : first_value_kept values) :
    (∃ v ∈ values, v > 0) ↔ ∃ v, values.head? = some v ∧ v > 0 := by
  constructor
  · rintro ⟨v, hv, hpos⟩
    cases values with
    | nil => cases hv
    | cons a l =>
      refine ⟨a, rfl, ?_⟩
      rcases lt_or_eq_of_le (hn a (List.mem_cons_self a l)) with h | h
      · exact h
      · have := hk (by rw [← h]; rfl) v hv
        rw [this] at hpos
        exact absurd hpos (lt_irrefl _)
  · rintro ⟨v, hv, hpos⟩
    exact ⟨v, List.mem_of_mem_head? hv, hpos⟩

theorem new_measurement_shape (env env' : ENV) (tv : timeval) (a b : Int) (c d e f : double)
    (g : Int) (m0 : EVENT_MEASUREMENT) (hp : env.plain)
    (h : evel_new_measurement env tv a b c d e f g = some (m0, env')) :
    m0.header.plain ∧ m0.cpu_usage = [] ∧ m0.filesystem_usage = [] ∧
      m0.latency_distribution = [] ∧ m0.vnic_usage = [] ∧ m0.feature_usage = [] ∧
      m0.codec_usage = [] ∧ m0.measurement_groups = [] := by
  unfold evel_new_measurement at h
  repeat (replace h := ite_none_some h)
  cases h
  exact ⟨init_header_plain env tv hp _ _, rfl, rfl, rfl, rfl, rfl, rfl, rfl⟩

theorem measurement_event_reads (m : EVENT_MEASUREMENT) (hv : m.valid) (hp : m.header.plain)
    (h1 : m.cpu_usage = []) (h2 : m.filesystem_usage = []) (h3 : m.latency_distribution = [])
    (h4 : m.vnic_usage = []) (h5 : m.feature_usage = []) (h6 : m.codec_usage = [])
    (h7 : m.measurement_groups = []) :
    ∃ cs, event_calls (.measurement m) = some cs ∧
      json_read (calls_text cs) = some (.object [("event".data,
        .object [("commonEventHeader".data, .object (header_members m.header)),
          ("measurementsForVfScaling".data, .object (measurement_number_members m))])]) := by
  have hhv : m.header.valid := ⟨by rw [hv.1]; decide, by rw [hv.1]; decide, hv.2⟩
  obtain ⟨hcalls, hobj, hh, ht, hval, _⟩ := header_reads m.header hhv hp
  obtain ⟨bobj, bt, bval⟩ := measurement_reads m h1 h2 h3 h4 h5 h6 h7
  refine ⟨[lit "\x7b\"event\":\x7b"] ++ (hcalls ++ evel_json_encode_measurement_calls m) ++
    [lit "\x7d\x7d"], ?_, ?_⟩
  · have hd : (EVENT.measurement m).hdr.event_domain = EVEL_DOMAIN_MEASUREMENT := hv.1
    simp only [event_calls, domain_calls, hd, measurement_calls, hh]
    rw [if_neg (by decide), if_neg (by decide), if_pos trivial]
    rfl
  · exact event_text_reads hcalls _ hobj bobj _ _ "measurementsForVfScaling" 16 (by decide)
      ht hval bt bval (by omega)

theorem demo_fault_event_keys :
    event_keys_at (.fault demo_fault) ["event"] = some ["commonEventHeader", "faultFields"] := by
  rw [event_keys_at_of_calls _ _ (by decide!)]
  decide!

theorem demo_measurement_event_keys :
    event_keys_at (.measurement demo_measurement) ["event"] =
      some ["commonEventHeader", "measurementsForVfScaling"] := by
  rw [event_keys_at_of_calls _ _ (by decide!)]
  decide!

theorem demo_report_event_keys :
    event_keys_at (.report demo_report) ["event"] =
      some ["commonEventHeader", "measurementsForVfReporting"] := by
  rw [event_keys_at_of_calls _ _ (by decide!)]
  decide!

theorem demo_fault_domain :
    event_string_member (.fault demo_fault) ["event", "commonEventHeader", "domain"] =
      some (some "fault") := by
  rw [event_string_member_of_calls _ _ (by decide!)]
  decide!

theorem demo_measurement_domain :
    event_string_member (.measurement demo_measurement)
      ["event", "commonEventHeader", "domain"] = some (some "measurementsForVfScaling") := by
  rw [event_string_member_of_calls _ _ (by decide!)]
  decide!

theorem demo_report_domain :
    event_string_member (.report demo_report) ["event", "commonEventHeader", "domain"] =
      some (some "measurementsForVfReporting") := by
  rw [event_string_member_of_calls _ _ (by decide!)]
  decide!

theorem demo_fault_new_optional_strings :
    event_string_member (.fault demo_fault_new) ["event", "faultFields", "alarmInterfaceA"] =
      some none ∧
    event_string_member (.fault demo_fault_new) ["event", "commonEventHeader", "eventType"] =
      some none := by
  constructor <;> (rw [event_string_member_of_calls _ _ (by decide!)]; decide!)

theorem demo_fault_optional_strings :
    event_string_member (.fault demo_fault) ["event", "faultFields", "alarmInterfaceA"] =
      some (some "My Interface Card") ∧
    event_string_member (.fault demo_fault) ["event", "commonEventHeader", "eventType"] =
      some (some "Bad things happen...") := by
  constructor <;> (rw [event_string_member_of_calls _ _ (by decide!)]; decide!)

theorem demo_fault_items :
    event_items_at (.fault demo_fault_new)
      ["event", "faultFields", "alarmAdditionalInformation"] = some none ∧
    event_items_at (.fault demo_fault)
      ["event", "faultFields", "alarmAdditionalInformation"] = some (some 2) := by
  constructor <;> (rw [event_items_at_of_calls _ _ (by decide!)]; decide!)

theorem demo_measurement_codec_items :
    event_items_at (.measurement demo_measurement)
      ["event", "measurementsForVfScaling", "codecsInUse"] = some (some 2) := by
  rw [event_items_at_of_calls _ _ (by decide!)]
  decide!

/-- C4, at the failing input: with the functional role
`r"}, "faultFields": {"a": "b` given to evel_initialize, the text
evel_json_encode_event produces for the heartbeat evel_new_heartbeat returns
reads as an event object with the two members commonEventHeader and faultFields,
and its header object has only the keys domain, eventId, eventType and
functionalRole (the quote of the role is copied unescaped and ends the string
and the object early).  The heartbeat of the demo program, whose strings hold no
such character, reads as an event object with the one member commonEventHeader,
which has the thirteen header keys. -/
theorem C4_heartbeat_with_quote_in_role_has_fault_block :
    heartbeat_with_fault_block_in_role.functional_role =
      some "r\"\x7d, \"faultFields\": \x7b\"a\": \"b" ∧
    event_keys_at (.header heartbeat_with_fault_block_in_role) ["event"] =
      some ["commonEventHeader", "faultFields"] ∧
    event_keys_at (.header heartbeat_with_fault_block_in_role) ["event", "commonEventHeader"] =
      some ["domain", "eventId", "eventType", "functionalRole"] ∧
    event_keys_at (.header demo_heartbeat) ["event"] = some ["commonEventHeader"] ∧
    event_keys_at (.header demo_heartbeat) ["event", "commonEventHeader"] =
      some ["domain", "eventId", "eventType", "functionalRole", "lastEpochMicrosec",
        "reportingEntityId", "reportingEntityName", "sequence", "sourceId", "sourceName",
        "startEpochMicrosec", "priority", "version"] := by
  refine ⟨?_, ?_, ?_, ?_, ?_⟩
  · decide
  · rw [event_keys_at_of_calls _ _ (by decide!)]
    decide!
  · rw [event_keys_at_of_calls _ _ (by decide!)]
    decide!
  · rw [event_keys_at_of_calls _ _ (by decide!)]
    decide!
  · rw [event_keys_at_of_calls _ _ (by decide!)]
    decide!

/-- C5, at the failing input: for the fault evel_new_fault returns on the alarm
condition `x"}, "faultFields": {"a": "b`, the text evel_json_encode_event
produces reads as an event object with three members, commonEventHeader and two
members faultFields, the first of which holds alarmCondition alone (the quote of
the condition is copied unescaped and ends the string and the block early).  The
fault, the measurement and the report of the demo program, whose strings hold no
such character, read as an event object with commonEventHeader and the one
block of their domain, and the header's domain value is as stated. -/
theorem C5_fault_with_quote_in_condition_has_two_blocks :
    fault_with_block_in_condition.alarm_condition =
      some "x\"\x7d, \"faultFields\": \x7b\"a\": \"b" ∧
    event_keys_at (.fault fault_with_block_in_condition) ["event"] =
      some ["commonEventHeader", "faultFields", "faultFields"] ∧
    event_keys_at (.fault fault_with_block_in_condition) ["event", "faultFields"] =
      some ["alarmCondition"] ∧
    event_keys_at (.fault demo_fault) ["event"] = some ["commonEventHeader", "faultFields"] ∧
    event_keys_at (.measurement demo_measurement) ["event"] =
      some ["commonEventHeader", "measurementsForVfScaling"] ∧
    event_keys_at (.report demo_report) ["event"] =
      some ["commonEventHeader", "measurementsForVfReporting"] ∧
    event_string_member (.fault demo_fault) ["event", "commonEventHeader", "domain"] =
      some (some "fault") ∧
    event_string_member (.measurement demo_measurement)
      ["event", "commonEventHeader", "domain"] = some (some "measurementsForVfScaling") ∧
    event_string_member (.report demo_report) ["event", "commonEventHeader", "domain"] =
      some (some "measurementsForVfReporting") := by
  refine ⟨?_, ?_, ?_, demo_fault_event_keys, demo_measurement_event_keys,
    demo_report_event_keys, demo_fault_domain, demo_measurement_domain, demo_report_domain⟩
  · decide
  · rw [event_keys_at_of_calls _ _ (by decide!)]
    decide!
  · rw [event_keys_at_of_calls _ _ (by decide!)]
    decide!

/-- C7, at the failing inputs: for the fault evel_new_fault returns on the alarm
condition `x", "alarmInterfaceA": "eth9`, on which evel_fault_interface_set is
not called, the faultFields object of the text evel_json_encode_event produces
has the key alarmInterfaceA, with the value eth9; for the fault built under the
functional role `r", "eventType": "phantom", "sequence": "9`, on which
evel_fault_type_set is not called, the header object has the key eventType.  On
the fault of the demo program the keys are absent before the two setters are
called, and present with the strings passed after. -/
theorem C7_fault_with_quote_in_condition_has_interface_key :
    fault_with_interface_in_condition.alarm_condition =
      some "x\", \"alarmInterfaceA\": \"eth9" ∧
    fault_with_interface_in_condition.alarm_interface_a = none ∧
    event_keys_at (.fault fault_with_interface_in_condition) ["event", "faultFields"] =
      some ["alarmCondition", "alarmInterfaceA", "eventSeverity", "eventSourceType",
        "faultFieldsVersion", "specificProblem", "vfStatus"] ∧
    event_string_member (.fault fault_with_interface_in_condition)
      ["event", "faultFields", "alarmInterfaceA"] = some (some "eth9") ∧
    fault_with_quotes_in_role.header.event_type = none ∧
    event_string_member (.fault fault_with_quotes_in_role)
      ["event", "commonEventHeader", "eventType"] = some (some "phantom") ∧
    event_string_member (.fault demo_fault_new) ["event", "faultFields", "alarmInterfaceA"] =
      some none ∧
    event_string_member (.fault demo_fault_new) ["event", "commonEventHeader", "eventType"] =
      some none ∧
    event_string_member (.fault demo_fault) ["event", "faultFields", "alarmInterfaceA"] =
      some (some "My Interface Card") ∧
    event_string_member (.fault demo_fault) ["event", "commonEventHeader", "eventType"] =
      some (some "Bad things happen...") := by
  refine ⟨?_, ?_, ?_, ?_, ?_, ?_, demo_fault_new_optional_strings.1,
    demo_fault_new_optional_strings.2, demo_fault_optional_strings.1,
    demo_fault_optional_strings.2⟩
  · decide
  · decide
  · rw [event_keys_at_of_calls _ _ (by decide!)]
    decide!
  · rw [event_string_member_of_calls _ _ (by decide!)]
    decide!
  · decide
  · rw [event_string_member_of_calls _ _ (by decide!)]
    decide!

/-- C24, at the failing inputs: for the fault evel_new_fault returns on the alarm
condition `x", "alarmAdditionalInformation": [], "y": "z`, to which no pair was
added, the faultFields object of the text evel_json_encode_event produces has
the key alarmAdditionalInformation, and its value is an array with no element;
for the measurement evel_new_measurement returns under the functional role
`r"}, "measurementsForVfScaling": {"codecsInUse": [], "x": "y`, on which no add
function was called, the first measurementsForVfScaling member of the event has
the key codecsInUse with an array of no element.  On the fault of the demo
program the key is absent before a pair is added and the array has two elements
after the two calls; the codecsInUse array of the measurement of the demo
program has two elements after its two calls. -/
theorem C24_quote_in_string_gives_empty_array :
    fault_with_array_in_condition.alarm_condition =
      some "x\", \"alarmAdditionalInformation\": [], \"y\": \"z" ∧
    fault_with_array_in_condition.additional_info = [] ∧
    event_keys_at (.fault fault_with_array_in_condition) ["event", "faultFields"] =
      some ["alarmCondition", "alarmAdditionalInformation", "y", "eventSeverity",
        "eventSourceType", "faultFieldsVersion", "specificProblem", "vfStatus"] ∧
    event_items_at (.fault fault_with_array_in_condition)
      ["event", "faultFields", "alarmAdditionalInformation"] = some (some 0) ∧
    measurement_with_array_in_role.codec_usage = [] ∧
    event_keys_at (.measurement measurement_with_array_in_role)
        ["event", "measurementsForVfScaling"] =
      some ["codecsInUse", "x", "lastEpochMicrosec", "reportingEntityId",
        "reportingEntityName", "sequence", "sourceId", "sourceName", "startEpochMicrosec",
        "priority", "version"] ∧
    event_items_at (.measurement measurement_with_array_in_role)
      ["event", "measurementsForVfScaling", "codecsInUse"] = some (some 0) ∧
    event_items_at (.fault demo_fault_new)
      ["event", "faultFields", "alarmAdditionalInformation"] = some none ∧
    event_items_at (.fault demo_fault)
      ["event", "faultFields", "alarmAdditionalInformation"] = some (some 2) ∧
    event_items_at (.measurement demo_measurement)
      ["event", "measurementsForVfScaling", "codecsInUse"] = some (some 2) := by
  refine ⟨?_, ?_, ?_, ?_, ?_, ?_, ?_, demo_fault_items.1, demo_fault_items.2,
    demo_measurement_codec_items⟩
  · decide
  · decide
  · rw [event_keys_at_of_calls _ _ (by decide!)]
    decide!
  · rw [event_items_at_of_calls _ _ (by decide!)]
    decide!
  · decide!
  · rw [event_keys_at_of_calls _ _ (by decide!)]
    decide!
  · rw [event_items_at_of_calls _ _ (by decide!)]
    decide!

/-! ## C29: the event id -/

/-- Calls that do not overlap: each call named ends with the value of the
counter it read as its sequence number and the decimal text of that same value
as its event id, and the calls not named are left as they were. -/
theorem serial_run_calls (order : List Nat) :
    ∀ p : PROCESS, order.Nodup → (∀ i ∈ order, p.calls[i]? = some INIT_CALL.start) →
      (∀ j, j ∉ order → (p.run (serial_schedule order)).calls[j]? = p.calls[j]?) ∧
      ∀ i ∈ order, ∃ s : Int,
        (p.run (serial_schedule order)).calls[i]? = some ⟨3, some ⟨fmt_d s⟩, s⟩ := by
  induction order with
  | nil =>
    intro p _ _
    exact ⟨fun j _ => rfl, fun i hi => absurd hi (List.not_mem_nil i)⟩
  | cons i rest ih =>
    intro p hnd hst
    obtain ⟨hi, hnd'⟩ := List.nodup_cons.mp hnd
    have h3 := process_run_three p i (hst i (List.mem_cons_self _ _))
    have hs : serial_schedule (i :: rest) = [i, i, i] ++ serial_schedule rest := by
      simp [serial_schedule]
    have hlt : i < p.calls.length := by
      obtain ⟨h, _⟩ := List.getElem?_eq_some_iff.mp (hst i (List.mem_cons_self _ _))
      exact h
    have hst' : ∀ j ∈ rest, (p.run [i, i, i]).calls[j]? = some INIT_CALL.start := by
      intro j hj
      have hne : i ≠ j := by rintro rfl; exact hi hj
      rw [h3]
      simp only [List.getElem?_set_ne hne]
      exact hst j (List.mem_cons_of_mem _ hj)
    obtain ⟨f1, f2⟩ := ih (p.run [i, i, i]) hnd' hst'
    rw [hs, process_run_append]
    refine ⟨?_, ?_⟩
    · intro j hj
      have hji : i ≠ j := by rintro rfl; exact hj (List.mem_cons_self _ _)
      have hjr : j ∉ rest := fun h => hj (List.mem_cons_of_mem _ h)
      rw [f1 j hjr, h3]
      simp only [List.getElem?_set_ne hji]
    · intro j hj
      rcases List.mem_cons.mp hj with rfl | hj
      · refine ⟨int32_wrap (p.event_sequence + 1), ?_⟩
        rw [f1 j hi, h3]
        simp only [List.getElem?_set_self hlt]
      · exact f2 j hj

/-- C29, counterexample: two calls of evel_init_header that overlap.  The first
call increments the counter to 1 and formats its event id, the second call
increments the counter to 2, and then the first call reads the counter again
for its sequence number: its header has the event id "1" and the sequence
number 2.  The second header has the event id "2" and the sequence number 2:
equal sequence numbers, different event ids. -/
theorem C29_counterexample_overlapping_call_reads_the_counter_twice :
    PROCESS.run ⟨0, [INIT_CALL.start, INIT_CALL.start]⟩ [0, 0, 1, 0, 1, 1] =
      ⟨2, [⟨3, some "1", 2⟩, ⟨3, some "2", 2⟩]⟩ ∧
    (PROCESS.run ⟨0, [INIT_CALL.start, INIT_CALL.start]⟩ [0, 0, 1, 0, 1, 1]).calls.map
        (fun call => decide (call.event_id = some ⟨fmt_d call.sequence⟩)) =
      [false, true] := by
  decide

/-- C29, amended: when the calls of evel_init_header do not overlap (each call
runs its statements that use the counter before the next call starts, in
whatever order the calls come), every call leaves a header whose event_id is
the decimal rendering of its sequence number (the text of `%d`: an optional
minus sign followed by a numeral without leading zeros that reads back as the
sequence number), and two such headers have equal event ids if and only if they
have equal sequence numbers. -/
theorem C29_event_id_is_the_decimal_sequence_of_a_call_alone (c : Int) (n : Nat)
    (order : List Nat) (hnd : order.Nodup) (hlt : ∀ i ∈ order, i < n) :
    (∀ i ∈ order, ∃ s : Int,
      (PROCESS.run ⟨c, List.replicate n INIT_CALL.start⟩ (serial_schedule order)).calls[i]? =
        some ⟨3, some ⟨fmt_d s⟩, s⟩ ∧
      dec_int (fmt_d s) = s ∧ is_numeral (fmt_u s.natAbs) ∧
      fmt_d s = (if s < 0 then ['-'] else []) ++ fmt_u s.natAbs) ∧
    ∀ i ∈ order, ∀ j ∈ order, ∀ a b : INIT_CALL,
      (PROCESS.run ⟨c, List.replicate n INIT_CALL.start⟩ (serial_schedule order)).calls[i]? =
        some a →
      (PROCESS.run ⟨c, List.replicate n INIT_CALL.start⟩ (serial_schedule order)).calls[j]? =
        some b →
      (a.event_id = b.event_id ↔ a.sequence = b.sequence) := by
  have hst : ∀ i ∈ order,
      (⟨c, List.replicate n INIT_CALL.start⟩ : PROCESS).calls[i]? = some INIT_CALL.start := by
    intro i hi
    simp [List.getElem?_replicate, hlt i hi]
  obtain ⟨_, hc⟩ := serial_run_calls order ⟨c, List.replicate n INIT_CALL.start⟩ hnd hst
  refine ⟨?_, ?_⟩
  · intro i hi
    obtain ⟨s, hs⟩ := hc i hi
    refine ⟨s, hs, dec_int_fmt_d s, (fmt_u_spec _).1, ?_⟩
    unfold fmt_d
    split_ifs <;> rfl
  · intro i hi j hj a b ha hb
    obtain ⟨s, hs⟩ := hc i hi
    obtain ⟨t, ht⟩ := hc j hj
    rw [hs] at ha
    rw [ht] at hb
    cases ha
    cases hb
    constructor
    · intro h
      have h' : (⟨fmt_d s⟩ : String) = ⟨fmt_d t⟩ := Option.some.inj h
      exact fmt_d_injective _ _ (congrArg String.data h')
    · intro h
      show some (String.mk (fmt_d s)) = some (String.mk (fmt_d t))
      have h' : s = t := h
      rw [h']

/-- C29, amended, at three calls that run one after another in the order 2, 0,
1 from a counter at 0. -/
theorem C29_event_id_is_the_decimal_sequence_of_a_call_alone_witness :
    [2, 0, 1].Nodup ∧ (∀ i ∈ [2, 0, 1], i < 3) ∧
    (∀ i ∈ [2, 0, 1], ∃ s : Int,
      (PROCESS.run ⟨0, List.replicate 3 INIT_CALL.start⟩ (serial_schedule [2, 0, 1])).calls[i]? =
        some ⟨3, some ⟨fmt_d s⟩, s⟩ ∧
      dec_int (fmt_d s) = s ∧ is_numeral (fmt_u s.natAbs) ∧
      fmt_d s = (if s < 0 then ['-'] else []) ++ fmt_u s.natAbs) ∧
    ∀ i ∈ [2, 0, 1], ∀ j ∈ [2, 0, 1], ∀ a b : INIT_CALL,
      (PROCESS.run ⟨0, List.replicate 3 INIT_CALL.start⟩ (serial_schedule [2, 0, 1])).calls[i]? =
        some a →
      (PROCESS.run ⟨0, List.replicate 3 INIT_CALL.start⟩ (serial_schedule [2, 0, 1])).calls[j]? =
        some b →
      (a.event_id = b.event_id ↔ a.sequence = b.sequence) :=
  ⟨by decide, by decide,
    C29_event_id_is_the_decimal_sequence_of_a_call_alone 0 3 [2, 0, 1] (by decide)
      (by decide)⟩

end Evel
